import Mathlib

/-!
# PPP-Blinky over radio: HDLC framer, checksums and protocol dispatcher

A shallow embedding of `src/source/ppp-webserver.c`.  The single global
`ppp` record becomes the structure `PppState`, threaded explicitly through
every function.  Bytes are natural numbers in `0..255` (the target's plain
`char` is unsigned), buffers are lists of bytes whose length is the capacity
of the C array, and pointers into the packet buffer are byte offsets.
The bytes written to the serial port are collected in the field `tx`.
-/

namespace Ppp

/-! ## Data model -/

/-- Receive ring `ppp.rx`: the circular serial receive buffer with its cursors. -/
structure RxRing where
  buf : List Nat
  head : Nat
  tail : Nat
  rtail : Nat
  buflevel : Int
deriving DecidableEq, Repr

/-- Packet buffer `ppp.pkt`: the single in-flight de-stuffed frame. -/
structure Pkt where
  buf : List Nat
  len : Nat
  crc : Nat
deriving DecidableEq, Repr

/-- Frame markers `ppp.hdlc`. -/
structure Hdlc where
  frameStartIndex : Nat
  frameEndIndex : Nat
deriving DecidableEq, Repr

/-- Modelled from the spec: the record type `pppType` of the absent header
`ppp-webserver.h`, with the fields the C file uses.  The overlay pointers
`ppp.ppp`, `ppp.lcp`, `ppp.ipcp` (offset 0) and `ppp.ip`, `ppp.ipStart`
(offset 4) are fixed by `pppInitStruct` and are constants of the model; the
pointers `udpStart`, `tcpStart`, `icmpStart` are offsets into `pkt.buf`.
`tx` is the serial output, `ledCmds` the (ledState, address) commands handed
to the radio, `ledToggles` the local LED toggles, and `ledState1..3` the
function-static toggles of `httpResponse`.
The header overlays of that file are fixed-offset views of the packet buffer
in the layout of the protocols: the PPP header has `address` at byte 0,
`control` at byte 1 and `protocolR` at bytes 2..3; LCP and IPCP have `code` at
byte 4, `identifier` at byte 5, `lengthR` at bytes 6..7 and `request` from
byte 8 on; the IP header starts at byte 4 with version and header length in its
first byte, `lengthR` at offset 2, `identR` at 4, the flags at 6, `ttl` at 8,
`protocol` at 9, `checksumR` at 10, `srcAdrR` at 12 and `dstAdrR` at 16; UDP
has ports at 0 and 2, `lengthR` at 4, `checksumR` at 6 and data from 8; ICMP
has `type` at 0 and `checkSumR` at 2; TCP has ports at 0 and 2, `seqTcpR` at 4,
`ackTcpR` at 8, `offset` in the high half of byte 12, the flags at 13,
`windowR` at 14 and `checksumR` at 16.  Multi-byte fields are loaded and stored
little-endian by the core and hold byte-reversed (network order) values. -/
structure PppState where
  rx : RxRing
  pkt : Pkt
  hdlc : Hdlc
  online : Nat
  hostIP : Nat
  fcs : Nat
  sum : Nat
  ledState : Nat
  responseCounter : Nat
  firstFrame : Nat
  ident : Nat
  udpStart : Nat
  tcpStart : Nat
  icmpStart : Nat
  ledState1 : Nat
  ledState2 : Nat
  ledState3 : Nat
  tx : List Nat
  ledCmds : List (Nat × Nat)
  ledToggles : List Nat
deriving DecidableEq, Repr

/-! ## Byte-level memory access -/

/-- Read one byte of a buffer: a `char` load, whose value lies in `0..255`. -/
def peek (buf : List Nat) (i : Nat) : Nat := buf.getD i 0 % 256

/-- Store one byte into a buffer (a `char` store truncates to 8 bits). -/
def poke (buf : List Nat) (i : Nat) (v : Nat) : List Nat := buf.set i (v % 256)

/-- Little-endian 16-bit load, as the Cortex-M core reads a `uint16_t` field. -/
def peek16 (buf : List Nat) (i : Nat) : Nat := peek buf i + 256 * peek buf (i + 1)

/-- Little-endian 16-bit store (the value is truncated to 16 bits). -/
def poke16 (buf : List Nat) (i : Nat) (v : Nat) : List Nat :=
  poke (poke buf i (v % 256)) (i + 1) (v / 256 % 256)

/-- Little-endian 32-bit load. -/
def peek32 (buf : List Nat) (i : Nat) : Nat :=
  peek buf i + 256 * peek buf (i + 1) + 65536 * peek buf (i + 2) + 16777216 * peek buf (i + 3)

/-- Little-endian 32-bit store (the value is truncated to 32 bits). -/
def poke32 (buf : List Nat) (i : Nat) (v : Nat) : List Nat :=
  poke (poke (poke (poke buf i (v % 256)) (i + 1) (v / 256 % 256))
    (i + 2) (v / 65536 % 256)) (i + 3) (v / 16777216 % 256)

/-- CMSIS intrinsic `__REV16`: swap the two bytes of each halfword of a 32-bit word. -/
def REV16 (x : Nat) : Nat :=
  (x % 256) * 256 + (x / 256 % 256) + (x / 65536 % 256) * 16777216 + (x / 16777216 % 256) * 65536

/-- CMSIS intrinsic `__REV`: reverse the four bytes of a 32-bit word. -/
def REV (x : Nat) : Nat :=
  (x % 256) * 16777216 + (x / 256 % 256) * 65536 + (x / 65536 % 256) * 256 + (x / 16777216 % 256)

/-! ## Frame check sequence -/

/-- Seed written by `fcsReset`: `ppp.fcs = 0xffff`. -/
def fcsReset : Nat := 0xffff

/-- One pass of the loop body of `fcsDo`, on the accumulator `fcs` and the
current value of `x`:
`ppp.fcs=((ppp.fcs&1)^(x&1))?(ppp.fcs>>1)^0x8408:ppp.fcs>>1`. -/
def fcsStep (fcs x : Nat) : Nat :=
  if (fcs &&& 1) ^^^ (x &&& 1) ≠ 0 then (fcs >>> 1) ^^^ 0x8408 else fcs >>> 1

/-- The loop of `fcsDo` with `n` passes left; `x` is shifted right after each pass. -/
def fcsLoop : Nat → Nat → Nat → Nat
  | 0, fcs, _ => fcs
  | n + 1, fcs, x => fcsLoop n (fcsStep fcs x) (x >>> 1)

/-- Accumulator after `fcsDo(x)`: eight passes of the loop body. -/
def fcsDo (fcs x : Nat) : Nat := fcsLoop 8 fcs x

/-- Value of `fcsBuf(buf, size)`: reset, then `fcsDo` on the first `size` bytes. -/
def fcsBuf (buf : List Nat) (size : Nat) : Nat :=
  (List.range size).foldl (fun fcs i => fcsDo fcs (peek buf i)) fcsReset

/-- Byte stored by `(~crc>>0)` into a `char`: low eight bits of the complement
of the `int` value `crc`. -/
def fcsLo (crc : Nat) : Nat := (((~~~ (crc : Int)) >>> 0) % 256).toNat

/-- Byte stored by `(~crc>>8)` into a `char`. -/
def fcsHi (crc : Nat) : Nat := (((~~~ (crc : Int)) >>> 8) % 256).toNat

/-! ## HDLC transmit path -/

/-- Serial write of one byte, `pcPutcWhileCheckingInput(uint8_t ch)`. -/
def pcPutcWhileCheckingInput (s : PppState) (ch : Nat) : PppState :=
  { s with tx := s.tx ++ [ch % 256] }

/-- Byte stuffing of one character, `hdlcPut(int ch)`. -/
def hdlcPut (s : PppState) (ch : Nat) : PppState :=
  if ch < 0x20 ∨ ch = 0x7d ∨ ch = 0x7e then
    pcPutcWhileCheckingInput (pcPutcWhileCheckingInput s 0x7d) (ch ^^^ 0x20)
  else
    pcPutcWhileCheckingInput s ch

/-- Send the packet buffer as one HDLC frame, `sendPppFrame()`.
The two FCS bytes are stored at `len-2` and `len-1`; for `len < 2` the C code
indexes in front of the buffer, and the model leaves the buffer as it is. -/
def sendPppFrame (s : PppState) : PppState :=
  let s1 := { s with responseCounter := s.responseCounter + 1 }
  let crc := fcsBuf s1.pkt.buf (s1.pkt.len - 2)
  let s2 := { s1 with fcs := crc }
  let s3 :=
    if 2 ≤ s2.pkt.len then
      { s2 with pkt := { s2.pkt with
          buf := poke (poke s2.pkt.buf (s2.pkt.len - 2) (fcsLo crc)) (s2.pkt.len - 1) (fcsHi crc) } }
    else s2
  let s4 := pcPutcWhileCheckingInput s3 0x7e
  let s5 := (List.range s4.pkt.len).foldl (fun st i => hdlcPut st (peek st.pkt.buf i)) s4
  pcPutcWhileCheckingInput s5 0x7e

/-! ## Internet checksum -/

/-- The accumulation loop of `dataCheckSum`: `i` runs over `0, 2, 4, ...` while
`i < len`, that is `(len+1)/2` passes, each adding `(hi<<8)|lo` to the
32-bit accumulator. -/
def sumLoop (mem : List Nat) (ptr len : Nat) (sum : Nat) : Nat :=
  (List.range ((len + 1) / 2)).foldl
    (fun acc k => (acc + ((peek mem (ptr + 2 * k) <<< 8) ||| peek mem (ptr + 2 * k + 1))) % 4294967296)
    sum

/-- One carry fold `ppp.sum = (ppp.sum & 0xffff) + (ppp.sum>>16)`. -/
def foldCarry (sum : Nat) : Nat := (sum &&& 0xffff) + (sum >>> 16)

/-- New value of the accumulator `ppp.sum` after `dataCheckSum(ptr, len, restart)`
on the memory `mem`, starting from the accumulator `sum`.  For odd `len` the
byte at `ptr[len]` is zero during the loop and restored afterwards, so the
memory is the same after the call. -/
def dataCheckSumAcc (sum : Nat) (mem : List Nat) (ptr len : Nat) (restart : Nat) : Nat :=
  let sum0 := if restart ≠ 0 then 0 else sum
  let mem1 := if len &&& 1 ≠ 0 then poke mem (ptr + len) 0 else mem
  let sum1 := sumLoop mem1 ptr len sum0
  foldCarry (foldCarry sum1)

/-- Return value `~ppp.sum` of `dataCheckSum`, an `unsigned int`. -/
def dataCheckSum (sum : Nat) (mem : List Nat) (ptr len : Nat) (restart : Nat) : Nat :=
  4294967295 - dataCheckSumAcc sum mem ptr len restart

/-! ## IP packet services -/

/-- Offset of the IP header in the packet buffer: `ppp.ip = ppp.pkt.buf+4`. -/
def ipStart : Nat := 4

/-- Modelled from the spec: bit-field `ppp.ip->headerLength` of the absent
header overlay `ipHeaderType`, the low four bits of the first IP header byte. -/
def ipHeaderLength (buf : List Nat) : Nat := peek buf ipStart % 16

/-- Store into the bit-field `ppp.ip->headerLength`, keeping the version nibble. -/
def setIpHeaderLength (buf : List Nat) (h : Nat) : List Nat :=
  poke buf ipStart (peek buf ipStart / 16 * 16 + h % 16)

/-- Checksum of the IP header, `IpHeaderCheckSum()`; `checksumR` is at header offset 10. -/
def IpHeaderCheckSum (s : PppState) : PppState :=
  let buf1 := poke16 s.pkt.buf (ipStart + 10) 0
  let len := 4 * ipHeaderLength buf1
  let acc := dataCheckSumAcc s.sum buf1 ipStart len 1
  let sum := dataCheckSum s.sum buf1 ipStart len 1
  { s with sum := acc, pkt := { s.pkt with buf := poke16 buf1 (ipStart + 10) (REV16 sum) } }

/-- Exchange of the source and destination address, `swapIpAddresses()`
(`srcAdrR` at header offset 12, `dstAdrR` at 16). -/
def swapIpAddresses (s : PppState) : PppState :=
  let tempHold := peek32 s.pkt.buf (ipStart + 12)
  let buf1 := poke32 s.pkt.buf (ipStart + 12) (peek32 s.pkt.buf (ipStart + 16))
  { s with pkt := { s.pkt with buf := poke32 buf1 (ipStart + 16) tempHold } }

/-- Exchange of the source and destination port, `swapIpPorts()`. -/
def swapIpPorts (s : PppState) : PppState :=
  let headerSizeIP := 4 * ipHeaderLength s.pkt.buf
  let ipSrcPort := ipStart + headerSizeIP + 0
  let ipDstPort := ipStart + headerSizeIP + 2
  let tempHold := peek16 s.pkt.buf ipSrcPort
  let buf1 := poke16 s.pkt.buf ipSrcPort (peek16 s.pkt.buf ipDstPort)
  { s with pkt := { s.pkt with buf := poke16 buf1 ipDstPort tempHold } }

/-- The twelve bytes of the local `pseudoIpHeaderType` built by
`checkSumPseudoHeader`: source address, destination address, zero byte,
protocol, and the byte-reversed packet length. -/
def pseudoHeaderBytes (buf : List Nat) (packetLength : Nat) : List Nat :=
  let h0 := List.replicate 12 0
  let h1 := poke32 h0 0 (peek32 buf (ipStart + 12))
  let h2 := poke32 h1 4 (peek32 buf (ipStart + 16))
  let h3 := poke h2 8 0
  let h4 := poke h3 9 (peek buf (ipStart + 9))
  poke16 h4 10 (REV16 packetLength)

/-- Pseudo-header pass, `checkSumPseudoHeader(packetLength)`: it restarts the
accumulator `ppp.sum` over the twelve pseudo-header bytes. -/
def checkSumPseudoHeader (s : PppState) (packetLength : Nat) : PppState :=
  { s with sum := dataCheckSumAcc s.sum (pseudoHeaderBytes s.pkt.buf packetLength) 0 12 1 }

/-! ## String and block helpers of the C library -/

/-- Bytes of an ASCII string literal (without the terminating zero). -/
def strBytes (str : String) : List Nat := str.data.map Char.toNat

/-- Block store: `memcpy(buf+off, bytes, bytes.length)`. -/
def pokeList : List Nat → Nat → List Nat → List Nat
  | buf, _, [] => buf
  | buf, off, b :: bs => pokeList (poke buf off b) (off + 1) bs

/-- Block load of `n` bytes starting at `off`. -/
def peekList (buf : List Nat) (off n : Nat) : List Nat :=
  (List.range n).map (fun i => peek buf (off + i))

/-- Effect of `sprintf(buf+off, text)` for a text without conversions: the
characters and a terminating zero are stored; the C call returns the number
of characters. -/
def sprintfAt (buf : List Nat) (off : Nat) (text : List Nat) : List Nat :=
  pokeList buf off (text ++ [0])

/-- Decimal digits of a non-negative `%d` argument. -/
def decBytes (n : Nat) : List Nat := (Nat.toDigits 10 n).map Char.toNat

/-! ## IPCP -/

/-- Big-endian 32-bit value of four buffer bytes, `bufferToIP(buffer)`; the
result is the bit pattern of the 32-bit `int`. -/
def bufferToIP (buf : List Nat) (buffer : Nat) : Nat :=
  (List.range 4).foldl
    (fun result i => ((result <<< 8) % 4294967296) ||| (peek buf (buffer + i) &&& 0xff)) 0

/-- IPCP configuration request, `ipcpConfigRequestHandler()`: `code` is byte 4,
`lengthR` bytes 6..7 and `request[0]` byte 8 of the packet buffer. -/
def ipcpConfigRequestHandler (s : PppState) : PppState :=
  let s1 := if peek s.pkt.buf 8 = 3 then { s with hostIP := bufferToIP s.pkt.buf 10 } else s
  let s2 := { s1 with pkt := { s1.pkt with buf := poke s1.pkt.buf 4 2 } }
  let s3 := sendPppFrame s2
  let s4 := { s3 with pkt := { s3.pkt with buf := poke s3.pkt.buf 4 1 } }
  let s5 := { s4 with pkt := { s4.pkt with buf := poke16 s4.pkt.buf 6 (REV16 4) } }
  let s6 := { s5 with pkt := { s5.pkt with len := 4 + 4 + 2 } }
  sendPppFrame s6

/-- IPCP NACK, `ipcpNackHandler()`. -/
def ipcpNackHandler (s : PppState) : PppState :=
  if peek s.pkt.buf 8 = 3 then
    sendPppFrame { s with pkt := { s.pkt with buf := poke s.pkt.buf 4 1 } }
  else s

/-- Incoming IPCP packet, `IPCPframe()`. -/
def IPCPframe (s : PppState) : PppState :=
  let action := peek s.pkt.buf 4
  if action = 1 then ipcpConfigRequestHandler s
  else if action = 3 then ipcpNackHandler s
  else s

/-! ## UDP -/

/-- Initialise an IP packet to send, `initIP(srcIp, dstIp, srcPort, dstPort, protocol)`. -/
def initIP (s : PppState) (srcIp dstIp srcPort dstPort protocol : Nat) : PppState :=
  let b1 := poke s.pkt.buf 0 0xff
  let b2 := poke b1 1 3
  let b3 := poke16 b2 2 (REV16 0x0021)
  let b4 := poke b3 ipStart (4 * 16 + peek b3 ipStart % 16)
  let b5 := setIpHeaderLength b4 5
  let b6 := poke16 b5 (ipStart + 4) (REV16 s.ident)
  let b7 := poke b6 (ipStart + 6) (peek b6 (ipStart + 6) ||| 0x40)
  let b8 := poke b7 (ipStart + 8) 128
  let b9 := poke b8 (ipStart + 9) protocol
  let b10 := poke32 b9 (ipStart + 12) (REV srcIp)
  let b11 := poke32 b10 (ipStart + 16) (REV dstIp)
  let udpStart := ipStart + 20
  let b12 := poke16 b11 (udpStart + 0) (REV16 srcPort)
  let b13 := poke16 b12 (udpStart + 2) (REV16 dstPort)
  { s with ident := s.ident + 1, udpStart := udpStart, pkt := { s.pkt with buf := b13 } }

/-- The common tail of `sendUdp` and of the echo branch of `UDPpacket`:
IP header checksum, pseudo-header pass, UDP checksum, then the frame is sent. -/
def udpChecksumsAndSend (s : PppState) (udpAll : Nat) : PppState :=
  let s1 := IpHeaderCheckSum s
  let s2 := checkSumPseudoHeader s1 udpAll
  let s3 := { s2 with pkt := { s2.pkt with buf := poke16 s2.pkt.buf (s2.udpStart + 6) 0 } }
  let pseudoHeaderSum := dataCheckSum s3.sum s3.pkt.buf s3.udpStart udpAll 0
  let s4 := { s3 with sum := dataCheckSumAcc s3.sum s3.pkt.buf s3.udpStart udpAll 0 }
  let s5 := { s4 with pkt := { s4.pkt with buf := poke16 s4.pkt.buf (s4.udpStart + 6) (REV16 pseudoHeaderSum) } }
  sendPppFrame s5

/-- Build a UDP packet from scratch, `sendUdp(...)`; `message` is the offset of
the message inside the packet buffer (the only caller passes `ppp.pkt.buf+200`). -/
def sendUdp (s : PppState) (srcIp dstIp srcPort dstPort message msgLen : Nat) : PppState :=
  let ipHeader := 20
  let udpData := msgLen
  let udpAll := (udpData + 8) % 4294967296
  let ipAll := (ipHeader + udpAll) % 4294967296
  let s1 := initIP s srcIp dstIp srcPort dstPort 17
  let s2 := { s1 with pkt := { s1.pkt with buf := poke16 s1.pkt.buf (ipStart + 2) (REV16 ipAll) } }
  let s3 := { s2 with udpStart := ipStart + ipHeader }
  let s4 := { s3 with pkt := { s3.pkt with
      buf := pokeList s3.pkt.buf (s3.udpStart + 8) (peekList s3.pkt.buf message udpData) } }
  let s5 := { s4 with pkt := { s4.pkt with buf := poke16 s4.pkt.buf (s4.udpStart + 4) (REV16 udpAll) } }
  let s6 := { s5 with pkt := { s5.pkt with len := (ipAll + 2 + 4) % 4294967296 } }
  udpChecksumsAndSend s6 udpAll

/-- Incoming UDP packet, `UDPpacket()`. -/
def UDPpacket (s : PppState) : PppState :=
  let ipHeader := 4 * ipHeaderLength s.pkt.buf
  let s0 := { s with udpStart := ipStart + ipHeader }
  let udpAll := REV16 (peek16 s0.pkt.buf (s0.udpStart + 4))
  let udpData := (udpAll + 4294967296 - 8) % 4294967296
  let echoFound := peekList s0.pkt.buf (s0.udpStart + 8) 5 = strBytes "echo "
  let testFound := peekList s0.pkt.buf (s0.udpStart + 8) 4 = strBytes "test"
  if echoFound then
    let s1 := swapIpPorts (swapIpAddresses s0)
    let s2 := { s1 with pkt := { s1.pkt with buf := pokeList s1.pkt.buf (s1.udpStart + 8) (strBytes "Got\x7b") } }
    let appendix := strBytes "\x7d UDP Server: PPP-Blinky\n"
    let n := appendix.length
    let s3 := { s2 with pkt := { s2.pkt with
        buf := sprintfAt s2.pkt.buf (s2.udpStart + 8 + udpData) appendix } }
    let udpData1 := (udpData + n) % 4294967296
    let udpAll1 := (udpData1 + 8) % 4294967296
    let ipAll := (ipHeader + udpAll1) % 4294967296
    let s4 := { s3 with pkt := { s3.pkt with buf := poke16 s3.pkt.buf (ipStart + 2) (REV16 ipAll) } }
    let s5 := { s4 with pkt := { s4.pkt with buf := poke16 s4.pkt.buf (s4.udpStart + 4) (REV16 udpAll1) } }
    let s6 := { s5 with pkt := { s5.pkt with len := (ipAll + 2 + 4) % 4294967296 } }
    udpChecksumsAndSend s6 udpAll1
  else if testFound then
    let sI := REV (peek32 s0.pkt.buf (ipStart + 12))
    let dI := REV (peek32 s0.pkt.buf (ipStart + 16))
    let sp := REV16 (peek16 s0.pkt.buf (s0.udpStart + 0))
    let dp := REV16 (peek16 s0.pkt.buf (s0.udpStart + 2))
    let text := strBytes "Response Count " ++ decBytes s0.responseCounter ++ strBytes "\n"
    let n := text.length
    let s1 := { s0 with pkt := { s0.pkt with buf := sprintfAt s0.pkt.buf 200 text } }
    sendUdp s1 dI sI dp sp 200 n
  else s0

/-! ## ICMP -/

/-- Incoming ICMP packet, `ICMPpacket()`: only echo requests (type 8) are answered.
`icmpLength.all` is the unsigned difference of the IP total length and the
header length, and `dataCheckSum` reads that many bytes from `icmpStart`.
The embedding is that of the C code as long as these bytes lie in the packet
buffer.  For a total length below the header length the difference wraps to
nearly 2^32 and the C loop runs off the buffer (undefined behaviour, no reply
is sent), while `peek` reads 0 there; the properties of the echo reply are
therefore stated for packets whose ICMP segment lies in the packet. -/
def ICMPpacket (s : PppState) : PppState :=
  let ipAll := REV16 (peek16 s.pkt.buf (ipStart + 2))
  let ipHeader := 4 * ipHeaderLength s.pkt.buf
  let s0 := { s with icmpStart := ipStart + ipHeader }
  let icmpAll := (ipAll + 4294967296 - ipHeader) % 4294967296
  if peek s0.pkt.buf s0.icmpStart = 8 then
    let s1 := { s0 with pkt := { s0.pkt with
        buf := poke s0.pkt.buf (ipStart + 8) (peek s0.pkt.buf (ipStart + 8) + 255) } }
    let s2 := swapIpAddresses s1
    let s3 := IpHeaderCheckSum s2
    let s4 := { s3 with pkt := { s3.pkt with buf := poke s3.pkt.buf s3.icmpStart 0 } }
    let s5 := { s4 with pkt := { s4.pkt with buf := poke16 s4.pkt.buf (s4.icmpStart + 2) 0 } }
    let sum := dataCheckSum s5.sum s5.pkt.buf s5.icmpStart icmpAll 1
    let s6 := { s5 with sum := dataCheckSumAcc s5.sum s5.pkt.buf s5.icmpStart icmpAll 1 }
    let s7 := { s6 with pkt := { s6.pkt with buf := poke16 s6.pkt.buf (s6.icmpStart + 2) (REV16 sum) } }
    sendPppFrame s7
  else s0

/-! ## HTTP and TCP -/

/-- The constant `rootWebPage` (without its terminating zero). -/
def rootWebPage : List Nat := strBytes
  "<!DOCTYPE html><html><head><title>Blinky Over Radio</title><body style=\"font-family: sans-serif; font-size:25px; color:#807070\"><h1>Blinky Over Radio</h1><form><input type=\"button\" value=\"Toggle LED1\" onclick=\"window.location.href= \x27/a\x27\"/><input type=\"button\" value=\"Toggle LED2\" onclick=\"window.location.href= \x27/b\x27\"/><input type=\"button\" value=\"Toggle LED3\" onclick=\"window.location.href= \x27/c\x27\"/></form></body></html>"

/-- TCP flag bit `TCP_FLAG_ACK`. -/
def TCP_FLAG_ACK : Nat := 16
/-- TCP flag bit `TCP_FLAG_SYN`. -/
def TCP_FLAG_SYN : Nat := 2
/-- TCP flag bit `TCP_FLAG_PSH`. -/
def TCP_FLAG_PSH : Nat := 8
/-- TCP flag bit `TCP_FLAG_RST`. -/
def TCP_FLAG_RST : Nat := 4
/-- TCP flag bit `TCP_FLAG_FIN`. -/
def TCP_FLAG_FIN : Nat := 1

/-- Width of the Content-Length field, `CONTENTLENGTHSIZE`. -/
def CONTENTLENGTHSIZE : Nat := 5

/-- Result of `snprintf(.., CONTENTLENGTHSIZE+1, "%*d", CONTENTLENGTHSIZE, v)`:
the decimal digits of `v` right-aligned with leading spaces in a field of five
characters, cut after five characters. -/
def contentLengthString (v : Nat) : List Nat :=
  (List.replicate (CONTENTLENGTHSIZE - (decBytes v).length) 32 ++ decBytes v).take CONTENTLENGTHSIZE

/-- One LED toggle of `httpResponse`: the new value of the static flag. -/
def toggleLed (ledState : Nat) : Nat := if ledState ≠ 0 then 0 else 1

/-- Respond to an HTTP request, `httpResponse(dataStart, flags)`: returns the
new state, the byte count `n` of the response and the value left in `*flags`.
`Genfsk_Send(gCtEvtTxDone_c, NULL, ledState, address)` is recorded in `ledCmds`
and `LedNToggle()` in `ledToggles`. -/
def httpResponse (s : PppState) (dataStart : Nat) : PppState × Nat × Nat :=
  let flags := TCP_FLAG_ACK ||| TCP_FLAG_FIN
  let httpGetRoot := peekList s.pkt.buf dataStart 5 = strBytes "GET /"
  let httpGet5 := peek s.pkt.buf (dataStart + 5)
  let t1 := if httpGetRoot then strBytes "HTTP/1.1 200 OK\r\nServer: Blinky-Radio\r\n"
            else strBytes "HTTP/1.1 404 Not Found\r\nServer: Blinky-Radio\r\n"
  let b1 := sprintfAt s.pkt.buf (0 + dataStart) t1
  let n1 := 0 + t1.length
  let t2 := strBytes "Content-Length: "
  let b2 := sprintfAt b1 (n1 + dataStart) t2
  let n2 := n1 + t2.length
  let contentLengthStart := n2
  let t3 := strBytes "?????\r\n"
  let b3 := sprintfAt b2 (n2 + dataStart) t3
  let n3 := n2 + t3.length
  let t4 := strBytes "Connection: close\r\n"
  let b4 := sprintfAt b3 (n3 + dataStart) t4
  let n4 := n3 + t4.length
  let t5 := strBytes "Content-Type: text/html; charset=us-ascii\r\n\r\n"
  let b5 := sprintfAt b4 (n4 + dataStart) t5
  let n5 := n4 + t5.length
  let nHeader := n5
  let s5 := { s with pkt := { s.pkt with buf := b5 } }
  let (s9, n9) :=
    if httpGetRoot then
      let s6 :=
        if httpGet5 = 97 then
          let l := toggleLed s5.ledState1
          { s5 with ledState1 := l, ledCmds := s5.ledCmds ++ [(l, 1)], ledToggles := s5.ledToggles ++ [2] }
        else s5
      let s7 :=
        if httpGet5 = 98 then
          let l := toggleLed s6.ledState2
          { s6 with ledState2 := l, ledCmds := s6.ledCmds ++ [(l, 2)], ledToggles := s6.ledToggles ++ [3] }
        else s6
      let s8 :=
        if httpGet5 = 99 then
          let l := toggleLed s7.ledState3
          { s7 with ledState3 := l, ledCmds := s7.ledCmds ++ [(l, 3)], ledToggles := s7.ledToggles ++ [4] }
        else s7
      ({ s8 with pkt := { s8.pkt with buf := pokeList s8.pkt.buf (n5 + dataStart) (rootWebPage ++ [0]) } },
        n5 + (rootWebPage.length + 1) - 1)
    else (s5, n5)
  let s10 := { s9 with pkt := { s9.pkt with
      buf := pokeList s9.pkt.buf (dataStart + contentLengthStart) (contentLengthString (n9 - nHeader)) } }
  (s10, n9, flags)

/-- Modelled from the spec: bit-field `ppp.tcp->offset` of the absent header
overlay `tcpHeaderType`, the high four bits of byte 12 of the TCP header. -/
def tcpOffset (buf : List Nat) (tcpStart : Nat) : Nat := peek buf (tcpStart + 12) / 16

/-- Store into the bit-field `ppp.tcp->offset`, keeping the low nibble. -/
def setTcpOffset (buf : List Nat) (tcpStart : Nat) (v : Nat) : List Nat :=
  poke buf (tcpStart + 12) (v % 16 * 16 + peek buf (tcpStart + 12) % 16)

/-- The part of `tcpHandler` after the flag switch: swap addresses and ports,
write ack, seq and flags, recompute lengths and checksums, send the frame and
scrub the buffer from byte 44 on. -/
def tcpReply (s : PppState) (ack_out seq_out flagsOut dataLen : Nat) : PppState :=
  let headerSizeIp := 20
  let headerSizeTcp := 20
  let s1 := swapIpPorts (swapIpAddresses s)
  let s2 := { s1 with pkt := { s1.pkt with buf := poke32 s1.pkt.buf (s1.tcpStart + 8) (REV ack_out) } }
  let s3 := { s2 with pkt := { s2.pkt with buf := poke32 s2.pkt.buf (s2.tcpStart + 4) (REV seq_out) } }
  let s4 := { s3 with pkt := { s3.pkt with buf := poke s3.pkt.buf (s3.tcpStart + 13) flagsOut } }
  let tcpSize := headerSizeTcp + dataLen
  let newPacketSize := headerSizeIp + tcpSize
  let s5 := { s4 with pkt := { s4.pkt with buf := poke16 s4.pkt.buf (ipStart + 2) (REV16 newPacketSize) } }
  let s6 := { s5 with pkt := { s5.pkt with len := newPacketSize + 4 + 2 } }
  let s7 := IpHeaderCheckSum s6
  let s8 := checkSumPseudoHeader s7 tcpSize
  let s9 := { s8 with pkt := { s8.pkt with buf := poke16 s8.pkt.buf (s8.tcpStart + 16) 0 } }
  let pseudoHeaderSum := dataCheckSum s9.sum s9.pkt.buf s9.tcpStart tcpSize 0
  let s10 := { s9 with sum := dataCheckSumAcc s9.sum s9.pkt.buf s9.tcpStart tcpSize 0 }
  let s11 := { s10 with pkt := { s10.pkt with
      buf := poke16 s10.pkt.buf (s10.tcpStart + 16) (REV16 pseudoHeaderSum) } }
  let s12 := sendPppFrame s11
  { s12 with pkt := { s12.pkt with buf := pokeList s12.pkt.buf 44 (List.replicate 500 0) } }

/-- Incoming TCP packet, `tcpHandler()`.  Sizes that are `int` in C are
integers here; sequence numbers are 32-bit unsigned. -/
def tcpHandler (s : PppState) : PppState :=
  let packetLengthIp : Int := REV16 (peek16 s.pkt.buf (ipStart + 2))
  let headerSizeIp0 := 4 * ipHeaderLength s.pkt.buf
  let sa := { s with tcpStart := ipStart + headerSizeIp0 }
  let tcpSize : Int := packetLengthIp - headerSizeIp0
  let headerSizeTcp0 := 4 * tcpOffset sa.pkt.buf sa.tcpStart
  let tcpDataIn := sa.tcpStart + headerSizeTcp0
  let tcpDataSize : Int := tcpSize - headerSizeTcp0
  let seq_in := REV (peek32 sa.pkt.buf (sa.tcpStart + 4))
  let ack_in := REV (peek32 sa.pkt.buf (sa.tcpStart + 8))
  let ack_out := (((seq_in : Int) + tcpDataSize) % 4294967296).toNat
  let seq_out := ack_in
  let headerSizeIp := 20
  let sb := { sa with pkt := { sa.pkt with buf := setIpHeaderLength sa.pkt.buf (headerSizeIp / 4) } }
  let sc := { sb with pkt := { sb.pkt with buf := poke16 sb.pkt.buf (ipStart + 2) (REV 40) } }
  let headerSizeTcp := 20
  let sd := { sc with tcpStart := ipStart + headerSizeIp }
  let se := { sd with pkt := { sd.pkt with buf := setTcpOffset sd.pkt.buf sd.tcpStart (headerSizeTcp / 4) } }
  let tcpDataOut := se.tcpStart + headerSizeTcp
  let sf := { se with pkt := { se.pkt with buf := poke16 se.pkt.buf (se.tcpStart + 14) (REV16 1200) } }
  let flagAll := peek sf.pkt.buf (sf.tcpStart + 13)
  if flagAll = TCP_FLAG_SYN then
    tcpReply sf ((ack_out + 1) % 4294967296) ((seq_in + 0x10000000) % 4294967296)
      (TCP_FLAG_SYN ||| TCP_FLAG_ACK) 0
  else if flagAll = TCP_FLAG_ACK ∨ flagAll = (TCP_FLAG_ACK ||| TCP_FLAG_PSH) then
    if flagAll = TCP_FLAG_ACK ∧ tcpDataSize = 0 then sf
    else if peekList sf.pkt.buf tcpDataIn 5 = strBytes "GET /" then
      let r := httpResponse sf tcpDataOut
      tcpReply r.1 ack_out seq_out r.2.2 r.2.1
    else tcpReply sf ack_out seq_out TCP_FLAG_ACK 0
  else if flagAll = TCP_FLAG_FIN ∨ flagAll = (TCP_FLAG_FIN ||| TCP_FLAG_ACK)
      ∨ flagAll = (TCP_FLAG_FIN ||| TCP_FLAG_PSH ||| TCP_FLAG_ACK) then
    tcpReply sf ((ack_out + 1) % 4294967296) seq_out (TCP_FLAG_ACK ||| TCP_FLAG_FIN) 0
  else sf

/-- Incoming IP packet, `IPframe()`: dispatch on the protocol byte (header offset 9). -/
def IPframe (s : PppState) : PppState :=
  let protocol := peek s.pkt.buf (ipStart + 9)
  if protocol = 1 then ICMPpacket s
  else if protocol = 17 then UDPpacket s
  else if protocol = 6 then tcpHandler s
  else s

/-! ## LCP and the dispatcher -/

/-- Initialise the link state, `pppInitStruct()`; `RXBUFLEN` is the size of
the receive ring, a constant of the absent header. -/
def pppInitStruct (RXBUFLEN : Nat) (s : PppState) : PppState :=
  { s with
    rx := { buf := List.replicate RXBUFLEN 0, head := 0, tail := 0, rtail := 0, buflevel := 0 },
    online := 0,
    pkt := { s.pkt with len := 0 },
    ident := 10000,
    ledState := 0,
    hdlc := { s.hdlc with frameStartIndex := 0 },
    responseCounter := 0,
    firstFrame := 1 }

/-- LCP configuration request, `LCPconfReq()`: `lengthR` is bytes 6..7 and
`code` byte 4 of the packet buffer. -/
def LCPconfReq (s : PppState) : PppState :=
  if peek16 s.pkt.buf 6 ≠ REV16 4 then
    sendPppFrame { s with pkt := { s.pkt with buf := poke s.pkt.buf 4 4 } }
  else
    let s1 := sendPppFrame { s with pkt := { s.pkt with buf := poke s.pkt.buf 4 2 } }
    sendPppFrame { s1 with pkt := { s1.pkt with buf := poke s1.pkt.buf 4 1 } }

/-- LCP end of connection, `LCPend()`. -/
def LCPend (RXBUFLEN : Nat) (s : PppState) : PppState :=
  let s1 := sendPppFrame { s with pkt := { s.pkt with buf := poke s.pkt.buf 4 6 } }
  let s2 := { s1 with online := 0 }
  pppInitStruct RXBUFLEN s2

/-- Incoming LCP packet, `LCPframe()`. -/
def LCPframe (RXBUFLEN : Nat) (s : PppState) : PppState :=
  let code := peek s.pkt.buf 4
  if code = 1 then LCPconfReq s
  else if code = 5 then LCPend RXBUFLEN s
  else s

/-- Packet type dispatch, `determinePacketType()`: `address` is byte 0,
`control` byte 1 and `protocolR` bytes 2..3 of the packet buffer. -/
def determinePacketType (RXBUFLEN : Nat) (s : PppState) : PppState :=
  if peek s.pkt.buf 0 ≠ 0xff then s
  else if peek s.pkt.buf 1 ≠ 3 then s
  else
    let protocol := REV16 (peek16 s.pkt.buf 2)
    if protocol = 0xc021 then LCPframe RXBUFLEN s
    else if protocol = 0x8021 then IPCPframe s
    else if protocol = 0x0021 then IPframe s
    else s

/-! ## HDLC receive path -/

/-- One pass of the body of the `while(1)` loop of `processPPPFrame` on the
ring byte `c`: the triple holds the escape flag `unstuff`, the offset `dest` of
the write pointer in the packet buffer, and the link state. -/
def unstuffByte (c : Nat) (r : Nat × Nat × PppState) : Nat × Nat × PppState :=
  let unstuff := r.1
  let dest := r.2.1
  let s := r.2.2
  if unstuff = 0 then
    if c = 0x7d then (1, dest, s)
    else (0, dest + 1,
      { s with pkt := { s.pkt with buf := poke s.pkt.buf dest c, len := s.pkt.len + 1 },
               fcs := fcsDo s.fcs c })
  else (0, dest + 1,
      { s with pkt := { s.pkt with buf := poke s.pkt.buf dest (c ^^^ 0x20), len := s.pkt.len + 1 },
               fcs := fcsDo s.fcs (c ^^^ 0x20) })

/-- The `while(1)` loop of `processPPPFrame` with at most `fuel` passes:
`idx` is the ring index.  `none` means the passes ran out before `idx`
reached `end`. -/
def unstuffLoop (RXBUFLEN end_ : Nat) : Nat → Nat → Nat × Nat × PppState → Option PppState
  | 0, _, _ => none
  | fuel + 1, idx, r =>
    let r1 := unstuffByte (peek r.2.2.rx.buf idx) r
    let idx1 := (idx + 1) &&& (RXBUFLEN - 1)
    if idx1 = end_ then some r1.2.2 else unstuffLoop RXBUFLEN end_ fuel idx1 r1

/-- State of `processPPPFrame` just before the CRC test: the frame is
de-stuffed into the packet buffer and `pkt.crc` holds the residue. -/
def deframe (RXBUFLEN fuel : Nat) (s : PppState) (start end_ : Nat) : Option PppState :=
  let s1 := { s with fcs := fcsReset }
  let s2 := { s1 with pkt := { s1.pkt with len := 0 } }
  match unstuffLoop RXBUFLEN end_ fuel start (0, 0, s2) with
  | none => none
  | some s3 => some { s3 with pkt := { s3.pkt with crc := s3.fcs &&& 0xffff } }

/-- Process a received frame, `processPPPFrame(start, end)`, with at most
`fuel` passes of its loop. -/
def processPPPFrame (RXBUFLEN fuel : Nat) (s : PppState) (start end_ : Nat) : Option PppState :=
  if start = end_ then some s
  else
    match deframe RXBUFLEN fuel s start end_ with
    | none => none
    | some s4 => if s4.pkt.crc = 0xf0b8 then some (determinePacketType RXBUFLEN s4) else some s4

/-! ## Definitions used to state and prove the properties -/

/-- One shift of the reflected CRC register with polynomial 0x8408. -/
def crcShift (c : Nat) : Nat := (c / 2) ^^^ (if c % 2 = 1 then 0x8408 else 0)

/-- The bytes `hdlcPut` writes for the character `ch`, as the framing rule
states them: an escape pair for control characters, 0x7D and 0x7E, the
character itself otherwise. -/
def stuffByte (ch : Nat) : List Nat :=
  if ch < 0x20 ∨ ch = 0x7d ∨ ch = 0x7e then [0x7d, ch ^^^ 0x20] else [ch]

/-- The bytes of the ring span of `cnt` bytes that starts at index `start`. -/
def spanBytes (RXBUFLEN : Nat) (ring : List Nat) (start cnt : Nat) : List Nat :=
  (List.range cnt).map (fun i => peek ring ((start + i) % RXBUFLEN))

/-- De-stuffing of a byte sequence as the framing rule states it: the marker
0x7D is dropped and the byte after it is XORed with 0x20 (`esc` tells whether
the previous byte was a marker). -/
def destuff : Bool → List Nat → List Nat
  | _, [] => []
  | false, c :: cs => if c = 0x7d then destuff true cs else c :: destuff false cs
  | true, c :: cs => (c ^^^ 0x20) :: destuff false cs

/-- Packet buffer after `sendPppFrame` has stored the two FCS bytes. -/
def fcsStored (buf : List Nat) (len : Nat) : List Nat :=
  if 2 ≤ len then
    poke (poke buf (len - 2) (fcsLo (fcsBuf buf (len - 2)))) (len - 1) (fcsHi (fcsBuf buf (len - 2)))
  else buf

/-- The stuffed bytes of the first `len` bytes of a buffer. -/
def stuffed (buf : List Nat) (len : Nat) : List Nat :=
  (peekList buf 0 len).flatMap stuffByte

/-- Serial bytes of one frame sent from the packet buffer `buf` with `pkt.len = len`:
flag, stuffed packet bytes (with the FCS stored), flag. -/
def frameBytes (buf : List Nat) (len : Nat) : List Nat :=
  [0x7e] ++ stuffed (fcsStored buf len) len ++ [0x7e]

/-- The zero-initialised global `ppp` with a receive ring of `RXBUFLEN` bytes
and a packet buffer of `pktSize` bytes. -/
def zeroState (RXBUFLEN pktSize : Nat) : PppState :=
  { rx := { buf := List.replicate RXBUFLEN 0, head := 0, tail := 0, rtail := 0, buflevel := 0 },
    pkt := { buf := List.replicate pktSize 0, len := 0, crc := 0 },
    hdlc := { frameStartIndex := 0, frameEndIndex := 0 },
    online := 0, hostIP := 0, fcs := 0, sum := 0, ledState := 0, responseCounter := 0,
    firstFrame := 0, ident := 0, udpStart := 0, tcpStart := 0, icmpStart := 0,
    ledState1 := 0, ledState2 := 0, ledState3 := 0, tx := [], ledCmds := [], ledToggles := [] }

/-- Big-endian 16-bit word number `k` of the memory at `ptr`. -/
def wordAt (mem : List Nat) (ptr k : Nat) : Nat :=
  peek mem (ptr + 2 * k) * 256 + peek mem (ptr + 2 * k + 1)

/-- Plain sum of the first `n` big-endian words at `ptr`. -/
def rawSum (mem : List Nat) (ptr : Nat) : Nat → Nat
  | 0 => 0
  | n + 1 => rawSum mem ptr n + wordAt mem ptr n

/-- End-around-carry addition of two 16-bit values (ones-complement addition):
the carry out of bit 15 is added back in. -/
def ocAdd (a b : Nat) : Nat := (a + b) % 65536 + (a + b) / 65536

/-- A byte sequence read as big-endian 16-bit words; an odd-length sequence is
extended by one zero byte. -/
def beWords (bytes : List Nat) : List Nat :=
  (List.range ((bytes.length + 1) / 2)).map
    (fun k => bytes.getD (2 * k) 0 * 256 + bytes.getD (2 * k + 1) 0)

/-- Ones-complement sum of the big-endian words of a byte sequence. -/
def onesSum (bytes : List Nat) : Nat := (beWords bytes).foldl ocAdd 0

/-- Memory as the checksum loop sees it: for odd `len` the byte at `ptr[len]` is zero. -/
def zeroPad (mem : List Nat) (ptr len : Nat) : List Nat :=
  if len &&& 1 ≠ 0 then poke mem (ptr + len) 0 else mem

/-- Encoding of the escape flag as the `int unstuff`. -/
def escFlag (esc : Bool) : Nat := if esc then 1 else 0

/-! ## Concrete states used to instantiate the properties -/

/-- A sender whose packet holds the payload `ff 03 7e 41` and two FCS placeholders. -/
def exampleSender : PppState :=
  { zeroState 16 6 with pkt := { buf := [0xff, 0x03, 0x7e, 0x41, 0, 0], len := 6, crc := 0 } }

/-- A receiver whose 16-byte ring holds the stuffed frame of `exampleSender`
from index 12 on, wrapping around the end of the ring. -/
def exampleReceiver : PppState :=
  { zeroState 16 8 with
    rx := { buf := [94, 65, 49, 239, 0, 0, 0, 0, 0, 0, 0, 0, 255, 125, 35, 125],
            head := 4, tail := 12, rtail := 12, buflevel := 8 } }

/-- A receiver whose ring holds three bytes of line noise. -/
def exampleNoise : PppState :=
  { zeroState 8 8 with
    rx := { buf := [1, 2, 3, 0, 0, 0, 0, 0], head := 3, tail := 0, rtail := 0, buflevel := 3 } }

/-- A state holding a received LCP configuration request without options. -/
def exampleLcpRequest : PppState :=
  { zeroState 16 12 with
    pkt := { buf := [0xff, 0x03, 0xc0, 0x21, 0x01, 0x01, 0x00, 0x04, 0xd1, 0xb5, 0, 0],
             len := 10, crc := 0xf0b8 } }

/-- A state holding a received LCP configuration request with one option. -/
def exampleLcpOption : PppState :=
  { zeroState 16 16 with
    pkt := { buf := [0xff, 0x03, 0xc0, 0x21, 0x01, 0x01, 0x00, 0x08, 0x05, 0x06, 1, 2, 3, 4, 0, 0],
             len := 16, crc := 0xf0b8 } }

/-- A state whose packet does not start with the PPP address byte 0xFF. -/
def exampleBadAddress : PppState :=
  { zeroState 16 12 with
    pkt := { buf := [0x00, 0x03, 0xc0, 0x21, 0x01, 0x01, 0x00, 0x04, 0, 0, 0, 0],
             len := 10, crc := 0xf0b8 } }

/-- A 20-byte IP header with a zero checksum field. -/
def exampleIpHeader : List Nat :=
  [0x45, 0, 0, 0x1c, 0x12, 0x34, 0x40, 0, 0x40, 1, 0, 0, 10, 0, 0, 1, 10, 0, 0, 2]

/-- A state holding an IP packet: PPP header, the header above with a stale
checksum, and eight payload bytes. -/
def exampleIpPacket : PppState :=
  { zeroState 16 34 with
    pkt := { buf := [0xff, 0x03, 0x00, 0x21,
                     0x45, 0, 0, 0x1c, 0x12, 0x34, 0x40, 0, 0x40, 1, 0xaa, 0xbb, 10, 0, 0, 1, 10, 0, 0, 2,
                     8, 0, 0, 0, 0, 1, 0, 1, 0, 0],
             len := 34, crc := 0xf0b8 } }

/-! ## States inside the handlers, used to state and prove the properties -/

/-- Big-endian 32-bit value of the four buffer bytes at `i`. -/
def be32 (buf : List Nat) (i : Nat) : Nat :=
  peek buf i * 16777216 + peek buf (i + 1) * 65536 + peek buf (i + 2) * 256 + peek buf (i + 3)

/-- State of `ICMPpacket` just before `sendPppFrame`, for an echo request. -/
def icmpPrepared (s : PppState) : PppState :=
  let ipAll := REV16 (peek16 s.pkt.buf (ipStart + 2))
  let ipHeader := 4 * ipHeaderLength s.pkt.buf
  let s0 := { s with icmpStart := ipStart + ipHeader }
  let icmpAll := (ipAll + 4294967296 - ipHeader) % 4294967296
  let s1 := { s0 with pkt := { s0.pkt with
      buf := poke s0.pkt.buf (ipStart + 8) (peek s0.pkt.buf (ipStart + 8) + 255) } }
  let s2 := swapIpAddresses s1
  let s3 := IpHeaderCheckSum s2
  let s4 := { s3 with pkt := { s3.pkt with buf := poke s3.pkt.buf s3.icmpStart 0 } }
  let s5 := { s4 with pkt := { s4.pkt with buf := poke16 s4.pkt.buf (s4.icmpStart + 2) 0 } }
  let sum := dataCheckSum s5.sum s5.pkt.buf s5.icmpStart icmpAll 1
  let s6 := { s5 with sum := dataCheckSumAcc s5.sum s5.pkt.buf s5.icmpStart icmpAll 1 }
  { s6 with pkt := { s6.pkt with buf := poke16 s6.pkt.buf (s6.icmpStart + 2) (REV16 sum) } }

/-- Length in bytes of the ICMP segment as `ICMPpacket` computes it. -/
def icmpLength (s : PppState) : Nat :=
  (REV16 (peek16 s.pkt.buf (ipStart + 2)) + 4294967296 - 4 * ipHeaderLength s.pkt.buf) % 4294967296

/-- The packet of the echo reply before the ICMP checksum is stored: TTL
decremented, addresses exchanged, IP header checksum refreshed, type 0 and a
zero ICMP checksum. -/
def icmpZeroed (s : PppState) : List Nat :=
  poke16 (poke (IpHeaderCheckSum (swapIpAddresses { s with pkt := { s.pkt with
      buf := poke s.pkt.buf (ipStart + 8) (peek s.pkt.buf (ipStart + 8) + 255) } })).pkt.buf
    (ipStart + 4 * ipHeaderLength s.pkt.buf) 0) (ipStart + 4 * ipHeaderLength s.pkt.buf + 2) 0

/-- Total length field of the IP header (`lengthR`, big-endian, header offset 2). -/
def ipTotalLength (buf : List Nat) : Nat := peek buf (ipStart + 2) * 256 + peek buf (ipStart + 3)

/-- State of `tcpReply` just before `sendPppFrame`. -/
def tcpPrepared (s : PppState) (ack_out seq_out flagsOut dataLen : Nat) : PppState :=
  let headerSizeIp := 20
  let headerSizeTcp := 20
  let s1 := swapIpPorts (swapIpAddresses s)
  let s2 := { s1 with pkt := { s1.pkt with buf := poke32 s1.pkt.buf (s1.tcpStart + 8) (REV ack_out) } }
  let s3 := { s2 with pkt := { s2.pkt with buf := poke32 s2.pkt.buf (s2.tcpStart + 4) (REV seq_out) } }
  let s4 := { s3 with pkt := { s3.pkt with buf := poke s3.pkt.buf (s3.tcpStart + 13) flagsOut } }
  let tcpSize := headerSizeTcp + dataLen
  let newPacketSize := headerSizeIp + tcpSize
  let s5 := { s4 with pkt := { s4.pkt with buf := poke16 s4.pkt.buf (ipStart + 2) (REV16 newPacketSize) } }
  let s6 := { s5 with pkt := { s5.pkt with len := newPacketSize + 4 + 2 } }
  let s7 := IpHeaderCheckSum s6
  let s8 := checkSumPseudoHeader s7 tcpSize
  let s9 := { s8 with pkt := { s8.pkt with buf := poke16 s8.pkt.buf (s8.tcpStart + 16) 0 } }
  let pseudoHeaderSum := dataCheckSum s9.sum s9.pkt.buf s9.tcpStart tcpSize 0
  let s10 := { s9 with sum := dataCheckSumAcc s9.sum s9.pkt.buf s9.tcpStart tcpSize 0 }
  { s10 with pkt := { s10.pkt with
      buf := poke16 s10.pkt.buf (s10.tcpStart + 16) (REV16 pseudoHeaderSum) } }

/-- State of `tcpHandler` when it reaches its flag switch: the headers are
shortened to 20 bytes each and the window is set. -/
def tcpNormalized (s : PppState) : PppState :=
  let headerSizeIp0 := 4 * ipHeaderLength s.pkt.buf
  let sa := { s with tcpStart := ipStart + headerSizeIp0 }
  let headerSizeIp := 20
  let sb := { sa with pkt := { sa.pkt with buf := setIpHeaderLength sa.pkt.buf (headerSizeIp / 4) } }
  let sc := { sb with pkt := { sb.pkt with buf := poke16 sb.pkt.buf (ipStart + 2) (REV 40) } }
  let headerSizeTcp := 20
  let sd := { sc with tcpStart := ipStart + headerSizeIp }
  let se := { sd with pkt := { sd.pkt with buf := setTcpOffset sd.pkt.buf sd.tcpStart (headerSizeTcp / 4) } }
  { se with pkt := { se.pkt with buf := poke16 se.pkt.buf (se.tcpStart + 14) (REV16 1200) } }

/-- The local `tcpDataSize` of `tcpHandler`: IP total length minus the IP
header length minus the TCP header length, an `int`. -/
def tcpDataSize (s : PppState) : Int :=
  let packetLengthIp : Int := REV16 (peek16 s.pkt.buf (ipStart + 2))
  let headerSizeIp0 := 4 * ipHeaderLength s.pkt.buf
  let tcpSize : Int := packetLengthIp - headerSizeIp0
  let headerSizeTcp0 := 4 * tcpOffset s.pkt.buf (ipStart + headerSizeIp0)
  tcpSize - headerSizeTcp0

/-- The local `seq_in` of `tcpHandler`: the sequence number of the segment. -/
def tcpSeqIn (s : PppState) : Nat :=
  REV (peek32 s.pkt.buf (ipStart + 4 * ipHeaderLength s.pkt.buf + 4))

/-- The local `ack_in` of `tcpHandler`: the acknowledgement number of the segment. -/
def tcpAckIn (s : PppState) : Nat :=
  REV (peek32 s.pkt.buf (ipStart + 4 * ipHeaderLength s.pkt.buf + 8))

/-- The local `tcpDataIn` of `tcpHandler`: offset of the received TCP payload. -/
def tcpDataIn (s : PppState) : Nat :=
  ipStart + 4 * ipHeaderLength s.pkt.buf
    + 4 * tcpOffset s.pkt.buf (ipStart + 4 * ipHeaderLength s.pkt.buf)

/-- The local `ack_out` of `tcpHandler` before the flag switch. -/
def tcpAckOut (s : PppState) : Nat :=
  (((tcpSeqIn s : Int) + tcpDataSize s) % 4294967296).toNat
/-- The locals of `tcpHandler` at its flag switch, handed to a continuation. -/
def tcpLocals {α : Type} (s : PppState)
    (k : PppState → Nat → Nat → Int → Nat → Nat → Nat → α) : α :=
  let packetLengthIp : Int := REV16 (peek16 s.pkt.buf (ipStart + 2))
  let headerSizeIp0 := 4 * ipHeaderLength s.pkt.buf
  let sa := { s with tcpStart := ipStart + headerSizeIp0 }
  let tcpSize : Int := packetLengthIp - headerSizeIp0
  let headerSizeTcp0 := 4 * tcpOffset sa.pkt.buf sa.tcpStart
  let tcpDataIn := sa.tcpStart + headerSizeTcp0
  let tcpDataSize : Int := tcpSize - headerSizeTcp0
  let seq_in := REV (peek32 sa.pkt.buf (sa.tcpStart + 4))
  let ack_in := REV (peek32 sa.pkt.buf (sa.tcpStart + 8))
  let ack_out := (((seq_in : Int) + tcpDataSize) % 4294967296).toNat
  let seq_out := ack_in
  let headerSizeIp := 20
  let sb := { sa with pkt := { sa.pkt with buf := setIpHeaderLength sa.pkt.buf (headerSizeIp / 4) } }
  let sc := { sb with pkt := { sb.pkt with buf := poke16 sb.pkt.buf (ipStart + 2) (REV 40) } }
  let headerSizeTcp := 20
  let sd := { sc with tcpStart := ipStart + headerSizeIp }
  let se := { sd with pkt := { sd.pkt with buf := setTcpOffset sd.pkt.buf sd.tcpStart (headerSizeTcp / 4) } }
  let tcpDataOut := se.tcpStart + headerSizeTcp
  let sf := { se with pkt := { se.pkt with buf := poke16 se.pkt.buf (se.tcpStart + 14) (REV16 1200) } }
  k sf tcpDataIn tcpDataOut tcpDataSize seq_in ack_out seq_out

/-- The flag switch of `tcpHandler` and the reply behind it, as a function of the locals. -/
def tcpSwitch (sf : PppState) (tcpDataIn tcpDataOut : Nat) (tcpDataSize : Int) (seq_in ack_out seq_out : Nat) :
    PppState :=
  let flagAll := peek sf.pkt.buf (sf.tcpStart + 13)
  if flagAll = TCP_FLAG_SYN then
    tcpReply sf ((ack_out + 1) % 4294967296) ((seq_in + 0x10000000) % 4294967296)
      (TCP_FLAG_SYN ||| TCP_FLAG_ACK) 0
  else if flagAll = TCP_FLAG_ACK ∨ flagAll = (TCP_FLAG_ACK ||| TCP_FLAG_PSH) then
    if flagAll = TCP_FLAG_ACK ∧ tcpDataSize = 0 then sf
    else if peekList sf.pkt.buf tcpDataIn 5 = strBytes "GET /" then
      let r := httpResponse sf tcpDataOut
      tcpReply r.1 ack_out seq_out r.2.2 r.2.1
    else tcpReply sf ack_out seq_out TCP_FLAG_ACK 0
  else if flagAll = TCP_FLAG_FIN ∨ flagAll = (TCP_FLAG_FIN ||| TCP_FLAG_ACK)
      ∨ flagAll = (TCP_FLAG_FIN ||| TCP_FLAG_PSH ||| TCP_FLAG_ACK) then
    tcpReply sf ((ack_out + 1) % 4294967296) seq_out (TCP_FLAG_ACK ||| TCP_FLAG_FIN) 0
  else sf

/-! ## Concrete link-control, ICMP and TCP packets -/

/-- A state holding a received LCP terminate request. -/
def exampleLcpTerminate : PppState :=
  { zeroState 16 10 with
    pkt := { buf := [0xff, 0x03, 0xc0, 0x21, 0x05, 0x02, 0x00, 0x04, 0, 0], len := 10, crc := 0xf0b8 } }

/-- A state holding a received IPCP configuration request that offers the
address 10.0.0.1 in option 3. -/
def exampleIpcpRequest : PppState :=
  { zeroState 16 16 with
    pkt := { buf := [0xff, 0x03, 0x80, 0x21, 0x01, 0x01, 0x00, 0x0a, 0x03, 0x06, 10, 0, 0, 1, 0, 0],
             len := 16, crc := 0xf0b8 } }

/-- A state holding a received IPCP NACK that suggests the address
172.10.10.2 in option 3. -/
def exampleIpcpNack : PppState :=
  { zeroState 16 16 with
    pkt := { buf := [0xff, 0x03, 0x80, 0x21, 0x03, 0x01, 0x00, 0x0a, 0x03, 0x06, 172, 10, 10, 2, 0, 0],
             len := 16, crc := 0xf0b8 } }

/-- A state holding an ICMP echo request whose ICMP segment has nine bytes. -/
def exampleEchoOdd : PppState :=
  { zeroState 16 35 with
    pkt := { buf := [0xff, 0x03, 0x00, 0x21,
                     0x45, 0, 0, 0x1d, 0x12, 0x34, 0x40, 0, 0x40, 1, 0xaa, 0xbb, 10, 0, 0, 1, 10, 0, 0, 2,
                     8, 0, 0, 0, 0, 1, 0, 1, 0x61, 0, 0],
             len := 35, crc := 0xf0b8 } }

/-- A state holding a TCP packet from 10.0.0.1:49153 to 10.0.0.2:80 with a
20-byte IP header, a 20-byte TCP header, sequence number 1000,
acknowledgement number 2000, the given flag byte, IP total length and
payload, followed by `pad` spare buffer bytes. -/
def exampleTcp (flags ipLen : Nat) (payload : List Nat) (pad : Nat) : PppState :=
  { zeroState 16 0 with
    pkt := { buf := [0xff, 0x03, 0x00, 0x21,
                     0x45, 0, ipLen / 256, ipLen % 256, 0x12, 0x34, 0x40, 0, 0x40, 6, 0, 0,
                     10, 0, 0, 1, 10, 0, 0, 2,
                     0xc0, 0x01, 0, 80, 0, 0, 0x03, 0xe8, 0, 0, 0x07, 0xd0, 0x50, flags, 0x20, 0,
                     0, 0, 0, 0] ++ payload ++ List.replicate pad 0,
             len := 4 + ipLen + 2, crc := 0xf0b8 } }

/-- A SYN segment without payload. -/
def exampleSyn : PppState := exampleTcp 0x02 40 [] 2

/-- A SYN segment that carries three payload bytes. -/
def exampleSynData : PppState := exampleTcp 0x02 43 [1, 2, 3] 2

/-- A FIN|ACK segment without payload. -/
def exampleFin : PppState := exampleTcp 0x11 40 [] 2

/-- A FIN|PSH|ACK segment that carries three payload bytes. -/
def exampleFinData : PppState := exampleTcp 0x19 43 [1, 2, 3] 2

/-- An ACK|PSH segment whose payload is an HTTP GET of the root page, in a
buffer of 600 bytes. -/
def exampleGet : PppState := exampleTcp 0x18 58 (strBytes "GET / HTTP/1.1\r\n\r\n") 538

/-- Get one character from the receive ring, `pc_getBuf()`. -/
def pc_getBuf (RXBUFLEN : Nat) (s : PppState) : Nat × PppState :=
  let x := peek s.rx.buf s.rx.tail
  (x, { s with rx := { s.rx with tail := (s.rx.tail + 1) &&& (RXBUFLEN - 1),
                                 buflevel := s.rx.buflevel - 1 } })

/-- The `while (1)` read loop of `pppReceiveHandler` over the bytes the serial
driver holds (`Serial_Read` hands them out one at a time and reports
`count < 1` when none is left).  The result is the state, the bytes left in
the driver, and whether the handler returned from inside the loop. -/
def rxReadLoop (RXBUFLEN : Nat) : PppState → List Nat → PppState × List Nat × Bool
  | s, [] => (s, [], false)
  | s, ch :: rest =>
    let hd := (s.rx.head + 1) &&& (RXBUFLEN - 1)
    if hd = s.rx.rtail then (s, rest, true)
    else
      let s1 := { s with rx := { s.rx with buf := poke s.rx.buf s.rx.head ch } }
      let s2 := if s1.online = 0 then (if ch % 256 = 0x7e then { s1 with online := 1 } else s1) else s1
      let s3 := { s2 with rx := { s2.rx with head := hd, buflevel := s2.rx.buflevel + 1 } }
      rxReadLoop RXBUFLEN s3 rest

/-- The `do ... while (hasData)` loop of `pppReceiveHandler` with at most
`fuel` passes; `frameFuel` bounds the loop of `processPPPFrame`.  `none`
means the passes ran out. -/
def rxScanLoop (RXBUFLEN frameFuel : Nat) : Nat → PppState → Option PppState
  | 0, _ => none
  | fuel + 1, s =>
    if s.rx.head ≠ s.rx.tail then
      let oldTail := s.rx.tail
      let r := pc_getBuf RXBUFLEN s
      let rx := r.1
      let s1 := r.2
      if rx = 0x7e then
        if s1.firstFrame ≠ 0 then
          let s2 := { s1 with rx := { s1.rx with rtail := s1.rx.tail } }
          let s3 := { s2 with hdlc := { s2.hdlc with frameStartIndex := s2.rx.tail } }
          let s4 := { s3 with firstFrame := 0 }
          rxScanLoop RXBUFLEN frameFuel fuel s4
        else
          let s2 := { s1 with hdlc := { s1.hdlc with frameEndIndex := oldTail } }
          match processPPPFrame RXBUFLEN frameFuel s2 s2.hdlc.frameStartIndex s2.hdlc.frameEndIndex with
          | none => none
          | some s3 =>
            let s4 := { s3 with rx := { s3.rx with rtail := s3.rx.tail } }
            some { s4 with hdlc := { s4.hdlc with frameStartIndex := s4.rx.tail } }
      else rxScanLoop RXBUFLEN frameFuel fuel s1
    else some s

/-- Serial receive handler, `pppReceiveHandler()`, run on the bytes `input`
the serial driver holds: the new state and the bytes left in the driver. -/
def pppReceiveHandler (RXBUFLEN fuel : Nat) (s : PppState) (input : List Nat) :
    Option (PppState × List Nat) :=
  let r := rxReadLoop RXBUFLEN s input
  if r.2.2 then some (r.1, r.2.1)
  else
    match rxScanLoop RXBUFLEN fuel fuel r.1 with
    | none => none
    | some s1 => some (s1, r.2.1)
/-! ## The branches of the UDP handler, used to state and prove the properties -/

/-- The echo branch of `UDPpacket` up to the call of the checksum and send
tail: the state handed to it and the UDP length. -/
def udpEchoPrepared (s0 : PppState) (ipHeader udpData : Nat) : PppState × Nat :=
  let s1 := swapIpPorts (swapIpAddresses s0)
  let s2 := { s1 with pkt := { s1.pkt with buf := pokeList s1.pkt.buf (s1.udpStart + 8) (strBytes "Got\x7b") } }
  let appendix := strBytes "\x7d UDP Server: PPP-Blinky\n"
  let n := appendix.length
  let s3 := { s2 with pkt := { s2.pkt with
      buf := sprintfAt s2.pkt.buf (s2.udpStart + 8 + udpData) appendix } }
  let udpData1 := (udpData + n) % 4294967296
  let udpAll1 := (udpData1 + 8) % 4294967296
  let ipAll := (ipHeader + udpAll1) % 4294967296
  let s4 := { s3 with pkt := { s3.pkt with buf := poke16 s3.pkt.buf (ipStart + 2) (REV16 ipAll) } }
  let s5 := { s4 with pkt := { s4.pkt with buf := poke16 s4.pkt.buf (s4.udpStart + 4) (REV16 udpAll1) } }
  let s6 := { s5 with pkt := { s5.pkt with len := (ipAll + 2 + 4) % 4294967296 } }
  (s6, udpAll1)

/-- The echo branch of `UDPpacket`. -/
def udpEcho (s0 : PppState) (ipHeader udpData : Nat) : PppState :=
  let s1 := swapIpPorts (swapIpAddresses s0)
  let s2 := { s1 with pkt := { s1.pkt with buf := pokeList s1.pkt.buf (s1.udpStart + 8) (strBytes "Got\x7b") } }
  let appendix := strBytes "\x7d UDP Server: PPP-Blinky\n"
  let n := appendix.length
  let s3 := { s2 with pkt := { s2.pkt with
      buf := sprintfAt s2.pkt.buf (s2.udpStart + 8 + udpData) appendix } }
  let udpData1 := (udpData + n) % 4294967296
  let udpAll1 := (udpData1 + 8) % 4294967296
  let ipAll := (ipHeader + udpAll1) % 4294967296
  let s4 := { s3 with pkt := { s3.pkt with buf := poke16 s3.pkt.buf (ipStart + 2) (REV16 ipAll) } }
  let s5 := { s4 with pkt := { s4.pkt with buf := poke16 s4.pkt.buf (s4.udpStart + 4) (REV16 udpAll1) } }
  let s6 := { s5 with pkt := { s5.pkt with len := (ipAll + 2 + 4) % 4294967296 } }
  udpChecksumsAndSend s6 udpAll1

/-- The test branch of `UDPpacket`. -/
def udpTest (s0 : PppState) : PppState :=
  let sI := REV (peek32 s0.pkt.buf (ipStart + 12))
  let dI := REV (peek32 s0.pkt.buf (ipStart + 16))
  let sp := REV16 (peek16 s0.pkt.buf (s0.udpStart + 0))
  let dp := REV16 (peek16 s0.pkt.buf (s0.udpStart + 2))
  let text := strBytes "Response Count " ++ decBytes s0.responseCounter ++ strBytes "\n"
  let n := text.length
  let s1 := { s0 with pkt := { s0.pkt with buf := sprintfAt s0.pkt.buf 200 text } }
  sendUdp s1 dI sI dp sp 200 n

/-- The locals and the branch choice of `UDPpacket`, with the branches as
continuations. -/
def udpBranches {α : Type} (s : PppState) (kEcho : PppState → Nat → Nat → α)
    (kTest kNone : PppState → α) : α :=
  let ipHeader := 4 * ipHeaderLength s.pkt.buf
  let s0 := { s with udpStart := ipStart + ipHeader }
  let udpAll := REV16 (peek16 s0.pkt.buf (s0.udpStart + 4))
  let udpData := (udpAll + 4294967296 - 8) % 4294967296
  let echoFound := peekList s0.pkt.buf (s0.udpStart + 8) 5 = strBytes "echo "
  let testFound := peekList s0.pkt.buf (s0.udpStart + 8) 4 = strBytes "test"
  if echoFound then kEcho s0 ipHeader udpData
  else if testFound then kTest s0
  else kNone s0
/-- One stored byte of the read loop of `pppReceiveHandler`. -/
def rxStore (RXBUFLEN : Nat) (s : PppState) (ch : Nat) : PppState :=
  let hd := (s.rx.head + 1) &&& (RXBUFLEN - 1)
  let s1 := { s with rx := { s.rx with buf := poke s.rx.buf s.rx.head ch } }
  let s2 := if s1.online = 0 then (if ch % 256 = 0x7e then { s1 with online := 1 } else s1) else s1
  { s2 with rx := { s2.rx with head := hd, buflevel := s2.rx.buflevel + 1 } }

/-- A receiver whose 8-byte ring is full: it holds the complete frame
`7e 41 42 7e` and more, read up to index 4, and the write cursor is at 3. -/
def exampleFullRing : PppState :=
  { zeroState 8 8 with
    online := 1, firstFrame := 0,
    rx := { buf := [0x7e, 0x43, 0x44, 0, 0x7e, 0x41, 0x42, 0x7e], head := 3, tail := 4, rtail := 4,
            buflevel := 7 } }

/-- A receiver whose 8-byte ring has room for one more byte. -/
def exampleAlmostFullRing : PppState :=
  { zeroState 8 8 with
    online := 1, firstFrame := 0,
    rx := { buf := [0x7e, 0x43, 0, 0, 0x7e, 0x41, 0x42, 0x7e], head := 2, tail := 4, rtail := 4,
            buflevel := 6 } }

/-- An IP packet with the unassigned protocol number 253. -/
def exampleOtherProtocol : PppState :=
  { zeroState 16 34 with
    pkt := { buf := [0xff, 0x03, 0x00, 0x21,
                     0x45, 0, 0, 0x1c, 0x12, 0x34, 0x40, 0, 0x40, 253, 0xaa, 0xbb, 10, 0, 0, 1, 10, 0, 0, 2,
                     8, 0, 0, 0, 0, 1, 0, 1, 0, 0],
             len := 34, crc := 0xf0b8 } }

/-- An ICMP echo reply (type 0) as a received packet. -/
def exampleEchoReply : PppState :=
  { zeroState 16 34 with
    pkt := { buf := [0xff, 0x03, 0x00, 0x21,
                     0x45, 0, 0, 0x1c, 0x12, 0x34, 0x40, 0, 0x40, 1, 0xaa, 0xbb, 10, 0, 0, 1, 10, 0, 0, 2,
                     0, 0, 0, 0, 0, 1, 0, 1, 0, 0],
             len := 34, crc := 0xf0b8 } }

/-- A state holding a UDP datagram from 10.0.0.1:49153 to 10.0.0.2:7 with a
20-byte IP header, the given IP total length and payload, followed by `pad`
spare buffer bytes; the UDP length is the IP total length minus 20. -/
def exampleUdp (ipLen : Nat) (payload : List Nat) (pad : Nat) : PppState :=
  { zeroState 16 0 with
    responseCounter := 7,
    pkt := { buf := [0xff, 0x03, 0x00, 0x21,
                     0x45, 0, ipLen / 256, ipLen % 256, 0x12, 0x34, 0x40, 0, 0x40, 17, 0, 0,
                     10, 0, 0, 1, 10, 0, 0, 2,
                     0xc0, 0x01, 0, 7, (ipLen - 20) / 256, (ipLen - 20) % 256, 0, 0]
                    ++ payload ++ List.replicate pad 0,
             len := 4 + ipLen + 2, crc := 0xf0b8 } }

/-- A UDP datagram whose payload is "hello". -/
def exampleUdpHello : PppState := exampleUdp 33 (strBytes "hello") 2

/-! ## The HTTP response as a text, used to state and prove the properties -/

/-- Status line and header lines of a response, up to and including the blank
line, with the Content-Length field holding `bodyLen`. -/
def httpHeader (ok : Bool) (bodyLen : Nat) : List Nat :=
  (if ok then strBytes "HTTP/1.1 200 OK\r\nServer: Blinky-Radio\r\n"
    else strBytes "HTTP/1.1 404 Not Found\r\nServer: Blinky-Radio\r\n")
  ++ (strBytes "Content-Length: " ++ (contentLengthString bodyLen ++ (strBytes "\r\n"
  ++ (strBytes "Connection: close\r\n"
  ++ strBytes "Content-Type: text/html; charset=us-ascii\r\n\r\n"))))

/-- The packet buffer `httpResponse` leaves behind for a request that starts
with "GET /": the stores of the function in their order. -/
def httpBufGet (buf : List Nat) (dataStart : Nat) : List Nat :=
  let t1 := strBytes "HTTP/1.1 200 OK\r\nServer: Blinky-Radio\r\n"
  let b1 := sprintfAt buf (0 + dataStart) t1
  let n1 := 0 + t1.length
  let t2 := strBytes "Content-Length: "
  let b2 := sprintfAt b1 (n1 + dataStart) t2
  let n2 := n1 + t2.length
  let contentLengthStart := n2
  let t3 := strBytes "?????\r\n"
  let b3 := sprintfAt b2 (n2 + dataStart) t3
  let n3 := n2 + t3.length
  let t4 := strBytes "Connection: close\r\n"
  let b4 := sprintfAt b3 (n3 + dataStart) t4
  let n4 := n3 + t4.length
  let t5 := strBytes "Content-Type: text/html; charset=us-ascii\r\n\r\n"
  let b5 := sprintfAt b4 (n4 + dataStart) t5
  let n5 := n4 + t5.length
  let nHeader := n5
  pokeList (pokeList b5 (n5 + dataStart) (rootWebPage ++ [0])) (dataStart + contentLengthStart)
    (contentLengthString (n5 + (rootWebPage.length + 1) - 1 - nHeader))

/-- The packet buffer `httpResponse` leaves behind for any other request. -/
def httpBufNotFound (buf : List Nat) (dataStart : Nat) : List Nat :=
  let t1 := strBytes "HTTP/1.1 404 Not Found\r\nServer: Blinky-Radio\r\n"
  let b1 := sprintfAt buf (0 + dataStart) t1
  let n1 := 0 + t1.length
  let t2 := strBytes "Content-Length: "
  let b2 := sprintfAt b1 (n1 + dataStart) t2
  let n2 := n1 + t2.length
  let contentLengthStart := n2
  let t3 := strBytes "?????\r\n"
  let b3 := sprintfAt b2 (n2 + dataStart) t3
  let n3 := n2 + t3.length
  let t4 := strBytes "Connection: close\r\n"
  let b4 := sprintfAt b3 (n3 + dataStart) t4
  let n4 := n3 + t4.length
  let t5 := strBytes "Content-Type: text/html; charset=us-ascii\r\n\r\n"
  let b5 := sprintfAt b4 (n4 + dataStart) t5
  let n5 := n4 + t5.length
  let nHeader := n5
  pokeList b5 (dataStart + contentLengthStart) (contentLengthString (n5 - nHeader))

/-- An ACK|PSH segment whose payload is an HTTP GET of the path `/x`, in a
buffer of 600 bytes. -/
def exampleGetX : PppState := exampleTcp 0x18 59 (strBytes "GET /x HTTP/1.1\r\n\r\n") 537

/-- An ACK|PSH segment whose payload is an HTTP POST, in a buffer of 600 bytes. -/
def examplePost : PppState := exampleTcp 0x18 59 (strBytes "POST / HTTP/1.1\r\n\r\n") 537

/-- One request served by `httpResponse`: the request text `req` is placed at
`dataStart` of the packet buffer and the response is built over it. -/
def httpServe (dataStart : Nat) (s : PppState) (req : List Nat) : PppState :=
  (httpResponse { s with pkt := { s.pkt with buf := pokeList s.pkt.buf dataStart req } } dataStart).1

/-- A sequence of requests served one after the other. -/
def httpServeAll (dataStart : Nat) (s : PppState) (reqs : List (List Nat)) : PppState :=
  reqs.foldl (httpServe dataStart) s

/-! ## Checksummed packets, used to state and prove the properties -/

/-- The packet buffer after `IpHeaderCheckSum` ran on the buffer `B` with the
accumulator `sum`. -/
def ipChecksummed (sum : Nat) (B : List Nat) : List Nat :=
  poke16 (poke16 B (ipStart + 10) 0) (ipStart + 10)
    (REV16 (dataCheckSum sum (poke16 B (ipStart + 10) 0) ipStart (4 * ipHeaderLength B) 1))

/-- The packet buffer after the pseudo-header pass and the checksum of the
transport segment of `L` bytes at `T`, whose checksum field is at offset `f`. -/
def transportChecksummed (sum : Nat) (B : List Nat) (T f L : Nat) : List Nat :=
  poke16 (poke16 B (T + f) 0) (T + f)
    (REV16 (dataCheckSum (dataCheckSumAcc sum (pseudoHeaderBytes B L) 0 12 1)
      (poke16 B (T + f) 0) T L 0))

/-- The packet buffer of a TCP reply when `tcpReply` has written addresses,
ports, numbers, flags and the IP total length, before the checksums; the TCP
header is at byte 24. -/
def tcpFilled (buf : List Nat) (a q f d : Nat) : List Nat :=
  let b1 := poke32 (poke32 buf (ipStart + 12) (peek32 buf (ipStart + 16))) (ipStart + 16)
    (peek32 buf (ipStart + 12))
  let b2 := poke16 (poke16 b1 24 (peek16 b1 26)) 26 (peek16 b1 24)
  poke16 (poke (poke32 (poke32 b2 32 (REV a)) 28 (REV q)) 37 f) (ipStart + 2) (REV16 (20 + (20 + d)))

/-- Payload length of the reply of `tcpHandler`: the length of the HTTP
response when the segment is an ACK or ACK|PSH that is not an empty ACK and
whose payload starts with "GET /", and 0 otherwise. -/
def tcpReplyLen (s : PppState) : Nat :=
  if (peek s.pkt.buf (ipStart + 20 + 13) = TCP_FLAG_ACK
        ∨ peek s.pkt.buf (ipStart + 20 + 13) = (TCP_FLAG_ACK ||| TCP_FLAG_PSH))
      ∧ ¬ (peek s.pkt.buf (ipStart + 20 + 13) = TCP_FLAG_ACK ∧ tcpDataSize s = 0)
      ∧ peekList (tcpNormalized s).pkt.buf (tcpDataIn s) 5 = strBytes "GET /" then
    (httpResponse (tcpNormalized s) (ipStart + 20 + 20)).2.1
  else 0

/-- A state holding a TCP packet from 10.0.0.1:49153 to 10.0.0.2:80 whose IP
header carries one option word (`01 01 01 00`, three no-operation options and
the end-of-list option), so the IP header is 24 bytes long: sequence number
1000, acknowledgement number 0x10100001, flags ACK|PSH, three payload bytes,
IP total length 47. -/
def exampleTcpIpOption : PppState :=
  { zeroState 16 0 with
    pkt := { buf := [0xff, 0x03, 0x00, 0x21,
                     0x46, 0, 0, 47, 0x12, 0x34, 0x40, 0, 0x40, 6, 0, 0,
                     10, 0, 0, 1, 10, 0, 0, 2,
                     1, 1, 1, 0,
                     0xc0, 0x01, 0, 80, 0, 0, 0x03, 0xe8, 0x10, 0x10, 0, 1, 0x50, 0x18, 0x20, 0,
                     0, 0, 0, 0, 1, 2, 3, 0, 0],
             len := 53, crc := 0xf0b8 } }

/-! ## UDP packets, used to state and prove the properties -/

/-- Offset of the UDP header behind the IP header of a packet buffer,
`ppp.udpStart = ppp.ipStart + 4 * ppp.ip->headerLength`. -/
def udpOffset (buf : List Nat) : Nat := ipStart + 4 * ipHeaderLength buf

/-- The UDP length field of a packet buffer (bytes 4 and 5 of the UDP header),
read big-endian. -/
def udpLengthField (buf : List Nat) : Nat :=
  peek buf (udpOffset buf + 4) * 256 + peek buf (udpOffset buf + 4 + 1)

/-- The packet buffer after `swapIpAddresses` and `swapIpPorts`, store by
store, with the ports at `U`. -/
def udpSwapped (buf : List Nat) (U : Nat) : List Nat :=
  poke16
    (poke16
      (poke32 (poke32 buf (ipStart + 12) (peek32 buf (ipStart + 16))) (ipStart + 16)
        (peek32 buf (ipStart + 12)))
      U
      (peek16 (poke32 (poke32 buf (ipStart + 12) (peek32 buf (ipStart + 16))) (ipStart + 16)
        (peek32 buf (ipStart + 12))) (U + 2)))
    (U + 2)
    (peek16 (poke32 (poke32 buf (ipStart + 12) (peek32 buf (ipStart + 16))) (ipStart + 16)
      (peek32 buf (ipStart + 12))) U)

/-- The packet buffer of the echo branch of `UDPpacket` after the two text
stores: "Got\x7b" over the first four payload bytes and the appendix behind
the `udpData` payload bytes. -/
def udpEchoText (buf : List Nat) (U udpData : Nat) : List Nat :=
  sprintfAt (pokeList (udpSwapped buf U) (U + 8) (strBytes "Got\x7b"))
    (U + 8 + udpData) (strBytes "\x7d UDP Server: PPP-Blinky\n")

/-- The packet buffer of the echo branch of `UDPpacket` before the checksums:
the two length fields are written behind the text stores. -/
def udpEchoFilled (buf : List Nat) (U ipAll udpAll1 udpData : Nat) : List Nat :=
  poke16 (poke16 (udpEchoText buf U udpData) (ipStart + 2) (REV16 ipAll)) (U + 4) (REV16 udpAll1)

/-- A UDP datagram whose payload is "echo hi", in a buffer with room for the reply. -/
def exampleUdpEcho : PppState := exampleUdp 35 (strBytes "echo hi") 27

/-- The packet buffer after the stores of `initIP` in front of the addresses:
PPP header, version, header length, ident, the flag bit, TTL and protocol. -/
def initIPHead (buf : List Nat) (ident protocol : Nat) : List Nat :=
  let b1 := poke buf 0 0xff
  let b2 := poke b1 1 3
  let b3 := poke16 b2 2 (REV16 0x0021)
  let b4 := poke b3 ipStart (4 * 16 + peek b3 ipStart % 16)
  let b5 := setIpHeaderLength b4 5
  let b6 := poke16 b5 (ipStart + 4) (REV16 ident)
  let b7 := poke b6 (ipStart + 6) (peek b6 (ipStart + 6) ||| 0x40)
  let b8 := poke b7 (ipStart + 8) 128
  poke b8 (ipStart + 9) protocol

/-- The packet buffer `initIP` leaves: addresses and ports stored behind the
head of the header. -/
def initIPBuf (buf : List Nat) (ident srcIp dstIp srcPort dstPort protocol : Nat) : List Nat :=
  poke16
    (poke16
      (poke32 (poke32 (initIPHead buf ident protocol) (ipStart + 12) (REV srcIp)) (ipStart + 16)
        (REV dstIp))
      (ipStart + 20 + 0) (REV16 srcPort))
    (ipStart + 20 + 2) (REV16 dstPort)

/-- The text the test branch of `UDPpacket` prints with "Response Count %d\n". -/
def udpTestText (rc : Nat) : List Nat :=
  strBytes "Response Count " ++ decBytes rc ++ strBytes "\n"

/-- The packet buffer of `sendUdp` before the checksums, for a message of
`n` bytes at offset `message` of the buffer `B` that `initIP` left. -/
def sendUdpFilled (B : List Nat) (message n : Nat) : List Nat :=
  poke16
    (pokeList (poke16 B (ipStart + 2) (REV16 ((20 + (n + 8) % 4294967296) % 4294967296)))
      (ipStart + 20 + 8)
      (peekList (poke16 B (ipStart + 2) (REV16 ((20 + (n + 8) % 4294967296) % 4294967296)))
        message n))
    (ipStart + 20 + 4) (REV16 ((n + 8) % 4294967296))

/-- A UDP datagram whose payload is "test", in a buffer of 236 bytes; the
response counter is 7. -/
def exampleUdpTest : PppState := exampleUdp 32 (strBytes "test") 200

/-! ## The table form of the CRC, used to state the refinement -/

/-- Entry `T[i]` of the table of the reflected CRC-16, as the specification
words it: `i` after 8 steps of "shift right, XOR 0x8408 if the bit shifted
out was 1". -/
def crcTable (i : Nat) : Nat := crcShift^[8] i

/-- The table-driven update of the specification:
`(c >> 8) XOR T[(c XOR b) AND 0xFF]`. -/
def crcTableUpdate (c b : Nat) : Nat := (c >>> 8) ^^^ crcTable ((c ^^^ b) &&& 0xff)

/-- An IP packet from 10.0.0.1:49153 to 10.0.0.2:80 with a 24-byte IP header
(one option word), as a received packet. -/
def exampleSwap : PppState :=
  { zeroState 16 0 with
    pkt := { buf := [0xff, 0x03, 0x00, 0x21,
                     0x46, 0, 0, 44, 0x12, 0x34, 0x40, 0, 0x40, 6, 0, 0,
                     10, 0, 0, 1, 10, 0, 0, 2,
                     1, 1, 1, 0,
                     0xc0, 0x01, 0, 80, 0, 0, 0x03, 0xe8, 0, 0, 0, 0, 0x50, 0x02, 0x20, 0,
                     0, 0, 0, 0, 0, 0],
             len := 50, crc := 0xf0b8 } }

/-! ## The deframer in closed form, used to state and prove the properties -/

/-- The de-stuffed bytes of the ring span from `start` up to, not including,
`end_`. -/
def spanData (N : Nat) (s : PppState) (start end_ : Nat) : List Nat :=
  destuff false (spanBytes N s.rx.buf start ((end_ + N - start) % N))

/-- State of `processPPPFrame` before the CRC test, in closed form: the
de-stuffed span at the start of the packet buffer, its length in `pkt.len`
and its FCS in `fcs` and `pkt.crc`. -/
def deframed (N : Nat) (s : PppState) (start end_ : Nat) : PppState :=
  { s with
    fcs := (spanData N s start end_).foldl fcsDo fcsReset,
    pkt := { buf := pokeList s.pkt.buf 0 (spanData N s start end_),
             len := (spanData N s start end_).length,
             crc := (spanData N s start end_).foldl fcsDo fcsReset } }

/-- Result of `processPPPFrame(start, end)` in closed form. -/
def frameResult (N : Nat) (s : PppState) (start end_ : Nat) : PppState :=
  if start = end_ then s
  else if (deframed N s start end_).pkt.crc = 0xf0b8 then
    determinePacketType N (deframed N s start end_)
  else deframed N s start end_

/-- A receiver whose 8-byte ring holds the span `7d 7d 41 7d 5e`, starting at
index 6 and wrapping around the end of the ring to index 3. -/
def exampleEscapes : PppState :=
  { zeroState 8 8 with
    firstFrame := 0,
    rx := { buf := [0x41, 0x7d, 0x5e, 0x7e, 0, 0x7e, 0x7d, 0x7d], head := 4, tail := 6, rtail := 6,
            buflevel := 6 },
    hdlc := { frameStartIndex := 6, frameEndIndex := 0 } }

/-- A RST segment in a buffer of 600 bytes whose bytes from 44 on are 0x55. -/
def exampleRstStale : PppState := exampleTcp 0x04 40 (List.replicate 556 0x55) 0

/-! ## The receive side of the link state, used to state and prove the properties -/

/-- Two states agree on the receive side: the ring with its cursors, the
first-frame flag and the frame markers. -/
def sameLink (a b : PppState) : Prop :=
  a.rx = b.rx ∧ a.firstFrame = b.firstFrame ∧ a.hdlc = b.hdlc

/-- The packet is an LCP terminate request: the one packet for which the
dispatcher reaches `LCPend`, and with it `pppInitStruct`. -/
def isLcpTerminate (buf : List Nat) : Prop :=
  peek buf 0 = 0xff ∧ peek buf 1 = 3 ∧ REV16 (peek16 buf 2) = 0xc021 ∧ peek buf 4 = 5

instance (buf : List Nat) : Decidable (isLcpTerminate buf) := by
  unfold isLcpTerminate
  infer_instance

/-- The two assignments of `pppReceiveHandler` behind the call of
`processPPPFrame`: `rtail` and `frameStartIndex` take the value of `tail`. -/
def rxFinish (s : PppState) : PppState :=
  { s with rx := { s.rx with rtail := s.rx.tail },
           hdlc := { s.hdlc with frameStartIndex := s.rx.tail } }

/-- The frame scan of `pppReceiveHandler` up to the call of
`processPPPFrame`, with at most `fuel` passes: the state in which the call is
made (the closing flag consumed, `frameEndIndex` set) and `true`, or the
state in which the scan ends without a call and `false`. -/
def rxSkip (RXBUFLEN : Nat) : Nat → PppState → PppState × Bool
  | 0, s => (s, false)
  | fuel + 1, s =>
    if s.rx.head ≠ s.rx.tail then
      if peek s.rx.buf s.rx.tail = 0x7e then
        if s.firstFrame ≠ 0 then
          rxSkip RXBUFLEN fuel
            { s with rx := { s.rx with tail := (s.rx.tail + 1) &&& (RXBUFLEN - 1),
                                       rtail := (s.rx.tail + 1) &&& (RXBUFLEN - 1),
                                       buflevel := s.rx.buflevel - 1 },
                     hdlc := { s.hdlc with frameStartIndex := (s.rx.tail + 1) &&& (RXBUFLEN - 1) },
                     firstFrame := 0 }
        else
          ({ s with rx := { s.rx with tail := (s.rx.tail + 1) &&& (RXBUFLEN - 1),
                                      buflevel := s.rx.buflevel - 1 },
                    hdlc := { s.hdlc with frameEndIndex := s.rx.tail } }, true)
      else
        rxSkip RXBUFLEN fuel
          { s with rx := { s.rx with tail := (s.rx.tail + 1) &&& (RXBUFLEN - 1),
                                     buflevel := s.rx.buflevel - 1 } }
    else (s, false)

/-- The ring invariant: the three cursors are ring indices, going forward
from `rtail` one meets `tail` and then `head` within one turn of the ring,
and `buflevel` is the number of unread bytes. -/
def RingInv (N : Nat) (s : PppState) : Prop :=
  s.rx.head < N ∧ s.rx.tail < N ∧ s.rx.rtail < N
  ∧ (s.rx.tail + N - s.rx.rtail) % N + (s.rx.head + N - s.rx.tail) % N
      = (s.rx.head + N - s.rx.rtail) % N
  ∧ s.rx.buflevel = (((s.rx.head + N - s.rx.tail) % N : Nat) : Int)

/-- The ring invariant together with the bound on the frame start marker that
the frame scan needs. -/
def ScanInv (N : Nat) (s : PppState) : Prop :=
  RingInv N s ∧ s.hdlc.frameStartIndex < N

/-- A run of calls of `pppReceiveHandler`: `arrivals` lists the bytes that
reach the serial driver before each call, `pending` the bytes the driver
still holds from before. -/
def receiveCalls (RXBUFLEN fuel : Nat) :
    PppState → List Nat → List (List Nat) → Option (PppState × List Nat)
  | s, pending, [] => some (s, pending)
  | s, pending, a :: rest =>
    match pppReceiveHandler RXBUFLEN fuel s (pending ++ a) with
    | none => none
    | some r => receiveCalls RXBUFLEN fuel r.1 r.2 rest

/-- The frame handed to `processPPPFrame` is a valid LCP terminate request:
the span is not empty, its FCS is good and the dispatcher reaches `LCPend`. -/
def isTerminateFrame (N : Nat) (s : PppState) (start end_ : Nat) : Prop :=
  start ≠ end_ ∧ (deframed N s start end_).pkt.crc = 0xf0b8
    ∧ isLcpTerminate (deframed N s start end_).pkt.buf

instance (N : Nat) (s : PppState) (start end_ : Nat) :
    Decidable (isTerminateFrame N s start end_) := by
  unfold isTerminateFrame
  infer_instance

/-- The state in which `pppReceiveHandler`, entered with `s`, calls
`processPPPFrame`: the flag is consumed by `pc_getBuf` and `frameEndIndex`
holds the index of the flag. -/
def rxCallState (RXBUFLEN : Nat) (s : PppState) : PppState :=
  { (pc_getBuf RXBUFLEN s).2 with
    hdlc := { (pc_getBuf RXBUFLEN s).2.hdlc with frameEndIndex := s.rx.tail } }

/-- A receiver whose 16-byte ring holds, behind the opening flag at index 0,
a complete LCP terminate request with its FCS and closing flag at index 11;
the opening flag has been consumed. -/
def exampleTerminateRing : PppState :=
  { zeroState 16 16 with
    online := 1, firstFrame := 0,
    hdlc := { frameStartIndex := 1, frameEndIndex := 0 },
    rx := { buf := [0x7e, 0xff, 0x03, 0xc0, 0x21, 0x05, 0x01, 0x00, 0x04, 0x3d, 0xc7, 0x7e,
                    0, 0, 0, 0],
            head := 12, tail := 1, rtail := 1, buflevel := 11 } }

/-- The state in which the closing flag at index 11 of `exampleTerminateRing`
has been consumed and `processPPPFrame` is called. -/
def exampleTerminateCall : PppState :=
  { exampleTerminateRing with
    rx := { exampleTerminateRing.rx with tail := 12, buflevel := 0 },
    hdlc := { frameStartIndex := 1, frameEndIndex := 11 } }

/-- Serial input that holds two complete frames: an LCP terminate request
and the frame `41 42`. -/
def exampleTwoFrames : List Nat :=
  [0x7e, 0xff, 0x03, 0xc0, 0x21, 0x05, 0x02, 0x00, 0x04, 0x59, 0x28, 0x7e, 0x41, 0x42, 0x7e]

/-- The state in which `pppReceiveHandler`, run from the initial state on
`exampleTwoFrames` with a 32-byte ring, calls `processPPPFrame`: both frames
are in the ring and the closing flag of the first, at index 11, is consumed. -/
def exampleTwoFramesCall : PppState :=
  { pppInitStruct 32 (zeroState 32 16) with
    online := 1, firstFrame := 0,
    hdlc := { frameStartIndex := 1, frameEndIndex := 11 },
    rx := { buf := exampleTwoFrames ++ List.replicate 17 0, head := 15, tail := 12, rtail := 1,
            buflevel := 3 } }

/-- Serial input that holds the two complete frames `41` and `42`. -/
def exampleTwoPlain : List Nat := [0x7e, 0x41, 0x7e, 0x42, 0x7e]

/-- A receiver whose 8-byte ring holds the flag, the byte 0x41, two adjacent
flags and the byte 0x42, all unread, before the first frame start. -/
def exampleScan : PppState :=
  { zeroState 8 8 with
    online := 1, firstFrame := 1,
    rx := { buf := [0x7e, 0x41, 0x7e, 0x7e, 0x42, 0, 0, 0], head := 5, tail := 0, rtail := 0,
            buflevel := 5 } }

/-! ## Base-64 encoder -/

/-- The table `lut` of the encoder: the 64 characters of the alphabet,
followed by the padding character. -/
def lut : List Nat :=
  strBytes "ABCDEFGHIJKLMNOPQRSTUVWXYZabcdefghijklmnopqrstuvwxyz0123456789+/="

/-- The locals `i`, `j`, `a`, `b`, `c` of `enc64` and the memory at `out`.
The input characters are taken as values 0..255; only bits the masks keep
enter the table indices, so the signedness of `char` makes no difference. -/
structure Enc64 where
  i : Nat
  j : Nat
  a : Nat
  b : Nat
  c : Nat
  out : List Nat
deriving DecidableEq, Repr

/-- The body of the first `if (i<len)` of the loop of `enc64`:
`a = in[i++]; out[j++] = lut[(a >> 2) & 0x3f]`. -/
def enc64First (inp : List Nat) (st : Enc64) : Enc64 :=
  let a := peek inp st.i
  { st with a := a, i := st.i + 1,
            out := poke st.out st.j (peek lut ((a >>> 2) &&& 0x3f)), j := st.j + 1 }

/-- The second `if (i<len) ... else out[j++] = '='` of the loop of `enc64`. -/
def enc64Second (inp : List Nat) (len : Int) (st : Enc64) : Enc64 :=
  if (st.i : Int) < len then
    let b := peek inp st.i
    let out1 := poke st.out st.j (peek lut (((st.a <<< 4) &&& 0x30) ||| ((b >>> 4) &&& 0x0f)))
    let out2 := poke out1 (st.j + 1) (peek lut ((b <<< 2) &&& 0x3c))
    { st with b := b, i := st.i + 1, out := out2, j := st.j + 2 }
  else
    { st with out := poke st.out st.j 0x3d, j := st.j + 1 }

/-- The third `if (i<len) ... else out[j++] = '='` of the loop of `enc64`;
the branch taken starts with `j--`. -/
def enc64Third (inp : List Nat) (len : Int) (st : Enc64) : Enc64 :=
  if (st.i : Int) < len then
    let c := peek inp st.i
    let j1 := st.j - 1
    let out1 := poke st.out j1 (peek lut (((st.b <<< 2) &&& 0x3c) ||| ((c >>> 6) &&& 0x03)))
    let out2 := poke out1 (j1 + 1) (peek lut ((c >>> 0) &&& 0x3f))
    { st with c := c, i := st.i + 1, out := out2, j := j1 + 2 }
  else
    { st with out := poke st.out st.j 0x3d, j := st.j + 1 }

/-- The `while(1)` loop of `enc64` with at most `fuel` passes; it is left by
the `break` of the first `if`.  `none` means the passes ran out. -/
def enc64Loop (inp : List Nat) (len : Int) : Nat → Enc64 → Option Enc64
  | 0, _ => none
  | fuel + 1, st =>
    if (st.i : Int) < len then
      enc64Loop inp len fuel (enc64Third inp len (enc64Second inp len (enc64First inp st)))
    else some st

/-- Base-64 encoder, `enc64(in, out, len)`, with at most `fuel` passes of its
loop: the memory at `out` after the call.  The locals `a`, `b`, `c` are not
initialised in C; none is read before it is assigned. -/
def enc64 (fuel : Nat) (inp out : List Nat) (len : Int) : Option (List Nat) :=
  match enc64Loop inp len fuel { i := 0, j := 0, a := 0, b := 0, c := 0, out := out } with
  | none => none
  | some st => some (poke st.out st.j 0)

/-- Character number `n` of the base-64 alphabet of RFC 4648: A..Z, a..z,
0..9, plus, slash. -/
def base64Char (n : Nat) : Nat :=
  if n < 26 then 65 + n
  else if n < 52 then 97 + (n - 26)
  else if n < 62 then 48 + (n - 52)
  else if n = 62 then 43
  else 47

/-- The standard base-64 encoding of a byte sequence as RFC 4648 states it:
each group of three bytes gives four characters of six bits each; a last
group of two bytes gives three characters and one padding character, a last
group of one byte two characters and two padding characters. -/
def base64 : List Nat → List Nat
  | [] => []
  | [a] => [base64Char (a / 4), base64Char (a % 4 * 16), 0x3d, 0x3d]
  | [a, b] => [base64Char (a / 4), base64Char (a % 4 * 16 + b / 16), base64Char (b % 16 * 4), 0x3d]
  | a :: b :: c :: rest =>
    [base64Char (a / 4), base64Char (a % 4 * 16 + b / 16), base64Char (b % 16 * 4 + c / 64),
      base64Char (c % 64)] ++ base64 rest

/-- The characters `enc64` writes for an input, in closed form: as the
standard encoding, except that a last group of one byte gives one character
and two padding characters. -/
def enc64Text : List Nat → List Nat
  | [] => []
  | [a] => [peek lut ((a >>> 2) &&& 0x3f), 0x3d, 0x3d]
  | [a, b] =>
    [peek lut ((a >>> 2) &&& 0x3f), peek lut (((a <<< 4) &&& 0x30) ||| ((b >>> 4) &&& 0x0f)),
      peek lut ((b <<< 2) &&& 0x3c), 0x3d]
  | a :: b :: c :: rest =>
    [peek lut ((a >>> 2) &&& 0x3f), peek lut (((a <<< 4) &&& 0x30) ||| ((b >>> 4) &&& 0x0f)),
      peek lut (((b <<< 2) &&& 0x3c) ||| ((c >>> 6) &&& 0x03)), peek lut ((c >>> 0) &&& 0x3f)]
      ++ enc64Text rest

/-! # Properties -/

/-! ## Frame check sequence -/

theorem shiftRight_one_eq (c : Nat) : c >>> 1 = c / 2 := by
  rw [Nat.shiftRight_eq_div_pow]

theorem fcsStep_eq_crcShift (c x : Nat) : fcsStep c x = crcShift (c ^^^ (x % 2)) := by
  unfold fcsStep crcShift
  have h1 : (c ^^^ (x % 2)) / 2 = c / 2 := by
    rw [Nat.xor_div_two]
    have : (x % 2) / 2 = 0 := by omega
    rw [this, Nat.xor_zero]
  rw [h1, Nat.and_one_is_mod, Nat.and_one_is_mod, Nat.xor_mod_two_eq, shiftRight_one_eq]
  rcases Nat.mod_two_eq_zero_or_one c with hc | hc <;>
    rcases Nat.mod_two_eq_zero_or_one x with hx | hx <;>
    simp [hc, hx, Nat.add_mod]

theorem crcShift_xor (a b : Nat) : crcShift (a ^^^ b) = crcShift a ^^^ crcShift b := by
  unfold crcShift
  rw [Nat.xor_div_two, Nat.xor_mod_two_eq]
  rcases Nat.mod_two_eq_zero_or_one a with ha | ha <;>
    rcases Nat.mod_two_eq_zero_or_one b with hb | hb <;>
    simp [ha, hb, Nat.add_mod]
  · ac_rfl
  · ac_rfl
  · rw [show a / 2 ^^^ 33800 ^^^ (b / 2 ^^^ 33800) = a / 2 ^^^ b / 2 ^^^ (33800 ^^^ 33800) by ac_rfl]
    simp

theorem crcShift_iter_xor (k a b : Nat) :
    crcShift^[k] (a ^^^ b) = crcShift^[k] a ^^^ crcShift^[k] b := by
  induction k generalizing a b with
  | zero => rfl
  | succ k ih => simp only [Function.iterate_succ, Function.comp_apply, crcShift_xor, ih]

theorem crcShift_xor_low (c x : Nat) :
    crcShift (c ^^^ x) = crcShift (c ^^^ (x % 2)) ^^^ (x / 2) := by
  have h0 : (x % 2) / 2 = 0 := by omega
  have h1 : (c + x % 2) % 2 = (c + x) % 2 := by omega
  unfold crcShift
  rw [Nat.xor_div_two, Nat.xor_div_two, Nat.xor_mod_two_eq, Nat.xor_mod_two_eq, h0, h1, Nat.xor_zero]
  ac_rfl

theorem fcsLoop_eq (k c x : Nat) : fcsLoop k c x = crcShift^[k] (c ^^^ (x % 2 ^ k)) := by
  induction k generalizing c x with
  | zero => simp [fcsLoop, Nat.mod_one]
  | succ k ih =>
    have e1 : x % 2 ^ (k + 1) % 2 = x % 2 := by
      rw [pow_succ, Nat.mul_comm]; exact Nat.mod_mul_right_mod x 2 (2 ^ k)
    have e2 : x % 2 ^ (k + 1) / 2 = x / 2 % 2 ^ k := by
      rw [pow_succ, Nat.mul_comm]; exact Nat.mod_mul_right_div_self x 2 (2 ^ k)
    rw [fcsLoop, ih, Function.iterate_succ, Function.comp_apply, fcsStep_eq_crcShift,
      shiftRight_one_eq, crcShift_xor_low c (x % 2 ^ (k + 1)), e1, e2]

theorem fcsDo_eq (c x : Nat) : fcsDo c x = crcShift^[8] (c ^^^ (x % 256)) := by
  unfold fcsDo; rw [fcsLoop_eq]; norm_num

theorem fcsDo_mod (c x : Nat) : fcsDo c (x % 256) = fcsDo c x := by
  rw [fcsDo_eq, fcsDo_eq, Nat.mod_mod]

theorem crcShift_double (m : Nat) : crcShift (2 * m) = m := by
  unfold crcShift
  have h1 : 2 * m / 2 = m := by omega
  have h2 : ¬ (2 * m % 2 = 1) := by omega
  rw [h1, if_neg h2, Nat.xor_zero]

theorem crcShift_iter_shift (k m : Nat) : crcShift^[k] (2 ^ k * m) = m := by
  induction k generalizing m with
  | zero => simp
  | succ k ih =>
    rw [Function.iterate_succ, Function.comp_apply, pow_succ,
      show 2 ^ k * 2 * m = 2 * (2 ^ k * m) by ring, crcShift_double, ih]

theorem xor_split (a k : Nat) : (2 ^ k * (a / 2 ^ k)) ^^^ (a % 2 ^ k) = a := by
  apply Nat.eq_of_testBit_eq
  intro i
  rw [Nat.testBit_xor, Nat.testBit_mod_two_pow, ← Nat.shiftRight_eq_div_pow, Nat.mul_comm,
    ← Nat.shiftLeft_eq, Nat.testBit_shiftLeft, Nat.testBit_shiftRight]
  by_cases h : i < k
  · simp [h, Nat.not_le.mpr h]
  · have h2 : k ≤ i := Nat.le_of_not_lt h
    simp [h, h2, Nat.add_sub_cancel' h2]

/-- The table form of eight shifts: the high part passes through, the low
byte selects a table entry. -/
theorem crcShift_iter_table (k a : Nat) :
    crcShift^[k] a = (a / 2 ^ k) ^^^ crcShift^[k] (a % 2 ^ k) := by
  conv_lhs => rw [← xor_split a k]
  rw [crcShift_iter_xor, crcShift_iter_shift]

theorem fcsStep_lt (c x : Nat) (hc : c < 65536) : fcsStep c x < 65536 := by
  unfold fcsStep
  have h1 : c >>> 1 < 2 ^ 16 := by rw [shiftRight_one_eq]; omega
  split
  · exact Nat.xor_lt_two_pow h1 (by norm_num)
  · exact h1

theorem fcsLoop_lt (k c x : Nat) (hc : c < 65536) : fcsLoop k c x < 65536 := by
  induction k generalizing c x with
  | zero => exact hc
  | succ k ih => exact ih _ _ (fcsStep_lt c x hc)

theorem fcsDo_lt (c x : Nat) (hc : c < 65536) : fcsDo c x < 65536 := fcsLoop_lt 8 c x hc


theorem fcsLo_eq (c : Nat) : fcsLo c = 255 - c % 256 := by
  unfold fcsLo
  have h : (~~~ (c : Int)) >>> 0 = Int.negSucc c := rfl
  rw [h, Int.negSucc_eq]
  omega

theorem fcsHi_eq (c : Nat) : fcsHi c = 255 - c / 256 % 256 := by
  unfold fcsHi
  have h : (~~~ (c : Int)) >>> 8 = Int.negSucc (c >>> 8) := rfl
  rw [h, Nat.shiftRight_eq_div_pow, Int.negSucc_eq]
  norm_num
  omega

set_option maxRecDepth 100000 in
theorem xor_complement_byte : ∀ l, l < 256 → l ^^^ (255 - l) = 255 := by decide

theorem crc_of_ff : crcShift^[8] 255 = 0x0f78 := by decide

theorem crc_residue_const : crcShift^[8] (0x0f78 ^^^ 255) = 0xf0b8 := by decide

theorem fcs_residue (c : Nat) (hc : c < 65536) :
    fcsDo (fcsDo c (fcsLo c)) (fcsHi c) = 0xf0b8 := by
  have hl : c % 256 < 256 := Nat.mod_lt _ (by norm_num)
  have hh : c / 256 < 256 := by omega
  have hhm : c / 256 % 256 = c / 256 := Nat.mod_eq_of_lt hh
  have e0 : c ^^^ (255 - c % 256) = 2 ^ 8 * (c / 256) ^^^ 255 := by
    have hs := xor_split c 8
    norm_num at hs
    calc c ^^^ (255 - c % 256)
        = (256 * (c / 256) ^^^ c % 256) ^^^ (255 - c % 256) := by rw [hs]
      _ = 2 ^ 8 * (c / 256) ^^^ 255 := by
          rw [Nat.xor_assoc, xor_complement_byte _ hl]; norm_num
  have e1 : fcsDo c (fcsLo c) = (c / 256) ^^^ 0x0f78 := by
    rw [fcsDo_eq, fcsLo_eq, Nat.mod_eq_of_lt (by omega : 255 - c % 256 < 256), e0,
      crcShift_iter_xor, crcShift_iter_shift, crc_of_ff]
  rw [e1, fcsDo_eq, fcsHi_eq, hhm, Nat.mod_eq_of_lt (by omega : 255 - c / 256 < 256),
    Nat.xor_comm (c / 256), Nat.xor_assoc, xor_complement_byte _ hh, crc_residue_const]

theorem peek_lt (buf : List Nat) (i : Nat) : peek buf i < 256 := Nat.mod_lt _ (by norm_num)

theorem peek_cons_zero (a : Nat) (buf : List Nat) : peek (a :: buf) 0 = a % 256 := rfl

theorem peek_cons_succ (a : Nat) (buf : List Nat) (i : Nat) : peek (a :: buf) (i + 1) = peek buf i := rfl

/-- A fold over the indices `0..n-1` that only looks at the bytes read is a fold over those bytes. -/
theorem foldl_range_peek {β : Type} (g : β → Nat → β) (buf : List Nat) (n : Nat) (init : β) :
    (List.range n).foldl (fun acc i => g acc (peek buf i)) init
      = (peekList buf 0 n).foldl g init := by
  unfold peekList
  rw [List.foldl_map]
  simp

theorem peekList_succ (buf : List Nat) (off n : Nat) :
    peekList buf off (n + 1) = peekList buf off n ++ [peek buf (off + n)] := by
  unfold peekList
  rw [List.range_succ, List.map_append]
  rfl

theorem peekList_length (buf : List Nat) (off n : Nat) : (peekList buf off n).length = n := by
  simp [peekList]

theorem peekList_full (D : List Nat) : peekList D 0 D.length = D.map (· % 256) := by
  apply List.ext_getElem
  · simp [peekList]
  · intro i h1 h2
    simp [peekList, peek]
    simp at h2
    simp [List.getD_eq_getElem?_getD, h2]

theorem fcsBuf_eq_foldl (buf : List Nat) (n : Nat) :
    fcsBuf buf n = (peekList buf 0 n).foldl fcsDo fcsReset := by
  unfold fcsBuf
  exact foldl_range_peek fcsDo buf n fcsReset

theorem foldl_fcsDo_mod (D : List Nat) (init : Nat) :
    (D.map (· % 256)).foldl fcsDo init = D.foldl fcsDo init := by
  induction D generalizing init with
  | nil => rfl
  | cons a D ih => simp only [List.map_cons, List.foldl_cons, fcsDo_mod, ih]

theorem foldl_fcsDo_lt (D : List Nat) (init : Nat) (h : init < 65536) :
    D.foldl fcsDo init < 65536 := by
  induction D generalizing init with
  | nil => exact h
  | cons a D ih => exact ih _ (fcsDo_lt _ _ h)

theorem fcsBuf_lt (buf : List Nat) (n : Nat) : fcsBuf buf n < 65536 := by
  rw [fcsBuf_eq_foldl]
  exact foldl_fcsDo_lt _ _ (by decide)

/-- C2 (FCS residue): for every byte sequence `D`, with `c = fcsBuf(D)`, running
`fcsDo` from the seed 0xFFFF over `D`, then over the low byte of `~c` and the
high byte of `~c`, leaves the accumulator at the residue 0xF0B8. -/
theorem fcs_residue_of_sequence (D : List Nat) :
    (D ++ [fcsLo (fcsBuf D D.length), fcsHi (fcsBuf D D.length)]).foldl fcsDo fcsReset = 0xf0b8 := by
  have h : fcsBuf D D.length = D.foldl fcsDo fcsReset := by
    rw [fcsBuf_eq_foldl, peekList_full, foldl_fcsDo_mod]
  rw [List.foldl_append, ← h]
  exact fcs_residue _ (fcsBuf_lt D D.length)

/-! ## HDLC transmit path -/

theorem stuffByte_eq_hdlcPut (s : PppState) (ch : Nat) (h : ch < 256) :
    hdlcPut s ch = { s with tx := s.tx ++ stuffByte ch } := by
  have hx : (ch ^^^ 0x20) % 256 = ch ^^^ 0x20 :=
    Nat.mod_eq_of_lt (Nat.xor_lt_two_pow (n := 8) h (by norm_num))
  unfold hdlcPut stuffByte pcPutcWhileCheckingInput
  split
  · simp [hx]
  · simp [Nat.mod_eq_of_lt h]

theorem hdlcPut_foldl (l : List Nat) (s : PppState) :
    l.foldl (fun st i => hdlcPut st (peek st.pkt.buf i)) s
      = { s with tx := s.tx ++ (l.map (peek s.pkt.buf)).flatMap stuffByte } := by
  induction l generalizing s with
  | nil => simp
  | cons a l ih =>
    rw [List.foldl_cons, ih, stuffByte_eq_hdlcPut _ _ (peek_lt _ _)]
    simp

theorem sendPppFrame_eq (s : PppState) :
    sendPppFrame s = { s with
      responseCounter := s.responseCounter + 1,
      fcs := fcsBuf s.pkt.buf (s.pkt.len - 2),
      pkt := { s.pkt with buf := fcsStored s.pkt.buf s.pkt.len },
      tx := s.tx ++ frameBytes s.pkt.buf s.pkt.len } := by
  unfold sendPppFrame frameBytes stuffed fcsStored peekList
  simp only [hdlcPut_foldl, pcPutcWhileCheckingInput]
  by_cases h : 2 ≤ s.pkt.len
  · simp [h]
  · simp [h]

/-! ## Internet checksum -/

theorem shiftLeft_or_byte (hi lo : Nat) (h : lo < 256) : (hi <<< 8) ||| lo = hi * 256 + lo := by
  rw [Nat.shiftLeft_eq, Nat.mul_comm]
  exact (Nat.mul_add_lt_is_or (i := 8) h hi).symm

theorem wordAt_le (mem : List Nat) (ptr k : Nat) : wordAt mem ptr k ≤ 65535 := by
  unfold wordAt
  have h1 := peek_lt mem (ptr + 2 * k)
  have h2 := peek_lt mem (ptr + 2 * k + 1)
  omega

theorem rawSum_le (mem : List Nat) (ptr n : Nat) : rawSum mem ptr n ≤ n * 65535 := by
  induction n with
  | zero => simp [rawSum]
  | succ n ih =>
    have := wordAt_le mem ptr n
    rw [rawSum]; omega

theorem sumLoop_eq (mem : List Nat) (ptr len sum : Nat) (hs : sum < 4294967296) :
    sumLoop mem ptr len sum = (sum + rawSum mem ptr ((len + 1) / 2)) % 4294967296 := by
  unfold sumLoop
  generalize (len + 1) / 2 = n
  induction n with
  | zero => simp [rawSum, Nat.mod_eq_of_lt hs]
  | succ n ih =>
    rw [List.range_succ, List.foldl_append, ih]
    simp only [List.foldl_cons, List.foldl_nil, rawSum]
    rw [shiftLeft_or_byte _ _ (peek_lt _ _)]
    unfold wordAt
    omega

theorem foldCarry_eq (s : Nat) : foldCarry s = s % 65536 + s / 65536 := by
  unfold foldCarry
  rw [Nat.shiftRight_eq_div_pow]
  have : s &&& 0xffff = s % 65536 := by
    have := Nat.and_pow_two_sub_one_eq_mod s 16
    simpa using this
  rw [this]

theorem fold2_le (s : Nat) (hs : s < 4294967296) : foldCarry (foldCarry s) ≤ 65535 := by
  rw [foldCarry_eq, foldCarry_eq]; omega

theorem fold2_mod (s : Nat) :
    foldCarry (foldCarry s) % 65535 = s % 65535 := by
  rw [foldCarry_eq, foldCarry_eq]; omega

theorem fold2_eq_zero (s : Nat) (hs : s < 4294967296) :
    foldCarry (foldCarry s) = 0 ↔ s = 0 := by
  rw [foldCarry_eq, foldCarry_eq]; omega

theorem fold2_multiple (m : Nat) (h1 : 1 ≤ m) (h2 : m ≤ 65537) :
    foldCarry (foldCarry (65535 * m)) = 65535 := by
  rw [foldCarry_eq, foldCarry_eq]
  by_cases hm : m = 65537
  · subst hm; norm_num
  · have hd : 65535 * m / 65536 = m - 1 := by omega
    have hr : 65535 * m % 65536 = 65536 - m := by omega
    rw [hd, hr]
    omega

theorem fold2_validate (s : Nat) (hs : s < 4294967296) :
    foldCarry (foldCarry ((s + (65535 - foldCarry (foldCarry s))) % 4294967296)) = 65535 := by
  have hm : ∃ m, 1 ≤ m ∧ m ≤ 65537 ∧ s + (65535 - foldCarry (foldCarry s)) = 65535 * m := by
    rw [foldCarry_eq, foldCarry_eq]
    refine ⟨s / 65536 + (s % 65536 + s / 65536) / 65536 + 1, ?_, ?_, ?_⟩ <;> omega
  obtain ⟨m, h1, h2, h3⟩ := hm
  rw [h3, Nat.mod_eq_of_lt (by omega), fold2_multiple m h1 h2]


theorem poke_length (buf : List Nat) (i v : Nat) : (poke buf i v).length = buf.length := by
  simp [poke]

theorem peek_poke_ne (buf : List Nat) (i j v : Nat) (h : i ≠ j) :
    peek (poke buf i v) j = peek buf j := by
  simp [peek, poke, List.getD_eq_getElem?_getD, List.getElem?_set_ne h]

theorem peek_poke_same (buf : List Nat) (i v : Nat) (h : i < buf.length) :
    peek (poke buf i v) i = v % 256 := by
  simp [peek, poke, List.getD_eq_getElem?_getD, h]

theorem peek_of_le (buf : List Nat) (i : Nat) (h : buf.length ≤ i) : peek buf i = 0 := by
  simp [peek, List.getD_eq_getElem?_getD, List.getElem?_eq_none h]

theorem peek_poke_zero (buf : List Nat) (i : Nat) : peek (poke buf i 0) i = 0 := by
  by_cases h : i < buf.length
  · rw [peek_poke_same _ _ _ h]
  · exact peek_of_le _ _ (by rw [poke_length]; omega)

theorem peekList_getD (mem : List Nat) (ptr len j : Nat) :
    (peekList mem ptr len).getD j 0 = if j < len then peek mem (ptr + j) else 0 := by
  unfold peekList
  by_cases h : j < len
  · simp [List.getD_eq_getElem?_getD, h]
  · rw [if_neg h, List.getD_eq_getElem?_getD, List.getElem?_eq_none (by simp; omega)]
    rfl

theorem rawSum_eq_sum (mem : List Nat) (ptr n : Nat) :
    rawSum mem ptr n = ((List.range n).map (wordAt mem ptr)).sum := by
  induction n with
  | zero => rfl
  | succ n ih => rw [rawSum, ih, List.range_succ, List.map_append, List.sum_append]; simp

theorem ocAdd_foldl (ws : List Nat) (a : Nat) (ha : a ≤ 65535) (hw : ∀ w ∈ ws, w ≤ 65535) :
    ws.foldl ocAdd a ≤ 65535 ∧ ws.foldl ocAdd a % 65535 = (a + ws.sum) % 65535
      ∧ (ws.foldl ocAdd a = 0 ↔ a + ws.sum = 0) := by
  induction ws generalizing a with
  | nil => simp [ha]
  | cons w ws ih =>
    have hw1 : w ≤ 65535 := hw w (List.mem_cons_self _ _)
    have hb : ocAdd a w ≤ 65535 := by unfold ocAdd; omega
    have hm : ocAdd a w % 65535 = (a + w) % 65535 := by unfold ocAdd; omega
    have hz : ocAdd a w = 0 ↔ a + w = 0 := by unfold ocAdd; omega
    obtain ⟨h1, h2, h3⟩ := ih (ocAdd a w) hb (fun x hx => hw x (List.mem_cons_of_mem _ hx))
    rw [List.foldl_cons, List.sum_cons]
    refine ⟨h1, ?_, ?_⟩
    · rw [h2]; omega
    · rw [h3]; omega

/-- The words the checksum loop reads are the big-endian words of the buffer bytes. -/
theorem beWords_peekList (mem : List Nat) (ptr len : Nat) :
    beWords (peekList mem ptr len)
      = (List.range ((len + 1) / 2)).map
          (wordAt (zeroPad mem ptr len) ptr) := by
  unfold beWords zeroPad
  rw [peekList_length]
  apply List.map_congr_left
  intro k hk
  have hk2 : k < (len + 1) / 2 := List.mem_range.mp hk
  rw [peekList_getD, peekList_getD, Nat.and_one_is_mod]
  unfold wordAt
  have h0 : 2 * k < len := by omega
  rw [if_pos h0]
  by_cases hodd : len % 2 ≠ 0
  · rw [if_pos hodd, peek_poke_ne _ _ _ _ (by omega)]
    by_cases h1 : 2 * k + 1 < len
    · rw [if_pos h1, peek_poke_ne _ _ _ _ (by omega)]; rfl
    · have e : ptr + 2 * k + 1 = ptr + len := by omega
      rw [if_neg h1, e, peek_poke_zero]
  · rw [if_neg hodd, if_pos (by omega)]; rfl

theorem beWords_le (bytes : List Nat) (hb : ∀ b ∈ bytes, b < 256) :
    ∀ w ∈ beWords bytes, w ≤ 65535 := by
  intro w hw
  unfold beWords at hw
  obtain ⟨k, _, rfl⟩ := List.mem_map.mp hw
  have h1 : ∀ j, bytes.getD j 0 < 256 := by
    intro j
    rw [List.getD_eq_getElem?_getD]
    by_cases hj : j < bytes.length
    · simp [hj]; exact hb _ (List.getElem_mem _)
    · simp [List.getElem?_eq_none (Nat.le_of_not_lt hj)]
  have := h1 (2 * k); have := h1 (2 * k + 1)
  omega

theorem peekList_lt (mem : List Nat) (ptr len : Nat) : ∀ b ∈ peekList mem ptr len, b < 256 := by
  intro b hb
  unfold peekList at hb
  obtain ⟨k, _, rfl⟩ := List.mem_map.mp hb
  exact peek_lt _ _

/-- Sum of the words the loop reads, as the sum of the big-endian words of the bytes. -/
theorem rawSum_zeroPad (mem : List Nat) (ptr len : Nat) :
    rawSum (zeroPad mem ptr len) ptr ((len + 1) / 2) = (beWords (peekList mem ptr len)).sum := by
  rw [rawSum_eq_sum, beWords_peekList]

theorem dataCheckSumAcc_eq (sum : Nat) (mem : List Nat) (ptr len restart : Nat) :
    dataCheckSumAcc sum mem ptr len restart
      = foldCarry (foldCarry (sumLoop (zeroPad mem ptr len) ptr len (if restart ≠ 0 then 0 else sum))) := rfl

theorem dataCheckSumAcc_restart (sum : Nat) (mem : List Nat) (ptr len : Nat) :
    dataCheckSumAcc sum mem ptr len 1
      = foldCarry (foldCarry ((beWords (peekList mem ptr len)).sum % 4294967296)) := by
  rw [dataCheckSumAcc_eq, if_pos (by decide), sumLoop_eq _ _ _ _ (by norm_num), rawSum_zeroPad,
    Nat.zero_add]

theorem dataCheckSumAcc_continue (sum : Nat) (mem : List Nat) (ptr len : Nat) (hs : sum < 4294967296) :
    dataCheckSumAcc sum mem ptr len 0
      = foldCarry (foldCarry ((sum + (beWords (peekList mem ptr len)).sum) % 4294967296)) := by
  rw [dataCheckSumAcc_eq, if_neg (by decide), sumLoop_eq _ _ _ _ hs, rawSum_zeroPad]

theorem dataCheckSumAcc_le (sum : Nat) (mem : List Nat) (ptr len : Nat) :
    dataCheckSumAcc sum mem ptr len 1 ≤ 65535 := by
  rw [dataCheckSumAcc_restart]
  exact fold2_le _ (Nat.mod_lt _ (by norm_num))

theorem beWords_sum_le (mem : List Nat) (ptr len : Nat) :
    (beWords (peekList mem ptr len)).sum ≤ (len + 1) / 2 * 65535 := by
  rw [← rawSum_zeroPad]
  exact rawSum_le _ _ _

/-- Two values in `0..65535` that agree modulo 65535 and vanish together are equal. -/
theorem canonical_eq (x y : Nat) (hx : x ≤ 65535) (hy : y ≤ 65535)
    (hm : x % 65535 = y % 65535) (hz : x = 0 ↔ y = 0) : x = y := by
  omega

/-- Without overflow the accumulator left by a restarted pass is the
ones-complement sum of the big-endian words. -/
theorem dataCheckSumAcc_onesSum (sum : Nat) (mem : List Nat) (ptr len : Nat)
    (hlen : (len + 1) / 2 * 65535 < 4294967296) :
    dataCheckSumAcc sum mem ptr len 1 = onesSum (peekList mem ptr len) := by
  have hle := beWords_sum_le mem ptr len
  have hlt : (beWords (peekList mem ptr len)).sum < 4294967296 := by omega
  rw [dataCheckSumAcc_restart, Nat.mod_eq_of_lt hlt]
  obtain ⟨h1, h2, h3⟩ := ocAdd_foldl (beWords (peekList mem ptr len)) 0 (by norm_num)
    (beWords_le _ (peekList_lt mem ptr len))
  unfold onesSum
  apply canonical_eq _ _ (fold2_le _ hlt) h1
  · rw [fold2_mod, h2, Nat.zero_add]
  · rw [fold2_eq_zero _ hlt, h3, Nat.zero_add]

/-- C4 (internet checksum reference): for every buffer and every length small
enough that the 32-bit accumulator cannot overflow, the low 16 bits of
`dataCheckSum(buf, len, 1)` are the bitwise complement of the ones-complement
(end-around-carry) sum of the buffer read as big-endian 16-bit words, an
odd-length buffer being extended by one zero byte; the accumulator left by the
two carry folds is that sum and fits in 16 bits. -/
theorem dataCheckSum_reference (sum : Nat) (mem : List Nat) (ptr len : Nat)
    (hlen : (len + 1) / 2 * 65535 < 4294967296) :
    dataCheckSum sum mem ptr len 1 % 65536 = 65535 - onesSum (peekList mem ptr len)
      ∧ dataCheckSumAcc sum mem ptr len 1 = onesSum (peekList mem ptr len)
      ∧ dataCheckSumAcc sum mem ptr len 1 ≤ 65535 := by
  have hacc := dataCheckSumAcc_onesSum sum mem ptr len hlen
  have hb := dataCheckSumAcc_le sum mem ptr len
  refine ⟨?_, hacc, hb⟩
  unfold dataCheckSum
  rw [← hacc]
  omega

theorem rawSum_congr (mem mem' : List Nat) (ptr n : Nat)
    (h : ∀ k, k < n → wordAt mem' ptr k = wordAt mem ptr k) :
    rawSum mem' ptr n = rawSum mem ptr n := by
  induction n with
  | zero => rfl
  | succ n ih =>
    rw [rawSum, rawSum, ih (fun k hk => h k (Nat.lt_succ_of_lt hk)), h n (Nat.lt_succ_self n)]

theorem rawSum_update (mem mem' : List Nat) (ptr n j : Nat) (hj : j < n)
    (h : ∀ k, k ≠ j → wordAt mem' ptr k = wordAt mem ptr k) :
    rawSum mem' ptr n + wordAt mem ptr j = rawSum mem ptr n + wordAt mem' ptr j := by
  induction n with
  | zero => omega
  | succ n ih =>
    rw [rawSum, rawSum]
    by_cases hjn : j = n
    · subst hjn
      rw [rawSum_congr mem mem' ptr j (fun k hk => h k (by omega))]
      omega
    · have := ih (by omega)
      rw [h n (fun e => hjn e.symm)]
      omega

theorem zeroPad_even (mem : List Nat) (ptr len : Nat) (h : len % 2 = 0) :
    zeroPad mem ptr len = mem := by
  unfold zeroPad
  rw [Nat.and_one_is_mod, h]; simp

theorem dataCheckSumAcc_even (sum : Nat) (mem : List Nat) (ptr len : Nat) (h : len % 2 = 0) :
    dataCheckSumAcc sum mem ptr len 1
      = foldCarry (foldCarry (rawSum mem ptr (len / 2) % 4294967296)) := by
  rw [dataCheckSumAcc_eq, if_pos (by decide), sumLoop_eq _ _ _ _ (by norm_num), zeroPad_even _ _ _ h,
    Nat.zero_add, show (len + 1) / 2 = len / 2 by omega]

/-- Storing the complemented sum into a zero 16-bit aligned field makes the buffer sum to 0xFFFF. -/
theorem checksum_validates (sum sum' : Nat) (mem : List Nat) (ptr len f : Nat)
    (heven : len % 2 = 0) (hf : f % 2 = 0) (hfl : f + 2 ≤ len) (hin : ptr + len ≤ mem.length)
    (hz0 : peek mem (ptr + f) = 0) (hz1 : peek mem (ptr + f + 1) = 0) :
    dataCheckSumAcc sum'
      (poke (poke mem (ptr + f) (dataCheckSum sum mem ptr len 1 / 256 % 256)) (ptr + f + 1)
        (dataCheckSum sum mem ptr len 1 % 256)) ptr len 1 = 0xffff := by
  have hacc := dataCheckSumAcc_le sum mem ptr len
  have hc : dataCheckSum sum mem ptr len 1 = 4294967295 - dataCheckSumAcc sum mem ptr len 1 := rfl
  generalize hmem' : poke (poke mem (ptr + f) (dataCheckSum sum mem ptr len 1 / 256 % 256))
    (ptr + f + 1) (dataCheckSum sum mem ptr len 1 % 256) = mem'
  have hj : f / 2 < len / 2 := by omega
  have e2 : ptr + 2 * (f / 2) = ptr + f := by omega
  have hw0 : wordAt mem ptr (f / 2) = 0 := by
    unfold wordAt; rw [e2, hz0, hz1]
  have hw1 : wordAt mem' ptr (f / 2) = 65535 - dataCheckSumAcc sum mem ptr len 1 := by
    unfold wordAt
    rw [e2, ← hmem', peek_poke_same _ _ _ (by rw [poke_length]; omega),
      peek_poke_ne _ _ _ _ (by omega), peek_poke_same _ _ _ (by omega), hc]
    omega
  have hother : ∀ k, k ≠ f / 2 → wordAt mem' ptr k = wordAt mem ptr k := by
    intro k hk
    unfold wordAt
    rw [← hmem', peek_poke_ne _ _ _ _ (by omega), peek_poke_ne _ _ _ _ (by omega),
      peek_poke_ne _ _ _ _ (by omega), peek_poke_ne _ _ _ _ (by omega)]
  have hup := rawSum_update mem mem' ptr (len / 2) (f / 2) hj hother
  rw [hw0, hw1] at hup
  rw [dataCheckSumAcc_even _ _ _ _ heven]
  rw [dataCheckSumAcc_even _ _ _ _ heven] at hup
  have hmod : rawSum mem' ptr (len / 2) % 4294967296
      = (rawSum mem ptr (len / 2) % 4294967296
          + (65535 - foldCarry (foldCarry (rawSum mem ptr (len / 2) % 4294967296)))) % 4294967296 := by
    omega
  rw [hmod]
  exact fold2_validate _ (Nat.mod_lt _ (by norm_num))

/-- C5 (checksum self-verification): for every even-length buffer with a 16-bit
aligned checksum field holding zero, storing the low 16 bits of the result of
`dataCheckSum` big-endian into that field and running `dataCheckSum` over the
buffer again leaves the folded sum 0xFFFF before the final complement, so the
low 16 bits returned are 0; this holds for all data, all-zero data included. -/
theorem dataCheckSum_self_verifies (sum sum' : Nat) (mem : List Nat) (ptr len f : Nat)
    (heven : len % 2 = 0) (hf : f % 2 = 0) (hfl : f + 2 ≤ len) (hin : ptr + len ≤ mem.length)
    (hz0 : peek mem (ptr + f) = 0) (hz1 : peek mem (ptr + f + 1) = 0) :
    dataCheckSumAcc sum'
        (poke (poke mem (ptr + f) (dataCheckSum sum mem ptr len 1 / 256 % 256)) (ptr + f + 1)
          (dataCheckSum sum mem ptr len 1 % 256)) ptr len 1 = 0xffff
      ∧ dataCheckSum sum'
        (poke (poke mem (ptr + f) (dataCheckSum sum mem ptr len 1 / 256 % 256)) (ptr + f + 1)
          (dataCheckSum sum mem ptr len 1 % 256)) ptr len 1 % 65536 = 0 := by
  have h := checksum_validates sum sum' mem ptr len f heven hf hfl hin hz0 hz1
  refine ⟨h, ?_⟩
  unfold dataCheckSum at h ⊢
  rw [h]

theorem beWords_append_even (A B : List Nat) (hA : A.length % 2 = 0) :
    beWords (A ++ B) = beWords A ++ beWords B := by
  have hl : ((A ++ B).length + 1) / 2 = A.length / 2 + (B.length + 1) / 2 := by
    rw [List.length_append]; omega
  have hl2 : (A.length + 1) / 2 = A.length / 2 := by omega
  unfold beWords
  rw [hl]
  rw [hl2]
  rw [List.range_add]
  rw [List.map_append]
  rw [List.map_map]
  refine congrArg₂ (fun x y => x ++ y) ?_ ?_
  · apply List.map_congr_left
    intro k hk
    have hk2 : k < A.length / 2 := List.mem_range.mp hk
    simp only [List.getD_eq_getElem?_getD]
    rw [List.getElem?_append_left (by omega), List.getElem?_append_left (by omega)]
  · apply List.map_congr_left
    intro k _
    simp only [List.getD_eq_getElem?_getD, Function.comp_apply]
    rw [List.getElem?_append_right (by omega), List.getElem?_append_right (by omega),
      show 2 * (A.length / 2 + k) - A.length = 2 * k by omega,
      show 2 * (A.length / 2 + k) + 1 - A.length = 2 * k + 1 by omega]

theorem peekList_append_left (P S : List Nat) (n : Nat) :
    peekList (P ++ S) 0 (P.length + n) = peekList P 0 P.length ++ peekList S 0 n := by
  unfold peekList
  rw [List.range_add, List.map_append, List.map_map]
  refine congrArg₂ (fun x y => x ++ y) ?_ ?_
  · apply List.map_congr_left
    intro k hk
    have hk2 : k < P.length := List.mem_range.mp hk
    simp [peek, List.getD_eq_getElem?_getD, List.getElem?_append_left hk2]
  · apply List.map_congr_left
    intro k _
    simp only [peek, List.getD_eq_getElem?_getD, Function.comp_apply, Nat.zero_add]
    rw [List.getElem?_append_right (by omega), Nat.add_sub_cancel_left]

theorem peekList_peekList (mem : List Nat) (ptr n : Nat) :
    peekList (peekList mem ptr n) 0 n = peekList mem ptr n := by
  have h := peekList_full (peekList mem ptr n)
  rw [peekList_length] at h
  rw [h]
  unfold peekList
  rw [List.map_map]
  apply List.map_congr_left
  intro k _
  simp [peek]

/-- Two passes (restart, then continue) fold to the same value as one pass over the sum. -/
theorem fold2_two_pass (a b : Nat) (h : a + b < 4294967296) :
    foldCarry (foldCarry ((foldCarry (foldCarry a) + b) % 4294967296))
      = foldCarry (foldCarry (a + b)) := by
  have ha : a < 4294967296 := by omega
  have h1 := fold2_le a ha
  have h2 := fold2_mod a
  have h3 := fold2_eq_zero a ha
  have hlt : foldCarry (foldCarry a) + b < 4294967296 := by
    have : foldCarry (foldCarry a) ≤ a := by
      rw [foldCarry_eq, foldCarry_eq]; omega
    omega
  rw [Nat.mod_eq_of_lt hlt]
  apply canonical_eq _ _ (fold2_le _ hlt) (fold2_le _ h)
  · rw [fold2_mod, fold2_mod]; omega
  · rw [fold2_eq_zero _ hlt, fold2_eq_zero _ h]; omega

/-- C6 (two-pass checksum): for every 12-byte pseudo-header `P` and every
transport segment of `n` bytes at `ptr` (with `n` small enough that the 32-bit
accumulator cannot overflow, which covers every length that fits the 16-bit
transport length field), `dataCheckSum(P, 12, 1)` followed by
`dataCheckSum(segment, n, 0)` returns the same low 16 bits as one restarted
`dataCheckSum` over the concatenation of `P` and the segment. -/
theorem pseudo_header_two_pass (sum : Nat) (P mem : List Nat) (ptr n : Nat)
    (hP : P.length = 12) (hn : ((n + 1) / 2 + 6) * 65535 < 4294967296) :
    dataCheckSum (dataCheckSumAcc sum P 0 12 1) mem ptr n 0 % 65536
      = dataCheckSum sum (P ++ peekList mem ptr n) 0 (12 + n) 1 % 65536 := by
  have hPs := beWords_sum_le P 0 12
  have hSs := beWords_sum_le mem ptr n
  have hacc1 : dataCheckSumAcc sum P 0 12 1 = foldCarry (foldCarry (beWords (peekList P 0 12)).sum) := by
    rw [dataCheckSumAcc_restart, Nat.mod_eq_of_lt (by omega)]
  have hlt1 : dataCheckSumAcc sum P 0 12 1 < 4294967296 := by
    have := dataCheckSumAcc_le sum P 0 12; omega
  have hcat : beWords (peekList (P ++ peekList mem ptr n) 0 (12 + n))
      = beWords (peekList P 0 12) ++ beWords (peekList mem ptr n) := by
    rw [← hP, peekList_append_left, peekList_peekList,
      beWords_append_even _ _ (by rw [peekList_length, hP])]
  unfold dataCheckSum
  rw [dataCheckSumAcc_continue _ _ _ _ hlt1, hacc1, dataCheckSumAcc_restart, hcat, List.sum_append,
    Nat.mod_eq_of_lt (by omega : (beWords (peekList P 0 12)).sum + (beWords (peekList mem ptr n)).sum < 4294967296),
    fold2_two_pass _ _ (by omega)]

/-! ## IP header checksum -/

theorem REV16_lo (x : Nat) : REV16 x % 256 = x / 256 % 256 := by
  unfold REV16
  generalize x % 256 = a
  generalize x / 65536 % 256 = c
  generalize x / 16777216 % 256 = d
  omega

theorem REV16_hi (x : Nat) : REV16 x / 256 % 256 = x % 256 := by
  unfold REV16
  have hb : x / 256 % 256 < 256 := Nat.mod_lt _ (by norm_num)
  have ha : x % 256 < 256 := Nat.mod_lt _ (by norm_num)
  generalize x / 256 % 256 = b at hb ⊢
  generalize x % 256 = a at ha ⊢
  generalize x / 65536 % 256 = c
  generalize x / 16777216 % 256 = d
  omega

/-- A byte-reversed 16-bit store is a big-endian store of the low 16 bits. -/
theorem poke16_REV16 (buf : List Nat) (i x : Nat) :
    poke16 buf i (REV16 x) = poke (poke buf i (x / 256 % 256)) (i + 1) (x % 256) := by
  unfold poke16
  rw [REV16_lo, REV16_hi]

theorem poke16_length (buf : List Nat) (i v : Nat) : (poke16 buf i v).length = buf.length := by
  simp [poke16, poke]

theorem peek_poke16_ne (buf : List Nat) (i j v : Nat) (h1 : j ≠ i) (h2 : j ≠ i + 1) :
    peek (poke16 buf i v) j = peek buf j := by
  unfold poke16
  rw [peek_poke_ne _ _ _ _ (fun e => h2 e.symm), peek_poke_ne _ _ _ _ (fun e => h1 e.symm)]

theorem getElem?_poke_ne (buf : List Nat) (i j v : Nat) (h : j ≠ i) :
    (poke buf i v)[j]? = buf[j]? := by
  simp [poke, List.getElem?_set_ne (fun e => h e.symm)]

theorem getElem?_poke16_ne (buf : List Nat) (i j v : Nat) (h1 : j ≠ i) (h2 : j ≠ i + 1) :
    (poke16 buf i v)[j]? = buf[j]? := by
  unfold poke16
  rw [getElem?_poke_ne _ _ _ _ h2, getElem?_poke_ne _ _ _ _ h1]

theorem peek_poke16_zero_lo (buf : List Nat) (i : Nat) : peek (poke16 buf i 0) i = 0 := by
  unfold poke16
  rw [peek_poke_ne _ _ _ _ (by omega)]
  exact peek_poke_zero _ _

theorem peek_poke16_zero_hi (buf : List Nat) (i : Nat) : peek (poke16 buf i 0) (i + 1) = 0 := by
  unfold poke16
  exact peek_poke_zero _ _

theorem IpHeaderCheckSum_eq (s : PppState) :
    IpHeaderCheckSum s =
      { s with
        sum := dataCheckSumAcc s.sum (poke16 s.pkt.buf (ipStart + 10) 0) ipStart
                (4 * ipHeaderLength s.pkt.buf) 1,
        pkt :=
          { s.pkt with
            buf := poke16 (poke16 s.pkt.buf (ipStart + 10) 0) (ipStart + 10)
                    (REV16 (dataCheckSum s.sum (poke16 s.pkt.buf (ipStart + 10) 0) ipStart
                      (4 * ipHeaderLength s.pkt.buf) 1)) } } := by
  have h : ipHeaderLength (poke16 s.pkt.buf (ipStart + 10) 0) = ipHeaderLength s.pkt.buf := by
    unfold ipHeaderLength
    rw [peek_poke16_ne _ _ _ _ (by decide) (by decide)]
  unfold IpHeaderCheckSum
  simp only [h]

/-- C7 (IP header checksum): for every IP header with header-length field
`h >= 5` lying inside the packet buffer, after `IpHeaderCheckSum` the checksum
field (header bytes 10 and 11) holds, big-endian, the internet checksum of the
`4*h` header bytes computed with the field zeroed; no other byte of the buffer
is changed; and recomputing the checksum over the header with the stored
field gives the folded sum 0xFFFF. -/
theorem ip_header_checksum (s : PppState) (h5 : 5 ≤ ipHeaderLength s.pkt.buf)
    (hin : ipStart + 4 * ipHeaderLength s.pkt.buf ≤ s.pkt.buf.length) :
    peek (IpHeaderCheckSum s).pkt.buf (ipStart + 10) * 256
        + peek (IpHeaderCheckSum s).pkt.buf (ipStart + 11)
      = 65535 - onesSum (peekList (poke16 s.pkt.buf (ipStart + 10) 0) ipStart
          (4 * ipHeaderLength s.pkt.buf))
    ∧ peek (IpHeaderCheckSum s).pkt.buf (ipStart + 10) * 256
        + peek (IpHeaderCheckSum s).pkt.buf (ipStart + 11)
      = dataCheckSum s.sum (poke16 s.pkt.buf (ipStart + 10) 0) ipStart
          (4 * ipHeaderLength s.pkt.buf) 1 % 65536
    ∧ (IpHeaderCheckSum s).pkt.buf.length = s.pkt.buf.length
    ∧ (∀ i, i ≠ ipStart + 10 → i ≠ ipStart + 11 →
        (IpHeaderCheckSum s).pkt.buf[i]? = s.pkt.buf[i]?)
    ∧ dataCheckSumAcc (IpHeaderCheckSum s).sum (IpHeaderCheckSum s).pkt.buf ipStart
        (4 * ipHeaderLength s.pkt.buf) 1 = 0xffff := by
  have h15 : ipHeaderLength s.pkt.buf < 16 := Nat.mod_lt _ (by norm_num)
  have hlen : (poke16 s.pkt.buf (ipStart + 10) 0).length = s.pkt.buf.length := poke16_length _ _ _
  have hI : ipStart = 4 := rfl
  have racc := dataCheckSumAcc_onesSum s.sum (poke16 s.pkt.buf (ipStart + 10) 0) ipStart
    (4 * ipHeaderLength s.pkt.buf) (by omega)
  have r3 := dataCheckSumAcc_le s.sum (poke16 s.pkt.buf (ipStart + 10) 0) ipStart
    (4 * ipHeaderLength s.pkt.buf)
  have hsum : dataCheckSum s.sum (poke16 s.pkt.buf (ipStart + 10) 0) ipStart
      (4 * ipHeaderLength s.pkt.buf) 1
      = 4294967295 - dataCheckSumAcc s.sum (poke16 s.pkt.buf (ipStart + 10) 0) ipStart
          (4 * ipHeaderLength s.pkt.buf) 1 := rfl
  have hfield : peek (IpHeaderCheckSum s).pkt.buf (ipStart + 10) * 256
        + peek (IpHeaderCheckSum s).pkt.buf (ipStart + 11)
      = dataCheckSum s.sum (poke16 s.pkt.buf (ipStart + 10) 0) ipStart
          (4 * ipHeaderLength s.pkt.buf) 1 % 65536 := by
    rw [IpHeaderCheckSum_eq, poke16_REV16]
    simp only
    rw [peek_poke_same _ _ _ (by rw [poke_length, hlen]; omega),
      peek_poke_ne _ _ _ _ (by omega), peek_poke_same _ _ _ (by rw [hlen]; omega)]
    omega
  refine ⟨?_, hfield, ?_, ?_, ?_⟩
  · rw [hfield, hsum, ← racc]
    omega
  · rw [IpHeaderCheckSum_eq]
    simp only [poke16_length]
  · intro i hi1 hi2
    rw [IpHeaderCheckSum_eq]
    simp only
    rw [getElem?_poke16_ne _ _ _ _ hi1 hi2, getElem?_poke16_ne _ _ _ _ hi1 hi2]
  · rw [IpHeaderCheckSum_eq]
    simp only
    rw [poke16_REV16]
    exact checksum_validates s.sum _ (poke16 s.pkt.buf (ipStart + 10) 0) ipStart
      (4 * ipHeaderLength s.pkt.buf) 10 (by omega) (by decide) (by omega) (by rw [hlen]; exact hin)
      (peek_poke16_zero_lo _ _) (peek_poke16_zero_hi _ _)

/-! ## HDLC receive path -/

theorem unstuffByte_plain (c dest : Nat) (s : PppState) (h : c ≠ 0x7d) :
    unstuffByte c (escFlag false, dest, s) = (escFlag false, dest + 1,
      { s with pkt := { s.pkt with buf := poke s.pkt.buf dest c, len := s.pkt.len + 1 },
               fcs := fcsDo s.fcs c }) := by
  simp [unstuffByte, escFlag, h]

theorem unstuffByte_marker (dest : Nat) (s : PppState) :
    unstuffByte 0x7d (escFlag false, dest, s) = (escFlag true, dest, s) := by
  simp [unstuffByte, escFlag]

theorem unstuffByte_escaped (c dest : Nat) (s : PppState) :
    unstuffByte c (escFlag true, dest, s) = (escFlag false, dest + 1,
      { s with pkt := { s.pkt with buf := poke s.pkt.buf dest (c ^^^ 0x20), len := s.pkt.len + 1 },
               fcs := fcsDo s.fcs (c ^^^ 0x20) }) := by
  simp [unstuffByte, escFlag]

/-- The loop body folded over a byte sequence de-stuffs it into the packet buffer. -/
theorem unstuff_foldl (cs : List Nat) (esc : Bool) (dest : Nat) (s : PppState) :
    ∃ esc1 : Bool, cs.foldl (fun r c => unstuffByte c r) (escFlag esc, dest, s)
      = (escFlag esc1, dest + (destuff esc cs).length,
          { s with pkt := { s.pkt with buf := pokeList s.pkt.buf dest (destuff esc cs),
                                       len := s.pkt.len + (destuff esc cs).length },
                   fcs := (destuff esc cs).foldl fcsDo s.fcs }) := by
  induction cs generalizing esc dest s with
  | nil => exact ⟨esc, by simp [destuff, pokeList]⟩
  | cons c cs ih =>
    cases esc with
    | true =>
      obtain ⟨e1, h1⟩ := ih false (dest + 1)
        { s with pkt := { s.pkt with buf := poke s.pkt.buf dest (c ^^^ 0x20), len := s.pkt.len + 1 },
                 fcs := fcsDo s.fcs (c ^^^ 0x20) }
      refine ⟨e1, ?_⟩
      rw [List.foldl_cons, unstuffByte_escaped, h1]
      simp [destuff, pokeList, Nat.add_assoc, Nat.add_comm 1]
    | false =>
      by_cases hc : c = 0x7d
      · subst hc
        obtain ⟨e1, h1⟩ := ih true dest s
        refine ⟨e1, ?_⟩
        rw [List.foldl_cons, unstuffByte_marker, h1]
        simp [destuff]
      · obtain ⟨e1, h1⟩ := ih false (dest + 1)
          { s with pkt := { s.pkt with buf := poke s.pkt.buf dest c, len := s.pkt.len + 1 },
                   fcs := fcsDo s.fcs c }
        refine ⟨e1, ?_⟩
        rw [List.foldl_cons, unstuffByte_plain _ _ _ hc, h1]
        simp [destuff, hc, pokeList, Nat.add_assoc, Nat.add_comm 1]

theorem unstuffByte_rx (c : Nat) (r : Nat × Nat × PppState) :
    (unstuffByte c r).2.2.rx = r.2.2.rx := by
  unfold unstuffByte
  by_cases h1 : r.1 = 0 <;> by_cases h2 : c = 0x7d <;> simp [h1, h2]

theorem spanBytes_succ (N : Nat) (ring : List Nat) (idx cnt : Nat) :
    spanBytes N ring idx (cnt + 1)
      = peek ring (idx % N) :: spanBytes N ring ((idx + 1) % N) cnt := by
  unfold spanBytes
  rw [List.range_succ_eq_map, List.map_cons, List.map_map]
  refine congrArg₂ (fun x y => x :: y) rfl ?_
  apply List.map_congr_left
  intro i _
  simp only [Function.comp_apply]
  rw [Nat.add_mod ((idx + 1) % N) i N, Nat.mod_mod, ← Nat.add_mod]
  congr 2
  omega

theorem mod_add_ne (N a m : Nat) (hm0 : 0 < m) (hm : m < N) :
    (a + 1) % N ≠ (a + 1 + m) % N := by
  intro h
  have h1 : (a + 1 + m) % N = ((a + 1) % N + m) % N := by
    rw [Nat.add_mod (a + 1) m N, Nat.add_mod ((a + 1) % N) m N, Nat.mod_mod]
  rw [h1] at h
  have hlt : (a + 1) % N < N := Nat.mod_lt _ (by omega)
  generalize (a + 1) % N = x at h hlt
  by_cases hx : x + m < N
  · rw [Nat.mod_eq_of_lt hx] at h; omega
  · have h2 : (x + m) % N = x + m - N := by
      rw [Nat.mod_eq_sub_mod (by omega), Nat.mod_eq_of_lt (by omega)]
    omega

/-- The loop of `processPPPFrame` runs once over each byte of the span and stops. -/
theorem unstuffLoop_eq (k end_ cnt : Nat) :
    ∀ (fuel idx : Nat) (r : Nat × Nat × PppState), cnt + 1 ≤ fuel → idx < 2 ^ k → cnt + 1 ≤ 2 ^ k →
      end_ = (idx + (cnt + 1)) % 2 ^ k →
      unstuffLoop (2 ^ k) end_ fuel idx r
        = some ((spanBytes (2 ^ k) r.2.2.rx.buf idx (cnt + 1)).foldl
            (fun r c => unstuffByte c r) r).2.2 := by
  induction cnt with
  | zero =>
    intro fuel idx r hf hi _ he
    obtain ⟨f, rfl⟩ : ∃ f, fuel = f + 1 := ⟨fuel - 1, by omega⟩
    rw [unstuffLoop, Nat.and_pow_two_sub_one_eq_mod]
    simp only [Nat.zero_add] at he
    rw [if_pos he.symm, spanBytes_succ]
    simp [spanBytes, Nat.mod_eq_of_lt hi]
  | succ m ih =>
    intro fuel idx r hf hi hN he
    obtain ⟨f, rfl⟩ : ∃ f, fuel = f + 1 := ⟨fuel - 1, by omega⟩
    rw [unstuffLoop, Nat.and_pow_two_sub_one_eq_mod]
    have hne : (idx + 1) % 2 ^ k ≠ end_ := by
      rw [he, show idx + (m + 1 + 1) = idx + 1 + (m + 1) by omega]
      exact mod_add_ne _ _ _ (by omega) (by omega)
    rw [if_neg hne, ih f ((idx + 1) % 2 ^ k) _ (by omega) (Nat.mod_lt _ (by positivity)) (by omega)
      (by rw [he, Nat.add_mod ((idx + 1) % 2 ^ k), Nat.mod_mod, ← Nat.add_mod]; congr 1; omega),
      unstuffByte_rx, spanBytes_succ _ _ idx, List.foldl_cons, Nat.mod_eq_of_lt hi]

theorem and_ffff_of_lt (x : Nat) (h : x < 65536) : x &&& 0xffff = x := by
  have := Nat.and_pow_two_sub_one_eq_mod x 16
  norm_num at this
  rw [this, Nat.mod_eq_of_lt h]

/-- State of `processPPPFrame` before the CRC test, for a span of `cnt+1` bytes. -/
theorem deframe_eq (k fuel : Nat) (s : PppState) (start cnt : Nat)
    (hfuel : cnt + 1 ≤ fuel) (hs : start < 2 ^ k) (hc : cnt + 1 ≤ 2 ^ k) :
    deframe (2 ^ k) fuel s start ((start + (cnt + 1)) % 2 ^ k)
      = some { s with
          fcs := (destuff false (spanBytes (2 ^ k) s.rx.buf start (cnt + 1))).foldl fcsDo fcsReset,
          pkt := { buf := pokeList s.pkt.buf 0 (destuff false (spanBytes (2 ^ k) s.rx.buf start (cnt + 1))),
                   len := (destuff false (spanBytes (2 ^ k) s.rx.buf start (cnt + 1))).length,
                   crc := (destuff false (spanBytes (2 ^ k) s.rx.buf start (cnt + 1))).foldl fcsDo fcsReset } } := by
  unfold deframe
  simp only
  rw [unstuffLoop_eq k _ cnt fuel start _ hfuel hs hc rfl]
  simp only
  obtain ⟨e1, h1⟩ := unstuff_foldl (spanBytes (2 ^ k) s.rx.buf start (cnt + 1)) false 0
    { s with fcs := fcsReset, pkt := { s.pkt with len := 0 } }
  have h0 : ((0 : Nat), (0 : Nat), ({ s with fcs := fcsReset, pkt := { s.pkt with len := 0 } } : PppState))
      = (escFlag false, 0, { s with fcs := fcsReset, pkt := { s.pkt with len := 0 } }) := rfl
  rw [h0, h1]
  simp only [Nat.zero_add]
  rw [and_ffff_of_lt _ (foldl_fcsDo_lt _ _ (by decide))]

/-- A non-empty span between two ring indices has `cnt+1` bytes and ends at `end_`. -/
theorem span_count (N start end_ : Nat) (hs : start < N) (he : end_ < N) (hne : start ≠ end_) :
    ∃ cnt, (end_ + N - start) % N = cnt + 1 ∧ cnt + 1 ≤ N ∧ (start + (cnt + 1)) % N = end_ := by
  by_cases h : start < end_
  · refine ⟨end_ - start - 1, ?_, by omega, ?_⟩
    · rw [show end_ + N - start = end_ - start + N by omega, Nat.add_mod_right,
        Nat.mod_eq_of_lt (by omega)]
      omega
    · rw [show start + (end_ - start - 1 + 1) = end_ by omega, Nat.mod_eq_of_lt he]
  · refine ⟨end_ + N - start - 1, ?_, by omega, ?_⟩
    · rw [Nat.mod_eq_of_lt (by omega)]; omega
    · rw [show start + (end_ + N - start - 1 + 1) = end_ + N by omega, Nat.add_mod_right,
        Nat.mod_eq_of_lt he]

/-- C9 (bad FCS is rejected silently): for every non-empty span of a ring of
`2^k` bytes, `processPPPFrame` (with at least `2^k` passes allowed) terminates;
the state `d` it reaches before the CRC test has the FCS residue of the
de-stuffed span bytes in `pkt.crc` and has emitted nothing and left `online`,
`hostIP` and `responseCounter` as they were.  When the residue differs from
0xF0B8 that state is the result, so the dispatcher is not called; when the
residue is 0xF0B8 the result is one application of the dispatcher to it. -/
theorem bad_fcs_rejected (k fuel : Nat) (s : PppState) (start end_ : Nat)
    (hs : start < 2 ^ k) (he : end_ < 2 ^ k) (hne : start ≠ end_) (hfuel : 2 ^ k ≤ fuel) :
    ∃ d, deframe (2 ^ k) fuel s start end_ = some d
      ∧ d.pkt.crc = (destuff false (spanBytes (2 ^ k) s.rx.buf start
          ((end_ + 2 ^ k - start) % 2 ^ k))).foldl fcsDo fcsReset
      ∧ d.tx = s.tx ∧ d.online = s.online ∧ d.hostIP = s.hostIP
      ∧ d.responseCounter = s.responseCounter
      ∧ (d.pkt.crc ≠ 0xf0b8 → processPPPFrame (2 ^ k) fuel s start end_ = some d)
      ∧ (d.pkt.crc = 0xf0b8 →
          processPPPFrame (2 ^ k) fuel s start end_ = some (determinePacketType (2 ^ k) d)) := by
  obtain ⟨cnt, h1, h2, h3⟩ := span_count (2 ^ k) start end_ hs he hne
  have hd := deframe_eq k fuel s start cnt (by omega) hs h2
  rw [h3] at hd
  refine ⟨_, hd, ?_, rfl, rfl, rfl, rfl, ?_, ?_⟩
  · rw [h1]
  · intro hcrc
    unfold processPPPFrame
    rw [if_neg hne, hd]
    simp only
    rw [if_neg hcrc]
  · intro hcrc
    unfold processPPPFrame
    rw [if_neg hne, hd]
    simp only
    rw [if_pos hcrc]

/-! ## Dispatcher and LCP -/

/-- The byte-reversed little-endian load of a 16-bit field is its big-endian value. -/
theorem REV16_peek16 (buf : List Nat) (i : Nat) :
    REV16 (peek16 buf i) = peek buf i * 256 + peek buf (i + 1) := by
  unfold REV16 peek16
  have h1 := peek_lt buf i
  have h2 := peek_lt buf (i + 1)
  generalize peek buf i = a at h1 ⊢
  generalize peek buf (i + 1) = b at h2 ⊢
  omega

/-- C8 (dispatcher discard and routing): when the first packet byte is not 0xFF,
or the second is not 0x03, or the big-endian protocol field in bytes 2..3 is
none of 0xC021, 0x8021 and 0x0021, `determinePacketType` returns the state as
it was (nothing is emitted; packet buffer, `online`, `hostIP` and
`responseCounter` are unchanged); otherwise 0xC021 goes to `LCPframe`, 0x8021
to `IPCPframe` and 0x0021 to `IPframe`. -/
theorem determinePacketType_dispatch (RXBUFLEN : Nat) (s : PppState) :
    ((peek s.pkt.buf 0 ≠ 0xff ∨ peek s.pkt.buf 1 ≠ 0x03
        ∨ (peek s.pkt.buf 2 * 256 + peek s.pkt.buf 3 ≠ 0xc021
            ∧ peek s.pkt.buf 2 * 256 + peek s.pkt.buf 3 ≠ 0x8021
            ∧ peek s.pkt.buf 2 * 256 + peek s.pkt.buf 3 ≠ 0x0021))
      → determinePacketType RXBUFLEN s = s)
    ∧ (peek s.pkt.buf 0 = 0xff ∧ peek s.pkt.buf 1 = 0x03 →
        (peek s.pkt.buf 2 * 256 + peek s.pkt.buf 3 = 0xc021
          → determinePacketType RXBUFLEN s = LCPframe RXBUFLEN s)
        ∧ (peek s.pkt.buf 2 * 256 + peek s.pkt.buf 3 = 0x8021
          → determinePacketType RXBUFLEN s = IPCPframe s)
        ∧ (peek s.pkt.buf 2 * 256 + peek s.pkt.buf 3 = 0x0021
          → determinePacketType RXBUFLEN s = IPframe s)) := by
  unfold determinePacketType
  simp only [REV16_peek16]
  refine ⟨?_, ?_⟩
  · rintro (h | h | ⟨h1, h2, h3⟩)
    · rw [if_pos h]
    · by_cases h0 : peek s.pkt.buf 0 ≠ 0xff
      · rw [if_pos h0]
      · rw [if_neg h0, if_pos h]
    · by_cases h0 : peek s.pkt.buf 0 ≠ 0xff
      · rw [if_pos h0]
      · by_cases h01 : peek s.pkt.buf 1 ≠ 3
        · rw [if_neg h0, if_pos h01]
        · rw [if_neg h0, if_neg h01, if_neg h1, if_neg h2, if_neg h3]
  · rintro ⟨h0, h1⟩
    rw [if_neg (by simp [h0]), if_neg (by simp [h1])]
    refine ⟨?_, ?_, ?_⟩
    · intro h; rw [if_pos h]
    · intro h; rw [h]; simp
    · intro h; rw [h]; simp

theorem fcsBuf_congr (b1 b2 : List Nat) (n : Nat) (h : ∀ i, i < n → peek b1 i = peek b2 i) :
    fcsBuf b1 n = fcsBuf b2 n := by
  rw [fcsBuf_eq_foldl, fcsBuf_eq_foldl]
  have : peekList b1 0 n = peekList b2 0 n := by
    unfold peekList
    apply List.map_congr_left
    intro i hi
    rw [Nat.zero_add]
    exact h i (List.mem_range.mp hi)
  rw [this]

/-- Changing a byte in front of the FCS after a frame was sent gives the same
frame as changing it in the packet before the FCS was stored. -/
theorem fcsStored_poke_fcsStored (b : List Nat) (len j c : Nat) (hj : j + 2 < len) :
    fcsStored (poke (fcsStored b len) j c) len = fcsStored (poke b j c) len := by
  have h2 : 2 ≤ len := by omega
  have hcrc : fcsBuf (poke (fcsStored b len) j c) (len - 2) = fcsBuf (poke b j c) (len - 2) := by
    apply fcsBuf_congr
    intro i hi
    by_cases hij : j = i
    · subst hij
      by_cases hjl : j < b.length
      · rw [peek_poke_same _ _ _ (by unfold fcsStored; rw [if_pos h2, poke_length, poke_length]; exact hjl),
          peek_poke_same _ _ _ hjl]
      · rw [peek_of_le _ _ (by unfold fcsStored; rw [if_pos h2, poke_length, poke_length, poke_length]; omega),
          peek_of_le _ _ (by rw [poke_length]; omega)]
    · rw [peek_poke_ne _ _ _ _ hij, peek_poke_ne _ _ _ _ hij]
      unfold fcsStored
      rw [if_pos h2, peek_poke_ne _ _ _ _ (by omega), peek_poke_ne _ _ _ _ (by omega)]
  unfold fcsStored at hcrc ⊢
  rw [if_pos h2] at hcrc ⊢
  rw [if_pos h2, if_pos h2, hcrc]
  generalize fcsLo (fcsBuf (poke b j c) (len - 2)) = L
  generalize fcsHi (fcsBuf (poke b j c) (len - 2)) = H
  generalize fcsLo (fcsBuf b (len - 2)) = x
  generalize fcsHi (fcsBuf b (len - 2)) = y
  apply List.ext_getElem?
  intro i
  simp only [poke, List.getElem?_set]
  by_cases h1 : len - 1 = i
  · simp [h1]
  · by_cases h3 : len - 2 = i
    · simp [h1, h3]
    · simp [h1, h3]

theorem frameBytes_poke_fcsStored (b : List Nat) (len j c : Nat) (hj : j + 2 < len) :
    frameBytes (poke (fcsStored b len) j c) len = frameBytes (poke b j c) len := by
  unfold frameBytes
  rw [fcsStored_poke_fcsStored _ _ _ _ hj]

theorem poke_poke_same (b : List Nat) (j c1 c2 : Nat) : poke (poke b j c1) j c2 = poke b j c2 := by
  simp [poke]

theorem lengthR_ne_four (buf : List Nat) :
    peek16 buf 6 ≠ REV16 4 ↔ peek buf 6 * 256 + peek buf 7 ≠ 4 := by
  have h1 := peek_lt buf 6
  have h2 := peek_lt buf 7
  have hr : REV16 4 = 1024 := by decide
  rw [hr]
  show peek buf 6 + 256 * peek buf 7 ≠ 1024 ↔ _
  omega

/-- C10 (LCP configuration request): for an LCP packet with code 1 (of at least
7 bytes, so that the code byte lies in front of the FCS), when the big-endian
length field in bytes 6..7 is not 4 exactly one frame is emitted, the received
packet with code 4; when the length field is 4 exactly two frames are emitted
in order, the received packet with code 2 and then with code 1.  Each frame
carries the received packet bytes with a fresh FCS. -/
theorem lcp_config_request (RXBUFLEN : Nat) (s : PppState) (hcode : peek s.pkt.buf 4 = 1)
    (hlen : 7 ≤ s.pkt.len) :
    (peek s.pkt.buf 6 * 256 + peek s.pkt.buf 7 ≠ 4 →
        (LCPframe RXBUFLEN s).tx = s.tx ++ frameBytes (poke s.pkt.buf 4 4) s.pkt.len)
    ∧ (peek s.pkt.buf 6 * 256 + peek s.pkt.buf 7 = 4 →
        (LCPframe RXBUFLEN s).tx
          = s.tx ++ frameBytes (poke s.pkt.buf 4 2) s.pkt.len
              ++ frameBytes (poke s.pkt.buf 4 1) s.pkt.len) := by
  have hL : LCPframe RXBUFLEN s = LCPconfReq s := by
    unfold LCPframe
    simp only [hcode, if_true]
  rw [hL]
  unfold LCPconfReq
  refine ⟨?_, ?_⟩
  · intro h
    rw [if_pos ((lengthR_ne_four _).mpr h), sendPppFrame_eq]
  · intro h
    have h' : ¬ (peek16 s.pkt.buf 6 ≠ REV16 4) := fun hn => (lengthR_ne_four _).mp hn h
    rw [if_neg h']
    simp only [sendPppFrame_eq]
    rw [frameBytes_poke_fcsStored _ _ _ _ (by omega), poke_poke_same]

/-! ## Round trip through framer and deframer -/

theorem destuff_stuffByte (b : Nat) (rest : List Nat) :
    destuff false (stuffByte b ++ rest) = b :: destuff false rest := by
  unfold stuffByte
  split
  · simp [destuff, Nat.xor_cancel_right]
  · next h =>
    have hb : b ≠ 0x7d := fun e => h (Or.inr (Or.inl e))
    simp [destuff, hb]

/-- De-stuffing undoes stuffing. -/
theorem destuff_flatMap_stuffByte (bs : List Nat) :
    destuff false (bs.flatMap stuffByte) = bs := by
  induction bs with
  | nil => rfl
  | cons b bs ih => rw [List.flatMap_cons, destuff_stuffByte, ih]

theorem pokeList_length (buf : List Nat) (off : Nat) (bytes : List Nat) :
    (pokeList buf off bytes).length = buf.length := by
  induction bytes generalizing buf off with
  | nil => rfl
  | cons b bs ih => rw [pokeList, ih, poke_length]

theorem getElem?_pokeList_lt (buf : List Nat) (off : Nat) (bytes : List Nat) (i : Nat) (h : i < off) :
    (pokeList buf off bytes)[i]? = buf[i]? := by
  induction bytes generalizing buf off with
  | nil => rfl
  | cons b bs ih => rw [pokeList, ih _ _ (by omega), getElem?_poke_ne _ _ _ _ (by omega)]

theorem getElem?_pokeList_mid (buf : List Nat) (off : Nat) (bytes : List Nat) (j : Nat)
    (hj : j < bytes.length) (hin : off + bytes.length ≤ buf.length) :
    (pokeList buf off bytes)[off + j]? = some (bytes.getD j 0 % 256) := by
  induction bytes generalizing buf off j with
  | nil => simp at hj
  | cons b bs ih =>
    rw [pokeList]
    simp only [List.length_cons] at hj hin
    cases j with
    | zero =>
      rw [Nat.add_zero, getElem?_pokeList_lt _ _ _ _ (by omega)]
      simp [poke, List.getElem?_set, show off < buf.length by omega]
    | succ j =>
      rw [show off + (j + 1) = off + 1 + j by omega,
        ih (poke buf off b) (off + 1) j (by omega) (by rw [poke_length]; omega)]
      simp

theorem take_pokeList (buf bytes : List Nat) (hin : bytes.length ≤ buf.length)
    (hb : ∀ b ∈ bytes, b < 256) : (pokeList buf 0 bytes).take bytes.length = bytes := by
  apply List.ext_getElem?
  intro i
  by_cases hi : i < bytes.length
  · rw [List.getElem?_take_of_lt hi]
    have := getElem?_pokeList_mid buf 0 bytes i hi (by omega)
    rw [Nat.zero_add] at this
    rw [this, List.getD_eq_getElem?_getD, List.getElem?_eq_getElem hi]
    simp only [Option.getD_some]
    rw [Nat.mod_eq_of_lt (hb _ (List.getElem_mem _))]
  · rw [List.getElem?_eq_none (by rw [List.length_take, pokeList_length]; omega),
      List.getElem?_eq_none (by omega)]

theorem fcsLo_lt (c : Nat) : fcsLo c < 256 := by rw [fcsLo_eq]; omega

theorem fcsHi_lt (c : Nat) : fcsHi c < 256 := by rw [fcsHi_eq]; omega

/-- The packet bytes sent: the payload followed by the two FCS bytes. -/
theorem peekList_fcsStored (buf : List Nat) (len : Nat) (h2 : 2 ≤ len) (hcap : len ≤ buf.length) :
    peekList (fcsStored buf len) 0 len
      = peekList buf 0 (len - 2) ++ [fcsLo (fcsBuf buf (len - 2)), fcsHi (fcsBuf buf (len - 2))] := by
  obtain ⟨n, rfl⟩ : ∃ n, len = n + 2 := ⟨len - 2, by omega⟩
  unfold fcsStored
  rw [if_pos h2, peekList_succ, peekList_succ]
  simp only [Nat.add_sub_cancel, Nat.zero_add, List.append_assoc, List.singleton_append]
  have e1 : n + 2 - 1 = n + 1 := by omega
  rw [e1, peek_poke_same _ _ _ (by rw [poke_length]; omega), peek_poke_ne _ _ _ _ (by omega),
    peek_poke_same _ _ _ (by omega), Nat.mod_eq_of_lt (fcsLo_lt _), Nat.mod_eq_of_lt (fcsHi_lt _)]
  refine congrArg₂ (fun x y => x ++ y) ?_ rfl
  unfold peekList
  apply List.map_congr_left
  intro i hi
  have := List.mem_range.mp hi
  rw [peek_poke_ne _ _ _ _ (by omega), peek_poke_ne _ _ _ _ (by omega)]

theorem mod_add_ne_self (N start m : Nat) (hs : start < N) (hm0 : 0 < m) (hm : m < N) :
    start ≠ (start + m) % N := by
  intro h
  by_cases hx : start + m < N
  · rw [Nat.mod_eq_of_lt hx] at h; omega
  · have h2 : (start + m) % N = start + m - N := by
      rw [Nat.mod_eq_sub_mod (by omega), Nat.mod_eq_of_lt (by omega)]
    omega

theorem stuffByte_length_pos (b : Nat) : 0 < (stuffByte b).length := by
  unfold stuffByte; split <;> simp

theorem length_le_flatMap_stuffByte (bs : List Nat) : bs.length ≤ (bs.flatMap stuffByte).length := by
  induction bs with
  | nil => simp
  | cons b bs ih =>
    rw [List.flatMap_cons, List.length_append, List.length_cons]
    have := stuffByte_length_pos b
    omega

/-- C1 (HDLC round trip): for every packet buffer content of length `len >= 2`,
let `em` be the bytes `sendPppFrame` emits between its leading and trailing
0x7E flags.  When these bytes lie in a receive ring of `2^k` bytes as the span
that starts at `start` (so `em` is shorter than the ring) and the receiving
packet buffer holds `len` bytes, `processPPPFrame` on that span terminates,
leaves the original `len-2` payload bytes at the start of the packet buffer
followed by the two FCS bytes, sets `pkt.len = len`, finds the residue 0xF0B8
and hands the frame to the dispatcher. -/
theorem hdlc_round_trip (k fuel : Nat) (s t : PppState) (em : List Nat) (start : Nat)
    (hlen : 2 ≤ s.pkt.len) (hcap : s.pkt.len ≤ s.pkt.buf.length)
    (hem : (sendPppFrame s).tx = s.tx ++ [0x7e] ++ em ++ [0x7e])
    (hfit : em.length < 2 ^ k) (hstart : start < 2 ^ k)
    (hring : spanBytes (2 ^ k) t.rx.buf start em.length = em)
    (hcapt : s.pkt.len ≤ t.pkt.buf.length) (hfuel : 2 ^ k ≤ fuel) :
    ∃ d, deframe (2 ^ k) fuel t start ((start + em.length) % 2 ^ k) = some d
      ∧ d.pkt.len = s.pkt.len
      ∧ d.pkt.buf.take (s.pkt.len - 2) = peekList s.pkt.buf 0 (s.pkt.len - 2)
      ∧ (d.pkt.buf.drop (s.pkt.len - 2)).take 2
          = [fcsLo (fcsBuf s.pkt.buf (s.pkt.len - 2)), fcsHi (fcsBuf s.pkt.buf (s.pkt.len - 2))]
      ∧ d.pkt.crc = 0xf0b8
      ∧ processPPPFrame (2 ^ k) fuel t start ((start + em.length) % 2 ^ k)
          = some (determinePacketType (2 ^ k) d) := by
  -- the emitted bytes are the stuffed packet bytes
  have hem2 : em = (peekList (fcsStored s.pkt.buf s.pkt.len) 0 s.pkt.len).flatMap stuffByte := by
    rw [sendPppFrame_eq] at hem
    simp only [frameBytes, stuffed, List.append_assoc] at hem
    have h1 := List.append_cancel_left hem
    have h2 := List.append_cancel_left h1
    exact (List.append_cancel_right h2).symm
  have hbytes := peekList_fcsStored s.pkt.buf s.pkt.len hlen hcap
  have hdest : destuff false em
      = peekList s.pkt.buf 0 (s.pkt.len - 2)
          ++ [fcsLo (fcsBuf s.pkt.buf (s.pkt.len - 2)), fcsHi (fcsBuf s.pkt.buf (s.pkt.len - 2))] := by
    rw [hem2, destuff_flatMap_stuffByte, hbytes]
  have hdlen : (destuff false em).length = s.pkt.len := by
    rw [hdest, List.length_append, peekList_length]; simp; omega
  have hempos : 0 < em.length := by
    have := length_le_flatMap_stuffByte (peekList (fcsStored s.pkt.buf s.pkt.len) 0 s.pkt.len)
    rw [← hem2, peekList_length] at this
    omega
  obtain ⟨cnt, hcnt⟩ : ∃ cnt, em.length = cnt + 1 := ⟨em.length - 1, by omega⟩
  have hd := deframe_eq k fuel t start cnt (by omega) hstart (by omega)
  rw [← hcnt, hring] at hd
  have hres : (destuff false em).foldl fcsDo fcsReset = 0xf0b8 := by
    rw [hdest, List.foldl_append, ← fcsBuf_eq_foldl]
    exact fcs_residue _ (fcsBuf_lt _ _)
  have hlt : ∀ b ∈ destuff false em, b < 256 := by
    rw [hdest]
    intro b hb
    rcases List.mem_append.mp hb with h | h
    · exact peekList_lt _ _ _ b h
    · simp at h
      rcases h with h | h
      · rw [h]; exact fcsLo_lt _
      · rw [h]; exact fcsHi_lt _
  have htake := take_pokeList t.pkt.buf (destuff false em) (by omega) hlt
  rw [hdlen] at htake
  refine ⟨_, hd, hdlen, ?_, ?_, hres, ?_⟩
  · simp only
    have : (List.take s.pkt.len (pokeList t.pkt.buf 0 (destuff false em))).take (s.pkt.len - 2)
        = (destuff false em).take (s.pkt.len - 2) := by rw [htake]
    rw [List.take_take, Nat.min_eq_left (by omega)] at this
    rw [this, hdest, List.take_left' (peekList_length _ _ _)]
  · simp only
    have : (List.take s.pkt.len (pokeList t.pkt.buf 0 (destuff false em))).drop (s.pkt.len - 2)
        = (destuff false em).drop (s.pkt.len - 2) := by rw [htake]
    rw [List.drop_take, hdest, List.drop_left' (peekList_length _ _ _)] at this
    rw [show s.pkt.len - (s.pkt.len - 2) = 2 by omega] at this
    rw [hdest]
    exact this
  · unfold processPPPFrame
    rw [if_neg (mod_add_ne_self _ _ _ hstart hempos hfit), hd]
    simp only
    rw [if_pos hres]

/-! ## The stuffing rule, and the properties on concrete inputs -/

/-- C3 (byte stuffing rule): for every packet byte `b` in `0..255`, `hdlcPut`
emits the two bytes `0x7D, b XOR 0x20` when `b < 0x20` or `b = 0x7D` or
`b = 0x7E`, and the single byte `b` otherwise; `sendPppFrame` emits 0x7E, then
the `hdlcPut` bytes of each of the `pkt.len` packet bytes in order, then 0x7E,
and leaves `pkt.len` as it was. -/
theorem hdlc_stuffing_rule (s : PppState) (b : Nat) (hb : b < 256) :
    (hdlcPut s b).tx
        = s.tx ++ (if b < 0x20 ∨ b = 0x7d ∨ b = 0x7e then [0x7d, b ^^^ 0x20] else [b])
    ∧ (sendPppFrame s).tx
        = s.tx ++ [0x7e]
            ++ ((List.range s.pkt.len).map (fun i => peek (sendPppFrame s).pkt.buf i)).flatMap stuffByte
            ++ [0x7e]
    ∧ (sendPppFrame s).pkt.len = s.pkt.len := by
  refine ⟨?_, ?_, ?_⟩
  · rw [stuffByte_eq_hdlcPut s b hb]; rfl
  · rw [sendPppFrame_eq]
    simp [frameBytes, stuffed, peekList]
  · rw [sendPppFrame_eq]

theorem hdlc_stuffing_rule_witness :
    (0x7e : Nat) < 256
    ∧ ((hdlcPut exampleSender 0x7e).tx
        = exampleSender.tx
            ++ (if (0x7e : Nat) < 0x20 ∨ (0x7e : Nat) = 0x7d ∨ (0x7e : Nat) = 0x7e
                then [0x7d, 0x7e ^^^ 0x20] else [0x7e])
      ∧ (sendPppFrame exampleSender).tx
        = exampleSender.tx ++ [0x7e]
            ++ ((List.range exampleSender.pkt.len).map
                  (fun i => peek (sendPppFrame exampleSender).pkt.buf i)).flatMap stuffByte
            ++ [0x7e]
      ∧ (sendPppFrame exampleSender).pkt.len = exampleSender.pkt.len) :=
  ⟨by decide, hdlc_stuffing_rule exampleSender 0x7e (by decide)⟩

set_option maxRecDepth 100000 in
theorem hdlc_round_trip_witness :
    ∃ d, deframe (2 ^ 4) 16 exampleReceiver 12 ((12 + [255, 125, 35, 125, 94, 65, 49, 239].length) % 2 ^ 4) = some d
      ∧ d.pkt.len = exampleSender.pkt.len
      ∧ d.pkt.buf.take (exampleSender.pkt.len - 2)
          = peekList exampleSender.pkt.buf 0 (exampleSender.pkt.len - 2)
      ∧ (d.pkt.buf.drop (exampleSender.pkt.len - 2)).take 2
          = [fcsLo (fcsBuf exampleSender.pkt.buf (exampleSender.pkt.len - 2)),
             fcsHi (fcsBuf exampleSender.pkt.buf (exampleSender.pkt.len - 2))]
      ∧ d.pkt.crc = 0xf0b8
      ∧ processPPPFrame (2 ^ 4) 16 exampleReceiver 12
            ((12 + [255, 125, 35, 125, 94, 65, 49, 239].length) % 2 ^ 4)
          = some (determinePacketType (2 ^ 4) d) :=
  hdlc_round_trip 4 16 exampleSender exampleReceiver [255, 125, 35, 125, 94, 65, 49, 239] 12
    (by decide) (by decide) (by decide) (by decide) (by decide) (by decide) (by decide) (by decide)

set_option maxRecDepth 100000 in
theorem dataCheckSum_reference_witness :
    (3 + 1) / 2 * 65535 < 4294967296
    ∧ (dataCheckSum 7 [0x45, 0x00, 0x01] 0 3 1 % 65536 = 65535 - onesSum (peekList [0x45, 0x00, 0x01] 0 3)
      ∧ dataCheckSumAcc 7 [0x45, 0x00, 0x01] 0 3 1 = onesSum (peekList [0x45, 0x00, 0x01] 0 3)
      ∧ dataCheckSumAcc 7 [0x45, 0x00, 0x01] 0 3 1 ≤ 65535) :=
  ⟨by decide, dataCheckSum_reference 7 [0x45, 0x00, 0x01] 0 3 (by decide)⟩

set_option maxRecDepth 100000 in
theorem dataCheckSum_self_verifies_witness :
    dataCheckSumAcc 9
        (poke (poke exampleIpHeader (0 + 10) (dataCheckSum 0 exampleIpHeader 0 20 1 / 256 % 256))
          (0 + 10 + 1) (dataCheckSum 0 exampleIpHeader 0 20 1 % 256)) 0 20 1 = 0xffff
      ∧ dataCheckSum 9
        (poke (poke exampleIpHeader (0 + 10) (dataCheckSum 0 exampleIpHeader 0 20 1 / 256 % 256))
          (0 + 10 + 1) (dataCheckSum 0 exampleIpHeader 0 20 1 % 256)) 0 20 1 % 65536 = 0 :=
  dataCheckSum_self_verifies 0 9 exampleIpHeader 0 20 10 (by decide) (by decide) (by decide)
    (by decide) (by decide) (by decide)

set_option maxRecDepth 100000 in
theorem pseudo_header_two_pass_witness :
    dataCheckSum (dataCheckSumAcc 5 [10, 0, 0, 1, 10, 0, 0, 2, 0, 17, 0, 11] 0 12 1)
        [0xaa, 0, 7, 0, 9, 0, 11, 0, 0, 0x74, 0x65, 0x73, 0x74] 2 11 0 % 65536
      = dataCheckSum 5 ([10, 0, 0, 1, 10, 0, 0, 2, 0, 17, 0, 11]
          ++ peekList [0xaa, 0, 7, 0, 9, 0, 11, 0, 0, 0x74, 0x65, 0x73, 0x74] 2 11) 0 (12 + 11) 1 % 65536 :=
  pseudo_header_two_pass 5 [10, 0, 0, 1, 10, 0, 0, 2, 0, 17, 0, 11]
    [0xaa, 0, 7, 0, 9, 0, 11, 0, 0, 0x74, 0x65, 0x73, 0x74] 2 11 (by decide) (by decide)

set_option maxRecDepth 100000 in
theorem ip_header_checksum_witness :
    peek (IpHeaderCheckSum exampleIpPacket).pkt.buf (ipStart + 10) * 256
        + peek (IpHeaderCheckSum exampleIpPacket).pkt.buf (ipStart + 11)
      = 65535 - onesSum (peekList (poke16 exampleIpPacket.pkt.buf (ipStart + 10) 0) ipStart
          (4 * ipHeaderLength exampleIpPacket.pkt.buf))
    ∧ peek (IpHeaderCheckSum exampleIpPacket).pkt.buf (ipStart + 10) * 256
        + peek (IpHeaderCheckSum exampleIpPacket).pkt.buf (ipStart + 11)
      = dataCheckSum exampleIpPacket.sum (poke16 exampleIpPacket.pkt.buf (ipStart + 10) 0) ipStart
          (4 * ipHeaderLength exampleIpPacket.pkt.buf) 1 % 65536
    ∧ (IpHeaderCheckSum exampleIpPacket).pkt.buf.length = exampleIpPacket.pkt.buf.length
    ∧ (∀ i, i ≠ ipStart + 10 → i ≠ ipStart + 11 →
        (IpHeaderCheckSum exampleIpPacket).pkt.buf[i]? = exampleIpPacket.pkt.buf[i]?)
    ∧ dataCheckSumAcc (IpHeaderCheckSum exampleIpPacket).sum (IpHeaderCheckSum exampleIpPacket).pkt.buf
        ipStart (4 * ipHeaderLength exampleIpPacket.pkt.buf) 1 = 0xffff :=
  ip_header_checksum exampleIpPacket (by decide) (by decide)

theorem determinePacketType_dispatch_witness :
    determinePacketType 16 exampleBadAddress = exampleBadAddress
    ∧ determinePacketType 16 exampleLcpRequest = LCPframe 16 exampleLcpRequest
    ∧ determinePacketType 16 exampleIpPacket = IPframe exampleIpPacket :=
  ⟨(determinePacketType_dispatch 16 exampleBadAddress).1 (Or.inl (by decide)),
   ((determinePacketType_dispatch 16 exampleLcpRequest).2 ⟨by decide, by decide⟩).1 (by decide),
   ((determinePacketType_dispatch 16 exampleIpPacket).2 ⟨by decide, by decide⟩).2.2 (by decide)⟩

set_option maxRecDepth 100000 in
theorem bad_fcs_rejected_witness :
    ∃ d, deframe (2 ^ 3) 8 exampleNoise 0 3 = some d
      ∧ d.pkt.crc = (destuff false (spanBytes (2 ^ 3) exampleNoise.rx.buf 0
          ((3 + 2 ^ 3 - 0) % 2 ^ 3))).foldl fcsDo fcsReset
      ∧ d.tx = exampleNoise.tx ∧ d.online = exampleNoise.online ∧ d.hostIP = exampleNoise.hostIP
      ∧ d.responseCounter = exampleNoise.responseCounter
      ∧ (d.pkt.crc ≠ 0xf0b8 → processPPPFrame (2 ^ 3) 8 exampleNoise 0 3 = some d)
      ∧ (d.pkt.crc = 0xf0b8 →
          processPPPFrame (2 ^ 3) 8 exampleNoise 0 3 = some (determinePacketType (2 ^ 3) d)) :=
  bad_fcs_rejected 3 8 exampleNoise 0 3 (by decide) (by decide) (by decide) (by decide)

set_option maxRecDepth 100000 in
theorem lcp_config_request_witness :
    (LCPframe 16 exampleLcpOption).tx
        = exampleLcpOption.tx ++ frameBytes (poke exampleLcpOption.pkt.buf 4 4) exampleLcpOption.pkt.len
    ∧ (LCPframe 16 exampleLcpRequest).tx
        = exampleLcpRequest.tx ++ frameBytes (poke exampleLcpRequest.pkt.buf 4 2) exampleLcpRequest.pkt.len
            ++ frameBytes (poke exampleLcpRequest.pkt.buf 4 1) exampleLcpRequest.pkt.len :=
  ⟨(lcp_config_request 16 exampleLcpOption (by decide) (by decide)).1 (by decide),
   (lcp_config_request 16 exampleLcpRequest (by decide) (by decide)).2 (by decide)⟩

/-! ## LCP termination and IPCP -/

theorem sendPppFrame_tx (s : PppState) :
    (sendPppFrame s).tx = s.tx ++ frameBytes s.pkt.buf s.pkt.len := by
  rw [sendPppFrame_eq]

theorem sendPppFrame_buf (s : PppState) :
    (sendPppFrame s).pkt.buf = fcsStored s.pkt.buf s.pkt.len := by
  rw [sendPppFrame_eq]

theorem sendPppFrame_len (s : PppState) : (sendPppFrame s).pkt.len = s.pkt.len := by
  rw [sendPppFrame_eq]

theorem sendPppFrame_hostIP (s : PppState) : (sendPppFrame s).hostIP = s.hostIP := by
  rw [sendPppFrame_eq]

/-- C11 (LCP termination): on an LCP packet with code 5 exactly one frame is
emitted, the received packet with code 6, and the resulting link state is the
one `pppInitStruct` produces: `online = 0`, `head = tail = rtail = buflevel = 0`,
`pkt.len = 0`, `responseCounter = 0`, `firstFrame = 1`, and a receive ring of
`RXBUFLEN` zero bytes. -/
theorem lcp_termination (RXBUFLEN : Nat) (s : PppState) (hcode : peek s.pkt.buf 4 = 5) :
    (LCPframe RXBUFLEN s).tx = s.tx ++ frameBytes (poke s.pkt.buf 4 6) s.pkt.len
    ∧ LCPframe RXBUFLEN s
        = pppInitStruct RXBUFLEN
            (sendPppFrame { s with pkt := { s.pkt with buf := poke s.pkt.buf 4 6 } })
    ∧ (LCPframe RXBUFLEN s).online = 0
    ∧ (LCPframe RXBUFLEN s).rx.head = 0
    ∧ (LCPframe RXBUFLEN s).rx.tail = 0
    ∧ (LCPframe RXBUFLEN s).rx.rtail = 0
    ∧ (LCPframe RXBUFLEN s).rx.buflevel = 0
    ∧ (LCPframe RXBUFLEN s).pkt.len = 0
    ∧ (LCPframe RXBUFLEN s).responseCounter = 0
    ∧ (LCPframe RXBUFLEN s).firstFrame = 1
    ∧ (LCPframe RXBUFLEN s).rx.buf = List.replicate RXBUFLEN 0 := by
  have hL : LCPframe RXBUFLEN s = LCPend RXBUFLEN s := by
    unfold LCPframe
    simp only [hcode]
    rfl
  rw [hL]
  simp [LCPend, pppInitStruct, sendPppFrame_eq]

theorem bufferToIP_eq (buf : List Nat) (p : Nat) : bufferToIP buf p = be32 buf p := by
  have h0 := peek_lt buf p
  have h1 := peek_lt buf (p + 1)
  have h2 := peek_lt buf (p + 2)
  have h3 := peek_lt buf (p + 3)
  have hand : ∀ x, x < 256 → x &&& 0xff = x := by
    intro x hx
    have := Nat.and_pow_two_sub_one_eq_mod x 8
    norm_num at this
    rw [this, Nat.mod_eq_of_lt hx]
  have hor : ∀ r x, x < 256 → ((r <<< 8) % 4294967296) ||| x = (r * 256) % 4294967296 + x := by
    intro r x hx
    rw [Nat.shiftLeft_eq]
    have e : r * 2 ^ 8 % 4294967296 = 2 ^ 8 * (r % 16777216) := by norm_num; omega
    have e2 : r * 256 % 4294967296 = 2 ^ 8 * (r % 16777216) := by norm_num; omega
    rw [e, e2, ← Nat.mul_add_lt_is_or (i := 8) hx]
  unfold bufferToIP be32
  simp only [List.range, List.range.loop, List.foldl_cons, List.foldl_nil, Nat.add_zero]
  rw [hand _ h0, hand _ h1, hand _ h2, hand _ h3, hor _ _ h0, hor _ _ h1, hor _ _ h2, hor _ _ h3]
  omega

/-- C12 (IPCP address capture): on an IPCP configuration request (code 1) whose
first option type byte (packet byte 8) is 3, `hostIP` becomes the big-endian
32-bit value of packet bytes 10..13; when that byte is not 3, `hostIP` is
unchanged. -/
theorem ipcp_address_capture (s : PppState) (hcode : peek s.pkt.buf 4 = 1) :
    (peek s.pkt.buf 8 = 3 →
        (IPCPframe s).hostIP
          = peek s.pkt.buf 10 * 16777216 + peek s.pkt.buf 11 * 65536
              + peek s.pkt.buf 12 * 256 + peek s.pkt.buf 13)
    ∧ (peek s.pkt.buf 8 ≠ 3 → (IPCPframe s).hostIP = s.hostIP) := by
  have hI : IPCPframe s = ipcpConfigRequestHandler s := by
    unfold IPCPframe
    simp only [hcode]
    rfl
  rw [hI]
  unfold ipcpConfigRequestHandler
  refine ⟨?_, ?_⟩
  · intro h
    simp only [h, if_true, sendPppFrame_hostIP, bufferToIP_eq]
    rfl
  · intro h
    simp only [h, if_false, sendPppFrame_hostIP]

/-- A frame depends only on the packet bytes in front of the FCS. -/
theorem frameBytes_congr (b1 b2 : List Nat) (len : Nat) (h2 : 2 ≤ len)
    (hc1 : len ≤ b1.length) (hc2 : len ≤ b2.length)
    (h : ∀ i, i < len - 2 → peek b1 i = peek b2 i) :
    frameBytes b1 len = frameBytes b2 len := by
  have hp : peekList b1 0 (len - 2) = peekList b2 0 (len - 2) := by
    unfold peekList
    apply List.map_congr_left
    intro i hi
    rw [Nat.zero_add]
    exact h i (List.mem_range.mp hi)
  unfold frameBytes stuffed
  rw [peekList_fcsStored _ _ h2 hc1, peekList_fcsStored _ _ h2 hc2, hp, fcsBuf_congr b1 b2 _ h]

theorem fcsStored_length (b : List Nat) (len : Nat) : (fcsStored b len).length = b.length := by
  unfold fcsStored
  split
  · rw [poke_length, poke_length]
  · rfl

theorem peek_fcsStored_lt (b : List Nat) (len i : Nat) (h : i + 2 < len) :
    peek (fcsStored b len) i = peek b i := by
  unfold fcsStored
  rw [if_pos (by omega), peek_poke_ne _ _ _ _ (by omega), peek_poke_ne _ _ _ _ (by omega)]

theorem poke16_REV16_four (b : List Nat) (i : Nat) :
    poke16 b i (REV16 4) = poke (poke b i 0) (i + 1) 4 := by
  rw [poke16_REV16]

/-- C13 (IPCP two-frame burst): on every IPCP configuration request (code 1) of
at least 10 bytes, whatever its options, exactly two frames are emitted in
order: the received packet with its code changed to 2, sent with the received
length, and then a frame of `pkt.len = 10` bytes (4 PPP, 4 IPCP, 2 FCS) with
code 1 and the big-endian length field 4 in bytes 6..7. -/
theorem ipcp_two_frame_burst (s : PppState) (hcode : peek s.pkt.buf 4 = 1)
    (hlen : 10 ≤ s.pkt.len) (hcap : 10 ≤ s.pkt.buf.length) :
    (IPCPframe s).tx
        = s.tx ++ frameBytes (poke s.pkt.buf 4 2) s.pkt.len
            ++ frameBytes (poke (poke (poke s.pkt.buf 4 1) 6 0) 7 4) 10
    ∧ (IPCPframe s).pkt.len = 10 := by
  have hI : IPCPframe s = ipcpConfigRequestHandler s := by
    unfold IPCPframe
    simp only [hcode]
    rfl
  rw [hI]
  unfold ipcpConfigRequestHandler
  have hfr : frameBytes
      (poke16 (poke (fcsStored (poke s.pkt.buf 4 2) s.pkt.len) 4 1) 6 (REV16 4)) 10
      = frameBytes (poke (poke (poke s.pkt.buf 4 1) 6 0) 7 4) 10 := by
    apply frameBytes_congr _ _ _ (by omega)
    · rw [poke16_length, poke_length, fcsStored_length, poke_length]; exact hcap
    · rw [poke_length, poke_length, poke_length]; exact hcap
    · intro i hi
      rw [poke16_REV16_four]
      by_cases h7 : i = 7
      · subst h7
        rw [peek_poke_same _ _ _ (by simp only [poke_length, fcsStored_length]; omega),
          peek_poke_same _ _ _ (by simp only [poke_length]; omega)]
      · rw [peek_poke_ne _ _ _ _ (by omega), peek_poke_ne _ _ _ _ (by omega : 6 + 1 ≠ i)]
        by_cases h6 : i = 6
        · subst h6
          rw [peek_poke_same _ _ _ (by simp only [poke_length, fcsStored_length]; omega),
            peek_poke_same _ _ _ (by simp only [poke_length]; omega)]
        · rw [peek_poke_ne _ _ _ _ (by omega), peek_poke_ne _ _ _ _ (by omega : 6 ≠ i)]
          by_cases h4 : i = 4
          · subst h4
            rw [peek_poke_same _ _ _ (by simp only [fcsStored_length, poke_length]; omega),
              peek_poke_same _ _ _ (by omega)]
          · rw [peek_poke_ne _ _ _ _ (by omega), peek_poke_ne _ _ _ _ (by omega : 4 ≠ i),
              peek_fcsStored_lt _ _ _ (by omega), peek_poke_ne _ _ _ _ (by omega)]
  by_cases h8 : peek s.pkt.buf 8 = 3
  · simp only [h8, if_true, sendPppFrame_eq]
    rw [hfr]
    simp
  · simp only [h8, if_false, sendPppFrame_eq]
    rw [hfr]
    simp

/-- C14 (IPCP NACK): on an IPCP packet with code 3 whose first option type byte
(packet byte 8) is 3, exactly one frame is emitted, the received packet with
the code changed to 1 and a fresh FCS; when the option type is not 3 nothing is
emitted and the state is unchanged; IPCP packets with a code other than 1 and 3
emit nothing and leave the state unchanged. -/
theorem ipcp_nack (s : PppState) :
    (peek s.pkt.buf 4 = 3 → peek s.pkt.buf 8 = 3 →
        (IPCPframe s).tx = s.tx ++ frameBytes (poke s.pkt.buf 4 1) s.pkt.len)
    ∧ (peek s.pkt.buf 4 = 3 → peek s.pkt.buf 8 ≠ 3 → IPCPframe s = s)
    ∧ (peek s.pkt.buf 4 ≠ 1 → peek s.pkt.buf 4 ≠ 3 → IPCPframe s = s) := by
  unfold IPCPframe ipcpNackHandler
  refine ⟨?_, ?_, ?_⟩
  · intro h4 h8
    simp only [h4, h8, if_true, sendPppFrame_eq]
    rfl
  · intro h4 h8
    simp only [h4, h8, if_false]
    rfl
  · intro h1 h3
    simp only [h1, h3, if_false]

/-! ## Reading a buffer after stores -/

theorem poke32_length (buf : List Nat) (i v : Nat) : (poke32 buf i v).length = buf.length := by
  simp [poke32, poke]

theorem peek_poke32_ne (buf : List Nat) (i j v : Nat) (h : j < i ∨ i + 4 ≤ j) :
    peek (poke32 buf i v) j = peek buf j := by
  unfold poke32
  rw [peek_poke_ne _ _ _ _ (by omega), peek_poke_ne _ _ _ _ (by omega),
    peek_poke_ne _ _ _ _ (by omega), peek_poke_ne _ _ _ _ (by omega)]

theorem peek_pokeList_ne (buf : List Nat) (off : Nat) (bytes : List Nat) (j : Nat)
    (h : j < off ∨ off + bytes.length ≤ j) : peek (pokeList buf off bytes) j = peek buf j := by
  induction bytes generalizing buf off with
  | nil => rfl
  | cons b bs ih =>
    simp only [List.length_cons] at h
    rw [pokeList, ih _ _ (by omega), peek_poke_ne _ _ _ _ (by omega)]

theorem peek_fcsStored_ge (b : List Nat) (len i : Nat) (h : len ≤ i) :
    peek (fcsStored b len) i = peek b i := by
  unfold fcsStored
  split
  · rw [peek_poke_ne _ _ _ _ (by omega), peek_poke_ne _ _ _ _ (by omega)]
  · rfl

theorem peekList_congr (b1 b2 : List Nat) (off n : Nat)
    (h : ∀ i, i < n → peek b1 (off + i) = peek b2 (off + i)) :
    peekList b1 off n = peekList b2 off n := by
  unfold peekList
  apply List.map_congr_left
  intro i hi
  exact h i (List.mem_range.mp hi)

theorem peekList_poke_ne (buf : List Nat) (a v off n : Nat) (h : a < off ∨ off + n ≤ a) :
    peekList (poke buf a v) off n = peekList buf off n :=
  peekList_congr _ _ _ _ (fun i hi => peek_poke_ne _ _ _ _ (by omega))

theorem peekList_poke16_ne (buf : List Nat) (a v off n : Nat) (h : a + 2 ≤ off ∨ off + n ≤ a) :
    peekList (poke16 buf a v) off n = peekList buf off n :=
  peekList_congr _ _ _ _ (fun i hi => peek_poke16_ne _ _ _ _ (by omega) (by omega))

theorem peekList_poke32_ne (buf : List Nat) (a v off n : Nat) (h : a + 4 ≤ off ∨ off + n ≤ a) :
    peekList (poke32 buf a v) off n = peekList buf off n :=
  peekList_congr _ _ _ _ (fun i hi => peek_poke32_ne _ _ _ _ (by omega))

theorem peekList_fcsStored_lt (buf : List Nat) (len off n : Nat) (h : off + n + 2 ≤ len) :
    peekList (fcsStored buf len) off n = peekList buf off n :=
  peekList_congr _ _ _ _ (fun i hi => peek_fcsStored_lt _ _ _ (by omega))

theorem peek32_bytes (b : List Nat) (j : Nat) :
    peek32 b j % 256 = peek b j ∧ peek32 b j / 256 % 256 = peek b (j + 1)
      ∧ peek32 b j / 65536 % 256 = peek b (j + 2) ∧ peek32 b j / 16777216 % 256 = peek b (j + 3) := by
  have h0 := peek_lt b j
  have h1 := peek_lt b (j + 1)
  have h2 := peek_lt b (j + 2)
  have h3 := peek_lt b (j + 3)
  unfold peek32
  refine ⟨?_, ?_, ?_, ?_⟩ <;> omega

theorem peek_poke32_0 (buf : List Nat) (i v : Nat) (h : i + 4 ≤ buf.length) :
    peek (poke32 buf i v) i = v % 256 := by
  unfold poke32
  rw [peek_poke_ne _ _ _ _ (by omega), peek_poke_ne _ _ _ _ (by omega),
    peek_poke_ne _ _ _ _ (by omega), peek_poke_same _ _ _ (by omega), Nat.mod_mod]

theorem peek_poke32_1 (buf : List Nat) (i v : Nat) (h : i + 4 ≤ buf.length) :
    peek (poke32 buf i v) (i + 1) = v / 256 % 256 := by
  unfold poke32
  rw [peek_poke_ne _ _ _ _ (by omega), peek_poke_ne _ _ _ _ (by omega),
    peek_poke_same _ _ _ (by rw [poke_length]; omega), Nat.mod_mod]

theorem peek_poke32_2 (buf : List Nat) (i v : Nat) (h : i + 4 ≤ buf.length) :
    peek (poke32 buf i v) (i + 2) = v / 65536 % 256 := by
  unfold poke32
  rw [peek_poke_ne _ _ _ _ (by omega),
    peek_poke_same _ _ _ (by rw [poke_length, poke_length]; omega), Nat.mod_mod]

theorem peek_poke32_3 (buf : List Nat) (i v : Nat) (h : i + 4 ≤ buf.length) :
    peek (poke32 buf i v) (i + 3) = v / 16777216 % 256 := by
  unfold poke32
  rw [peek_poke_same _ _ _ (by rw [poke_length, poke_length, poke_length]; omega), Nat.mod_mod]

theorem peekList_four (b : List Nat) (j : Nat) :
    peekList b j 4 = [peek b j, peek b (j + 1), peek b (j + 2), peek b (j + 3)] := by
  simp [peekList, List.range, List.range.loop]

/-- A 32-bit store of a 32-bit load copies the four bytes. -/
theorem peekList_poke32_peek32 (buf b : List Nat) (i j : Nat) (h : i + 4 ≤ buf.length) :
    peekList (poke32 buf i (peek32 b j)) i 4 = peekList b j 4 := by
  obtain ⟨e0, e1, e2, e3⟩ := peek32_bytes b j
  rw [peekList_four, peekList_four, peek_poke32_0 _ _ _ h, peek_poke32_1 _ _ _ h,
    peek_poke32_2 _ _ _ h, peek_poke32_3 _ _ _ h, e0, e1, e2, e3]

theorem REV_peek32 (buf : List Nat) (i : Nat) : REV (peek32 buf i) = be32 buf i := by
  obtain ⟨e0, e1, e2, e3⟩ := peek32_bytes buf i
  unfold REV be32
  rw [e0, e1, e2, e3]

theorem REV_bytes (x : Nat) :
    REV x % 256 = x / 16777216 % 256 ∧ REV x / 256 % 256 = x / 65536 % 256
      ∧ REV x / 65536 % 256 = x / 256 % 256 ∧ REV x / 16777216 % 256 = x % 256 := by
  unfold REV
  have ha : x % 256 < 256 := Nat.mod_lt _ (by norm_num)
  have hb : x / 256 % 256 < 256 := Nat.mod_lt _ (by norm_num)
  have hc : x / 65536 % 256 < 256 := Nat.mod_lt _ (by norm_num)
  have hd : x / 16777216 % 256 < 256 := Nat.mod_lt _ (by norm_num)
  generalize x % 256 = a at ha ⊢
  generalize x / 256 % 256 = b at hb ⊢
  generalize x / 65536 % 256 = c at hc ⊢
  generalize x / 16777216 % 256 = d at hd ⊢
  refine ⟨?_, ?_, ?_, ?_⟩ <;> omega

/-- A byte-reversed 32-bit store holds the value big-endian. -/
theorem be32_poke32_REV (buf : List Nat) (i x : Nat) (h : i + 4 ≤ buf.length) :
    be32 (poke32 buf i (REV x)) i = x % 4294967296 := by
  obtain ⟨e0, e1, e2, e3⟩ := REV_bytes x
  unfold be32
  rw [peek_poke32_0 _ _ _ h, peek_poke32_1 _ _ _ h, peek_poke32_2 _ _ _ h, peek_poke32_3 _ _ _ h,
    e0, e1, e2, e3]
  omega

theorem be32_congr (b1 b2 : List Nat) (i : Nat)
    (h : ∀ k, k < 4 → peek b1 (i + k) = peek b2 (i + k)) : be32 b1 i = be32 b2 i := by
  unfold be32
  have h0 := h 0 (by norm_num)
  rw [Nat.add_zero] at h0
  rw [h0, h 1 (by norm_num), h 2 (by norm_num), h 3 (by norm_num)]

/-! ## Checksum validation for segments of any length -/

theorem peek_zeroPad (m : List Nat) (ptr len j : Nat) :
    peek (zeroPad m ptr len) j = if len % 2 = 1 ∧ j = ptr + len then 0 else peek m j := by
  unfold zeroPad
  rw [Nat.and_one_is_mod]
  by_cases hodd : len % 2 = 1
  · rw [if_pos (by omega)]
    by_cases hj : j = ptr + len
    · rw [if_pos ⟨hodd, hj⟩, hj, peek_poke_zero]
    · rw [if_neg (fun h => hj h.2), peek_poke_ne _ _ _ _ (fun e => hj e.symm)]
  · rw [if_neg (by omega), if_neg (fun h => hodd h.1)]

theorem dataCheckSumAcc_rawSum (sum : Nat) (mem : List Nat) (ptr len : Nat) :
    dataCheckSumAcc sum mem ptr len 1
      = foldCarry (foldCarry (rawSum (zeroPad mem ptr len) ptr ((len + 1) / 2) % 4294967296)) := by
  rw [dataCheckSumAcc_eq, if_pos (by decide), sumLoop_eq _ _ _ _ (by norm_num), Nat.zero_add]

/-- Storing the complemented sum into a zero 16-bit aligned field makes the
segment sum to 0xFFFF, for even and for odd segment lengths. -/
theorem checksum_validates_any (sum sum' : Nat) (mem : List Nat) (ptr len f : Nat)
    (hf : f % 2 = 0) (hfl : f + 2 ≤ len) (hin : ptr + f + 2 ≤ mem.length)
    (hz0 : peek mem (ptr + f) = 0) (hz1 : peek mem (ptr + f + 1) = 0) :
    dataCheckSumAcc sum'
      (poke (poke mem (ptr + f) (dataCheckSum sum mem ptr len 1 / 256 % 256)) (ptr + f + 1)
        (dataCheckSum sum mem ptr len 1 % 256)) ptr len 1 = 0xffff := by
  have hacc := dataCheckSumAcc_le sum mem ptr len
  have hc : dataCheckSum sum mem ptr len 1 = 4294967295 - dataCheckSumAcc sum mem ptr len 1 := rfl
  generalize hmem' : poke (poke mem (ptr + f) (dataCheckSum sum mem ptr len 1 / 256 % 256))
    (ptr + f + 1) (dataCheckSum sum mem ptr len 1 % 256) = mem'
  have hj : f / 2 < (len + 1) / 2 := by omega
  have e2 : ptr + 2 * (f / 2) = ptr + f := by omega
  have hw0 : wordAt (zeroPad mem ptr len) ptr (f / 2) = 0 := by
    unfold wordAt
    rw [e2, peek_zeroPad, peek_zeroPad, if_neg (by omega), if_neg (by omega), hz0, hz1]
  have hw1 : wordAt (zeroPad mem' ptr len) ptr (f / 2)
      = 65535 - dataCheckSumAcc sum mem ptr len 1 := by
    unfold wordAt
    rw [e2, peek_zeroPad, peek_zeroPad, if_neg (by omega), if_neg (by omega), ← hmem',
      peek_poke_same _ _ _ (by rw [poke_length]; omega),
      peek_poke_ne _ _ _ _ (by omega), peek_poke_same _ _ _ (by omega), hc]
    omega
  have hother : ∀ k, k ≠ f / 2 →
      wordAt (zeroPad mem' ptr len) ptr k = wordAt (zeroPad mem ptr len) ptr k := by
    intro k hk
    unfold wordAt
    rw [peek_zeroPad, peek_zeroPad, peek_zeroPad, peek_zeroPad, ← hmem',
      peek_poke_ne _ _ _ _ (by omega), peek_poke_ne _ _ _ _ (by omega),
      peek_poke_ne _ _ _ _ (by omega), peek_poke_ne _ _ _ _ (by omega)]
  have hup := rawSum_update (zeroPad mem ptr len) (zeroPad mem' ptr len) ptr ((len + 1) / 2)
    (f / 2) hj hother
  rw [hw0, hw1] at hup
  rw [dataCheckSumAcc_rawSum]
  rw [dataCheckSumAcc_rawSum] at hup
  have hmod : rawSum (zeroPad mem' ptr len) ptr ((len + 1) / 2) % 4294967296
      = (rawSum (zeroPad mem ptr len) ptr ((len + 1) / 2) % 4294967296
          + (65535 - foldCarry (foldCarry
              (rawSum (zeroPad mem ptr len) ptr ((len + 1) / 2) % 4294967296)))) % 4294967296 := by
    omega
  rw [hmod]
  exact fold2_validate _ (Nat.mod_lt _ (by norm_num))

/-- A restarted checksum pass depends only on the bytes of the segment. -/
theorem dataCheckSumAcc_congr (sum1 sum2 : Nat) (m1 m2 : List Nat) (ptr len : Nat)
    (h : ∀ i, i < len → peek m1 (ptr + i) = peek m2 (ptr + i)) :
    dataCheckSumAcc sum1 m1 ptr len 1 = dataCheckSumAcc sum2 m2 ptr len 1 := by
  rw [dataCheckSumAcc_restart, dataCheckSumAcc_restart, peekList_congr m1 m2 ptr len h]

/-! ## ICMP echo -/

theorem ICMPpacket_eq (s : PppState) :
    ICMPpacket s
      = if peek s.pkt.buf (ipStart + 4 * ipHeaderLength s.pkt.buf) = 8
        then sendPppFrame (icmpPrepared s)
        else { s with icmpStart := ipStart + 4 * ipHeaderLength s.pkt.buf } := rfl

theorem icmpPrepared_tx (s : PppState) : (icmpPrepared s).tx = s.tx := by
  simp [icmpPrepared, IpHeaderCheckSum, swapIpAddresses]

theorem icmpPrepared_len (s : PppState) : (icmpPrepared s).pkt.len = s.pkt.len := by
  simp [icmpPrepared, IpHeaderCheckSum, swapIpAddresses]

theorem icmpPrepared_buf (s : PppState) :
    ∃ sum0, (icmpPrepared s).pkt.buf
      = poke16 (icmpZeroed s) (ipStart + 4 * ipHeaderLength s.pkt.buf + 2)
          (REV16 (dataCheckSum sum0 (icmpZeroed s) (ipStart + 4 * ipHeaderLength s.pkt.buf)
            (icmpLength s) 1)) := by
  refine ⟨(IpHeaderCheckSum (swapIpAddresses { s with pkt := { s.pkt with
      buf := poke s.pkt.buf (ipStart + 8) (peek s.pkt.buf (ipStart + 8) + 255) } })).sum, ?_⟩
  simp only [icmpPrepared, icmpZeroed, icmpLength]
  simp [IpHeaderCheckSum, swapIpAddresses]

theorem icmpZeroed_eq (s : PppState) :
    ∃ v1, icmpZeroed s
      = poke16 (poke (poke16 (poke16
          (poke32 (poke32 (poke s.pkt.buf 12 (peek s.pkt.buf 12 + 255))
            16 (peek32 (poke s.pkt.buf 12 (peek s.pkt.buf 12 + 255)) 20))
            20 (peek32 (poke s.pkt.buf 12 (peek s.pkt.buf 12 + 255)) 16))
          14 0) 14 v1) (4 + 4 * ipHeaderLength s.pkt.buf) 0)
          (4 + 4 * ipHeaderLength s.pkt.buf + 2) 0 := by
  unfold icmpZeroed
  rw [IpHeaderCheckSum_eq]
  simp only [swapIpAddresses, ipStart]
  exact ⟨_, rfl⟩

theorem icmpZeroed_length (s : PppState) : (icmpZeroed s).length = s.pkt.buf.length := by
  obtain ⟨v1, h⟩ := icmpZeroed_eq s
  rw [h]
  simp only [poke16_length, poke_length, poke32_length]

/-- The state after an echo request was answered. -/
theorem IPframe_echo (s : PppState) (hproto : peek s.pkt.buf (ipStart + 9) = 1)
    (htype : peek s.pkt.buf (ipStart + 4 * ipHeaderLength s.pkt.buf) = 8) :
    IPframe s = sendPppFrame (icmpPrepared s) := by
  unfold IPframe
  simp only [hproto, if_true]
  rw [ICMPpacket_eq, if_pos htype]

/-- One send emits the stuffed bytes of the packet buffer it leaves behind. -/
theorem sendPppFrame_tx_final (s : PppState) :
    (sendPppFrame s).tx
      = s.tx ++ [0x7e] ++ stuffed (sendPppFrame s).pkt.buf s.pkt.len ++ [0x7e] := by
  rw [sendPppFrame_eq]
  simp [frameBytes]

/-- Buffer left behind by the answer to an echo request, store by store. -/
theorem IPframe_echo_buf (s : PppState) (hproto : peek s.pkt.buf (ipStart + 9) = 1)
    (htype : peek s.pkt.buf (ipStart + 4 * ipHeaderLength s.pkt.buf) = 8) :
    ∃ v1 v2, (IPframe s).pkt.buf
      = fcsStored (poke16 (poke16 (poke (poke16 (poke16
          (poke32 (poke32 (poke s.pkt.buf 12 (peek s.pkt.buf 12 + 255))
            16 (peek32 (poke s.pkt.buf 12 (peek s.pkt.buf 12 + 255)) 20))
            20 (peek32 (poke s.pkt.buf 12 (peek s.pkt.buf 12 + 255)) 16))
          14 0) 14 v1) (4 + 4 * ipHeaderLength s.pkt.buf) 0)
          (4 + 4 * ipHeaderLength s.pkt.buf + 2) 0)
          (4 + 4 * ipHeaderLength s.pkt.buf + 2) v2) s.pkt.len := by
  obtain ⟨sum0, hb⟩ := icmpPrepared_buf s
  obtain ⟨v1, hz⟩ := icmpZeroed_eq s
  refine ⟨v1, REV16 (dataCheckSum sum0 (icmpZeroed s) (ipStart + 4 * ipHeaderLength s.pkt.buf)
            (icmpLength s) 1), ?_⟩
  rw [IPframe_echo s hproto htype, sendPppFrame_buf, hb, icmpPrepared_len]
  have hI : ipStart = 4 := rfl
  rw [hI]
  nth_rewrite 1 [hz]
  rfl

/-- C15 (ICMP echo reply fields): an IP packet with protocol 1 whose ICMP type
is 8 and whose ICMP segment (IP total length minus IP header length bytes,
whatever the payload) lies inside the packet in front of the two FCS bytes
makes `IPframe` send exactly one frame, holding the first `pkt.len` bytes
of the packet buffer it leaves behind; in it the ICMP type is 0, the source
address is the request's destination address, the destination address is the
request's source address, and the TTL is the request's TTL minus one as an
8-bit value (one less than a TTL of at least 1). -/
theorem icmp_echo_reply_fields (s : PppState)
    (hproto : peek s.pkt.buf (ipStart + 9) = 1)
    (h5 : 5 ≤ ipHeaderLength s.pkt.buf)
    (htype : peek s.pkt.buf (ipStart + 4 * ipHeaderLength s.pkt.buf) = 8)
    (hseg : 4 * ipHeaderLength s.pkt.buf + 4 ≤ ipTotalLength s.pkt.buf)
    (hlen : ipStart + ipTotalLength s.pkt.buf + 2 ≤ s.pkt.len)
    (hcap : s.pkt.len ≤ s.pkt.buf.length) :
    (IPframe s).tx = s.tx ++ [0x7e] ++ stuffed (IPframe s).pkt.buf s.pkt.len ++ [0x7e]
    ∧ peek (IPframe s).pkt.buf (ipStart + 4 * ipHeaderLength s.pkt.buf) = 0
    ∧ peekList (IPframe s).pkt.buf (ipStart + 12) 4 = peekList s.pkt.buf (ipStart + 16) 4
    ∧ peekList (IPframe s).pkt.buf (ipStart + 16) 4 = peekList s.pkt.buf (ipStart + 12) 4
    ∧ peek (IPframe s).pkt.buf (ipStart + 8) = (peek s.pkt.buf (ipStart + 8) + 255) % 256
    ∧ (1 ≤ peek s.pkt.buf (ipStart + 8) →
        peek (IPframe s).pkt.buf (ipStart + 8) + 1 = peek s.pkt.buf (ipStart + 8)) := by
  obtain ⟨v1, v2, hb⟩ := IPframe_echo_buf s hproto htype
  have hI : ipStart = 4 := rfl
  have hlen : ipStart + 4 * ipHeaderLength s.pkt.buf + 3 ≤ s.pkt.len := by omega
  rw [hI] at hlen ⊢
  have httl : peek (IPframe s).pkt.buf (4 + 8) = (peek s.pkt.buf (4 + 8) + 255) % 256 := by
    rw [hb, peek_fcsStored_lt _ _ _ (by omega),
      peek_poke16_ne _ _ _ _ (by omega) (by omega),
      peek_poke16_ne _ _ _ _ (by omega) (by omega),
      peek_poke_ne _ _ _ _ (by omega),
      peek_poke16_ne _ _ _ _ (by omega) (by omega),
      peek_poke16_ne _ _ _ _ (by omega) (by omega),
      peek_poke32_ne _ _ _ _ (by omega),
      peek_poke32_ne _ _ _ _ (by omega),
      peek_poke_same _ _ _ (by omega)]
  refine ⟨?_, ?_, ?_, ?_, httl, ?_⟩
  · have h := sendPppFrame_tx_final (icmpPrepared s)
    rw [← IPframe_echo s hproto htype, icmpPrepared_tx, icmpPrepared_len] at h
    exact h
  · rw [hb, peek_fcsStored_lt _ _ _ (by omega),
      peek_poke16_ne _ _ _ _ (by omega) (by omega),
      peek_poke16_ne _ _ _ _ (by omega) (by omega),
      peek_poke_same _ _ _ (by simp only [poke16_length, poke32_length, poke_length]; omega)]
  · rw [hb, peekList_fcsStored_lt _ _ _ _ (by omega),
      peekList_poke16_ne _ _ _ _ _ (by omega),
      peekList_poke16_ne _ _ _ _ _ (by omega),
      peekList_poke_ne _ _ _ _ _ (by omega),
      peekList_poke16_ne _ _ _ _ _ (by omega),
      peekList_poke16_ne _ _ _ _ _ (by omega),
      peekList_poke32_ne _ _ _ _ _ (by omega),
      peekList_poke32_peek32 _ _ _ _ (by rw [poke_length]; omega),
      peekList_poke_ne _ _ _ _ _ (by omega)]
  · rw [hb, peekList_fcsStored_lt _ _ _ _ (by omega),
      peekList_poke16_ne _ _ _ _ _ (by omega),
      peekList_poke16_ne _ _ _ _ _ (by omega),
      peekList_poke_ne _ _ _ _ _ (by omega),
      peekList_poke16_ne _ _ _ _ _ (by omega),
      peekList_poke16_ne _ _ _ _ _ (by omega),
      peekList_poke32_peek32 _ _ _ _ (by rw [poke32_length, poke_length]; omega),
      peekList_poke_ne _ _ _ _ _ (by omega)]
  · intro h1
    rw [httl]
    have := peek_lt s.pkt.buf (4 + 8)
    omega

/-- The answer to an echo request keeps the first eight bytes of the IP header. -/
theorem IPframe_echo_header (s : PppState) (hproto : peek s.pkt.buf (ipStart + 9) = 1)
    (htype : peek s.pkt.buf (ipStart + 4 * ipHeaderLength s.pkt.buf) = 8)
    (h5 : 5 ≤ ipHeaderLength s.pkt.buf) (hlen : 14 ≤ s.pkt.len) (j : Nat) (hj : j < 12) :
    peek (IPframe s).pkt.buf j = peek s.pkt.buf j := by
  obtain ⟨v1, v2, hb⟩ := IPframe_echo_buf s hproto htype
  rw [hb, peek_fcsStored_lt _ _ _ (by omega),
      peek_poke16_ne _ _ _ _ (by omega) (by omega),
      peek_poke16_ne _ _ _ _ (by omega) (by omega),
      peek_poke_ne _ _ _ _ (by omega),
      peek_poke16_ne _ _ _ _ (by omega) (by omega),
      peek_poke16_ne _ _ _ _ (by omega) (by omega),
      peek_poke32_ne _ _ _ _ (by omega),
      peek_poke32_ne _ _ _ _ (by omega),
      peek_poke_ne _ _ _ _ (by omega)]

/-- C16 (ICMP echo reply checksum): for an echo request whose ICMP segment
(IP total length minus IP header length bytes, even or odd) lies inside the
packet in front of the two FCS bytes, `dataCheckSum` run over the whole ICMP
segment of the emitted reply, stored checksum included, has low 16 bits 0. -/
theorem icmp_echo_reply_checksum (s : PppState) (sum' : Nat)
    (hproto : peek s.pkt.buf (ipStart + 9) = 1)
    (h5 : 5 ≤ ipHeaderLength s.pkt.buf)
    (htype : peek s.pkt.buf (ipStart + 4 * ipHeaderLength s.pkt.buf) = 8)
    (hseg : 4 * ipHeaderLength s.pkt.buf + 4 ≤ ipTotalLength s.pkt.buf)
    (hlen : ipStart + ipTotalLength s.pkt.buf + 2 ≤ s.pkt.len)
    (hcap : s.pkt.len ≤ s.pkt.buf.length) :
    (IPframe s).tx = s.tx ++ [0x7e] ++ stuffed (IPframe s).pkt.buf s.pkt.len ++ [0x7e]
    ∧ ipHeaderLength (IPframe s).pkt.buf = ipHeaderLength s.pkt.buf
    ∧ ipTotalLength (IPframe s).pkt.buf = ipTotalLength s.pkt.buf
    ∧ dataCheckSum sum' (IPframe s).pkt.buf
        (ipStart + 4 * ipHeaderLength (IPframe s).pkt.buf)
        (ipTotalLength (IPframe s).pkt.buf - 4 * ipHeaderLength (IPframe s).pkt.buf) 1
        % 65536 = 0 := by
  have hI : ipStart = 4 := rfl
  have hh : ipHeaderLength (IPframe s).pkt.buf = ipHeaderLength s.pkt.buf := by
    unfold ipHeaderLength
    rw [IPframe_echo_header s hproto htype h5 (by omega) _ (by rw [hI]; omega)]
  have ht : ipTotalLength (IPframe s).pkt.buf = ipTotalLength s.pkt.buf := by
    unfold ipTotalLength
    rw [IPframe_echo_header s hproto htype h5 (by omega) _ (by rw [hI]; omega),
      IPframe_echo_header s hproto htype h5 (by omega) _ (by rw [hI]; omega)]
  refine ⟨?_, hh, ht, ?_⟩
  · have h := sendPppFrame_tx_final (icmpPrepared s)
    rw [← IPframe_echo s hproto htype, icmpPrepared_tx, icmpPrepared_len] at h
    exact h
  rw [hh, ht]
  obtain ⟨sum0, hb⟩ := icmpPrepared_buf s
  have hbuf : (IPframe s).pkt.buf = fcsStored (icmpPrepared s).pkt.buf s.pkt.len := by
    rw [IPframe_echo s hproto htype, sendPppFrame_buf, icmpPrepared_len]
  have hT : ipTotalLength s.pkt.buf < 65536 := by
    unfold ipTotalLength
    have := peek_lt s.pkt.buf (ipStart + 2)
    have := peek_lt s.pkt.buf (ipStart + 3)
    omega
  have hL : icmpLength s = ipTotalLength s.pkt.buf - 4 * ipHeaderLength s.pkt.buf := by
    unfold icmpLength
    rw [REV16_peek16]
    have e : ipStart + 2 + 1 = ipStart + 3 := rfl
    rw [e]
    unfold ipTotalLength at hseg hT ⊢
    omega
  rw [hL, poke16_REV16] at hb
  have hv := checksum_validates_any sum0 sum' (icmpZeroed s)
    (ipStart + 4 * ipHeaderLength s.pkt.buf)
    (ipTotalLength s.pkt.buf - 4 * ipHeaderLength s.pkt.buf) 2 (by decide) (by omega)
    (by rw [icmpZeroed_length]; omega)
    (by unfold icmpZeroed; exact peek_poke16_zero_lo _ _)
    (by unfold icmpZeroed; exact peek_poke16_zero_hi _ _)
  rw [← hb] at hv
  have hc : dataCheckSumAcc sum' (IPframe s).pkt.buf (ipStart + 4 * ipHeaderLength s.pkt.buf)
      (ipTotalLength s.pkt.buf - 4 * ipHeaderLength s.pkt.buf) 1 = 0xffff := by
    rw [← hv, hbuf]
    apply dataCheckSumAcc_congr
    intro i hi
    rw [peek_fcsStored_lt _ _ _ (by omega)]
  unfold dataCheckSum
  rw [hc]

/-! ## TCP -/

theorem tcpReply_eq (s : PppState) (a q f d : Nat) :
    tcpReply s a q f d
      = { sendPppFrame (tcpPrepared s a q f d) with
          pkt := { (sendPppFrame (tcpPrepared s a q f d)).pkt with
            buf := pokeList (sendPppFrame (tcpPrepared s a q f d)).pkt.buf 44
              (List.replicate 500 0) } } := rfl

theorem tcpHandler_locals (s : PppState) : tcpHandler s = tcpLocals s tcpSwitch := rfl

theorem tcpLocals_eq {α : Type} (s : PppState)
    (k : PppState → Nat → Nat → Int → Nat → Nat → Nat → α) :
    tcpLocals s k = k (tcpLocals s fun sf _ _ _ _ _ _ => sf) (tcpLocals s fun _ d _ _ _ _ _ => d)
      (tcpLocals s fun _ _ d _ _ _ _ => d)
      (tcpLocals s fun _ _ _ z _ _ _ => z) (tcpLocals s fun _ _ _ _ q _ _ => q)
      (tcpLocals s fun _ _ _ _ _ a _ => a) (tcpLocals s fun _ _ _ _ _ _ q => q) := rfl

theorem tcpLocals_sf (s : PppState) : (tcpLocals s fun sf _ _ _ _ _ _ => sf) = tcpNormalized s := rfl

theorem tcpLocals_dataIn (s : PppState) : (tcpLocals s fun _ d _ _ _ _ _ => d) = tcpDataIn s := rfl

theorem tcpLocals_dataOut (s : PppState) : (tcpLocals s fun _ _ d _ _ _ _ => d) = ipStart + 20 + 20 := rfl

theorem tcpLocals_dataSize (s : PppState) : (tcpLocals s fun _ _ _ z _ _ _ => z) = tcpDataSize s := rfl

theorem tcpLocals_seqIn (s : PppState) : (tcpLocals s fun _ _ _ _ q _ _ => q) = tcpSeqIn s := rfl

theorem tcpLocals_ackOut (s : PppState) : (tcpLocals s fun _ _ _ _ _ a _ => a) = tcpAckOut s := rfl

theorem tcpLocals_ackIn (s : PppState) : (tcpLocals s fun _ _ _ _ _ _ q => q) = tcpAckIn s := rfl

theorem tcpHandler_eq (s : PppState) :
    tcpHandler s = tcpSwitch (tcpNormalized s) (tcpDataIn s) (ipStart + 20 + 20) (tcpDataSize s)
      (tcpSeqIn s) (tcpAckOut s) (tcpAckIn s) := by
  rw [tcpHandler_locals, tcpLocals_eq, tcpLocals_sf, tcpLocals_dataIn, tcpLocals_dataOut,
    tcpLocals_dataSize, tcpLocals_seqIn, tcpLocals_ackOut, tcpLocals_ackIn]

theorem tcpNormalized_tx (s : PppState) : (tcpNormalized s).tx = s.tx := by
  simp [tcpNormalized]

theorem tcpNormalized_tcpStart (s : PppState) : (tcpNormalized s).tcpStart = ipStart + 20 := by
  simp [tcpNormalized]

theorem tcpNormalized_buf (s : PppState) :
    (tcpNormalized s).pkt.buf
      = poke16 (setTcpOffset (poke16 (setIpHeaderLength s.pkt.buf 5) (ipStart + 2) (REV 40))
          (ipStart + 20) 5) (ipStart + 20 + 14) (REV16 1200) := by
  simp [tcpNormalized]

theorem tcpPrepared_tx (s : PppState) (a q f d : Nat) : (tcpPrepared s a q f d).tx = s.tx := by
  simp [tcpPrepared, IpHeaderCheckSum, checkSumPseudoHeader, swapIpPorts, swapIpAddresses]

theorem tcpPrepared_len (s : PppState) (a q f d : Nat) :
    (tcpPrepared s a q f d).pkt.len = 20 + (20 + d) + 4 + 2 := by
  simp [tcpPrepared, IpHeaderCheckSum, checkSumPseudoHeader, swapIpPorts, swapIpAddresses]

theorem ipHeaderLength_swapped (buf : List Nat) (v w : Nat) :
    ipHeaderLength (poke32 (poke32 buf (4 + 12) v) (4 + 16) w) = ipHeaderLength buf := by
  unfold ipHeaderLength
  rw [peek_poke32_ne _ _ _ _ (by decide), peek_poke32_ne _ _ _ _ (by decide)]

/-- Packet buffer of a TCP reply before the FCS is stored, store by store. -/
theorem tcpPrepared_buf (s : PppState) (a q f d : Nat) (hT : s.tcpStart = 24)
    (h5 : ipHeaderLength s.pkt.buf = 5) :
    ∃ v1 v2 v3 v4 v5 v6, (tcpPrepared s a q f d).pkt.buf
      = poke16 (poke16 (poke16 (poke16 (poke16 (poke (poke32 (poke32
          (poke16 (poke16 (poke32 (poke32 s.pkt.buf 16 v3) 20 v4) 24 v5) 26 v6)
          32 (REV a)) 28 (REV q)) 37 f) 6 (REV16 (20 + (20 + d)))) 14 0) 14 v1) 40 0) 40 v2 := by
  simp only [tcpPrepared, IpHeaderCheckSum_eq, checkSumPseudoHeader, swapIpPorts, swapIpAddresses, hT,
    ipStart, ipHeaderLength_swapped, h5]
  exact ⟨_, _, _, _, _, _, rfl⟩

/-- One TCP reply: the serial bytes sent and the fields of the packet sent. -/
theorem tcpReply_frame (s : PppState) (a q f d : Nat) (hT : s.tcpStart = 24)
    (h5 : ipHeaderLength s.pkt.buf = 5) (hcap : 46 + d ≤ s.pkt.buf.length) :
    ∃ P, (tcpReply s a q f d).tx = s.tx ++ [0x7e] ++ stuffed P (46 + d) ++ [0x7e]
      ∧ peek P 37 = f % 256
      ∧ be32 P 28 = q % 4294967296
      ∧ be32 P 32 = a % 4294967296
      ∧ peekList P 44 d = peekList s.pkt.buf 44 d := by
  obtain ⟨v1, v2, v3, v4, v5, v6, hb⟩ := tcpPrepared_buf s a q f d hT h5
  refine ⟨fcsStored (tcpPrepared s a q f d).pkt.buf (46 + d), ?_, ?_, ?_, ?_, ?_⟩
  · rw [tcpReply_eq]
    show (sendPppFrame (tcpPrepared s a q f d)).tx = _
    rw [sendPppFrame_tx, tcpPrepared_tx, tcpPrepared_len, frameBytes]
    have e : 20 + (20 + d) + 4 + 2 = 46 + d := by omega
    rw [e]
    simp
  · rw [hb, peek_fcsStored_lt _ _ _ (by omega),
      peek_poke16_ne _ _ _ _ (by omega) (by omega),
      peek_poke16_ne _ _ _ _ (by omega) (by omega),
      peek_poke16_ne _ _ _ _ (by omega) (by omega),
      peek_poke16_ne _ _ _ _ (by omega) (by omega),
      peek_poke16_ne _ _ _ _ (by omega) (by omega),
      peek_poke_same _ _ _ (by simp only [poke16_length, poke32_length, poke_length]; omega)]
  · have hq := be32_poke32_REV (poke32
          (poke16 (poke16 (poke32 (poke32 s.pkt.buf 16 v3) 20 v4) 24 v5) 26 v6)
          32 (REV a)) 28 q (by simp only [poke16_length, poke32_length, poke_length]; omega)
    rw [← hq, hb]
    apply be32_congr
    intro j hj
    rw [peek_fcsStored_lt _ _ _ (by omega),
      peek_poke16_ne _ _ _ _ (by omega) (by omega),
      peek_poke16_ne _ _ _ _ (by omega) (by omega),
      peek_poke16_ne _ _ _ _ (by omega) (by omega),
      peek_poke16_ne _ _ _ _ (by omega) (by omega),
      peek_poke16_ne _ _ _ _ (by omega) (by omega),
      peek_poke_ne _ _ _ _ (by omega)]
  · have ha := be32_poke32_REV
          (poke16 (poke16 (poke32 (poke32 s.pkt.buf 16 v3) 20 v4) 24 v5) 26 v6)
          32 a (by simp only [poke16_length, poke32_length, poke_length]; omega)
    rw [← ha, hb]
    apply be32_congr
    intro j hj
    rw [peek_fcsStored_lt _ _ _ (by omega),
      peek_poke16_ne _ _ _ _ (by omega) (by omega),
      peek_poke16_ne _ _ _ _ (by omega) (by omega),
      peek_poke16_ne _ _ _ _ (by omega) (by omega),
      peek_poke16_ne _ _ _ _ (by omega) (by omega),
      peek_poke16_ne _ _ _ _ (by omega) (by omega),
      peek_poke_ne _ _ _ _ (by omega),
      peek_poke32_ne _ _ _ _ (by omega)]
  · rw [hb, peekList_fcsStored_lt _ _ _ _ (by omega),
      peekList_poke16_ne _ _ _ _ _ (by omega),
      peekList_poke16_ne _ _ _ _ _ (by omega),
      peekList_poke16_ne _ _ _ _ _ (by omega),
      peekList_poke16_ne _ _ _ _ _ (by omega),
      peekList_poke16_ne _ _ _ _ _ (by omega),
      peekList_poke_ne _ _ _ _ _ (by omega),
      peekList_poke32_ne _ _ _ _ _ (by omega),
      peekList_poke32_ne _ _ _ _ _ (by omega),
      peekList_poke16_ne _ _ _ _ _ (by omega),
      peekList_poke16_ne _ _ _ _ _ (by omega),
      peekList_poke32_ne _ _ _ _ _ (by omega),
      peekList_poke32_ne _ _ _ _ _ (by omega)]

theorem httpResponse_flags (s : PppState) (d : Nat) :
    (httpResponse s d).2.2 = TCP_FLAG_ACK ||| TCP_FLAG_FIN := by
  unfold httpResponse
  simp only []

theorem httpResponse_tx (s : PppState) (d : Nat) : (httpResponse s d).1.tx = s.tx := by
  unfold httpResponse
  simp only []
  split_ifs <;> rfl

theorem httpResponse_tcpStart (s : PppState) (d : Nat) :
    (httpResponse s d).1.tcpStart = s.tcpStart := by
  unfold httpResponse
  simp only []
  split_ifs <;> rfl

theorem httpResponse_length (s : PppState) (d : Nat) :
    (httpResponse s d).1.pkt.buf.length = s.pkt.buf.length := by
  unfold httpResponse
  simp only []
  split_ifs <;> simp only [pokeList_length, sprintfAt]

theorem httpResponse_peek_lt (s : PppState) (d j : Nat) (hj : j < d) :
    peek (httpResponse s d).1.pkt.buf j = peek s.pkt.buf j := by
  unfold httpResponse
  simp only []
  split_ifs <;> simp only [sprintfAt]
    <;> repeat rw [peek_pokeList_ne _ _ _ _ (Or.inl (by omega))]

theorem stuffed_inj (P Q : List Nat) (n : Nat) (h : stuffed P n = stuffed Q n) :
    peekList P 0 n = peekList Q 0 n := by
  unfold stuffed at h
  have h2 := congrArg (destuff false) h
  rw [destuff_flatMap_stuffByte, destuff_flatMap_stuffByte] at h2
  exact h2

theorem peek_of_peekList_eq (P Q : List Nat) (n j : Nat) (h : peekList P 0 n = peekList Q 0 n)
    (hj : j < n) : peek P j = peek Q j := by
  have h1 := peekList_getD P 0 n j
  have h2 := peekList_getD Q 0 n j
  rw [h, h2] at h1
  simpa [hj] using h1.symm

/-- Two packets with the same frame agree on the bytes sent. -/
theorem frame_packet_unique (t P Q : List Nat) (n : Nat)
    (h : t ++ [0x7e] ++ stuffed P n ++ [0x7e] = t ++ [0x7e] ++ stuffed Q n ++ [0x7e])
    (j : Nat) (hj : j < n) : peek P j = peek Q j := by
  have h1 : stuffed P n = stuffed Q n := by
    simpa using h
  exact peek_of_peekList_eq P Q n j (stuffed_inj P Q n h1) hj

theorem tcpNormalized_length (s : PppState) :
    (tcpNormalized s).pkt.buf.length = s.pkt.buf.length := by
  rw [tcpNormalized_buf]
  simp only [setTcpOffset, setIpHeaderLength, poke16_length, poke_length]

theorem peek_tcpNormalized (s : PppState) (j : Nat)
    (hj : j ≠ 4 ∧ j ≠ 6 ∧ j ≠ 7 ∧ j ≠ 36 ∧ j ≠ 38 ∧ j ≠ 39) :
    peek (tcpNormalized s).pkt.buf j = peek s.pkt.buf j := by
  rw [tcpNormalized_buf]
  simp only [setTcpOffset, setIpHeaderLength, ipStart]
  rw [peek_poke16_ne _ _ _ _ (by omega) (by omega), peek_poke_ne _ _ _ _ (by omega),
    peek_poke16_ne _ _ _ _ (by omega) (by omega), peek_poke_ne _ _ _ _ (by omega)]

theorem tcpNormalized_ihl (s : PppState) (h : 5 ≤ s.pkt.buf.length) :
    ipHeaderLength (tcpNormalized s).pkt.buf = 5 := by
  unfold ipHeaderLength
  rw [tcpNormalized_buf]
  simp only [setTcpOffset, setIpHeaderLength, ipStart]
  rw [peek_poke16_ne _ _ _ _ (by omega) (by omega), peek_poke_ne _ _ _ _ (by omega),
    peek_poke16_ne _ _ _ _ (by omega) (by omega), peek_poke_same _ _ _ (by omega)]
  omega

theorem tcpNormalized_flag (s : PppState) :
    peek (tcpNormalized s).pkt.buf ((tcpNormalized s).tcpStart + 13) = peek s.pkt.buf (ipStart + 20 + 13) := by
  rw [tcpNormalized_tcpStart]
  exact peek_tcpNormalized s _ (by decide)

theorem tcpHandler_syn (s : PppState) (hflag : peek s.pkt.buf (ipStart + 20 + 13) = TCP_FLAG_SYN) :
    tcpHandler s = tcpReply (tcpNormalized s) ((tcpAckOut s + 1) % 4294967296)
      ((tcpSeqIn s + 0x10000000) % 4294967296) (TCP_FLAG_SYN ||| TCP_FLAG_ACK) 0 := by
  rw [tcpHandler_eq]
  unfold tcpSwitch
  simp only [tcpNormalized_flag, hflag, if_true]

theorem tcpHandler_fin (s : PppState)
    (hflag : peek s.pkt.buf (ipStart + 20 + 13) = TCP_FLAG_FIN
      ∨ peek s.pkt.buf (ipStart + 20 + 13) = (TCP_FLAG_FIN ||| TCP_FLAG_ACK)
      ∨ peek s.pkt.buf (ipStart + 20 + 13) = (TCP_FLAG_FIN ||| TCP_FLAG_PSH ||| TCP_FLAG_ACK)) :
    tcpHandler s = tcpReply (tcpNormalized s) ((tcpAckOut s + 1) % 4294967296) (tcpAckIn s)
      (TCP_FLAG_ACK ||| TCP_FLAG_FIN) 0 := by
  rw [tcpHandler_eq]
  unfold tcpSwitch
  simp only [tcpNormalized_flag]
  have h1 : peek s.pkt.buf (ipStart + 20 + 13) ≠ TCP_FLAG_SYN := by
    rcases hflag with h | h | h <;> rw [h] <;> decide
  have h2 : ¬ (peek s.pkt.buf (ipStart + 20 + 13) = TCP_FLAG_ACK
      ∨ peek s.pkt.buf (ipStart + 20 + 13) = (TCP_FLAG_ACK ||| TCP_FLAG_PSH)) := by
    rcases hflag with h | h | h <;> rw [h] <;> decide
  rw [if_neg h1, if_neg h2, if_pos hflag]

theorem tcpHandler_get (s : PppState)
    (hflag : peek s.pkt.buf (ipStart + 20 + 13) = TCP_FLAG_ACK
      ∨ peek s.pkt.buf (ipStart + 20 + 13) = (TCP_FLAG_ACK ||| TCP_FLAG_PSH))
    (hdata : ¬ (peek s.pkt.buf (ipStart + 20 + 13) = TCP_FLAG_ACK ∧ tcpDataSize s = 0))
    (hget : peekList (tcpNormalized s).pkt.buf (tcpDataIn s) 5 = strBytes "GET /") :
    tcpHandler s = tcpReply (httpResponse (tcpNormalized s) (ipStart + 20 + 20)).1 (tcpAckOut s)
      (tcpAckIn s) (httpResponse (tcpNormalized s) (ipStart + 20 + 20)).2.2
      (httpResponse (tcpNormalized s) (ipStart + 20 + 20)).2.1 := by
  rw [tcpHandler_eq]
  unfold tcpSwitch
  simp only [tcpNormalized_flag]
  have h1 : peek s.pkt.buf (ipStart + 20 + 13) ≠ TCP_FLAG_SYN := by
    rcases hflag with h | h <;> rw [h] <;> decide
  rw [if_neg h1, if_pos hflag, if_neg hdata, if_pos hget]

theorem tcpHandler_ack (s : PppState)
    (hflag : peek s.pkt.buf (ipStart + 20 + 13) = TCP_FLAG_ACK
      ∨ peek s.pkt.buf (ipStart + 20 + 13) = (TCP_FLAG_ACK ||| TCP_FLAG_PSH))
    (hdata : ¬ (peek s.pkt.buf (ipStart + 20 + 13) = TCP_FLAG_ACK ∧ tcpDataSize s = 0))
    (hget : ¬ peekList (tcpNormalized s).pkt.buf (tcpDataIn s) 5 = strBytes "GET /") :
    tcpHandler s = tcpReply (tcpNormalized s) (tcpAckOut s) (tcpAckIn s) TCP_FLAG_ACK 0 := by
  rw [tcpHandler_eq]
  unfold tcpSwitch
  simp only [tcpNormalized_flag]
  have h1 : peek s.pkt.buf (ipStart + 20 + 13) ≠ TCP_FLAG_SYN := by
    rcases hflag with h | h <;> rw [h] <;> decide
  rw [if_neg h1, if_pos hflag, if_neg hdata, if_neg hget]

theorem tcpHandler_silent (s : PppState)
    (h : (peek s.pkt.buf (ipStart + 20 + 13) = TCP_FLAG_ACK ∧ tcpDataSize s = 0)
      ∨ (peek s.pkt.buf (ipStart + 20 + 13) ≠ TCP_FLAG_SYN
        ∧ peek s.pkt.buf (ipStart + 20 + 13) ≠ TCP_FLAG_ACK
        ∧ peek s.pkt.buf (ipStart + 20 + 13) ≠ (TCP_FLAG_ACK ||| TCP_FLAG_PSH)
        ∧ peek s.pkt.buf (ipStart + 20 + 13) ≠ TCP_FLAG_FIN
        ∧ peek s.pkt.buf (ipStart + 20 + 13) ≠ (TCP_FLAG_FIN ||| TCP_FLAG_ACK)
        ∧ peek s.pkt.buf (ipStart + 20 + 13) ≠ (TCP_FLAG_FIN ||| TCP_FLAG_PSH ||| TCP_FLAG_ACK))) :
    tcpHandler s = tcpNormalized s := by
  rw [tcpHandler_eq]
  unfold tcpSwitch
  simp only [tcpNormalized_flag]
  rcases h with h | ⟨h1, h2, h3, h4, h5, h6⟩
  · have h1 : peek s.pkt.buf (ipStart + 20 + 13) ≠ TCP_FLAG_SYN := by rw [h.1]; decide
    rw [if_neg h1, if_pos (Or.inl h.1), if_pos h]
  · rw [if_neg h1, if_neg (by tauto), if_neg (by tauto)]

theorem tcpReply_tx (s : PppState) (a q f d : Nat) :
    (tcpReply s a q f d).tx
      = s.tx ++ frameBytes (tcpPrepared s a q f d).pkt.buf (20 + (20 + d) + 4 + 2) := by
  rw [tcpReply_eq]
  show (sendPppFrame (tcpPrepared s a q f d)).tx = _
  rw [sendPppFrame_tx, tcpPrepared_tx, tcpPrepared_len]

/-- One TCP reply: every packet whose frame was sent carries the fields written. -/
theorem tcpReply_fields (s : PppState) (a q f d : Nat) (hT : s.tcpStart = 24)
    (h5 : ipHeaderLength s.pkt.buf = 5) (hcap : 46 + d ≤ s.pkt.buf.length) (P : List Nat)
    (hP : (tcpReply s a q f d).tx = s.tx ++ [0x7e] ++ stuffed P (46 + d) ++ [0x7e]) :
    peek P 37 = f % 256 ∧ be32 P 28 = q % 4294967296 ∧ be32 P 32 = a % 4294967296
      ∧ peekList P 44 d = peekList s.pkt.buf 44 d := by
  obtain ⟨Q, hQ, h37, h28, h32, hdat⟩ := tcpReply_frame s a q f d hT h5 hcap
  rw [hQ] at hP
  have hu := fun j hj => frame_packet_unique s.tx P Q (46 + d) hP.symm j hj
  refine ⟨?_, ?_, ?_, ?_⟩
  · rw [hu 37 (by omega), h37]
  · rw [← h28]
    exact be32_congr _ _ _ (fun k hk => hu _ (by omega))
  · rw [← h32]
    exact be32_congr _ _ _ (fun k hk => hu _ (by omega))
  · rw [← hdat]
    exact peekList_congr _ _ _ _ (fun k hk => hu _ (by omega))

theorem tcpSeqIn_eq (s : PppState) (h5 : ipHeaderLength s.pkt.buf = 5) :
    tcpSeqIn s = be32 s.pkt.buf (ipStart + 20 + 4) := by
  unfold tcpSeqIn
  rw [h5, REV_peek32]

theorem tcpDataSize_eq (s : PppState) (h5 : ipHeaderLength s.pkt.buf = 5) :
    tcpDataSize s
      = (ipTotalLength s.pkt.buf : Int) - 20 - 4 * (tcpOffset s.pkt.buf (ipStart + 20) : Int) := by
  unfold tcpDataSize ipTotalLength
  simp only [h5, REV16_peek16]
  push_cast
  rfl

theorem be32_lt (buf : List Nat) (i : Nat) : be32 buf i < 4294967296 := by
  unfold be32
  have h0 := peek_lt buf i
  have h1 := peek_lt buf (i + 1)
  have h2 := peek_lt buf (i + 2)
  have h3 := peek_lt buf (i + 3)
  omega

theorem tcpAckOut_cast (s : PppState) :
    ((tcpAckOut s : Nat) : Int) = ((tcpSeqIn s : Int) + tcpDataSize s) % 4294967296 := by
  unfold tcpAckOut
  exact Int.toNat_of_nonneg (Int.emod_nonneg _ (by norm_num))

/-- Reply of `tcpHandler` to a segment whose flag byte is SYN, for a packet
with a 20-byte IP header. -/
theorem tcpHandler_syn_fields (s : PppState) (h5 : ipHeaderLength s.pkt.buf = 5)
    (hflag : peek s.pkt.buf (ipStart + 20 + 13) = TCP_FLAG_SYN)
    (hcap : 46 ≤ s.pkt.buf.length) :
    (∃ P, (tcpHandler s).tx = s.tx ++ [0x7e] ++ stuffed P 46 ++ [0x7e])
    ∧ ∀ P, (tcpHandler s).tx = s.tx ++ [0x7e] ++ stuffed P 46 ++ [0x7e] →
        peek P (ipStart + 20 + 13) = TCP_FLAG_SYN ||| TCP_FLAG_ACK
        ∧ be32 P (ipStart + 20 + 4)
            = (be32 s.pkt.buf (ipStart + 20 + 4) + 0x10000000) % 4294967296
        ∧ (be32 P (ipStart + 20 + 8) : Int)
            = ((be32 s.pkt.buf (ipStart + 20 + 4) : Int)
                + ((ipTotalLength s.pkt.buf : Int) - 20 - 4 * (tcpOffset s.pkt.buf (ipStart + 20) : Int))
                + 1) % 4294967296 := by
  have hT : (tcpNormalized s).tcpStart = 24 := tcpNormalized_tcpStart s
  have hn5 := tcpNormalized_ihl s (by omega)
  have hcap2 : 46 + 0 ≤ (tcpNormalized s).pkt.buf.length := by rw [tcpNormalized_length]; omega
  rw [tcpHandler_syn s hflag, ← tcpNormalized_tx s]
  refine ⟨?_, ?_⟩
  · obtain ⟨Q, hQ, _⟩ := tcpReply_frame (tcpNormalized s) _ _ _ 0 hT hn5 hcap2
    exact ⟨Q, hQ⟩
  · intro P hP
    obtain ⟨h37, h28, h32, _⟩ := tcpReply_fields (tcpNormalized s) _ _ _ 0 hT hn5 hcap2 P hP
    refine ⟨h37, ?_, ?_⟩
    · rw [← tcpSeqIn_eq s h5]
      show be32 P 28 = _
      rw [h28, Nat.mod_mod]
    · rw [← tcpSeqIn_eq s h5, ← tcpDataSize_eq s h5]
      show ((be32 P 32 : Nat) : Int) = _
      rw [h32]
      have hc := tcpAckOut_cast s
      push_cast
      omega

/-- C17 (TCP SYN, amended): for a packet with a 20-byte IP header whose TCP
flag byte is exactly SYN with sequence number S, `tcpHandler` sends exactly
one frame; the packet in it has flags SYN|ACK, sequence number
S + 0x10000000 and acknowledgement number S + n + 1 (modulo 2^32), where n is
the received payload length (IP total length minus 20 minus four times the
data offset), so S + 1 for a SYN without payload. -/
theorem tcp_syn_reply (s : PppState) (h5 : ipHeaderLength s.pkt.buf = 5)
    (hflag : peek s.pkt.buf (ipStart + 20 + 13) = TCP_FLAG_SYN)
    (hcap : 46 ≤ s.pkt.buf.length) :
    (∃ P, (tcpHandler s).tx = s.tx ++ [0x7e] ++ stuffed P 46 ++ [0x7e])
    ∧ ∀ P, (tcpHandler s).tx = s.tx ++ [0x7e] ++ stuffed P 46 ++ [0x7e] →
        peek P (ipStart + 20 + 13) = TCP_FLAG_SYN ||| TCP_FLAG_ACK
        ∧ be32 P (ipStart + 20 + 4)
            = (be32 s.pkt.buf (ipStart + 20 + 4) + 0x10000000) % 4294967296
        ∧ (be32 P (ipStart + 20 + 8) : Int)
            = ((be32 s.pkt.buf (ipStart + 20 + 4) : Int)
                + ((ipTotalLength s.pkt.buf : Int) - 20 - 4 * (tcpOffset s.pkt.buf (ipStart + 20) : Int))
                + 1) % 4294967296
        ∧ ((ipTotalLength s.pkt.buf : Int) - 20 - 4 * (tcpOffset s.pkt.buf (ipStart + 20) : Int) = 0 →
            be32 P (ipStart + 20 + 8) = (be32 s.pkt.buf (ipStart + 20 + 4) + 1) % 4294967296) := by
  obtain ⟨hex, hall⟩ := tcpHandler_syn_fields s h5 hflag hcap
  refine ⟨hex, fun P hP => ?_⟩
  obtain ⟨h1, h2, h3⟩ := hall P hP
  refine ⟨h1, h2, h3, fun h0 => ?_⟩
  rw [h0] at h3
  omega

/-- Reply of `tcpHandler` to a segment whose flag byte is FIN, FIN|ACK or
FIN|PSH|ACK, for a packet with a 20-byte IP header. -/
theorem tcpHandler_fin_fields (s : PppState) (h5 : ipHeaderLength s.pkt.buf = 5)
    (hflag : peek s.pkt.buf (ipStart + 20 + 13) = TCP_FLAG_FIN
      ∨ peek s.pkt.buf (ipStart + 20 + 13) = (TCP_FLAG_FIN ||| TCP_FLAG_ACK)
      ∨ peek s.pkt.buf (ipStart + 20 + 13) = (TCP_FLAG_FIN ||| TCP_FLAG_PSH ||| TCP_FLAG_ACK))
    (hcap : 46 ≤ s.pkt.buf.length) :
    (∃ P, (tcpHandler s).tx = s.tx ++ [0x7e] ++ stuffed P 46 ++ [0x7e])
    ∧ ∀ P, (tcpHandler s).tx = s.tx ++ [0x7e] ++ stuffed P 46 ++ [0x7e] →
        peek P (ipStart + 20 + 13) = TCP_FLAG_ACK ||| TCP_FLAG_FIN
        ∧ (be32 P (ipStart + 20 + 8) : Int)
            = ((be32 s.pkt.buf (ipStart + 20 + 4) : Int)
                + ((ipTotalLength s.pkt.buf : Int) - 20 - 4 * (tcpOffset s.pkt.buf (ipStart + 20) : Int))
                + 1) % 4294967296 := by
  have hT : (tcpNormalized s).tcpStart = 24 := tcpNormalized_tcpStart s
  have hn5 := tcpNormalized_ihl s (by omega)
  have hcap2 : 46 + 0 ≤ (tcpNormalized s).pkt.buf.length := by rw [tcpNormalized_length]; omega
  rw [tcpHandler_fin s hflag, ← tcpNormalized_tx s]
  refine ⟨?_, ?_⟩
  · obtain ⟨Q, hQ, _⟩ := tcpReply_frame (tcpNormalized s) _ _ _ 0 hT hn5 hcap2
    exact ⟨Q, hQ⟩
  · intro P hP
    obtain ⟨h37, _, h32, _⟩ := tcpReply_fields (tcpNormalized s) _ _ _ 0 hT hn5 hcap2 P hP
    refine ⟨h37, ?_⟩
    rw [← tcpSeqIn_eq s h5, ← tcpDataSize_eq s h5]
    show ((be32 P 32 : Nat) : Int) = _
    rw [h32]
    have hc := tcpAckOut_cast s
    push_cast
    omega

/-- C19 (TCP FIN, amended): for a packet with a 20-byte IP header whose TCP
flag byte is FIN, FIN|ACK or FIN|PSH|ACK, `tcpHandler` sends exactly one
frame; the packet in it has flags ACK|FIN and acknowledgement number
S + n + 1 (modulo 2^32), where S is the peer sequence number and n the
received payload length (IP total length minus 20 minus four times the data
offset), so S + 1 for a segment without payload. -/
theorem tcp_fin_reply (s : PppState) (h5 : ipHeaderLength s.pkt.buf = 5)
    (hflag : peek s.pkt.buf (ipStart + 20 + 13) = TCP_FLAG_FIN
      ∨ peek s.pkt.buf (ipStart + 20 + 13) = (TCP_FLAG_FIN ||| TCP_FLAG_ACK)
      ∨ peek s.pkt.buf (ipStart + 20 + 13) = (TCP_FLAG_FIN ||| TCP_FLAG_PSH ||| TCP_FLAG_ACK))
    (hcap : 46 ≤ s.pkt.buf.length) :
    (∃ P, (tcpHandler s).tx = s.tx ++ [0x7e] ++ stuffed P 46 ++ [0x7e])
    ∧ ∀ P, (tcpHandler s).tx = s.tx ++ [0x7e] ++ stuffed P 46 ++ [0x7e] →
        peek P (ipStart + 20 + 13) = TCP_FLAG_ACK ||| TCP_FLAG_FIN
        ∧ (be32 P (ipStart + 20 + 8) : Int)
            = ((be32 s.pkt.buf (ipStart + 20 + 4) : Int)
                + ((ipTotalLength s.pkt.buf : Int) - 20 - 4 * (tcpOffset s.pkt.buf (ipStart + 20) : Int))
                + 1) % 4294967296
        ∧ ((ipTotalLength s.pkt.buf : Int) - 20 - 4 * (tcpOffset s.pkt.buf (ipStart + 20) : Int) = 0 →
            be32 P (ipStart + 20 + 8) = (be32 s.pkt.buf (ipStart + 20 + 4) + 1) % 4294967296) := by
  obtain ⟨hex, hall⟩ := tcpHandler_fin_fields s h5 hflag hcap
  refine ⟨hex, fun P hP => ?_⟩
  obtain ⟨h1, h3⟩ := hall P hP
  refine ⟨h1, h3, fun h0 => ?_⟩
  rw [h0] at h3
  omega

/-- Reply of `tcpHandler` to an HTTP GET, for a packet with a 20-byte IP
header and a TCP header of at least 20 bytes. -/
theorem tcpHandler_get_fields (s : PppState) (h5 : ipHeaderLength s.pkt.buf = 5)
    (hoff : 5 ≤ tcpOffset s.pkt.buf (ipStart + 20))
    (hflag : peek s.pkt.buf (ipStart + 20 + 13) = TCP_FLAG_ACK
      ∨ peek s.pkt.buf (ipStart + 20 + 13) = (TCP_FLAG_ACK ||| TCP_FLAG_PSH))
    (hget : peekList s.pkt.buf (ipStart + 20 + 4 * tcpOffset s.pkt.buf (ipStart + 20)) 5
      = strBytes "GET /")
    (hdata : 5 ≤ (ipTotalLength s.pkt.buf : Int) - 20 - 4 * (tcpOffset s.pkt.buf (ipStart + 20) : Int))
    (hcap : 46 + (httpResponse (tcpNormalized s) (ipStart + 20 + 20)).2.1 ≤ s.pkt.buf.length) :
    (∃ P, (tcpHandler s).tx = s.tx ++ [0x7e]
        ++ stuffed P (46 + (httpResponse (tcpNormalized s) (ipStart + 20 + 20)).2.1) ++ [0x7e])
    ∧ ∀ P, (tcpHandler s).tx = s.tx ++ [0x7e]
        ++ stuffed P (46 + (httpResponse (tcpNormalized s) (ipStart + 20 + 20)).2.1) ++ [0x7e] →
        peekList P (ipStart + 20 + 20) (httpResponse (tcpNormalized s) (ipStart + 20 + 20)).2.1
          = peekList (httpResponse (tcpNormalized s) (ipStart + 20 + 20)).1.pkt.buf (ipStart + 20 + 20)
              (httpResponse (tcpNormalized s) (ipStart + 20 + 20)).2.1
        ∧ peek P (ipStart + 20 + 13) = TCP_FLAG_ACK ||| TCP_FLAG_FIN
        ∧ (be32 P (ipStart + 20 + 8) : Int)
            = ((be32 s.pkt.buf (ipStart + 20 + 4) : Int)
                + ((ipTotalLength s.pkt.buf : Int) - 20 - 4 * (tcpOffset s.pkt.buf (ipStart + 20) : Int)))
              % 4294967296 := by
  have hI : ipStart = 4 := rfl
  have hT : (httpResponse (tcpNormalized s) (ipStart + 20 + 20)).1.tcpStart = 24 := by
    rw [httpResponse_tcpStart]; exact tcpNormalized_tcpStart s
  have hlen0 : 5 ≤ s.pkt.buf.length := by omega
  have hn5 : ipHeaderLength (httpResponse (tcpNormalized s) (ipStart + 20 + 20)).1.pkt.buf = 5 := by
    have h := tcpNormalized_ihl s hlen0
    unfold ipHeaderLength at h ⊢
    rw [httpResponse_peek_lt _ _ _ (by decide), h]
  have hcap2 : 46 + (httpResponse (tcpNormalized s) (ipStart + 20 + 20)).2.1
      ≤ (httpResponse (tcpNormalized s) (ipStart + 20 + 20)).1.pkt.buf.length := by
    rw [httpResponse_length, tcpNormalized_length]; exact hcap
  have hds := tcpDataSize_eq s h5
  have hdIn : tcpDataIn s = ipStart + 20 + 4 * tcpOffset s.pkt.buf (ipStart + 20) := by
    unfold tcpDataIn
    rw [h5]
  have hget2 : peekList (tcpNormalized s).pkt.buf (tcpDataIn s) 5 = strBytes "GET /" := by
    rw [← hget, hdIn]
    apply peekList_congr
    intro i hi
    exact peek_tcpNormalized s _ (by have h := hoff; rw [hI] at h ⊢; omega)
  have hdata2 : ¬ (peek s.pkt.buf (ipStart + 20 + 13) = TCP_FLAG_ACK ∧ tcpDataSize s = 0) := by
    rw [hds]
    intro h
    omega
  rw [tcpHandler_get s hflag hdata2 hget2, httpResponse_flags,
    ← tcpNormalized_tx s, ← httpResponse_tx (tcpNormalized s) (ipStart + 20 + 20)]
  refine ⟨?_, ?_⟩
  · obtain ⟨Q, hQ, _⟩ := tcpReply_frame _ (tcpAckOut s) (tcpAckIn s)
      (TCP_FLAG_ACK ||| TCP_FLAG_FIN) _ hT hn5 hcap2
    exact ⟨Q, hQ⟩
  · intro P hP
    obtain ⟨h37, _, h32, hpay⟩ := tcpReply_fields _ (tcpAckOut s) (tcpAckIn s)
      (TCP_FLAG_ACK ||| TCP_FLAG_FIN) _ hT hn5 hcap2 P hP
    refine ⟨hpay, h37, ?_⟩
    rw [← tcpSeqIn_eq s h5, ← hds]
    show ((be32 P 32 : Nat) : Int) = _
    rw [h32]
    have hc := tcpAckOut_cast s
    push_cast
    omega

/-- C18 (TCP HTTP GET, amended): for a packet with a 20-byte IP header and a
TCP header of at least 20 bytes whose flag byte is ACK or ACK|PSH and whose
payload of at least five bytes begins with "GET /", `tcpHandler` sends exactly
one frame; the packet in it carries the response built by `httpResponse` as
its TCP payload, has flags ACK|FIN (the value `httpResponse` leaves in
`*flags`), and has acknowledgement number equal to the peer sequence number
plus the received payload length (modulo 2^32). -/
theorem tcp_http_get_reply (s : PppState) (h5 : ipHeaderLength s.pkt.buf = 5)
    (hoff : 5 ≤ tcpOffset s.pkt.buf (ipStart + 20))
    (hflag : peek s.pkt.buf (ipStart + 20 + 13) = TCP_FLAG_ACK
      ∨ peek s.pkt.buf (ipStart + 20 + 13) = (TCP_FLAG_ACK ||| TCP_FLAG_PSH))
    (hget : peekList s.pkt.buf (ipStart + 20 + 4 * tcpOffset s.pkt.buf (ipStart + 20)) 5
      = strBytes "GET /")
    (hdata : 5 ≤ (ipTotalLength s.pkt.buf : Int) - 20 - 4 * (tcpOffset s.pkt.buf (ipStart + 20) : Int))
    (hcap : 46 + (httpResponse (tcpNormalized s) (ipStart + 20 + 20)).2.1 ≤ s.pkt.buf.length) :
    (∃ P, (tcpHandler s).tx = s.tx ++ [0x7e]
        ++ stuffed P (46 + (httpResponse (tcpNormalized s) (ipStart + 20 + 20)).2.1) ++ [0x7e])
    ∧ ∀ P, (tcpHandler s).tx = s.tx ++ [0x7e]
        ++ stuffed P (46 + (httpResponse (tcpNormalized s) (ipStart + 20 + 20)).2.1) ++ [0x7e] →
        peekList P (ipStart + 20 + 20) (httpResponse (tcpNormalized s) (ipStart + 20 + 20)).2.1
          = peekList (httpResponse (tcpNormalized s) (ipStart + 20 + 20)).1.pkt.buf (ipStart + 20 + 20)
              (httpResponse (tcpNormalized s) (ipStart + 20 + 20)).2.1
        ∧ peek P (ipStart + 20 + 13) = TCP_FLAG_ACK ||| TCP_FLAG_FIN
        ∧ (be32 P (ipStart + 20 + 8) : Int)
            = ((be32 s.pkt.buf (ipStart + 20 + 4) : Int)
                + ((ipTotalLength s.pkt.buf : Int) - 20 - 4 * (tcpOffset s.pkt.buf (ipStart + 20) : Int)))
              % 4294967296 :=
  tcpHandler_get_fields s h5 hoff hflag hget hdata hcap

theorem lcp_termination_witness :
    (LCPframe 16 exampleLcpTerminate).tx
        = exampleLcpTerminate.tx
          ++ frameBytes (poke exampleLcpTerminate.pkt.buf 4 6) exampleLcpTerminate.pkt.len
    ∧ (LCPframe 16 exampleLcpTerminate).online = 0 :=
  ⟨(lcp_termination 16 exampleLcpTerminate (by decide)).1,
   (lcp_termination 16 exampleLcpTerminate (by decide)).2.2.1⟩

theorem ipcp_address_capture_witness :
    (IPCPframe exampleIpcpRequest).hostIP
      = peek exampleIpcpRequest.pkt.buf 10 * 16777216 + peek exampleIpcpRequest.pkt.buf 11 * 65536
        + peek exampleIpcpRequest.pkt.buf 12 * 256 + peek exampleIpcpRequest.pkt.buf 13 :=
  (ipcp_address_capture exampleIpcpRequest (by decide)).1 (by decide)

theorem ipcp_two_frame_burst_witness :
    (IPCPframe exampleIpcpRequest).tx
        = exampleIpcpRequest.tx
          ++ frameBytes (poke exampleIpcpRequest.pkt.buf 4 2) exampleIpcpRequest.pkt.len
          ++ frameBytes (poke (poke (poke exampleIpcpRequest.pkt.buf 4 1) 6 0) 7 4) 10
    ∧ (IPCPframe exampleIpcpRequest).pkt.len = 10 :=
  ipcp_two_frame_burst exampleIpcpRequest (by decide) (by decide) (by decide)

theorem ipcp_nack_witness :
    (IPCPframe exampleIpcpNack).tx
      = exampleIpcpNack.tx ++ frameBytes (poke exampleIpcpNack.pkt.buf 4 1) exampleIpcpNack.pkt.len :=
  (ipcp_nack exampleIpcpNack).1 (by decide) (by decide)
set_option maxRecDepth 100000 in
theorem icmp_echo_reply_fields_witness :
    (IPframe exampleIpPacket).tx
        = exampleIpPacket.tx ++ [0x7e] ++ stuffed (IPframe exampleIpPacket).pkt.buf exampleIpPacket.pkt.len
          ++ [0x7e]
    ∧ peek (IPframe exampleIpPacket).pkt.buf (ipStart + 4 * ipHeaderLength exampleIpPacket.pkt.buf) = 0
    ∧ peekList (IPframe exampleIpPacket).pkt.buf (ipStart + 12) 4
        = peekList exampleIpPacket.pkt.buf (ipStart + 16) 4
    ∧ peekList (IPframe exampleIpPacket).pkt.buf (ipStart + 16) 4
        = peekList exampleIpPacket.pkt.buf (ipStart + 12) 4
    ∧ peek (IPframe exampleIpPacket).pkt.buf (ipStart + 8)
        = (peek exampleIpPacket.pkt.buf (ipStart + 8) + 255) % 256
    ∧ (1 ≤ peek exampleIpPacket.pkt.buf (ipStart + 8) →
        peek (IPframe exampleIpPacket).pkt.buf (ipStart + 8) + 1
          = peek exampleIpPacket.pkt.buf (ipStart + 8)) :=
  icmp_echo_reply_fields exampleIpPacket (by decide) (by decide) (by decide) (by decide) (by decide)
    (by decide)

set_option maxRecDepth 100000 in
theorem icmp_echo_reply_checksum_witness :
    dataCheckSum 0 (IPframe exampleEchoOdd).pkt.buf
        (ipStart + 4 * ipHeaderLength (IPframe exampleEchoOdd).pkt.buf)
        (ipTotalLength (IPframe exampleEchoOdd).pkt.buf
          - 4 * ipHeaderLength (IPframe exampleEchoOdd).pkt.buf) 1 % 65536 = 0
    ∧ dataCheckSum 0 (IPframe exampleIpPacket).pkt.buf
        (ipStart + 4 * ipHeaderLength (IPframe exampleIpPacket).pkt.buf)
        (ipTotalLength (IPframe exampleIpPacket).pkt.buf
          - 4 * ipHeaderLength (IPframe exampleIpPacket).pkt.buf) 1 % 65536 = 0 :=
  ⟨(icmp_echo_reply_checksum exampleEchoOdd 0 (by decide) (by decide) (by decide) (by decide)
      (by decide) (by decide)).2.2.2,
   (icmp_echo_reply_checksum exampleIpPacket 0 (by decide) (by decide) (by decide) (by decide)
      (by decide) (by decide)).2.2.2⟩

set_option maxRecDepth 100000 in
theorem tcp_syn_reply_witness :
    (∃ P, (tcpHandler exampleSyn).tx = exampleSyn.tx ++ [0x7e] ++ stuffed P 46 ++ [0x7e])
    ∧ ∀ P, (tcpHandler exampleSyn).tx = exampleSyn.tx ++ [0x7e] ++ stuffed P 46 ++ [0x7e] →
        peek P (ipStart + 20 + 13) = TCP_FLAG_SYN ||| TCP_FLAG_ACK
        ∧ be32 P (ipStart + 20 + 4) = (be32 exampleSyn.pkt.buf (ipStart + 20 + 4) + 0x10000000) % 4294967296
        ∧ be32 P (ipStart + 20 + 8) = (be32 exampleSyn.pkt.buf (ipStart + 20 + 4) + 1) % 4294967296 :=
  ⟨(tcp_syn_reply exampleSyn (by decide) (by decide) (by decide)).1,
   fun P hP =>
    ⟨((tcp_syn_reply exampleSyn (by decide) (by decide) (by decide)).2 P hP).1,
     ((tcp_syn_reply exampleSyn (by decide) (by decide) (by decide)).2 P hP).2.1,
     ((tcp_syn_reply exampleSyn (by decide) (by decide) (by decide)).2 P hP).2.2.2 (by decide)⟩⟩

set_option maxRecDepth 100000 in
/-- C17 (counterexample): the flag byte of `exampleSynData` is exactly SYN and
its sequence number is 1000, yet the one frame sent acknowledges 1004, not
1001: the three payload bytes are counted as well. -/
theorem tcp_syn_ack_counterexample :
    ipHeaderLength exampleSynData.pkt.buf = 5
    ∧ peek exampleSynData.pkt.buf (ipStart + 20 + 13) = TCP_FLAG_SYN
    ∧ be32 exampleSynData.pkt.buf (ipStart + 20 + 4) = 1000
    ∧ (∃ P, (tcpHandler exampleSynData).tx = exampleSynData.tx ++ [0x7e] ++ stuffed P 46 ++ [0x7e])
    ∧ ∀ P, (tcpHandler exampleSynData).tx = exampleSynData.tx ++ [0x7e] ++ stuffed P 46 ++ [0x7e] →
        be32 P (ipStart + 20 + 8) = 1004 ∧ be32 P (ipStart + 20 + 8) ≠ (1000 + 1) % 4294967296 := by
  have hS : be32 exampleSynData.pkt.buf (ipStart + 20 + 4) = 1000 := by decide
  have hL : ipTotalLength exampleSynData.pkt.buf = 43 := by decide
  have hO : tcpOffset exampleSynData.pkt.buf (ipStart + 20) = 5 := by decide
  obtain ⟨hex, hall⟩ := tcpHandler_syn_fields exampleSynData (by decide) (by decide) (by decide)
  refine ⟨by decide, by decide, hS, hex, fun P hP => ?_⟩
  have h := (hall P hP).2.2
  rw [hS, hL, hO] at h
  norm_num at h
  have h2 : be32 P (ipStart + 20 + 8) = 1004 := by exact_mod_cast h
  rw [h2]
  exact ⟨rfl, by decide⟩

set_option maxRecDepth 100000 in
theorem tcp_fin_reply_witness :
    (∃ P, (tcpHandler exampleFin).tx = exampleFin.tx ++ [0x7e] ++ stuffed P 46 ++ [0x7e])
    ∧ ∀ P, (tcpHandler exampleFin).tx = exampleFin.tx ++ [0x7e] ++ stuffed P 46 ++ [0x7e] →
        peek P (ipStart + 20 + 13) = TCP_FLAG_ACK ||| TCP_FLAG_FIN
        ∧ be32 P (ipStart + 20 + 8) = (be32 exampleFin.pkt.buf (ipStart + 20 + 4) + 1) % 4294967296 :=
  ⟨(tcp_fin_reply exampleFin (by decide) (by decide) (by decide)).1,
   fun P hP =>
    ⟨((tcp_fin_reply exampleFin (by decide) (by decide) (by decide)).2 P hP).1,
     ((tcp_fin_reply exampleFin (by decide) (by decide) (by decide)).2 P hP).2.2 (by decide)⟩⟩

set_option maxRecDepth 100000 in
/-- C19 (counterexample): the flag byte of `exampleFinData` is FIN|PSH|ACK and
its sequence number is 1000, yet the one frame sent acknowledges 1004, not
1001: the three payload bytes are counted as well. -/
theorem tcp_fin_ack_counterexample :
    ipHeaderLength exampleFinData.pkt.buf = 5
    ∧ peek exampleFinData.pkt.buf (ipStart + 20 + 13) = (TCP_FLAG_FIN ||| TCP_FLAG_PSH ||| TCP_FLAG_ACK)
    ∧ be32 exampleFinData.pkt.buf (ipStart + 20 + 4) = 1000
    ∧ (∃ P, (tcpHandler exampleFinData).tx = exampleFinData.tx ++ [0x7e] ++ stuffed P 46 ++ [0x7e])
    ∧ ∀ P, (tcpHandler exampleFinData).tx = exampleFinData.tx ++ [0x7e] ++ stuffed P 46 ++ [0x7e] →
        be32 P (ipStart + 20 + 8) = 1004 ∧ be32 P (ipStart + 20 + 8) ≠ (1000 + 1) % 4294967296 := by
  have hS : be32 exampleFinData.pkt.buf (ipStart + 20 + 4) = 1000 := by decide
  have hL : ipTotalLength exampleFinData.pkt.buf = 43 := by decide
  have hO : tcpOffset exampleFinData.pkt.buf (ipStart + 20) = 5 := by decide
  obtain ⟨hex, hall⟩ := tcpHandler_fin_fields exampleFinData (by decide)
    (Or.inr (Or.inr (by decide))) (by decide)
  refine ⟨by decide, by decide, hS, hex, fun P hP => ?_⟩
  have h := (hall P hP).2
  rw [hS, hL, hO] at h
  norm_num at h
  have h2 : be32 P (ipStart + 20 + 8) = 1004 := by exact_mod_cast h
  rw [h2]
  exact ⟨rfl, by decide⟩

set_option maxRecDepth 100000 in
theorem tcp_http_get_reply_witness :
    (∃ P, (tcpHandler exampleGet).tx = exampleGet.tx ++ [0x7e]
        ++ stuffed P (46 + (httpResponse (tcpNormalized exampleGet) (ipStart + 20 + 20)).2.1) ++ [0x7e])
    ∧ ∀ P, (tcpHandler exampleGet).tx = exampleGet.tx ++ [0x7e]
        ++ stuffed P (46 + (httpResponse (tcpNormalized exampleGet) (ipStart + 20 + 20)).2.1) ++ [0x7e] →
        peekList P (ipStart + 20 + 20) (httpResponse (tcpNormalized exampleGet) (ipStart + 20 + 20)).2.1
          = peekList (httpResponse (tcpNormalized exampleGet) (ipStart + 20 + 20)).1.pkt.buf
              (ipStart + 20 + 20) (httpResponse (tcpNormalized exampleGet) (ipStart + 20 + 20)).2.1
        ∧ peek P (ipStart + 20 + 13) = TCP_FLAG_ACK ||| TCP_FLAG_FIN
        ∧ (be32 P (ipStart + 20 + 8) : Int)
            = ((be32 exampleGet.pkt.buf (ipStart + 20 + 4) : Int)
                + ((ipTotalLength exampleGet.pkt.buf : Int) - 20
                    - 4 * (tcpOffset exampleGet.pkt.buf (ipStart + 20) : Int)))
              % 4294967296 :=
  tcp_http_get_reply exampleGet (by decide) (by decide) (by decide) (by decide) (by decide)
    (by decide)

set_option maxRecDepth 100000 in
/-- C18 (counterexample): the flag byte of `exampleGet` is ACK|PSH and its
payload begins with "GET /", yet the one frame sent (590 packet bytes, 544 of
them the response) has flags ACK|FIN, not ACK|PSH. -/
theorem tcp_http_get_flags_counterexample :
    ipHeaderLength exampleGet.pkt.buf = 5
    ∧ peek exampleGet.pkt.buf (ipStart + 20 + 13) = (TCP_FLAG_ACK ||| TCP_FLAG_PSH)
    ∧ peekList exampleGet.pkt.buf (ipStart + 20 + 20) 5 = strBytes "GET /"
    ∧ (∃ P, (tcpHandler exampleGet).tx = exampleGet.tx ++ [0x7e] ++ stuffed P (46 + 544) ++ [0x7e])
    ∧ ∀ P, (tcpHandler exampleGet).tx = exampleGet.tx ++ [0x7e] ++ stuffed P (46 + 544) ++ [0x7e] →
        peek P (ipStart + 20 + 13) = TCP_FLAG_ACK ||| TCP_FLAG_FIN
        ∧ peek P (ipStart + 20 + 13) ≠ TCP_FLAG_ACK ||| TCP_FLAG_PSH := by
  have hn : (httpResponse (tcpNormalized exampleGet) (ipStart + 20 + 20)).2.1 = 544 := by decide
  obtain ⟨hex, hall⟩ := tcpHandler_get_fields exampleGet (by decide) (by decide)
    (Or.inr (by decide)) (by decide) (by decide) (by decide)
  rw [hn] at hex hall
  refine ⟨by decide, by decide, by decide, hex, fun P hP => ?_⟩
  have h := (hall P hP).2.1
  rw [h]
  exact ⟨rfl, by decide⟩

/-! ## Unsupported IP traffic -/

theorem UDPpacket_branches (s : PppState) :
    UDPpacket s = udpBranches s udpEcho udpTest (fun s0 => s0) := rfl

/-- C26 (unsupported IP traffic is ignored): `IPframe` sends nothing when the
protocol byte is none of 1, 6 and 17 (the state is unchanged), when the packet
is ICMP with a type other than 8, or when it is UDP with a payload that starts
with neither "echo " nor "test"; in the ICMP and UDP cases the packet buffer
and its length are unchanged as well. -/
theorem unsupported_ip_ignored (s : PppState) :
    (peek s.pkt.buf (ipStart + 9) ≠ 1 → peek s.pkt.buf (ipStart + 9) ≠ 6 →
      peek s.pkt.buf (ipStart + 9) ≠ 17 → IPframe s = s)
    ∧ (peek s.pkt.buf (ipStart + 9) = 1 →
        peek s.pkt.buf (ipStart + 4 * ipHeaderLength s.pkt.buf) ≠ 8 →
        (IPframe s).tx = s.tx ∧ (IPframe s).pkt = s.pkt)
    ∧ (peek s.pkt.buf (ipStart + 9) = 17 →
        peekList s.pkt.buf (ipStart + 4 * ipHeaderLength s.pkt.buf + 8) 5 ≠ strBytes "echo " →
        peekList s.pkt.buf (ipStart + 4 * ipHeaderLength s.pkt.buf + 8) 4 ≠ strBytes "test" →
        (IPframe s).tx = s.tx ∧ (IPframe s).pkt = s.pkt) := by
  refine ⟨?_, ?_, ?_⟩
  · intro h1 h6 h17
    unfold IPframe
    simp only [h1, h6, h17, if_false]
  · intro h1 h8
    unfold IPframe
    simp only [h1, if_true]
    rw [ICMPpacket_eq, if_neg h8]
    exact ⟨rfl, rfl⟩
  · intro h17 he ht
    have h1 : peek s.pkt.buf (ipStart + 9) ≠ 1 := by rw [h17]; decide
    unfold IPframe
    simp only [h17, if_true]
    have hU : UDPpacket s = { s with udpStart := ipStart + 4 * ipHeaderLength s.pkt.buf } := by
      rw [UDPpacket_branches]
      unfold udpBranches
      simp only [he, ht, if_false]
    have e17 : (17 : Nat) ≠ 1 := by decide
    rw [if_neg e17, hU]
    exact ⟨rfl, rfl⟩
set_option maxRecDepth 100000 in
theorem unsupported_ip_ignored_witness :
    IPframe exampleOtherProtocol = exampleOtherProtocol
    ∧ ((IPframe exampleEchoReply).tx = exampleEchoReply.tx
        ∧ (IPframe exampleEchoReply).pkt = exampleEchoReply.pkt)
    ∧ ((IPframe exampleUdpHello).tx = exampleUdpHello.tx
        ∧ (IPframe exampleUdpHello).pkt = exampleUdpHello.pkt) :=
  ⟨(unsupported_ip_ignored exampleOtherProtocol).1 (by decide) (by decide) (by decide),
   (unsupported_ip_ignored exampleEchoReply).2.1 (by decide) (by decide),
   (unsupported_ip_ignored exampleUdpHello).2.2 (by decide) (by decide) (by decide)⟩

/-! ## Serial receive handler -/

theorem rxReadLoop_cons (N : Nat) (s : PppState) (ch : Nat) (rest : List Nat) :
    rxReadLoop N s (ch :: rest)
      = if (s.rx.head + 1) &&& (N - 1) = s.rx.rtail then (s, rest, true)
        else rxReadLoop N (rxStore N s ch) rest := rfl

theorem rxReadLoop_append (N : Nat) (pre l : List Nat) :
    ∀ s s1 : PppState, rxReadLoop N s pre = (s1, [], false) →
      rxReadLoop N s (pre ++ l) = rxReadLoop N s1 l := by
  induction pre with
  | nil =>
    intro s s1 h
    simp only [rxReadLoop, Prod.mk.injEq, and_true] at h
    rw [h, List.nil_append]
  | cons c cs ih =>
    intro s s1 h
    rw [List.cons_append, rxReadLoop_cons] at *
    by_cases hc : (s.rx.head + 1) &&& (N - 1) = s.rx.rtail
    · rw [if_pos hc] at h
      simp at h
    · rw [if_neg hc] at h ⊢
      exact ih _ _ h

/-- C30 (ring overflow drop): when the serial driver has handed out the bytes
`pre` without a collision, leaving the state `s1`, and for the next byte
(head+1) mod RXBUFLEN equals rtail, `pppReceiveHandler` returns at once: the
byte is consumed and dropped, the result is `s1` itself (ring, cursors,
buflevel, online, firstFrame and serial output unchanged) and the frame scan
is not run, whatever the ring holds.  With no earlier byte `s1` is the
entry state. -/
theorem ring_overflow_drop (k fuel : Nat) (s s1 : PppState) (pre : List Nat) (ch : Nat)
    (rest : List Nat) (hpre : rxReadLoop (2 ^ k) s pre = (s1, [], false))
    (hfull : (s1.rx.head + 1) % 2 ^ k = s1.rx.rtail) :
    pppReceiveHandler (2 ^ k) fuel s (pre ++ ch :: rest) = some (s1, rest)
    ∧ (pre = [] → s1 = s) := by
  refine ⟨?_, ?_⟩
  · unfold pppReceiveHandler
    rw [rxReadLoop_append _ _ _ s s1 hpre]
    have hc : (s1.rx.head + 1) &&& (2 ^ k - 1) = s1.rx.rtail := by
      rw [Nat.and_pow_two_sub_one_eq_mod]
      exact hfull
    rw [rxReadLoop_cons, if_pos hc]
    rfl
  · intro h
    rw [h] at hpre
    simp only [rxReadLoop, Prod.mk.injEq, and_true] at hpre
    exact hpre.symm

set_option maxRecDepth 100000 in
theorem ring_overflow_drop_witness :
    (pppReceiveHandler (2 ^ 3) 8 exampleFullRing ([] ++ 0x41 :: [0x7e])
        = some (exampleFullRing, [0x7e])
      ∧ (([] : List Nat) = [] → exampleFullRing = exampleFullRing))
    ∧ (pppReceiveHandler (2 ^ 3) 8 exampleAlmostFullRing ([0x44] ++ 0x41 :: [0x7e])
        = some ({ exampleAlmostFullRing with
                  rx := { exampleAlmostFullRing.rx with
                    buf := [0x7e, 0x43, 0x44, 0, 0x7e, 0x41, 0x42, 0x7e], head := 3, buflevel := 7 } },
                [0x7e])
      ∧ (([0x44] : List Nat) = [] → { exampleAlmostFullRing with
                  rx := { exampleAlmostFullRing.rx with
                    buf := [0x7e, 0x43, 0x44, 0, 0x7e, 0x41, 0x42, 0x7e], head := 3, buflevel := 7 } }
            = exampleAlmostFullRing)) :=
  ⟨ring_overflow_drop 3 8 exampleFullRing exampleFullRing [] 0x41 [0x7e] (by decide) (by decide),
   ring_overflow_drop 3 8 exampleAlmostFullRing _ [0x44] 0x41 [0x7e] (by decide) (by decide)⟩

/-! ## Block stores -/

theorem poke_poke_comm (buf : List Nat) (i j a b : Nat) (h : i ≠ j) :
    poke (poke buf i a) j b = poke (poke buf j b) i a := by
  unfold poke
  exact List.set_comm _ _ _ h

theorem pokeList_append (buf : List Nat) (off : Nat) (a b : List Nat) :
    pokeList buf off (a ++ b) = pokeList (pokeList buf off a) (off + a.length) b := by
  induction a generalizing buf off with
  | nil => rfl
  | cons x xs ih =>
    rw [List.cons_append, pokeList, pokeList, ih, List.length_cons]
    congr 1
    omega

theorem poke_pokeList_comm (buf : List Nat) (off : Nat) (xs : List Nat) (i c : Nat) (h : i < off) :
    poke (pokeList buf off xs) i c = pokeList (poke buf i c) off xs := by
  induction xs generalizing buf off with
  | nil => rfl
  | cons x xs ih =>
    rw [pokeList, pokeList, ih _ _ (by omega), poke_poke_comm _ _ _ _ _ (by omega)]

theorem pokeList_comm (buf : List Nat) (o1 o2 : Nat) (x y : List Nat) (h : o1 + x.length ≤ o2) :
    pokeList (pokeList buf o1 x) o2 y = pokeList (pokeList buf o2 y) o1 x := by
  induction x generalizing buf o1 with
  | nil => rfl
  | cons a xs ih =>
    simp only [List.length_cons] at h
    rw [pokeList, pokeList, ih _ _ (by omega), poke_pokeList_comm _ _ _ _ _ (by omega)]

theorem pokeList_overwrite (buf : List Nat) (off : Nat) (x y : List Nat) (h : x.length ≤ y.length) :
    pokeList (pokeList buf off x) off y = pokeList buf off y := by
  induction x generalizing buf off y with
  | nil => rfl
  | cons a xs ih =>
    cases y with
    | nil => simp at h
    | cons c ys =>
      simp only [List.length_cons] at h
      rw [pokeList, pokeList, poke_pokeList_comm _ _ _ _ _ (by omega), poke_poke_same,
        ih _ _ _ (by omega), pokeList]

/-- A second `sprintf` that starts on the terminating zero of the first one
continues its text. -/
theorem sprintfAt_sprintfAt (buf : List Nat) (off o2 : Nat) (a b : List Nat)
    (h : o2 = off + a.length) :
    sprintfAt (sprintfAt buf off a) o2 b = sprintfAt buf off (a ++ b) := by
  subst h
  unfold sprintfAt
  rw [pokeList_append buf off a [0], pokeList_overwrite _ _ [0] (b ++ [0]) (by simp),
    List.append_assoc, pokeList_append buf off a (b ++ [0])]

/-- A block copy onto the terminating zero of a `sprintf` continues its text. -/
theorem pokeList_sprintfAt (buf : List Nat) (off o2 : Nat) (a b : List Nat)
    (h : o2 = off + a.length) :
    pokeList (sprintfAt buf off a) o2 (b ++ [0]) = sprintfAt buf off (a ++ b) :=
  sprintfAt_sprintfAt buf off o2 a b h

/-- A block copy of as many bytes as it replaces, inside a text written before. -/
theorem pokeList_patch (buf : List Nat) (off o2 : Nat) (a x c y : List Nat)
    (h : o2 = off + a.length) (hl : x.length = y.length) :
    pokeList (pokeList buf off (a ++ (x ++ c))) o2 y = pokeList buf off (a ++ (y ++ c)) := by
  subst h
  rw [pokeList_append buf off a (x ++ c), pokeList_append _ _ x c,
    ← pokeList_comm _ _ _ y c (by omega), pokeList_overwrite _ _ x y (by omega),
    pokeList_append buf off a (y ++ c), pokeList_append _ _ y c, hl]

theorem peek_pokeList_mid (buf : List Nat) (off : Nat) (bytes : List Nat) (j : Nat)
    (hj : j < bytes.length) (hcap : off + j < buf.length) :
    peek (pokeList buf off bytes) (off + j) = bytes.getD j 0 % 256 := by
  induction bytes generalizing buf off j with
  | nil => simp at hj
  | cons b bs ih =>
    rw [pokeList]
    simp only [List.length_cons] at hj
    cases j with
    | zero =>
      show peek (pokeList (poke buf off b) (off + 1) bs) off = _
      rw [peek_pokeList_ne _ _ _ _ (Or.inl (by omega)), peek_poke_same _ _ _ (by omega)]
      rfl
    | succ j =>
      rw [show off + (j + 1) = off + 1 + j by omega,
        ih (poke buf off b) (off + 1) j (by omega) (by rw [poke_length]; omega)]
      rfl

/-- Reading back a block that was stored inside the buffer. -/
theorem peekList_pokeList (buf : List Nat) (off : Nat) (bytes : List Nat)
    (hcap : off + bytes.length ≤ buf.length) :
    peekList (pokeList buf off bytes) off bytes.length = bytes.map (· % 256) := by
  apply List.ext_getElem
  · simp [peekList]
  · intro i h1 h2
    have hi : i < bytes.length := by simpa [peekList] using h1
    simp only [peekList, List.getElem_map, List.getElem_range]
    rw [peek_pokeList_mid _ _ _ _ hi (by omega), List.getD_eq_getElem?_getD,
      List.getElem?_eq_getElem hi]
    rfl

/-- Reading back the text of a `sprintf`. -/
theorem peekList_sprintfAt (buf : List Nat) (off : Nat) (text : List Nat)
    (hcap : off + text.length ≤ buf.length) :
    peekList (sprintfAt buf off text) off text.length = text.map (· % 256) := by
  unfold sprintfAt
  rw [pokeList_append, ← peekList_pokeList buf off text hcap]
  apply peekList_congr
  intro i hi
  rw [pokeList, pokeList, peek_poke_ne _ _ _ _ (by omega)]

/-! ## HTTP responses -/

set_option maxRecDepth 100000 in
theorem httpResponse_buf_get (s : PppState) (d : Nat)
    (h : peekList s.pkt.buf d 5 = strBytes "GET /") :
    (httpResponse s d).1.pkt.buf = httpBufGet s.pkt.buf d := by
  unfold httpResponse httpBufGet
  simp only [h, if_true]
  split_ifs <;> simp only []

theorem httpResponse_buf_notFound (s : PppState) (d : Nat)
    (h : ¬ peekList s.pkt.buf d 5 = strBytes "GET /") :
    (httpResponse s d).1.pkt.buf = httpBufNotFound s.pkt.buf d := by
  unfold httpResponse
  simp only [h, if_false]
  rfl

set_option maxRecDepth 100000 in
theorem httpResponse_n_get (s : PppState) (d : Nat)
    (h : peekList s.pkt.buf d 5 = strBytes "GET /") :
    (httpResponse s d).2.1 = (httpHeader true rootWebPage.length).length + rootWebPage.length := by
  unfold httpResponse
  simp only [h, if_true]
  rfl

theorem httpResponse_n_notFound (s : PppState) (d : Nat)
    (h : ¬ peekList s.pkt.buf d 5 = strBytes "GET /") :
    (httpResponse s d).2.1 = (httpHeader false 0).length := by
  unfold httpResponse
  simp only [h, if_false]
  rfl

theorem contentLengthString_length (v : Nat) :
    (contentLengthString v).length = 5 := by
  unfold contentLengthString CONTENTLENGTHSIZE
  simp only [List.length_take, List.length_append, List.length_replicate]
  omega

/-- A block copy of as many bytes as it replaces, inside a text printed before. -/
theorem pokeList_patch_text (buf : List Nat) (d o : Nat) (a1 a2 q c cl : List Nat)
    (ho : o = d + (a1.length + a2.length)) (hq : q.length = cl.length) :
    pokeList (sprintfAt buf d (a1 ++ (a2 ++ (q ++ c)))) o cl
      = sprintfAt buf d (a1 ++ (a2 ++ (cl ++ c))) := by
  unfold sprintfAt
  have e1 : a1 ++ (a2 ++ (q ++ c)) ++ [0] = (a1 ++ a2) ++ (q ++ (c ++ [0])) := by
    simp only [List.append_assoc]
  have e2 : a1 ++ (a2 ++ (cl ++ c)) ++ [0] = (a1 ++ a2) ++ (cl ++ (c ++ [0])) := by
    simp only [List.append_assoc]
  rw [e1, e2]
  exact pokeList_patch buf d o _ _ _ _ (by rw [ho, List.length_append]) hq

theorem httpBufGet_eq (buf : List Nat) (d : Nat) :
    httpBufGet buf d = sprintfAt buf d (httpHeader true rootWebPage.length ++ rootWebPage) := by
  unfold httpBufGet httpHeader
  simp only [if_true, Bool.true_eq_false]
  rw [sprintfAt_sprintfAt _ _ _ _ _ (by omega), sprintfAt_sprintfAt _ _ _ _ _ (by simp; omega),
    sprintfAt_sprintfAt _ _ _ _ _ (by simp; omega), sprintfAt_sprintfAt _ _ _ _ _ (by simp; omega),
    pokeList_sprintfAt _ _ _ _ _ (by simp; omega)]
  have e3 : strBytes "?????\r\n" = strBytes "?????" ++ strBytes "\r\n" := by decide
  rw [e3, Nat.zero_add]
  simp only [List.append_assoc, Nat.add_succ_sub_one, Nat.add_sub_cancel_left]
  exact pokeList_patch_text buf d _ _ _ _ _ _ (by omega) (by rw [contentLengthString_length]; rfl)

theorem httpBufNotFound_eq (buf : List Nat) (d : Nat) :
    httpBufNotFound buf d = sprintfAt buf d (httpHeader false 0) := by
  unfold httpBufNotFound httpHeader
  simp only [if_false, Bool.false_eq_true]
  rw [sprintfAt_sprintfAt _ _ _ _ _ (by omega), sprintfAt_sprintfAt _ _ _ _ _ (by simp; omega),
    sprintfAt_sprintfAt _ _ _ _ _ (by simp; omega), sprintfAt_sprintfAt _ _ _ _ _ (by simp; omega)]
  have e3 : strBytes "?????\r\n" = strBytes "?????" ++ strBytes "\r\n" := by decide
  rw [e3, Nat.zero_add]
  simp only [List.append_assoc, Nat.sub_self]
  exact pokeList_patch_text buf d _ _ _ _ _ _ (by omega) (by rw [contentLengthString_length]; rfl)

set_option maxRecDepth 100000 in
theorem httpText_get_bytes :
    (httpHeader true rootWebPage.length ++ rootWebPage).map (· % 256)
      = httpHeader true rootWebPage.length ++ rootWebPage := by decide

set_option maxRecDepth 100000 in
theorem httpText_notFound_bytes :
    (httpHeader false 0).map (· % 256) = httpHeader false 0 := by decide

/-- The bytes `httpResponse` leaves at `dataStart`, read back as a text. -/
theorem httpResponse_text (s : PppState) (d : Nat)
    (hcap : d + (httpResponse s d).2.1 ≤ s.pkt.buf.length) :
    (peekList s.pkt.buf d 5 = strBytes "GET /" →
      peekList (httpResponse s d).1.pkt.buf d (httpResponse s d).2.1
        = httpHeader true rootWebPage.length ++ rootWebPage)
    ∧ (¬ peekList s.pkt.buf d 5 = strBytes "GET /" →
      peekList (httpResponse s d).1.pkt.buf d (httpResponse s d).2.1 = httpHeader false 0) := by
  refine ⟨fun h => ?_, fun h => ?_⟩
  · have hn := httpResponse_n_get s d h
    rw [hn] at hcap ⊢
    rw [httpResponse_buf_get s d h, httpBufGet_eq, ← List.length_append,
      peekList_sprintfAt _ _ _ (by rw [List.length_append]; exact hcap), httpText_get_bytes]
  · have hn := httpResponse_n_notFound s d h
    rw [hn] at hcap ⊢
    rw [httpResponse_buf_notFound s d h, httpBufNotFound_eq,
      peekList_sprintfAt _ _ _ hcap, httpText_notFound_bytes]

set_option maxRecDepth 100000 in
/-- C27 (HTTP surface, amended): every request that starts with "GET /",
whatever its path (the root, /a, /b, /c or any other), gets the
"HTTP/1.1 200 OK" response whose body is the fixed root page; every other
request gets the "HTTP/1.1 404 Not Found" response with an empty body. -/
theorem http_surface (s : PppState) (d : Nat)
    (hcap : d + (httpResponse s d).2.1 ≤ s.pkt.buf.length) :
    (peekList s.pkt.buf d 5 = strBytes "GET /" →
      peekList (httpResponse s d).1.pkt.buf d (httpResponse s d).2.1
        = strBytes "HTTP/1.1 200 OK\r\nServer: Blinky-Radio\r\nContent-Length:   418\r\nConnection: close\r\nContent-Type: text/html; charset=us-ascii\r\n\r\n"
          ++ rootWebPage)
    ∧ (¬ peekList s.pkt.buf d 5 = strBytes "GET /" →
      peekList (httpResponse s d).1.pkt.buf d (httpResponse s d).2.1
        = strBytes "HTTP/1.1 404 Not Found\r\nServer: Blinky-Radio\r\nContent-Length:     0\r\nConnection: close\r\nContent-Type: text/html; charset=us-ascii\r\n\r\n") := by
  have e1 : httpHeader true rootWebPage.length
      = strBytes "HTTP/1.1 200 OK\r\nServer: Blinky-Radio\r\nContent-Length:   418\r\nConnection: close\r\nContent-Type: text/html; charset=us-ascii\r\n\r\n" := by
    decide
  have e2 : httpHeader false 0
      = strBytes "HTTP/1.1 404 Not Found\r\nServer: Blinky-Radio\r\nContent-Length:     0\r\nConnection: close\r\nContent-Type: text/html; charset=us-ascii\r\n\r\n" := by
    decide
  rw [← e1, ← e2]
  exact httpResponse_text s d hcap

set_option maxRecDepth 100000 in
theorem http_surface_witness :
    peekList (httpResponse exampleGet 44).1.pkt.buf 44 (httpResponse exampleGet 44).2.1
        = strBytes "HTTP/1.1 200 OK\r\nServer: Blinky-Radio\r\nContent-Length:   418\r\nConnection: close\r\nContent-Type: text/html; charset=us-ascii\r\n\r\n"
          ++ rootWebPage
    ∧ peekList (httpResponse examplePost 44).1.pkt.buf 44 (httpResponse examplePost 44).2.1
        = strBytes "HTTP/1.1 404 Not Found\r\nServer: Blinky-Radio\r\nContent-Length:     0\r\nConnection: close\r\nContent-Type: text/html; charset=us-ascii\r\n\r\n" :=
  ⟨(http_surface exampleGet 44 (by decide)).1 (by decide),
   (http_surface examplePost 44 (by decide)).2 (by decide)⟩

set_option maxRecDepth 100000 in
/-- C27 (counterexample): the request of `exampleGetX` is a GET for the path
`/x`, which is none of `/`, `/a`, `/b`, `/c`, yet the response is the 544-byte
"HTTP/1.1 200 OK" response with the root page as its body, not a 404 with an
empty body. -/
theorem http_other_path_counterexample :
    peekList exampleGetX.pkt.buf 44 7 = strBytes "GET /x "
    ∧ (httpResponse exampleGetX 44).2.1 = 544
    ∧ peekList (httpResponse exampleGetX 44).1.pkt.buf 44 544
        = strBytes "HTTP/1.1 200 OK\r\nServer: Blinky-Radio\r\nContent-Length:   418\r\nConnection: close\r\nContent-Type: text/html; charset=us-ascii\r\n\r\n"
          ++ rootWebPage
    ∧ List.take 22 (peekList (httpResponse exampleGetX 44).1.pkt.buf 44 544)
        ≠ strBytes "HTTP/1.1 404 Not Found" := by
  have hn : (httpResponse exampleGetX 44).2.1 = 544 := by decide
  have e1 : httpHeader true rootWebPage.length
      = strBytes "HTTP/1.1 200 OK\r\nServer: Blinky-Radio\r\nContent-Length:   418\r\nConnection: close\r\nContent-Type: text/html; charset=us-ascii\r\n\r\n" := by
    decide
  have h := (httpResponse_text exampleGetX 44 (by decide)).1 (by decide)
  rw [hn, e1] at h
  refine ⟨by decide, hn, h, ?_⟩
  rw [h]
  decide

theorem contentLengthString_eq (v : Nat) (h : (decBytes v).length ≤ 5) :
    contentLengthString v = List.replicate (5 - (decBytes v).length) 32 ++ decBytes v := by
  unfold contentLengthString CONTENTLENGTHSIZE
  apply List.take_of_length_le
  simp only [List.length_append, List.length_replicate]
  omega

set_option maxRecDepth 100000 in
/-- C29 (Content-Length back-patch): in every response `httpResponse` builds,
the text read back from `dataStart` is the printed header with the five
placeholder characters after "Content-Length: " replaced by the five
characters of `contentLengthString` (the decimal body length behind leading
spaces, "  418" for the root page and "    0" for a 404), every other header
byte as printed, followed by the body; the returned total is the header
length (126 or 133) plus the body length (418 or 0). -/
theorem http_content_length (s : PppState) (d : Nat)
    (hcap : d + (httpResponse s d).2.1 ≤ s.pkt.buf.length) :
    (peekList s.pkt.buf d 5 = strBytes "GET /" →
      peekList (httpResponse s d).1.pkt.buf d (httpResponse s d).2.1
        = strBytes "HTTP/1.1 200 OK\r\nServer: Blinky-Radio\r\n" ++ strBytes "Content-Length: "
          ++ contentLengthString rootWebPage.length
          ++ strBytes "\r\n" ++ strBytes "Connection: close\r\n"
          ++ strBytes "Content-Type: text/html; charset=us-ascii\r\n\r\n" ++ rootWebPage
      ∧ contentLengthString rootWebPage.length = strBytes "  418"
      ∧ rootWebPage.length = 418
      ∧ (httpResponse s d).2.1 = 126 + 418)
    ∧ (¬ peekList s.pkt.buf d 5 = strBytes "GET /" →
      peekList (httpResponse s d).1.pkt.buf d (httpResponse s d).2.1
        = strBytes "HTTP/1.1 404 Not Found\r\nServer: Blinky-Radio\r\n" ++ strBytes "Content-Length: "
          ++ contentLengthString 0
          ++ strBytes "\r\n" ++ strBytes "Connection: close\r\n"
          ++ strBytes "Content-Type: text/html; charset=us-ascii\r\n\r\n"
      ∧ contentLengthString 0 = strBytes "    0"
      ∧ (httpResponse s d).2.1 = 133 + 0)
    ∧ (∀ v, (contentLengthString v).length = 5)
    ∧ (∀ v, (decBytes v).length ≤ 5 →
        contentLengthString v = List.replicate (5 - (decBytes v).length) 32 ++ decBytes v) := by
  obtain ⟨hget, hnot⟩ := httpResponse_text s d hcap
  refine ⟨fun h => ⟨?_, by decide, by decide, ?_⟩, fun h => ⟨?_, by decide, ?_⟩,
    contentLengthString_length, contentLengthString_eq⟩
  · rw [hget h]
    unfold httpHeader
    simp only [if_true, List.append_assoc]
  · rw [httpResponse_n_get s d h]
    decide
  · rw [hnot h]
    unfold httpHeader
    simp only [if_false, Bool.false_eq_true, List.append_assoc]
  · rw [httpResponse_n_notFound s d h]
    decide

set_option maxRecDepth 100000 in
theorem http_content_length_witness :
    (httpResponse exampleGet 44).2.1 = 126 + 418
    ∧ (httpResponse examplePost 44).2.1 = 133 + 0 :=
  ⟨((http_content_length exampleGet 44 (by decide)).1 (by decide)).2.2.2,
   ((http_content_length examplePost 44 (by decide)).2.1 (by decide)).2.2⟩

/-! ## LED commands -/

set_option maxRecDepth 100000 in
/-- The LED effects of one call of `httpResponse` on a request that starts
with "GET /". -/
theorem httpResponse_led (s : PppState) (d : Nat)
    (h : peekList s.pkt.buf d 5 = strBytes "GET /") :
    (httpResponse s d).1.ledCmds
        = s.ledCmds
          ++ (if peek s.pkt.buf (d + 5) = 97 then [(toggleLed s.ledState1, 1)] else [])
          ++ (if peek s.pkt.buf (d + 5) = 98 then [(toggleLed s.ledState2, 2)] else [])
          ++ (if peek s.pkt.buf (d + 5) = 99 then [(toggleLed s.ledState3, 3)] else [])
    ∧ (httpResponse s d).1.ledState1
        = (if peek s.pkt.buf (d + 5) = 97 then toggleLed s.ledState1 else s.ledState1)
    ∧ (httpResponse s d).1.ledState2
        = (if peek s.pkt.buf (d + 5) = 98 then toggleLed s.ledState2 else s.ledState2)
    ∧ (httpResponse s d).1.ledState3
        = (if peek s.pkt.buf (d + 5) = 99 then toggleLed s.ledState3 else s.ledState3) := by
  unfold httpResponse
  simp only [h, if_true]
  split_ifs <;> simp
theorem peekList_pokeList_prefix (buf : List Nat) (d : Nat) (p q : List Nat)
    (hcap : d + p.length ≤ buf.length) :
    peekList (pokeList buf d (p ++ q)) d p.length = p.map (· % 256) := by
  rw [pokeList_append, ← peekList_pokeList buf d p hcap]
  apply peekList_congr
  intro i hi
  rw [peek_pokeList_ne _ _ _ _ (Or.inl (by omega))]

/-- A request "GET /" followed by the character `c`, as `httpResponse` sees it. -/
theorem httpServe_request (buf : List Nat) (d c : Nat) (rest : List Nat) (hc : c < 256)
    (hcap : d + 6 ≤ buf.length) :
    peekList (pokeList buf d (strBytes "GET /" ++ c :: rest)) d 5 = strBytes "GET /"
    ∧ peek (pokeList buf d (strBytes "GET /" ++ c :: rest)) (d + 5) = c := by
  refine ⟨?_, ?_⟩
  · have h := peekList_pokeList_prefix buf d (strBytes "GET /") (c :: rest)
      (by have : (strBytes "GET /").length = 5 := rfl
          omega)
    exact h
  · rw [peek_pokeList_mid _ _ _ _ (by simp [strBytes]) (by omega)]
    show c % 256 = c
    omega

/-- The LED effects of one served request. -/
theorem httpServe_led (s : PppState) (d c : Nat) (rest : List Nat) (hc : c < 256)
    (hcap : d + 6 ≤ s.pkt.buf.length) :
    (httpServe d s (strBytes "GET /" ++ c :: rest)).ledCmds
        = s.ledCmds
          ++ (if c = 97 then [(toggleLed s.ledState1, 1)] else [])
          ++ (if c = 98 then [(toggleLed s.ledState2, 2)] else [])
          ++ (if c = 99 then [(toggleLed s.ledState3, 3)] else [])
    ∧ (httpServe d s (strBytes "GET /" ++ c :: rest)).ledState1
        = (if c = 97 then toggleLed s.ledState1 else s.ledState1)
    ∧ (httpServe d s (strBytes "GET /" ++ c :: rest)).ledState2
        = (if c = 98 then toggleLed s.ledState2 else s.ledState2)
    ∧ (httpServe d s (strBytes "GET /" ++ c :: rest)).ledState3
        = (if c = 99 then toggleLed s.ledState3 else s.ledState3)
    ∧ (httpServe d s (strBytes "GET /" ++ c :: rest)).pkt.buf.length = s.pkt.buf.length := by
  obtain ⟨hget, h5⟩ := httpServe_request s.pkt.buf d c rest hc hcap
  have h := httpResponse_led
    { s with pkt := { s.pkt with buf := pokeList s.pkt.buf d (strBytes "GET /" ++ c :: rest) } } d hget
  unfold httpServe
  refine ⟨?_, ?_, ?_, ?_, ?_⟩
  · rw [h.1, h5]
  · rw [h.2.1, h5]
  · rw [h.2.2.1, h5]
  · rw [h.2.2.2, h5]
  · rw [httpResponse_length]
    exact pokeList_length _ _ _

theorem toggleLed_parity (k : Nat) : toggleLed (k % 2) = (k + 1) % 2 := by
  unfold toggleLed
  split <;> omega

theorem range_succ_map_parity (k a : Nat) :
    (List.range (k + 1)).map (fun i => ((i + 1) % 2, a))
      = (List.range k).map (fun i => ((i + 1) % 2, a)) ++ [((k + 1) % 2, a)] := by
  rw [List.range_succ, List.map_append]
  rfl

/-- The LED state after a sequence of requests, and the commands sent to each
address. -/
theorem httpServeAll_led (d : Nat) (s : PppState) (reqs : List (List Nat))
    (h1 : s.ledState1 = 0) (h2 : s.ledState2 = 0) (h3 : s.ledState3 = 0) (h0 : s.ledCmds = [])
    (hcap : d + 6 ≤ s.pkt.buf.length)
    (hreq : ∀ r ∈ reqs, ∃ c rest, c < 256 ∧ r = strBytes "GET /" ++ c :: rest) :
    (httpServeAll d s reqs).ledState1 = reqs.countP (fun r => r.getD 5 0 = 97) % 2
    ∧ (httpServeAll d s reqs).ledState2 = reqs.countP (fun r => r.getD 5 0 = 98) % 2
    ∧ (httpServeAll d s reqs).ledState3 = reqs.countP (fun r => r.getD 5 0 = 99) % 2
    ∧ (httpServeAll d s reqs).pkt.buf.length = s.pkt.buf.length
    ∧ (httpServeAll d s reqs).ledCmds.filter (fun p => p.2 = 1)
        = (List.range (reqs.countP (fun r => r.getD 5 0 = 97))).map (fun i => ((i + 1) % 2, 1))
    ∧ (httpServeAll d s reqs).ledCmds.filter (fun p => p.2 = 2)
        = (List.range (reqs.countP (fun r => r.getD 5 0 = 98))).map (fun i => ((i + 1) % 2, 2))
    ∧ (httpServeAll d s reqs).ledCmds.filter (fun p => p.2 = 3)
        = (List.range (reqs.countP (fun r => r.getD 5 0 = 99))).map (fun i => ((i + 1) % 2, 3))
    ∧ (httpServeAll d s reqs).ledCmds.length
        = reqs.countP (fun r => r.getD 5 0 = 97) + reqs.countP (fun r => r.getD 5 0 = 98)
          + reqs.countP (fun r => r.getD 5 0 = 99) := by
  induction reqs using List.reverseRecOn with
  | nil => simp [httpServeAll, h1, h2, h3, h0]
  | append_singleton l a ih =>
    have hl : ∀ r ∈ l, ∃ c rest, c < 256 ∧ r = strBytes "GET /" ++ c :: rest :=
      fun r hr => hreq r (List.mem_append_left _ hr)
    obtain ⟨i1, i2, i3, ilen, f1, f2, f3, flen⟩ := ih hl
    obtain ⟨c, rest, hc, ha⟩ := hreq a (by simp)
    have hstep : httpServeAll d s (l ++ [a]) = httpServe d (httpServeAll d s l) a := by
      simp [httpServeAll, List.foldl_append]
    have hg : a.getD 5 0 = c := by rw [ha]; rfl
    obtain ⟨c0, c1, c2, c3, c4⟩ := httpServe_led (httpServeAll d s l) d c rest hc (by omega)
    rw [hstep, ha]
    rw [← ha]
    simp only [List.countP_append, List.countP_cons, List.countP_nil, hg, decide_eq_true_eq]
    rw [ha, c0, c1, c2, c3, c4, i1, i2, i3, ilen]
    simp only [List.filter_append, List.length_append, f1, f2, f3, flen, toggleLed_parity]
    by_cases e1 : c = 97
    · subst e1
      simp [range_succ_map_parity]
      omega
    by_cases e2 : c = 98
    · subst e2
      simp [range_succ_map_parity]
      omega
    by_cases e3 : c = 99
    · subst e3
      simp [range_succ_map_parity]
      omega
    simp [e1, e2, e3]
/-- C28 (LED toggling): from a state with the three toggles at 0 and no LED
command sent, after any sequence of requests "GET /" + one character + rest
served by `httpResponse`, the commands sent with address 1 are exactly one
per request to `/a`, and their LED states alternate 1, 0, 1, ... (the k-th
carries k mod 2); the same holds with address 2 for `/b` and address 3 for
`/c`, each independently of the others; no other command is sent, so a
request to `/` (or any other path) sends none. -/
theorem led_toggling (d : Nat) (s : PppState) (reqs : List (List Nat))
    (h1 : s.ledState1 = 0) (h2 : s.ledState2 = 0) (h3 : s.ledState3 = 0) (h0 : s.ledCmds = [])
    (hcap : d + 6 ≤ s.pkt.buf.length)
    (hreq : ∀ r ∈ reqs, ∃ c rest, c < 256 ∧ r = strBytes "GET /" ++ c :: rest) :
    (httpServeAll d s reqs).ledCmds.filter (fun p => p.2 = 1)
        = (List.range (reqs.countP (fun r => r.getD 5 0 = 97))).map (fun i => ((i + 1) % 2, 1))
    ∧ (httpServeAll d s reqs).ledCmds.filter (fun p => p.2 = 2)
        = (List.range (reqs.countP (fun r => r.getD 5 0 = 98))).map (fun i => ((i + 1) % 2, 2))
    ∧ (httpServeAll d s reqs).ledCmds.filter (fun p => p.2 = 3)
        = (List.range (reqs.countP (fun r => r.getD 5 0 = 99))).map (fun i => ((i + 1) % 2, 3))
    ∧ (httpServeAll d s reqs).ledCmds.length
        = reqs.countP (fun r => r.getD 5 0 = 97) + reqs.countP (fun r => r.getD 5 0 = 98)
          + reqs.countP (fun r => r.getD 5 0 = 99) := by
  obtain ⟨_, _, _, _, f1, f2, f3, flen⟩ := httpServeAll_led d s reqs h1 h2 h3 h0 hcap hreq
  exact ⟨f1, f2, f3, flen⟩

set_option maxRecDepth 100000 in
theorem led_toggling_witness :
    (httpServeAll 44 exampleGet
        [strBytes "GET /a HTTP/1.1", strBytes "GET /b HTTP/1.1", strBytes "GET /a HTTP/1.1",
         strBytes "GET / HTTP/1.1", strBytes "GET /a HTTP/1.1"]).ledCmds.filter (fun p => p.2 = 1)
      = [(1, 1), (0, 1), (1, 1)]
    ∧ (httpServeAll 44 exampleGet
        [strBytes "GET /a HTTP/1.1", strBytes "GET /b HTTP/1.1", strBytes "GET /a HTTP/1.1",
         strBytes "GET / HTTP/1.1", strBytes "GET /a HTTP/1.1"]).ledCmds.length = 3 + 1 + 0 :=
  ⟨(led_toggling 44 exampleGet
      [strBytes "GET /a HTTP/1.1", strBytes "GET /b HTTP/1.1", strBytes "GET /a HTTP/1.1",
       strBytes "GET / HTTP/1.1", strBytes "GET /a HTTP/1.1"]
      (by decide) (by decide) (by decide) (by decide) (by decide)
      (by
        intro r hr
        simp only [List.mem_cons, List.mem_singleton, List.not_mem_nil, or_false] at hr
        rcases hr with rfl | rfl | rfl | rfl | rfl
        · exact ⟨97, strBytes " HTTP/1.1", by decide, by decide⟩
        · exact ⟨98, strBytes " HTTP/1.1", by decide, by decide⟩
        · exact ⟨97, strBytes " HTTP/1.1", by decide, by decide⟩
        · exact ⟨32, strBytes "HTTP/1.1", by decide, by decide⟩
        · exact ⟨97, strBytes " HTTP/1.1", by decide, by decide⟩)).1,
   (led_toggling 44 exampleGet
      [strBytes "GET /a HTTP/1.1", strBytes "GET /b HTTP/1.1", strBytes "GET /a HTTP/1.1",
       strBytes "GET / HTTP/1.1", strBytes "GET /a HTTP/1.1"]
      (by decide) (by decide) (by decide) (by decide) (by decide)
      (by
        intro r hr
        simp only [List.mem_cons, List.mem_singleton, List.not_mem_nil, or_false] at hr
        rcases hr with rfl | rfl | rfl | rfl | rfl
        · exact ⟨97, strBytes " HTTP/1.1", by decide, by decide⟩
        · exact ⟨98, strBytes " HTTP/1.1", by decide, by decide⟩
        · exact ⟨97, strBytes " HTTP/1.1", by decide, by decide⟩
        · exact ⟨32, strBytes "HTTP/1.1", by decide, by decide⟩
        · exact ⟨97, strBytes " HTTP/1.1", by decide, by decide⟩)).2.2.2⟩

/-! ## Checksums of transport segments behind a pseudo-header -/

theorem dataCheckSumAcc_rawSum_continue (p : Nat) (mem : List Nat) (ptr len : Nat)
    (hp : p < 4294967296) :
    dataCheckSumAcc p mem ptr len 0
      = foldCarry (foldCarry ((p + rawSum (zeroPad mem ptr len) ptr ((len + 1) / 2))
          % 4294967296)) := by
  rw [dataCheckSumAcc_eq, if_neg (by decide), sumLoop_eq _ _ _ _ hp]

theorem dataCheckSumAcc_continue_le (p : Nat) (mem : List Nat) (ptr len : Nat)
    (hp : p < 4294967296) : dataCheckSumAcc p mem ptr len 0 ≤ 65535 := by
  rw [dataCheckSumAcc_rawSum_continue _ _ _ _ hp]
  exact fold2_le _ (Nat.mod_lt _ (by norm_num))

/-- A continued checksum pass depends only on the bytes of the segment. -/
theorem dataCheckSumAcc_congr_continue (p : Nat) (m1 m2 : List Nat) (ptr len : Nat)
    (hp : p < 4294967296) (h : ∀ i, i < len → peek m1 (ptr + i) = peek m2 (ptr + i)) :
    dataCheckSumAcc p m1 ptr len 0 = dataCheckSumAcc p m2 ptr len 0 := by
  rw [dataCheckSumAcc_continue _ _ _ _ hp, dataCheckSumAcc_continue _ _ _ _ hp,
    peekList_congr m1 m2 ptr len h]

/-- Storing the complemented sum of a continued pass into a zero 16-bit
aligned field makes the continued pass over the segment give 0xFFFF. -/
theorem checksum_validates_continue (p : Nat) (mem : List Nat) (ptr len f : Nat)
    (hp : p < 4294967296)
    (hf : f % 2 = 0) (hfl : f + 2 ≤ len) (hin : ptr + f + 2 ≤ mem.length)
    (hz0 : peek mem (ptr + f) = 0) (hz1 : peek mem (ptr + f + 1) = 0) :
    dataCheckSumAcc p
      (poke (poke mem (ptr + f) (dataCheckSum p mem ptr len 0 / 256 % 256)) (ptr + f + 1)
        (dataCheckSum p mem ptr len 0 % 256)) ptr len 0 = 0xffff := by
  have hacc := dataCheckSumAcc_continue_le p mem ptr len hp
  have hc : dataCheckSum p mem ptr len 0 = 4294967295 - dataCheckSumAcc p mem ptr len 0 := rfl
  generalize hmem' : poke (poke mem (ptr + f) (dataCheckSum p mem ptr len 0 / 256 % 256))
    (ptr + f + 1) (dataCheckSum p mem ptr len 0 % 256) = mem'
  have hj : f / 2 < (len + 1) / 2 := by omega
  have e2 : ptr + 2 * (f / 2) = ptr + f := by omega
  have hw0 : wordAt (zeroPad mem ptr len) ptr (f / 2) = 0 := by
    unfold wordAt
    rw [e2, peek_zeroPad, peek_zeroPad, if_neg (by omega), if_neg (by omega), hz0, hz1]
  have hw1 : wordAt (zeroPad mem' ptr len) ptr (f / 2)
      = 65535 - dataCheckSumAcc p mem ptr len 0 := by
    unfold wordAt
    rw [e2, peek_zeroPad, peek_zeroPad, if_neg (by omega), if_neg (by omega), ← hmem',
      peek_poke_same _ _ _ (by rw [poke_length]; omega),
      peek_poke_ne _ _ _ _ (by omega), peek_poke_same _ _ _ (by omega), hc]
    omega
  have hother : ∀ k, k ≠ f / 2 →
      wordAt (zeroPad mem' ptr len) ptr k = wordAt (zeroPad mem ptr len) ptr k := by
    intro k hk
    unfold wordAt
    rw [peek_zeroPad, peek_zeroPad, peek_zeroPad, peek_zeroPad, ← hmem',
      peek_poke_ne _ _ _ _ (by omega), peek_poke_ne _ _ _ _ (by omega),
      peek_poke_ne _ _ _ _ (by omega), peek_poke_ne _ _ _ _ (by omega)]
  have hup := rawSum_update (zeroPad mem ptr len) (zeroPad mem' ptr len) ptr ((len + 1) / 2)
    (f / 2) hj hother
  rw [hw0, hw1] at hup
  rw [dataCheckSumAcc_rawSum_continue _ _ _ _ hp]
  rw [dataCheckSumAcc_rawSum_continue _ _ _ _ hp] at hup
  have hmod : (p + rawSum (zeroPad mem' ptr len) ptr ((len + 1) / 2)) % 4294967296
      = ((p + rawSum (zeroPad mem ptr len) ptr ((len + 1) / 2)) % 4294967296
          + (65535 - foldCarry (foldCarry
              ((p + rawSum (zeroPad mem ptr len) ptr ((len + 1) / 2)) % 4294967296))))
        % 4294967296 := by
    omega
  rw [hmod]
  exact fold2_validate _ (Nat.mod_lt _ (by norm_num))

/-- The accumulator left by a restarted pass over twelve bytes followed by a
continued pass over a segment is the ones-complement sum of the twelve bytes
followed by the segment. -/
theorem two_pass_onesSum (sum : Nat) (P mem : List Nat) (ptr n : Nat)
    (hn : ((n + 1) / 2 + 6) * 65535 < 4294967296) :
    dataCheckSumAcc (dataCheckSumAcc sum P 0 12 1) mem ptr n 0
      = onesSum (peekList P 0 12 ++ peekList mem ptr n) := by
  have hPs := beWords_sum_le P 0 12
  have hSs := beWords_sum_le mem ptr n
  have hacc1 : dataCheckSumAcc sum P 0 12 1 = foldCarry (foldCarry (beWords (peekList P 0 12)).sum) := by
    rw [dataCheckSumAcc_restart, Nat.mod_eq_of_lt (by omega)]
  have hlt1 : dataCheckSumAcc sum P 0 12 1 < 4294967296 := by
    have := dataCheckSumAcc_le sum P 0 12; omega
  have hcat : beWords (peekList P 0 12 ++ peekList mem ptr n)
      = beWords (peekList P 0 12) ++ beWords (peekList mem ptr n) :=
    beWords_append_even _ _ (by rw [peekList_length])
  have hsum : (beWords (peekList P 0 12)).sum + (beWords (peekList mem ptr n)).sum < 4294967296 := by
    omega
  rw [dataCheckSumAcc_continue _ _ _ _ hlt1, hacc1,
    Nat.mod_eq_of_lt (by
      have : foldCarry (foldCarry (beWords (peekList P 0 12)).sum) ≤ 65535 := fold2_le _ (by omega)
      omega),
    ← Nat.mod_eq_of_lt (by
      have : foldCarry (foldCarry (beWords (peekList P 0 12)).sum) ≤ 65535 := fold2_le _ (by omega)
      omega : foldCarry (foldCarry (beWords (peekList P 0 12)).sum)
        + (beWords (peekList mem ptr n)).sum < 4294967296),
    fold2_two_pass _ _ hsum]
  obtain ⟨h1, h2, h3⟩ := ocAdd_foldl (beWords (peekList P 0 12 ++ peekList mem ptr n)) 0
    (by norm_num) (beWords_le _ (by
      intro b hb
      rcases List.mem_append.mp hb with h | h
      · exact peekList_lt _ _ _ b h
      · exact peekList_lt _ _ _ b h))
  unfold onesSum
  rw [hcat] at h1 h2 h3 ⊢
  rw [List.sum_append] at h2 h3
  apply canonical_eq _ _ (fold2_le _ hsum) h1
  · rw [fold2_mod, h2, Nat.zero_add]
  · rw [fold2_eq_zero _ hsum, h3, Nat.zero_add]

theorem peek_mod (buf : List Nat) (i : Nat) : peek buf i % 256 = peek buf i :=
  Nat.mod_eq_of_lt (peek_lt buf i)

/-- The twelve pseudo-header bytes, spelled out. -/
theorem pseudoHeaderBytes_eq (buf : List Nat) (L : Nat) :
    pseudoHeaderBytes buf L
      = peekList buf (ipStart + 12) 4 ++ peekList buf (ipStart + 16) 4
        ++ [0, peek buf (ipStart + 9), L / 256 % 256, L % 256] := by
  obtain ⟨a0, a1, a2, a3⟩ := peek32_bytes buf (ipStart + 12)
  obtain ⟨b0, b1, b2, b3⟩ := peek32_bytes buf (ipStart + 16)
  unfold pseudoHeaderBytes
  simp only [peekList_four, poke32, poke16, poke, List.replicate, List.set, a0, a1, a2, a3,
    b0, b1, b2, b3, REV16_lo, REV16_hi, List.cons_append, List.nil_append]
  simp only [Nat.mod_mod, peek_mod, Nat.zero_mod]

theorem pseudoHeaderBytes_congr (b1 b2 : List Nat) (L : Nat)
    (h : ∀ j, ipStart + 9 ≤ j → j < ipStart + 20 → j ≠ ipStart + 10 → j ≠ ipStart + 11 →
      peek b1 j = peek b2 j) :
    pseudoHeaderBytes b1 L = pseudoHeaderBytes b2 L := by
  have hI : ipStart = 4 := rfl
  rw [pseudoHeaderBytes_eq, pseudoHeaderBytes_eq, peekList_four, peekList_four, peekList_four,
    peekList_four]
  rw [h (ipStart + 12) (by omega) (by omega) (by omega) (by omega),
    h (ipStart + 12 + 1) (by omega) (by omega) (by omega) (by omega),
    h (ipStart + 12 + 2) (by omega) (by omega) (by omega) (by omega),
    h (ipStart + 12 + 3) (by omega) (by omega) (by omega) (by omega),
    h (ipStart + 16) (by omega) (by omega) (by omega) (by omega),
    h (ipStart + 16 + 1) (by omega) (by omega) (by omega) (by omega),
    h (ipStart + 16 + 2) (by omega) (by omega) (by omega) (by omega),
    h (ipStart + 16 + 3) (by omega) (by omega) (by omega) (by omega),
    h (ipStart + 9) (by omega) (by omega) (by omega) (by omega)]

theorem pseudoHeaderBytes_length (buf : List Nat) (L : Nat) :
    (pseudoHeaderBytes buf L).length = 12 := by
  rw [pseudoHeaderBytes_eq]
  simp [peekList_length]

theorem IpHeaderCheckSum_buf (s : PppState) :
    (IpHeaderCheckSum s).pkt.buf = ipChecksummed s.sum s.pkt.buf := by
  rw [IpHeaderCheckSum_eq]
  rfl

theorem ipChecksummed_length (sum : Nat) (B : List Nat) :
    (ipChecksummed sum B).length = B.length := by
  simp only [ipChecksummed, poke16_length]

theorem transportChecksummed_length (sum : Nat) (B : List Nat) (T f L : Nat) :
    (transportChecksummed sum B T f L).length = B.length := by
  simp only [transportChecksummed, poke16_length]

theorem peek_ipChecksummed (sum : Nat) (B : List Nat) (j : Nat)
    (h : j ≠ ipStart + 10 ∧ j ≠ ipStart + 11) : peek (ipChecksummed sum B) j = peek B j := by
  unfold ipChecksummed
  rw [peek_poke16_ne _ _ _ _ h.1 h.2, peek_poke16_ne _ _ _ _ h.1 h.2]

theorem peek_transportChecksummed (sum : Nat) (B : List Nat) (T f L j : Nat)
    (h : j ≠ T + f ∧ j ≠ T + f + 1) : peek (transportChecksummed sum B T f L) j = peek B j := by
  unfold transportChecksummed
  rw [peek_poke16_ne _ _ _ _ h.1 h.2, peek_poke16_ne _ _ _ _ h.1 h.2]

/-- The IP header of a packet checksummed by `IpHeaderCheckSum` validates. -/
theorem ipChecksummed_valid (sum sum' : Nat) (B : List Nat) (h5 : 5 ≤ ipHeaderLength B)
    (hcap : ipStart + 4 * ipHeaderLength B ≤ B.length) :
    dataCheckSumAcc sum' (ipChecksummed sum B) ipStart (4 * ipHeaderLength B) 1 = 0xffff := by
  unfold ipChecksummed
  rw [poke16_REV16]
  exact checksum_validates_any sum sum' (poke16 B (ipStart + 10) 0) ipStart
    (4 * ipHeaderLength B) 10 (by decide) (by omega) (by rw [poke16_length]; omega)
    (peek_poke16_zero_lo _ _) (peek_poke16_zero_hi _ _)
/-- The transport segment of a packet checksummed behind its pseudo-header:
the stored field is the complement of the continued pass over the segment
with the field zeroed, and the continued pass over the segment as stored
gives 0xFFFF. -/
theorem transportChecksummed_valid (sum : Nat) (B : List Nat) (T f L : Nat)
    (hf : f % 2 = 0) (hfl : f + 2 ≤ L) (hcap : T + f + 2 ≤ B.length) :
    dataCheckSumAcc (dataCheckSumAcc sum (pseudoHeaderBytes B L) 0 12 1)
        (transportChecksummed sum B T f L) T L 0 = 0xffff
    ∧ peek (transportChecksummed sum B T f L) (T + f) * 256
        + peek (transportChecksummed sum B T f L) (T + f + 1)
      = 65535 - dataCheckSumAcc (dataCheckSumAcc sum (pseudoHeaderBytes B L) 0 12 1)
          (poke16 B (T + f) 0) T L 0 := by
  have hp : dataCheckSumAcc sum (pseudoHeaderBytes B L) 0 12 1 < 4294967296 := by
    have := dataCheckSumAcc_le sum (pseudoHeaderBytes B L) 0 12
    omega
  have hacc := dataCheckSumAcc_continue_le (dataCheckSumAcc sum (pseudoHeaderBytes B L) 0 12 1)
    (poke16 B (T + f) 0) T L hp
  unfold transportChecksummed
  rw [poke16_REV16]
  refine ⟨?_, ?_⟩
  · exact checksum_validates_continue _ (poke16 B (T + f) 0) T L f hp hf hfl
      (by rw [poke16_length]; exact hcap) (peek_poke16_zero_lo _ _) (peek_poke16_zero_hi _ _)
  · rw [peek_poke_ne _ _ _ _ (by omega), peek_poke_same _ _ _ (by rw [poke16_length]; omega),
      peek_poke_same _ _ _ (by rw [poke_length, poke16_length]; omega)]
    unfold dataCheckSum
    omega

/-- Both checksums of a packet that agrees, in front of its FCS, with a
buffer checksummed by `IpHeaderCheckSum` and then behind the pseudo-header. -/
theorem checksummed_valid (sum6 sum7 sum' : Nat) (B P : List Nat) (T f L n : Nat)
    (h5 : 5 ≤ ipHeaderLength B) (hT : ipStart + 4 * ipHeaderLength B ≤ T)
    (hf : f % 2 = 0) (hfl : f + 2 ≤ L) (hL : L < 65536) (hn : T + L + 2 ≤ n)
    (hcap : n ≤ B.length)
    (hP : ∀ j, j + 2 < n →
      peek P j = peek (transportChecksummed sum7 (ipChecksummed sum6 B) T f L) j) :
    ipHeaderLength P = ipHeaderLength B
    ∧ dataCheckSumAcc sum' P ipStart (4 * ipHeaderLength P) 1 = 0xffff
    ∧ peek P (T + f) * 256 + peek P (T + f + 1)
        = 65535 - onesSum (peekList (pseudoHeaderBytes P L) 0 12
            ++ peekList (poke16 P (T + f) 0) T L)
    ∧ dataCheckSumAcc (dataCheckSumAcc sum' (pseudoHeaderBytes P L) 0 12 1) P T L 0 = 0xffff := by
  have hI : ipStart = 4 := rfl
  have hihl : ipHeaderLength P = ipHeaderLength B := by
    unfold ipHeaderLength
    rw [hP _ (by omega), peek_transportChecksummed _ _ _ _ _ _ (by omega),
      peek_ipChecksummed _ _ _ (by omega)]
  have hps : pseudoHeaderBytes P L = pseudoHeaderBytes (ipChecksummed sum6 B) L := by
    apply pseudoHeaderBytes_congr
    intro j h1 h2 h3 h4
    rw [hP _ (by omega), peek_transportChecksummed _ _ _ _ _ _ (by omega)]
  have hpp : dataCheckSumAcc sum' (pseudoHeaderBytes P L) 0 12 1
      = dataCheckSumAcc sum7 (pseudoHeaderBytes (ipChecksummed sum6 B) L) 0 12 1 := by
    rw [hps]
    exact dataCheckSumAcc_congr _ _ _ _ _ _ (fun _ _ => rfl)
  have hplt : dataCheckSumAcc sum7 (pseudoHeaderBytes (ipChecksummed sum6 B) L) 0 12 1
      < 4294967296 := by
    have := dataCheckSumAcc_le sum7 (pseudoHeaderBytes (ipChecksummed sum6 B) L) 0 12
    omega
  obtain ⟨hv, hfield⟩ := transportChecksummed_valid sum7 (ipChecksummed sum6 B) T f L hf hfl
    (by rw [ipChecksummed_length]; omega)
  refine ⟨hihl, ?_, ?_, ?_⟩
  · rw [hihl, ← ipChecksummed_valid sum6 sum' B h5 (by omega)]
    apply dataCheckSumAcc_congr
    intro i hi
    rw [hP _ (by omega), peek_transportChecksummed _ _ _ _ _ _ (by omega)]
  · have hacc : dataCheckSumAcc
          (dataCheckSumAcc sum7 (pseudoHeaderBytes (ipChecksummed sum6 B) L) 0 12 1)
          (poke16 (ipChecksummed sum6 B) (T + f) 0) T L 0
        = dataCheckSumAcc
          (dataCheckSumAcc sum7 (pseudoHeaderBytes (ipChecksummed sum6 B) L) 0 12 1)
          (poke16 P (T + f) 0) T L 0 := by
      apply dataCheckSumAcc_congr_continue _ _ _ _ _ hplt
      intro i hi
      by_cases e1 : T + i = T + f
      · rw [e1, peek_poke16_zero_lo, peek_poke16_zero_lo]
      by_cases e2 : T + i = T + f + 1
      · rw [e2, peek_poke16_zero_hi, peek_poke16_zero_hi]
      rw [peek_poke16_ne _ _ _ _ e1 e2, peek_poke16_ne _ _ _ _ e1 e2, hP _ (by omega),
        peek_transportChecksummed _ _ _ _ _ _ ⟨e1, e2⟩]
    have htwo := two_pass_onesSum sum7 (pseudoHeaderBytes (ipChecksummed sum6 B) L)
      (poke16 P (T + f) 0) T L (by omega)
    rw [hP _ (by omega), hP _ (by omega), hfield, hacc, htwo, hps]
  · rw [hpp, ← hv]
    apply dataCheckSumAcc_congr_continue _ _ _ _ _ hplt
    intro i hi
    rw [hP _ (by omega)]

/-! ## Shape and checksums of every TCP reply -/

theorem tcpPrepared_checksummed (s : PppState) (a q f d : Nat) (hT : s.tcpStart = 24)
    (h5 : ipHeaderLength s.pkt.buf = 5) :
    ∃ sum6 sum7, (tcpPrepared s a q f d).pkt.buf
      = transportChecksummed sum7 (ipChecksummed sum6 (tcpFilled s.pkt.buf a q f d)) 24 16
          (20 + d) := by
  refine ⟨s.sum, dataCheckSumAcc s.sum (poke16 (tcpFilled s.pkt.buf a q f d) (ipStart + 10) 0)
    ipStart (4 * ipHeaderLength (tcpFilled s.pkt.buf a q f d)) 1, ?_⟩
  simp only [tcpPrepared, IpHeaderCheckSum_eq, checkSumPseudoHeader, swapIpPorts, swapIpAddresses, hT,
    ipHeaderLength_swapped, h5, transportChecksummed, ipChecksummed, tcpFilled, ipStart]
theorem peek_poke16_lo (buf : List Nat) (i v : Nat) (h : i + 2 ≤ buf.length) :
    peek (poke16 buf i v) i = v % 256 := by
  unfold poke16
  rw [peek_poke_ne _ _ _ _ (by omega), peek_poke_same _ _ _ (by omega)]
  omega

theorem peek_poke16_hi (buf : List Nat) (i v : Nat) (h : i + 2 ≤ buf.length) :
    peek (poke16 buf i v) (i + 1) = v / 256 % 256 := by
  unfold poke16
  rw [peek_poke_same _ _ _ (by rw [poke_length]; omega)]
  omega

theorem peek16_bytes (b : List Nat) (j : Nat) :
    peek16 b j % 256 = peek b j ∧ peek16 b j / 256 % 256 = peek b (j + 1) := by
  have h0 := peek_lt b j
  have h1 := peek_lt b (j + 1)
  unfold peek16
  omega

theorem peekList_two (b : List Nat) (j : Nat) : peekList b j 2 = [peek b j, peek b (j + 1)] := by
  simp [peekList, List.range, List.range.loop]

/-- A 16-bit store of a 16-bit load copies the two bytes. -/
theorem peekList_poke16_peek16 (buf b : List Nat) (i j : Nat) (h : i + 2 ≤ buf.length) :
    peekList (poke16 buf i (peek16 b j)) i 2 = peekList b j 2 := by
  obtain ⟨e0, e1⟩ := peek16_bytes b j
  rw [peekList_two, peekList_two, peek_poke16_lo _ _ _ h, peek_poke16_hi _ _ _ h, e0, e1]

theorem tcpFilled_length (buf : List Nat) (a q f d : Nat) :
    (tcpFilled buf a q f d).length = buf.length := by
  simp only [tcpFilled, poke16_length, poke_length, poke32_length]

/-- Bytes of the reply that `tcpReply` leaves as they were. -/
theorem peek_tcpFilled (buf : List Nat) (a q f d j : Nat)
    (hj : j < 6 ∨ (8 ≤ j ∧ j < 16) ∨ j = 36 ∨ 38 ≤ j) :
    peek (tcpFilled buf a q f d) j = peek buf j := by
  have hI : ipStart = 4 := rfl
  unfold tcpFilled
  simp only []
  rw [peek_poke16_ne _ _ _ _ (by omega) (by omega), peek_poke_ne _ _ _ _ (by omega),
    peek_poke32_ne _ _ _ _ (by omega), peek_poke32_ne _ _ _ _ (by omega),
    peek_poke16_ne _ _ _ _ (by omega) (by omega), peek_poke16_ne _ _ _ _ (by omega) (by omega),
    peek_poke32_ne _ _ _ _ (by omega), peek_poke32_ne _ _ _ _ (by omega)]

/-- The fields `tcpReply` writes, read back before the checksums are stored. -/
theorem tcpFilled_fields (buf : List Nat) (a q f d : Nat) (hcap : 44 ≤ buf.length) :
    peekList (tcpFilled buf a q f d) 16 4 = peekList buf 20 4
    ∧ peekList (tcpFilled buf a q f d) 20 4 = peekList buf 16 4
    ∧ peekList (tcpFilled buf a q f d) 24 2 = peekList buf 26 2
    ∧ peekList (tcpFilled buf a q f d) 26 2 = peekList buf 24 2
    ∧ be32 (tcpFilled buf a q f d) 28 = q % 4294967296
    ∧ be32 (tcpFilled buf a q f d) 32 = a % 4294967296
    ∧ peek (tcpFilled buf a q f d) 37 = f % 256
    ∧ peek (tcpFilled buf a q f d) 6 * 256 + peek (tcpFilled buf a q f d) 7
        = (20 + (20 + d)) % 65536 := by
  have hI : ipStart = 4 := rfl
  unfold tcpFilled
  simp only [hI]
  refine ⟨?_, ?_, ?_, ?_, ?_, ?_, ?_, ?_⟩
  · rw [peekList_poke16_ne _ _ _ _ _ (by omega), peekList_poke_ne _ _ _ _ _ (by omega),
      peekList_poke32_ne _ _ _ _ _ (by omega), peekList_poke32_ne _ _ _ _ _ (by omega),
      peekList_poke16_ne _ _ _ _ _ (by omega), peekList_poke16_ne _ _ _ _ _ (by omega),
      peekList_poke32_ne _ _ _ _ _ (by omega), peekList_poke32_peek32 _ _ _ _ (by omega)]
  · rw [peekList_poke16_ne _ _ _ _ _ (by omega), peekList_poke_ne _ _ _ _ _ (by omega),
      peekList_poke32_ne _ _ _ _ _ (by omega), peekList_poke32_ne _ _ _ _ _ (by omega),
      peekList_poke16_ne _ _ _ _ _ (by omega), peekList_poke16_ne _ _ _ _ _ (by omega),
      peekList_poke32_peek32 _ _ _ _ (by rw [poke32_length]; omega)]
  · rw [peekList_poke16_ne _ _ _ _ _ (by omega), peekList_poke_ne _ _ _ _ _ (by omega),
      peekList_poke32_ne _ _ _ _ _ (by omega), peekList_poke32_ne _ _ _ _ _ (by omega),
      peekList_poke16_ne _ _ _ _ _ (by omega),
      peekList_poke16_peek16 _ _ _ _ (by simp only [poke32_length]; omega),
      peekList_poke32_ne _ _ _ _ _ (by omega), peekList_poke32_ne _ _ _ _ _ (by omega)]
  · rw [peekList_poke16_ne _ _ _ _ _ (by omega), peekList_poke_ne _ _ _ _ _ (by omega),
      peekList_poke32_ne _ _ _ _ _ (by omega), peekList_poke32_ne _ _ _ _ _ (by omega),
      peekList_poke16_peek16 _ _ _ _ (by simp only [poke16_length, poke32_length]; omega),
      peekList_poke32_ne _ _ _ _ _ (by omega), peekList_poke32_ne _ _ _ _ _ (by omega)]
  · rw [← be32_poke32_REV (poke32 (poke16 (poke16 (poke32 (poke32 buf (4 + 12)
        (peek32 buf (4 + 16))) (4 + 16) (peek32 buf (4 + 12))) 24
        (peek16 (poke32 (poke32 buf (4 + 12) (peek32 buf (4 + 16))) (4 + 16)
          (peek32 buf (4 + 12))) 26)) 26
        (peek16 (poke32 (poke32 buf (4 + 12) (peek32 buf (4 + 16))) (4 + 16)
          (peek32 buf (4 + 12))) 24)) 32 (REV a)) 28 q
        (by simp only [poke16_length, poke32_length]; omega)]
    apply be32_congr
    intro k hk
    rw [peek_poke16_ne _ _ _ _ (by omega) (by omega), peek_poke_ne _ _ _ _ (by omega)]
  · rw [← be32_poke32_REV (poke16 (poke16 (poke32 (poke32 buf (4 + 12)
        (peek32 buf (4 + 16))) (4 + 16) (peek32 buf (4 + 12))) 24
        (peek16 (poke32 (poke32 buf (4 + 12) (peek32 buf (4 + 16))) (4 + 16)
          (peek32 buf (4 + 12))) 26)) 26
        (peek16 (poke32 (poke32 buf (4 + 12) (peek32 buf (4 + 16))) (4 + 16)
          (peek32 buf (4 + 12))) 24)) 32 a
        (by simp only [poke16_length, poke32_length]; omega)]
    apply be32_congr
    intro k hk
    rw [peek_poke16_ne _ _ _ _ (by omega) (by omega), peek_poke_ne _ _ _ _ (by omega),
      peek_poke32_ne _ _ _ _ (by omega)]
  · rw [peek_poke16_ne _ _ _ _ (by omega) (by omega),
      peek_poke_same _ _ _ (by simp only [poke16_length, poke32_length]; omega)]
  · rw [poke16_REV16, peek_poke_ne _ _ _ _ (by omega),
      peek_poke_same _ _ _ (by simp only [poke_length, poke16_length, poke32_length]; omega),
      peek_poke_same _ _ _ (by simp only [poke_length, poke16_length, poke32_length]; omega)]
    omega

/-- A packet whose frame `tcpReply` sent agrees, in front of the FCS, with the
buffer the frame was sent from. -/
theorem tcpReply_sent (s : PppState) (a q f d : Nat) (P : List Nat)
    (hP : (tcpReply s a q f d).tx = s.tx ++ [0x7e] ++ stuffed P (46 + d) ++ [0x7e])
    (j : Nat) (hj : j + 2 < 46 + d) :
    peek P j = peek (tcpPrepared s a q f d).pkt.buf j := by
  have e : 20 + (20 + d) + 4 + 2 = 46 + d := by omega
  rw [tcpReply_tx, e, frameBytes, ← List.append_assoc, ← List.append_assoc] at hP
  rw [frame_packet_unique s.tx P _ (46 + d) hP.symm j (by omega), peek_fcsStored_lt _ _ _ hj]

/-- Shape and checksums of the packet in a frame sent by `tcpReply`. -/
theorem tcpReply_shape (s : PppState) (a q f d : Nat) (hT : s.tcpStart = 24)
    (h5 : ipHeaderLength s.pkt.buf = 5) (hcap : 46 + d ≤ s.pkt.buf.length) (hd : d < 65000)
    (sum' : Nat) (P : List Nat)
    (hP : (tcpReply s a q f d).tx = s.tx ++ [0x7e] ++ stuffed P (46 + d) ++ [0x7e]) :
    (ipHeaderLength P = 5 ∧ peek P 36 = peek s.pkt.buf 36 ∧ ipTotalLength P = 40 + d
      ∧ peek P (ipStart + 9) = peek s.pkt.buf (ipStart + 9)
      ∧ peekList P 16 4 = peekList s.pkt.buf 20 4 ∧ peekList P 20 4 = peekList s.pkt.buf 16 4
      ∧ peekList P 24 2 = peekList s.pkt.buf 26 2 ∧ peekList P 26 2 = peekList s.pkt.buf 24 2
      ∧ be32 P 28 = q % 4294967296 ∧ be32 P 32 = a % 4294967296)
    ∧ dataCheckSumAcc sum' P ipStart 20 1 = 0xffff
    ∧ peek P 40 * 256 + peek P 41
        = 65535 - onesSum (peekList (pseudoHeaderBytes P (20 + d)) 0 12
            ++ peekList (poke16 P 40 0) 24 (20 + d))
    ∧ dataCheckSumAcc (dataCheckSumAcc sum' (pseudoHeaderBytes P (20 + d)) 0 12 1) P 24
        (20 + d) 0 = 0xffff := by
  have hI : ipStart = 4 := rfl
  obtain ⟨sum6, sum7, hb⟩ := tcpPrepared_checksummed s a q f d hT h5
  have hF5 : ipHeaderLength (tcpFilled s.pkt.buf a q f d) = 5 := by
    unfold ipHeaderLength
    rw [peek_tcpFilled _ _ _ _ _ _ (by rw [hI]; omega)]
    exact h5
  have hPX : ∀ j, j + 2 < 46 + d → peek P j
      = peek (transportChecksummed sum7 (ipChecksummed sum6 (tcpFilled s.pkt.buf a q f d)) 24 16
          (20 + d)) j := by
    intro j hj
    rw [tcpReply_sent s a q f d P hP j hj, hb]
  have hPF : ∀ j, j < 44 → j ≠ 14 → j ≠ 15 → j ≠ 40 → j ≠ 41 →
      peek P j = peek (tcpFilled s.pkt.buf a q f d) j := by
    intro j h1 h2 h3 h4 h5
    rw [hPX j (by omega), peek_transportChecksummed _ _ _ _ _ _ (by omega),
      peek_ipChecksummed _ _ _ (by rw [hI]; omega)]
  obtain ⟨f1, f2, f3, f4, f5, f6, _, f8⟩ := tcpFilled_fields s.pkt.buf a q f d (by omega)
  obtain ⟨c1, c2, c3, c4⟩ := checksummed_valid sum6 sum7 sum' (tcpFilled s.pkt.buf a q f d) P 24 16
    (20 + d) (46 + d) (by omega) (by rw [hF5, hI]) (by decide) (by omega) (by omega) (by omega)
    (by rw [tcpFilled_length]; exact hcap) hPX
  rw [hF5] at c1
  rw [c1] at c2
  refine ⟨⟨c1, ?_, ?_, ?_, ?_, ?_, ?_, ?_, ?_, ?_⟩, c2, c3, c4⟩
  · rw [hPF _ (by omega) (by omega) (by omega) (by omega) (by omega),
      peek_tcpFilled _ _ _ _ _ _ (by omega)]
  · unfold ipTotalLength
    rw [hI, hPF _ (by omega) (by omega) (by omega) (by omega) (by omega),
      hPF _ (by omega) (by omega) (by omega) (by omega) (by omega)]
    show peek (tcpFilled s.pkt.buf a q f d) 6 * 256 + peek (tcpFilled s.pkt.buf a q f d) 7 = _
    rw [f8]
    omega
  · rw [hI, hPF _ (by omega) (by omega) (by omega) (by omega) (by omega),
      peek_tcpFilled _ _ _ _ _ _ (by omega)]
  · rw [← f1]
    exact peekList_congr _ _ _ _ (fun i hi => hPF _ (by omega) (by omega) (by omega) (by omega) (by omega))
  · rw [← f2]
    exact peekList_congr _ _ _ _ (fun i hi => hPF _ (by omega) (by omega) (by omega) (by omega) (by omega))
  · rw [← f3]
    exact peekList_congr _ _ _ _ (fun i hi => hPF _ (by omega) (by omega) (by omega) (by omega) (by omega))
  · rw [← f4]
    exact peekList_congr _ _ _ _ (fun i hi => hPF _ (by omega) (by omega) (by omega) (by omega) (by omega))
  · rw [← f5]
    exact be32_congr _ _ _ (fun i hi => hPF _ (by omega) (by omega) (by omega) (by omega) (by omega))
  · rw [← f6]
    exact be32_congr _ _ _ (fun i hi => hPF _ (by omega) (by omega) (by omega) (by omega) (by omega))

set_option maxRecDepth 100000 in
theorem httpResponse_n_le (s : PppState) (d : Nat) : (httpResponse s d).2.1 ≤ 544 := by
  by_cases h : peekList s.pkt.buf d 5 = strBytes "GET /"
  · rw [httpResponse_n_get s d h]
    decide
  · rw [httpResponse_n_notFound s d h]
    decide

theorem tcpReplyLen_le (s : PppState) : tcpReplyLen s ≤ 544 := by
  unfold tcpReplyLen
  split
  · exact httpResponse_n_le _ _
  · omega

/-- Every segment that is not ignored is answered by one call of `tcpReply`
on a state that has the headers shortened, with the payload length
`tcpReplyLen`. -/
theorem tcpHandler_reply (s : PppState)
    (hns : ¬ ((peek s.pkt.buf (ipStart + 20 + 13) = TCP_FLAG_ACK ∧ tcpDataSize s = 0)
      ∨ (peek s.pkt.buf (ipStart + 20 + 13) ≠ TCP_FLAG_SYN
        ∧ peek s.pkt.buf (ipStart + 20 + 13) ≠ TCP_FLAG_ACK
        ∧ peek s.pkt.buf (ipStart + 20 + 13) ≠ (TCP_FLAG_ACK ||| TCP_FLAG_PSH)
        ∧ peek s.pkt.buf (ipStart + 20 + 13) ≠ TCP_FLAG_FIN
        ∧ peek s.pkt.buf (ipStart + 20 + 13) ≠ (TCP_FLAG_FIN ||| TCP_FLAG_ACK)
        ∧ peek s.pkt.buf (ipStart + 20 + 13) ≠ (TCP_FLAG_FIN ||| TCP_FLAG_PSH ||| TCP_FLAG_ACK)))) :
    ∃ X a q f, tcpHandler s = tcpReply X a q f (tcpReplyLen s)
      ∧ X.tx = s.tx ∧ X.tcpStart = 24 ∧ X.pkt.buf.length = s.pkt.buf.length
      ∧ ∀ j, j < 44 → peek X.pkt.buf j = peek (tcpNormalized s).pkt.buf j := by
  have hT : (tcpNormalized s).tcpStart = 24 := tcpNormalized_tcpStart s
  by_cases hsyn : peek s.pkt.buf (ipStart + 20 + 13) = TCP_FLAG_SYN
  · have hl : tcpReplyLen s = 0 := by
      unfold tcpReplyLen
      rw [if_neg (fun h => absurd h.1 (by rw [hsyn]; decide))]
    rw [hl]
    exact ⟨_, _, _, _, tcpHandler_syn s hsyn, tcpNormalized_tx s, hT, tcpNormalized_length s,
      fun _ _ => rfl⟩
  by_cases hack : peek s.pkt.buf (ipStart + 20 + 13) = TCP_FLAG_ACK
      ∨ peek s.pkt.buf (ipStart + 20 + 13) = (TCP_FLAG_ACK ||| TCP_FLAG_PSH)
  · have hdata : ¬ (peek s.pkt.buf (ipStart + 20 + 13) = TCP_FLAG_ACK ∧ tcpDataSize s = 0) :=
      fun h => hns (Or.inl h)
    by_cases hget : peekList (tcpNormalized s).pkt.buf (tcpDataIn s) 5 = strBytes "GET /"
    · have hl : tcpReplyLen s = (httpResponse (tcpNormalized s) (ipStart + 20 + 20)).2.1 := by
        unfold tcpReplyLen
        rw [if_pos ⟨hack, hdata, hget⟩]
      rw [hl]
      refine ⟨_, _, _, _, tcpHandler_get s hack hdata hget, ?_, ?_, ?_, ?_⟩
      · rw [httpResponse_tx, tcpNormalized_tx]
      · rw [httpResponse_tcpStart, hT]
      · rw [httpResponse_length, tcpNormalized_length]
      · intro j hj
        exact httpResponse_peek_lt _ _ _ hj
    · have hl : tcpReplyLen s = 0 := by
        unfold tcpReplyLen
        rw [if_neg (fun h => hget h.2.2)]
      rw [hl]
      exact ⟨_, _, _, _, tcpHandler_ack s hack hdata hget, tcpNormalized_tx s, hT,
        tcpNormalized_length s, fun _ _ => rfl⟩
  by_cases hfin : peek s.pkt.buf (ipStart + 20 + 13) = TCP_FLAG_FIN
      ∨ peek s.pkt.buf (ipStart + 20 + 13) = (TCP_FLAG_FIN ||| TCP_FLAG_ACK)
      ∨ peek s.pkt.buf (ipStart + 20 + 13) = (TCP_FLAG_FIN ||| TCP_FLAG_PSH ||| TCP_FLAG_ACK)
  · have hl : tcpReplyLen s = 0 := by
      unfold tcpReplyLen
      rw [if_neg (fun h => hack h.1)]
    rw [hl]
    exact ⟨_, _, _, _, tcpHandler_fin s hfin, tcpNormalized_tx s, hT, tcpNormalized_length s,
      fun _ _ => rfl⟩
  · exact absurd (Or.inr (by tauto)) hns

/-- A segment for which something is sent is not one of the ignored ones. -/
theorem tcpHandler_sent_not_ignored (s : PppState) (hsent : (tcpHandler s).tx ≠ s.tx) :
    ¬ ((peek s.pkt.buf (ipStart + 20 + 13) = TCP_FLAG_ACK ∧ tcpDataSize s = 0)
      ∨ (peek s.pkt.buf (ipStart + 20 + 13) ≠ TCP_FLAG_SYN
        ∧ peek s.pkt.buf (ipStart + 20 + 13) ≠ TCP_FLAG_ACK
        ∧ peek s.pkt.buf (ipStart + 20 + 13) ≠ (TCP_FLAG_ACK ||| TCP_FLAG_PSH)
        ∧ peek s.pkt.buf (ipStart + 20 + 13) ≠ TCP_FLAG_FIN
        ∧ peek s.pkt.buf (ipStart + 20 + 13) ≠ (TCP_FLAG_FIN ||| TCP_FLAG_ACK)
        ∧ peek s.pkt.buf (ipStart + 20 + 13) ≠ (TCP_FLAG_FIN ||| TCP_FLAG_PSH ||| TCP_FLAG_ACK))) := by
  intro h
  apply hsent
  rw [tcpHandler_silent s h, tcpNormalized_tx]

theorem tcpNormalized_offset (s : PppState) (h : 37 ≤ s.pkt.buf.length) :
    peek (tcpNormalized s).pkt.buf 36 / 16 = 5 := by
  rw [tcpNormalized_buf]
  simp only [setTcpOffset, setIpHeaderLength, ipStart]
  rw [peek_poke16_ne _ _ _ _ (by omega) (by omega),
    peek_poke_same _ _ _ (by simp only [poke16_length, poke_length]; omega)]
  omega

theorem tcpReply_len (s : PppState) (a q f d : Nat) :
    (tcpReply s a q f d).pkt.len = 46 + d := by
  rw [tcpReply_eq]
  show (sendPppFrame (tcpPrepared s a q f d)).pkt.len = _
  rw [sendPppFrame_len, tcpPrepared_len]
  omega

/-- Shape and checksums of the packet in the frame `tcpHandler` sends for a
segment it does not ignore, whatever the header lengths of the request; the
request bytes are those of the packet buffer at fixed offsets. -/
theorem tcpHandler_reply_shape (s : PppState) (sum' : Nat)
    (hns : ¬ ((peek s.pkt.buf (ipStart + 20 + 13) = TCP_FLAG_ACK ∧ tcpDataSize s = 0)
      ∨ (peek s.pkt.buf (ipStart + 20 + 13) ≠ TCP_FLAG_SYN
        ∧ peek s.pkt.buf (ipStart + 20 + 13) ≠ TCP_FLAG_ACK
        ∧ peek s.pkt.buf (ipStart + 20 + 13) ≠ (TCP_FLAG_ACK ||| TCP_FLAG_PSH)
        ∧ peek s.pkt.buf (ipStart + 20 + 13) ≠ TCP_FLAG_FIN
        ∧ peek s.pkt.buf (ipStart + 20 + 13) ≠ (TCP_FLAG_FIN ||| TCP_FLAG_ACK)
        ∧ peek s.pkt.buf (ipStart + 20 + 13) ≠ (TCP_FLAG_FIN ||| TCP_FLAG_PSH ||| TCP_FLAG_ACK))))
    (hcap : 46 + tcpReplyLen s ≤ s.pkt.buf.length) :
    (∃ P, (tcpHandler s).tx = s.tx ++ [0x7e] ++ stuffed P (46 + tcpReplyLen s) ++ [0x7e])
    ∧ (tcpHandler s).pkt.len = 46 + tcpReplyLen s
    ∧ ∀ P, (tcpHandler s).tx = s.tx ++ [0x7e] ++ stuffed P (46 + tcpReplyLen s) ++ [0x7e] →
      (ipHeaderLength P = 5 ∧ tcpOffset P 24 = 5 ∧ ipTotalLength P = 40 + tcpReplyLen s
        ∧ peek P (ipStart + 9) = peek s.pkt.buf (ipStart + 9)
        ∧ peekList P 16 4 = peekList s.pkt.buf 20 4 ∧ peekList P 20 4 = peekList s.pkt.buf 16 4
        ∧ peekList P 24 2 = peekList s.pkt.buf 26 2 ∧ peekList P 26 2 = peekList s.pkt.buf 24 2
        ∧ ∃ X a q f, tcpHandler s = tcpReply X a q f (tcpReplyLen s)
            ∧ be32 P 28 = q % 4294967296 ∧ be32 P 32 = a % 4294967296)
      ∧ dataCheckSumAcc sum' P ipStart 20 1 = 0xffff
      ∧ peek P 40 * 256 + peek P 41
          = 65535 - onesSum (peekList (pseudoHeaderBytes P (20 + tcpReplyLen s)) 0 12
              ++ peekList (poke16 P 40 0) 24 (20 + tcpReplyLen s))
      ∧ dataCheckSumAcc (dataCheckSumAcc sum' (pseudoHeaderBytes P (20 + tcpReplyLen s)) 0 12 1)
          P 24 (20 + tcpReplyLen s) 0 = 0xffff := by
  have hI : ipStart = 4 := rfl
  obtain ⟨X, a, q, f, hX, htx, hT, hlen, hpk⟩ := tcpHandler_reply s hns
  have hd := tcpReplyLen_le s
  have hX5 : ipHeaderLength X.pkt.buf = 5 := by
    have h := tcpNormalized_ihl s (by omega)
    unfold ipHeaderLength at h ⊢
    rw [hpk _ (by rw [hI]; omega), h]
  have hcapX : 46 + tcpReplyLen s ≤ X.pkt.buf.length := by rw [hlen]; exact hcap
  have hps : ∀ j, j < 44 → j ≠ 4 ∧ j ≠ 6 ∧ j ≠ 7 ∧ j ≠ 36 ∧ j ≠ 38 ∧ j ≠ 39 →
      peek X.pkt.buf j = peek s.pkt.buf j := by
    intro j h1 h2
    rw [hpk j h1, peek_tcpNormalized s j h2]
  rw [hX, ← htx]
  refine ⟨?_, tcpReply_len _ _ _ _ _, ?_⟩
  · obtain ⟨Q, hQ, _⟩ := tcpReply_frame X a q f (tcpReplyLen s) hT hX5 hcapX
    exact ⟨Q, hQ⟩
  · intro P hP
    obtain ⟨⟨g1, g2, g3, g4, g5, g6, g7, g8, g9, g10⟩, c2, c3, c4⟩ :=
      tcpReply_shape X a q f (tcpReplyLen s) hT hX5 hcapX (by omega) sum' P hP
    refine ⟨⟨g1, ?_, g3, ?_, ?_, ?_, ?_, ?_, ⟨X, a, q, f, rfl, g9, g10⟩⟩, c2, c3, c4⟩
    · unfold tcpOffset
      show peek P 36 / 16 = 5
      rw [g2, hpk _ (by omega)]
      exact tcpNormalized_offset s (by omega)
    · rw [g4, hps _ (by rw [hI]; omega) (by rw [hI]; omega)]
    · rw [g5]
      exact peekList_congr _ _ _ _ (fun i hi => hps _ (by omega) (by omega))
    · rw [g6]
      exact peekList_congr _ _ _ _ (fun i hi => hps _ (by omega) (by omega))
    · rw [g7]
      exact peekList_congr _ _ _ _ (fun i hi => hps _ (by omega) (by omega))
    · rw [g8]
      exact peekList_congr _ _ _ _ (fun i hi => hps _ (by omega) (by omega))

theorem dataCheckSum_valid (sum : Nat) (mem : List Nat) (ptr len restart : Nat)
    (h : dataCheckSumAcc sum mem ptr len restart = 0xffff) :
    dataCheckSum sum mem ptr len restart % 65536 = 0 := by
  unfold dataCheckSum
  rw [h]

theorem peekList_twelve (a b : List Nat) (x0 x1 x2 x3 : Nat) (ha : a.length = 4)
    (hb : b.length = 4) (hA : ∀ x ∈ a, x < 256) (hB : ∀ x ∈ b, x < 256)
    (h0 : x0 < 256) (h1 : x1 < 256) (h2 : x2 < 256) (h3 : x3 < 256) :
    peekList (a ++ b ++ [x0, x1, x2, x3]) 0 12 = a ++ b ++ [x0, x1, x2, x3] := by
  have hl : (a ++ b ++ [x0, x1, x2, x3]).length = 12 := by simp [ha, hb]
  have h := peekList_full (a ++ b ++ [x0, x1, x2, x3])
  rw [hl] at h
  rw [h]
  refine (List.map_congr_left ?_).trans (List.map_id _)
  intro x hx
  show x % 256 = x
  simp only [List.mem_append, List.mem_cons, List.mem_singleton, List.not_mem_nil,
    or_false] at hx
  apply Nat.mod_eq_of_lt
  rcases hx with (hx | hx) | hx | hx | hx | hx
  · exact hA x hx
  · exact hB x hx
  · omega
  · omega
  · omega
  · omega

/-- The pseudo-header of a packet spelled out: source address, destination
address, zero, protocol, segment length, read back as twelve bytes. -/
theorem pseudoHeaderBytes_read (P : List Nat) (L : Nat) :
    peekList (pseudoHeaderBytes P L) 0 12
      = peekList P (ipStart + 12) 4 ++ peekList P (ipStart + 16) 4
        ++ [0, peek P (ipStart + 9), L / 256 % 256, L % 256] := by
  rw [pseudoHeaderBytes_eq]
  exact peekList_twelve _ _ _ _ _ _ (peekList_length _ _ _) (peekList_length _ _ _)
    (peekList_lt _ _ _) (peekList_lt _ _ _)
    (by decide) (by unfold peek; exact Nat.mod_lt _ (by decide)) (Nat.mod_lt _ (by decide))
    (Nat.mod_lt _ (by decide))

/-- A segment that is not ignored changes the transmit stream. -/
theorem tcpHandler_sends (s : PppState)
    (hns : ¬ ((peek s.pkt.buf (ipStart + 20 + 13) = TCP_FLAG_ACK ∧ tcpDataSize s = 0)
      ∨ (peek s.pkt.buf (ipStart + 20 + 13) ≠ TCP_FLAG_SYN
        ∧ peek s.pkt.buf (ipStart + 20 + 13) ≠ TCP_FLAG_ACK
        ∧ peek s.pkt.buf (ipStart + 20 + 13) ≠ (TCP_FLAG_ACK ||| TCP_FLAG_PSH)
        ∧ peek s.pkt.buf (ipStart + 20 + 13) ≠ TCP_FLAG_FIN
        ∧ peek s.pkt.buf (ipStart + 20 + 13) ≠ (TCP_FLAG_FIN ||| TCP_FLAG_ACK)
        ∧ peek s.pkt.buf (ipStart + 20 + 13) ≠ (TCP_FLAG_FIN ||| TCP_FLAG_PSH ||| TCP_FLAG_ACK))))
    (hcap : 46 + tcpReplyLen s ≤ s.pkt.buf.length) :
    (tcpHandler s).tx ≠ s.tx := by
  obtain ⟨⟨P, hP⟩, _⟩ := tcpHandler_reply_shape s 0 hns hcap
  intro h
  rw [h] at hP
  have hl := congrArg List.length hP
  simp only [List.length_append, List.length_cons, List.length_nil] at hl
  omega

/-- C22 (TCP reply checksums): whenever `tcpHandler` sends (the transmit
stream changes) for a packet of protocol 6 whose buffer holds the reply, it
sends one frame, and in the packet of that frame `dataCheckSum` over the 20
bytes of the IP header has low 16 bits 0, the TCP checksum field at bytes 40
and 41 is, high byte first, the complement of the ones-complement sum over
source address, destination address, zero, 6, the segment length 20 + payload
length, followed by the segment with its checksum field zeroed, and
`dataCheckSum` continued from the pseudo-header over the emitted segment has
low 16 bits 0. -/
theorem tcp_reply_checksums (s : PppState) (sum' : Nat)
    (hproto : peek s.pkt.buf (ipStart + 9) = 6)
    (hsent : (tcpHandler s).tx ≠ s.tx)
    (hcap : 46 + tcpReplyLen s ≤ s.pkt.buf.length) :
    (∃ P, (tcpHandler s).tx = s.tx ++ [0x7e] ++ stuffed P (46 + tcpReplyLen s) ++ [0x7e])
    ∧ ∀ P, (tcpHandler s).tx = s.tx ++ [0x7e] ++ stuffed P (46 + tcpReplyLen s) ++ [0x7e] →
      dataCheckSum sum' P ipStart 20 1 % 65536 = 0
      ∧ peek P 40 * 256 + peek P 41
          = 65535 - onesSum (peekList P 16 4 ++ peekList P 20 4
              ++ [0, 6, (20 + tcpReplyLen s) / 256 % 256, (20 + tcpReplyLen s) % 256]
              ++ peekList (poke16 P 40 0) 24 (20 + tcpReplyLen s))
      ∧ dataCheckSum
          (dataCheckSumAcc sum' (peekList P 16 4 ++ peekList P 20 4
              ++ [0, 6, (20 + tcpReplyLen s) / 256 % 256, (20 + tcpReplyLen s) % 256]) 0 12 1)
          P 24 (20 + tcpReplyLen s) 0 % 65536 = 0 := by
  obtain ⟨hex, _, hall⟩ := tcpHandler_reply_shape s sum' (tcpHandler_sent_not_ignored s hsent) hcap
  refine ⟨hex, ?_⟩
  intro P hP
  obtain ⟨⟨_, _, _, g4, _⟩, c2, c3, c4⟩ := hall P hP
  have hps : pseudoHeaderBytes P (20 + tcpReplyLen s)
      = peekList P 16 4 ++ peekList P 20 4
        ++ [0, 6, (20 + tcpReplyLen s) / 256 % 256, (20 + tcpReplyLen s) % 256] := by
    rw [pseudoHeaderBytes_eq, g4, hproto]
    rfl
  have hrd := pseudoHeaderBytes_read P (20 + tcpReplyLen s)
  rw [g4, hproto] at hrd
  refine ⟨dataCheckSum_valid _ _ _ _ _ c2, ?_, ?_⟩
  · rw [c3, hrd]
    rfl
  · rw [← hps]
    exact dataCheckSum_valid _ _ _ _ _ c4

set_option maxRecDepth 100000 in
theorem tcp_reply_checksums_witness :
    (∃ P, (tcpHandler exampleSynData).tx
        = exampleSynData.tx ++ [0x7e] ++ stuffed P (46 + tcpReplyLen exampleSynData) ++ [0x7e])
    ∧ ∀ P, (tcpHandler exampleSynData).tx
        = exampleSynData.tx ++ [0x7e] ++ stuffed P (46 + tcpReplyLen exampleSynData) ++ [0x7e] →
      dataCheckSum 0 P ipStart 20 1 % 65536 = 0
      ∧ peek P 40 * 256 + peek P 41
          = 65535 - onesSum (peekList P 16 4 ++ peekList P 20 4
              ++ [0, 6, (20 + tcpReplyLen exampleSynData) / 256 % 256,
                  (20 + tcpReplyLen exampleSynData) % 256]
              ++ peekList (poke16 P 40 0) 24 (20 + tcpReplyLen exampleSynData))
      ∧ dataCheckSum
          (dataCheckSumAcc 0 (peekList P 16 4 ++ peekList P 20 4
              ++ [0, 6, (20 + tcpReplyLen exampleSynData) / 256 % 256,
                  (20 + tcpReplyLen exampleSynData) % 256]) 0 12 1)
          P 24 (20 + tcpReplyLen exampleSynData) 0 % 65536 = 0 :=
  tcp_reply_checksums exampleSynData 0 (by decide)
    (tcpHandler_sends exampleSynData (by decide) (by decide)) (by decide)

set_option maxRecDepth 100000 in
/-- C21, failing input: for the ACK-flagged segment behind a 24-byte IP header
the handler sends one 46-byte frame whose TCP port fields hold bytes of the
IP option word of the request (`01 00` and `01 01`), while the ports of the
request, read behind its 24-byte IP header, are 49153 (`c0 01`) and 80. -/
theorem tcp_reply_ip_options_ports :
    ipHeaderLength exampleTcpIpOption.pkt.buf = 6
    ∧ peekList exampleTcpIpOption.pkt.buf (ipStart + 4 * ipHeaderLength exampleTcpIpOption.pkt.buf) 4
        = [0xc0, 0x01, 0, 80]
    ∧ (∃ P, (tcpHandler exampleTcpIpOption).tx
        = exampleTcpIpOption.tx ++ [0x7e] ++ stuffed P 46 ++ [0x7e])
    ∧ ∀ P, (tcpHandler exampleTcpIpOption).tx
        = exampleTcpIpOption.tx ++ [0x7e] ++ stuffed P 46 ++ [0x7e] →
      ipHeaderLength P = 5 ∧ peekList P (ipStart + 4 * ipHeaderLength P) 4 = [1, 0, 1, 1] := by
  have hlen : tcpReplyLen exampleTcpIpOption = 0 := by decide
  obtain ⟨hex, _, hall⟩ := tcpHandler_reply_shape exampleTcpIpOption 0 (by decide)
    (by rw [hlen]; decide)
  rw [hlen] at hex hall
  refine ⟨by decide, by decide, hex, ?_⟩
  intro P hP
  obtain ⟨⟨g1, _, _, _, _, _, g7, g8, _⟩, _⟩ := hall P hP
  refine ⟨g1, ?_⟩
  rw [g1]
  have e7 : peekList exampleTcpIpOption.pkt.buf 26 2 = [1, 0] := by decide
  have e8 : peekList exampleTcpIpOption.pkt.buf 24 2 = [1, 1] := by decide
  rw [e7, peekList_two] at g7
  rw [e8, peekList_two] at g8
  have a0 := (List.cons.inj g7).1
  have a1 := (List.cons.inj (List.cons.inj g7).2).1
  have b0 := (List.cons.inj g8).1
  have b1 := (List.cons.inj (List.cons.inj g8).2).1
  rw [peekList_four]
  show [peek P 24, peek P (24 + 1), peek P (24 + 2), peek P (24 + 3)] = _
  rw [a0, a1]
  show [1, 0, peek P 26, peek P (26 + 1)] = _
  rw [b0, b1]

/-! ## UDP replies -/

theorem peekList_add (b : List Nat) (off m n : Nat) :
    peekList b off (m + n) = peekList b off m ++ peekList b (off + m) n := by
  induction n with
  | zero => simp [peekList]
  | succ n ih =>
    rw [← Nat.add_assoc, peekList_succ, ih, peekList_succ, List.append_assoc, Nat.add_assoc]

/-- The IP checksum field of a packet that agrees with a checksummed buffer is
the complement of the ones-complement sum of its header with the field zeroed. -/
theorem checksummed_ip_field (sum6 sum7 : Nat) (B P : List Nat) (T f L n : Nat)
    (h5 : 5 ≤ ipHeaderLength B) (hT : ipStart + 4 * ipHeaderLength B ≤ T)
    (hn : T + 2 ≤ n) (hcap : n ≤ B.length)
    (hP : ∀ j, j + 2 < n →
      peek P j = peek (transportChecksummed sum7 (ipChecksummed sum6 B) T f L) j) :
    peek P (ipStart + 10) * 256 + peek P (ipStart + 11)
      = 65535 - onesSum (peekList (poke16 P (ipStart + 10) 0) ipStart (4 * ipHeaderLength P)) := by
  have hI : ipStart = 4 := rfl
  have h15 : ipHeaderLength B < 16 := Nat.mod_lt _ (by norm_num)
  have hPB : ∀ j, j < T → j ≠ ipStart + 10 → j ≠ ipStart + 11 → peek P j = peek B j := by
    intro j h1 h2 h3
    rw [hP j (by omega), peek_transportChecksummed _ _ _ _ _ _ (by omega),
      peek_ipChecksummed _ _ _ ⟨h2, h3⟩]
  have hh : ipHeaderLength P = ipHeaderLength B := by
    unfold ipHeaderLength
    rw [hPB _ (by omega) (by omega) (by omega)]
  have hlen0 : (poke16 B (ipStart + 10) 0).length = B.length := poke16_length _ _ _
  have e11 : ipStart + 11 = ipStart + 10 + 1 := rfl
  have hlo : peek P (ipStart + 10)
      = dataCheckSum sum6 (poke16 B (ipStart + 10) 0) ipStart (4 * ipHeaderLength B) 1 / 256 % 256 := by
    rw [hP _ (by omega), peek_transportChecksummed _ _ _ _ _ _ (by omega)]
    unfold ipChecksummed
    rw [peek_poke16_lo _ _ _ (by rw [hlen0]; omega), REV16_lo]
  have hhi : peek P (ipStart + 11)
      = dataCheckSum sum6 (poke16 B (ipStart + 10) 0) ipStart (4 * ipHeaderLength B) 1 % 256 := by
    rw [hP _ (by omega), peek_transportChecksummed _ _ _ _ _ _ (by omega)]
    unfold ipChecksummed
    rw [e11, peek_poke16_hi _ _ _ (by rw [hlen0]; omega), REV16_hi]
  have racc := dataCheckSumAcc_onesSum sum6 (poke16 B (ipStart + 10) 0) ipStart
    (4 * ipHeaderLength B) (by omega)
  have rle := dataCheckSumAcc_le sum6 (poke16 B (ipStart + 10) 0) ipStart (4 * ipHeaderLength B)
  have hsum : dataCheckSum sum6 (poke16 B (ipStart + 10) 0) ipStart (4 * ipHeaderLength B) 1
      = 4294967295 - dataCheckSumAcc sum6 (poke16 B (ipStart + 10) 0) ipStart
          (4 * ipHeaderLength B) 1 := rfl
  have hlist : peekList (poke16 P (ipStart + 10) 0) ipStart (4 * ipHeaderLength P)
      = peekList (poke16 B (ipStart + 10) 0) ipStart (4 * ipHeaderLength B) := by
    rw [hh]
    apply peekList_congr
    intro i hi
    by_cases h10 : ipStart + i = ipStart + 10
    · rw [h10, peek_poke16_zero_lo, peek_poke16_zero_lo]
    · by_cases h11 : ipStart + i = ipStart + 10 + 1
      · rw [h11, peek_poke16_zero_hi, peek_poke16_zero_hi]
      · rw [peek_poke16_ne _ _ _ _ h10 h11, peek_poke16_ne _ _ _ _ h10 h11]
        exact hPB _ (by omega) h10 h11
  rw [hlist, ← racc, hlo, hhi, hsum]
  omega

/-- The checksum-and-send tail sends the checksummed packet buffer in one frame. -/
theorem udpChecksumsAndSend_tx (s : PppState) (L : Nat) :
    ∃ sum7, (udpChecksumsAndSend s L).tx
      = s.tx ++ [0x7e]
        ++ stuffed (fcsStored (transportChecksummed sum7 (ipChecksummed s.sum s.pkt.buf)
            s.udpStart 6 L) s.pkt.len) s.pkt.len ++ [0x7e] := by
  refine ⟨dataCheckSumAcc s.sum (poke16 s.pkt.buf (ipStart + 10) 0) ipStart
    (4 * ipHeaderLength s.pkt.buf) 1, ?_⟩
  unfold udpChecksumsAndSend
  simp only [sendPppFrame_tx, IpHeaderCheckSum_eq, checkSumPseudoHeader, transportChecksummed,
    ipChecksummed, frameBytes, List.append_assoc]

theorem udpChecksumsAndSend_len (s : PppState) (L : Nat) :
    (udpChecksumsAndSend s L).pkt.len = s.pkt.len := by
  unfold udpChecksumsAndSend
  simp only [sendPppFrame_len, IpHeaderCheckSum_eq, checkSumPseudoHeader]

/-- Every byte in front of the FCS of the packet sent by the checksum-and-send
tail, apart from the two checksum fields, is the byte of the prepared buffer. -/
theorem udpChecksumsAndSend_bytes (s : PppState) (L : Nat) :
    (∃ P, (udpChecksumsAndSend s L).tx = s.tx ++ [0x7e] ++ stuffed P s.pkt.len ++ [0x7e])
    ∧ ∀ P, (udpChecksumsAndSend s L).tx = s.tx ++ [0x7e] ++ stuffed P s.pkt.len ++ [0x7e] →
      (∃ sum7, ∀ j, j + 2 < s.pkt.len →
        peek P j = peek (transportChecksummed sum7 (ipChecksummed s.sum s.pkt.buf)
            s.udpStart 6 L) j)
      ∧ ∀ j, j + 2 < s.pkt.len → j ≠ ipStart + 10 → j ≠ ipStart + 11 →
          j ≠ s.udpStart + 6 → j ≠ s.udpStart + 6 + 1 → peek P j = peek s.pkt.buf j := by
  obtain ⟨sum7, h7⟩ := udpChecksumsAndSend_tx s L
  refine ⟨⟨_, h7⟩, ?_⟩
  intro P hP
  have hall : ∀ j, j + 2 < s.pkt.len →
      peek P j = peek (transportChecksummed sum7 (ipChecksummed s.sum s.pkt.buf)
          s.udpStart 6 L) j := by
    intro j hj
    rw [h7] at hP
    rw [frame_packet_unique s.tx P _ s.pkt.len hP.symm j (by omega), peek_fcsStored_lt _ _ _ hj]
  refine ⟨⟨sum7, hall⟩, ?_⟩
  intro j hj h1 h2 h3 h4
  rw [hall j hj, peek_transportChecksummed _ _ _ _ _ _ ⟨h3, h4⟩, peek_ipChecksummed _ _ _ ⟨h1, h2⟩]

/-- Both checksums of the packet sent by the checksum-and-send tail. -/
theorem udpChecksumsAndSend_checksums (s : PppState) (L sum' : Nat)
    (h5 : 5 ≤ ipHeaderLength s.pkt.buf)
    (hU : s.udpStart = ipStart + 4 * ipHeaderLength s.pkt.buf)
    (hL8 : 8 ≤ L) (hL : L < 65536) (hlen : s.pkt.len = s.udpStart + L + 2)
    (hcap : s.pkt.len ≤ s.pkt.buf.length) (P : List Nat)
    (hP : (udpChecksumsAndSend s L).tx = s.tx ++ [0x7e] ++ stuffed P s.pkt.len ++ [0x7e]) :
    ipHeaderLength P = ipHeaderLength s.pkt.buf
    ∧ dataCheckSumAcc sum' P ipStart (4 * ipHeaderLength P) 1 = 0xffff
    ∧ peek P (ipStart + 10) * 256 + peek P (ipStart + 11)
        = 65535 - onesSum (peekList (poke16 P (ipStart + 10) 0) ipStart (4 * ipHeaderLength P))
    ∧ peek P (s.udpStart + 6) * 256 + peek P (s.udpStart + 6 + 1)
        = 65535 - onesSum (peekList (pseudoHeaderBytes P L) 0 12
            ++ peekList (poke16 P (s.udpStart + 6) 0) s.udpStart L)
    ∧ dataCheckSumAcc (dataCheckSumAcc sum' (pseudoHeaderBytes P L) 0 12 1) P s.udpStart L 0
        = 0xffff := by
  obtain ⟨⟨sum7, hall⟩, _⟩ := (udpChecksumsAndSend_bytes s L).2 P hP
  obtain ⟨c1, c2, c3, c4⟩ := checksummed_valid s.sum sum7 sum' s.pkt.buf P s.udpStart 6 L s.pkt.len
    h5 (by rw [hU]) (by decide) (by omega) hL (by omega) hcap hall
  exact ⟨c1, c2, checksummed_ip_field s.sum sum7 s.pkt.buf P s.udpStart 6 L s.pkt.len h5
    (by rw [hU]) (by omega) hcap hall, c3, c4⟩

theorem peekList_pokeList_ne (buf : List Nat) (a : Nat) (bytes : List Nat) (off n : Nat)
    (h : a + bytes.length ≤ off ∨ off + n ≤ a) :
    peekList (pokeList buf a bytes) off n = peekList buf off n :=
  peekList_congr _ _ _ _ (fun i hi => peek_pokeList_ne _ _ _ _ (by omega))

theorem sprintfAt_length (buf : List Nat) (off : Nat) (text : List Nat) :
    (sprintfAt buf off text).length = buf.length := by
  unfold sprintfAt
  exact pokeList_length _ _ _

theorem peekList_sprintfAt_ne (buf : List Nat) (a : Nat) (text : List Nat) (off n : Nat)
    (h : a + text.length + 1 ≤ off ∨ off + n ≤ a) :
    peekList (sprintfAt buf a text) off n = peekList buf off n := by
  unfold sprintfAt
  exact peekList_pokeList_ne _ _ _ _ _ (by rw [List.length_append, List.length_singleton]; omega)

theorem peek_sprintfAt_ne (buf : List Nat) (a : Nat) (text : List Nat) (j : Nat)
    (h : j < a ∨ a + text.length + 1 ≤ j) :
    peek (sprintfAt buf a text) j = peek buf j := by
  unfold sprintfAt
  exact peek_pokeList_ne _ _ _ _ (by rw [List.length_append, List.length_singleton]; omega)

/-- A byte-reversed 16-bit store reads back big-endian. -/
theorem poke16_REV16_read (X : List Nat) (i v : Nat) (h : i + 2 ≤ X.length) :
    peek (poke16 X i (REV16 v)) i * 256 + peek (poke16 X i (REV16 v)) (i + 1) = v % 65536 := by
  rw [peek_poke16_lo _ _ _ h, peek_poke16_hi _ _ _ h, REV16_lo, REV16_hi]
  omega

theorem udpSwapped_length (buf : List Nat) (U : Nat) : (udpSwapped buf U).length = buf.length := by
  unfold udpSwapped
  simp only [poke16_length, poke32_length]

theorem peek_udpSwapped (buf : List Nat) (U j : Nat) (hU : 24 ≤ U)
    (h : j < 16 ∨ (24 ≤ j ∧ j < U) ∨ U + 4 ≤ j) : peek (udpSwapped buf U) j = peek buf j := by
  have hI : ipStart = 4 := rfl
  unfold udpSwapped
  rw [peek_poke16_ne _ _ _ _ (by omega) (by omega), peek_poke16_ne _ _ _ _ (by omega) (by omega),
    peek_poke32_ne _ _ _ _ (by omega), peek_poke32_ne _ _ _ _ (by omega)]

theorem udpSwapped_fields (buf : List Nat) (U : Nat) (hU : 24 ≤ U) (hcap : U + 4 ≤ buf.length) :
    peekList (udpSwapped buf U) 16 4 = peekList buf 20 4
    ∧ peekList (udpSwapped buf U) 20 4 = peekList buf 16 4
    ∧ peekList (udpSwapped buf U) U 2 = peekList buf (U + 2) 2
    ∧ peekList (udpSwapped buf U) (U + 2) 2 = peekList buf U 2 := by
  have hI : ipStart = 4 := rfl
  unfold udpSwapped
  simp only [hI]
  refine ⟨?_, ?_, ?_, ?_⟩
  · rw [peekList_poke16_ne _ _ _ _ _ (by omega), peekList_poke16_ne _ _ _ _ _ (by omega),
      peekList_poke32_ne _ _ _ _ _ (by omega), peekList_poke32_peek32 _ _ _ _ (by omega)]
  · rw [peekList_poke16_ne _ _ _ _ _ (by omega), peekList_poke16_ne _ _ _ _ _ (by omega),
      peekList_poke32_peek32 _ _ _ _ (by rw [poke32_length]; omega)]
  · rw [peekList_poke16_ne _ _ _ _ _ (by omega),
      peekList_poke16_peek16 _ _ _ _ (by simp only [poke32_length]; omega),
      peekList_poke32_ne _ _ _ _ _ (by omega), peekList_poke32_ne _ _ _ _ _ (by omega)]
  · rw [peekList_poke16_peek16 _ _ _ _ (by simp only [poke16_length, poke32_length]; omega),
      peekList_poke32_ne _ _ _ _ _ (by omega), peekList_poke32_ne _ _ _ _ _ (by omega)]

theorem udpEchoText_length (buf : List Nat) (U udpData : Nat) :
    (udpEchoText buf U udpData).length = buf.length := by
  unfold udpEchoText
  simp only [sprintfAt_length, pokeList_length, udpSwapped_length]

theorem peek_udpEchoText (buf : List Nat) (U udpData j : Nat) (hU : 24 ≤ U)
    (h : j < 16 ∨ (24 ≤ j ∧ j < U) ∨ (U + 4 ≤ j ∧ j < U + 8)
      ∨ (U + 12 ≤ j ∧ j < U + 8 + udpData) ∨ U + 8 + udpData + 26 ≤ j) :
    peek (udpEchoText buf U udpData) j = peek buf j := by
  have hA : (strBytes "\x7d UDP Server: PPP-Blinky\n").length = 25 := by decide
  have hG : (strBytes "Got\x7b").length = 4 := by decide
  unfold udpEchoText
  rw [peek_sprintfAt_ne _ _ _ _ (by omega), peek_pokeList_ne _ _ _ _ (by omega),
    peek_udpSwapped _ _ _ hU (by omega)]

theorem peekList_udpEchoText (buf : List Nat) (U udpData off n : Nat) (hd : 4 ≤ udpData)
    (h : off + n ≤ U + 8) :
    peekList (udpEchoText buf U udpData) off n = peekList (udpSwapped buf U) off n := by
  have hA : (strBytes "\x7d UDP Server: PPP-Blinky\n").length = 25 := by decide
  have hG : (strBytes "Got\x7b").length = 4 := by decide
  unfold udpEchoText
  rw [peekList_sprintfAt_ne _ _ _ _ _ (by omega), peekList_pokeList_ne _ _ _ _ _ (by omega)]

theorem udpEchoText_fields (buf : List Nat) (U udpData : Nat) (hd : 4 ≤ udpData)
    (hcap : U + 8 + udpData + 25 ≤ buf.length) :
    peekList (udpEchoText buf U udpData) (U + 8) 4 = strBytes "Got\x7b"
    ∧ peekList (udpEchoText buf U udpData) (U + 8 + udpData) 25
        = strBytes "\x7d UDP Server: PPP-Blinky\n" := by
  have hA : (strBytes "\x7d UDP Server: PPP-Blinky\n").length = 25 := by decide
  have hG : (strBytes "Got\x7b").length = 4 := by decide
  unfold udpEchoText
  refine ⟨?_, ?_⟩
  · rw [peekList_sprintfAt_ne _ _ _ _ _ (by omega)]
    have h := peekList_pokeList (udpSwapped buf U) (U + 8) (strBytes "Got\x7b")
      (by rw [udpSwapped_length]; omega)
    rw [hG] at h
    rw [h]
    decide
  · have h := peekList_sprintfAt (pokeList (udpSwapped buf U) (U + 8) (strBytes "Got\x7b"))
      (U + 8 + udpData) (strBytes "\x7d UDP Server: PPP-Blinky\n")
      (by rw [pokeList_length, udpSwapped_length]; omega)
    rw [hA] at h
    rw [h]
    decide

theorem udpEchoFilled_length (buf : List Nat) (U ipAll udpAll1 udpData : Nat) :
    (udpEchoFilled buf U ipAll udpAll1 udpData).length = buf.length := by
  unfold udpEchoFilled
  simp only [poke16_length, udpEchoText_length]

/-- Bytes the echo branch leaves alone. -/
theorem peek_udpEchoFilled (buf : List Nat) (U ipAll udpAll1 udpData j : Nat) (hU : 24 ≤ U)
    (h : j < 6 ∨ (8 ≤ j ∧ j < 16) ∨ (24 ≤ j ∧ j < U) ∨ (U + 6 ≤ j ∧ j < U + 8)
      ∨ (U + 12 ≤ j ∧ j < U + 8 + udpData) ∨ U + 8 + udpData + 26 ≤ j) :
    peek (udpEchoFilled buf U ipAll udpAll1 udpData) j = peek buf j := by
  have hI : ipStart = 4 := rfl
  unfold udpEchoFilled
  rw [peek_poke16_ne _ _ _ _ (by omega) (by omega), peek_poke16_ne _ _ _ _ (by omega) (by omega),
    peek_udpEchoText _ _ _ _ hU (by omega)]

/-- The fields the echo branch writes, read back before the checksums are stored. -/
theorem udpEchoFilled_fields (buf : List Nat) (U ipAll udpAll1 udpData : Nat)
    (hU : 24 ≤ U) (hd : 4 ≤ udpData) (hcap : U + 8 + udpData + 25 ≤ buf.length) :
    peekList (udpEchoFilled buf U ipAll udpAll1 udpData) 16 4 = peekList buf 20 4
    ∧ peekList (udpEchoFilled buf U ipAll udpAll1 udpData) 20 4 = peekList buf 16 4
    ∧ peekList (udpEchoFilled buf U ipAll udpAll1 udpData) U 2 = peekList buf (U + 2) 2
    ∧ peekList (udpEchoFilled buf U ipAll udpAll1 udpData) (U + 2) 2 = peekList buf U 2
    ∧ peek (udpEchoFilled buf U ipAll udpAll1 udpData) (ipStart + 2) * 256
        + peek (udpEchoFilled buf U ipAll udpAll1 udpData) (ipStart + 2 + 1) = ipAll % 65536
    ∧ peek (udpEchoFilled buf U ipAll udpAll1 udpData) (U + 4) * 256
        + peek (udpEchoFilled buf U ipAll udpAll1 udpData) (U + 4 + 1) = udpAll1 % 65536
    ∧ peekList (udpEchoFilled buf U ipAll udpAll1 udpData) (U + 8) 4 = strBytes "Got\x7b"
    ∧ peekList (udpEchoFilled buf U ipAll udpAll1 udpData) (U + 8 + udpData) 25
        = strBytes "\x7d UDP Server: PPP-Blinky\n" := by
  have hI : ipStart = 4 := rfl
  obtain ⟨s1, s2, s3, s4⟩ := udpSwapped_fields buf U hU (by omega)
  obtain ⟨t1, t2⟩ := udpEchoText_fields buf U udpData hd hcap
  unfold udpEchoFilled
  refine ⟨?_, ?_, ?_, ?_, ?_, ?_, ?_, ?_⟩
  · rw [peekList_poke16_ne _ _ _ _ _ (by omega), peekList_poke16_ne _ _ _ _ _ (by omega),
      peekList_udpEchoText _ _ _ _ _ hd (by omega), s1]
  · rw [peekList_poke16_ne _ _ _ _ _ (by omega), peekList_poke16_ne _ _ _ _ _ (by omega),
      peekList_udpEchoText _ _ _ _ _ hd (by omega), s2]
  · rw [peekList_poke16_ne _ _ _ _ _ (by omega), peekList_poke16_ne _ _ _ _ _ (by omega),
      peekList_udpEchoText _ _ _ _ _ hd (by omega), s3]
  · rw [peekList_poke16_ne _ _ _ _ _ (by omega), peekList_poke16_ne _ _ _ _ _ (by omega),
      peekList_udpEchoText _ _ _ _ _ hd (by omega), s4]
  · rw [peek_poke16_ne _ (U + 4) (ipStart + 2) _ (by omega) (by omega),
      peek_poke16_ne _ (U + 4) (ipStart + 2 + 1) _ (by omega) (by omega)]
    exact poke16_REV16_read _ _ _ (by rw [udpEchoText_length]; omega)
  · exact poke16_REV16_read _ _ _ (by rw [poke16_length, udpEchoText_length]; omega)
  · rw [peekList_poke16_ne _ _ _ _ _ (by omega), peekList_poke16_ne _ _ _ _ _ (by omega), t1]
  · rw [peekList_poke16_ne _ _ _ _ _ (by omega), peekList_poke16_ne _ _ _ _ _ (by omega), t2]

theorem udpEcho_eq (s0 : PppState) (ipHeader udpData : Nat) :
    udpEcho s0 ipHeader udpData
      = udpChecksumsAndSend (udpEchoPrepared s0 ipHeader udpData).1
          (udpEchoPrepared s0 ipHeader udpData).2 := rfl

theorem udpEchoPrepared_eq (s0 : PppState) (ipHeader udpData : Nat)
    (hU : s0.udpStart = ipStart + 4 * ipHeaderLength s0.pkt.buf) :
    (udpEchoPrepared s0 ipHeader udpData).2 = ((udpData + 25) % 4294967296 + 8) % 4294967296
    ∧ (udpEchoPrepared s0 ipHeader udpData).1.tx = s0.tx
    ∧ (udpEchoPrepared s0 ipHeader udpData).1.udpStart = s0.udpStart
    ∧ (udpEchoPrepared s0 ipHeader udpData).1.pkt.len
        = ((ipHeader + ((udpData + 25) % 4294967296 + 8) % 4294967296) % 4294967296 + 2 + 4)
            % 4294967296
    ∧ (udpEchoPrepared s0 ipHeader udpData).1.pkt.buf
        = udpEchoFilled s0.pkt.buf s0.udpStart
            ((ipHeader + ((udpData + 25) % 4294967296 + 8) % 4294967296) % 4294967296)
            (((udpData + 25) % 4294967296 + 8) % 4294967296) udpData := by
  have hA : (strBytes "\x7d UDP Server: PPP-Blinky\n").length = 25 := by decide
  refine ⟨?_, ?_, ?_, ?_, ?_⟩
  · simp only [udpEchoPrepared, hA]
  · simp only [udpEchoPrepared, swapIpPorts, swapIpAddresses]
  · simp only [udpEchoPrepared, swapIpPorts, swapIpAddresses]
  · simp only [udpEchoPrepared, hA]
  · simp only [udpEchoPrepared, swapIpPorts, swapIpAddresses, hA, udpEchoFilled, udpEchoText,
      udpSwapped, hU, ipStart, ipHeaderLength_swapped, Nat.add_zero]

/-- The echo branch of `UDPpacket`: the prepared state handed to the checksum
and send tail, in terms of the UDP offset and length field of the request. -/
theorem UDPpacket_echo (s : PppState)
    (hecho : peekList s.pkt.buf (udpOffset s.pkt.buf + 8) 5 = strBytes "echo ")
    (hlen : 8 ≤ udpLengthField s.pkt.buf) :
    ∃ X, UDPpacket s = udpChecksumsAndSend X (udpLengthField s.pkt.buf + 25)
      ∧ X.tx = s.tx ∧ X.udpStart = udpOffset s.pkt.buf
      ∧ X.pkt.len = udpOffset s.pkt.buf + (udpLengthField s.pkt.buf + 25) + 2
      ∧ X.pkt.buf = udpEchoFilled s.pkt.buf (udpOffset s.pkt.buf)
          (4 * ipHeaderLength s.pkt.buf + (udpLengthField s.pkt.buf + 25))
          (udpLengthField s.pkt.buf + 25) (udpLengthField s.pkt.buf - 8) := by
  have hI : ipStart = 4 := rfl
  have h15 : ipHeaderLength s.pkt.buf < 16 := Nat.mod_lt _ (by norm_num)
  have hA : REV16 (peek16 s.pkt.buf (udpOffset s.pkt.buf + 4)) = udpLengthField s.pkt.buf :=
    REV16_peek16 _ _
  have hlt : udpLengthField s.pkt.buf < 65536 := by
    have h1 := peek_lt s.pkt.buf (udpOffset s.pkt.buf + 4)
    have h2 := peek_lt s.pkt.buf (udpOffset s.pkt.buf + 4 + 1)
    unfold udpLengthField
    omega
  have hs : UDPpacket s
      = udpEcho { s with udpStart := ipStart + 4 * ipHeaderLength s.pkt.buf }
          (4 * ipHeaderLength s.pkt.buf)
          ((REV16 (peek16 s.pkt.buf (ipStart + 4 * ipHeaderLength s.pkt.buf + 4)) + 4294967296 - 8)
            % 4294967296) := by
    rw [UDPpacket_branches]
    unfold udpBranches
    unfold udpOffset at hecho
    simp only [hecho, if_true]
  have hA2 : REV16 (peek16 s.pkt.buf (ipStart + 4 * ipHeaderLength s.pkt.buf + 4))
      = udpLengthField s.pkt.buf := hA
  rw [hA2] at hs
  have hd : (udpLengthField s.pkt.buf + 4294967296 - 8) % 4294967296
      = udpLengthField s.pkt.buf - 8 := by omega
  rw [hd] at hs
  obtain ⟨e1, e2, e3, e4, e5⟩ := udpEchoPrepared_eq
    { s with udpStart := ipStart + 4 * ipHeaderLength s.pkt.buf }
    (4 * ipHeaderLength s.pkt.buf) (udpLengthField s.pkt.buf - 8) rfl
  have hL : ((udpLengthField s.pkt.buf - 8 + 25) % 4294967296 + 8) % 4294967296
      = udpLengthField s.pkt.buf + 25 := by omega
  rw [hL] at e1 e4 e5
  have hip : (4 * ipHeaderLength s.pkt.buf + (udpLengthField s.pkt.buf + 25)) % 4294967296
      = 4 * ipHeaderLength s.pkt.buf + (udpLengthField s.pkt.buf + 25) := by omega
  rw [hip] at e4 e5
  refine ⟨(udpEchoPrepared { s with udpStart := ipStart + 4 * ipHeaderLength s.pkt.buf }
    (4 * ipHeaderLength s.pkt.buf) (udpLengthField s.pkt.buf - 8)).1, ?_, e2, e3, ?_, e5⟩
  · rw [hs, udpEcho_eq, e1]
  · rw [e4]
    unfold udpOffset
    omega

/-- The packet sent for an "echo " datagram agrees with the prepared buffer in
front of the FCS apart from the two checksum fields, and its header length is
the one of the request. -/
theorem UDPpacket_echo_bytes (s : PppState)
    (h5 : 5 ≤ ipHeaderLength s.pkt.buf)
    (hecho : peekList s.pkt.buf (udpOffset s.pkt.buf + 8) 5 = strBytes "echo ")
    (hlen : 8 ≤ udpLengthField s.pkt.buf) :
    (∃ P, (UDPpacket s).tx = s.tx ++ [0x7e]
        ++ stuffed P (udpOffset s.pkt.buf + (udpLengthField s.pkt.buf + 25) + 2) ++ [0x7e])
    ∧ (UDPpacket s).pkt.len = udpOffset s.pkt.buf + (udpLengthField s.pkt.buf + 25) + 2
    ∧ ∀ P, (UDPpacket s).tx = s.tx ++ [0x7e]
        ++ stuffed P (udpOffset s.pkt.buf + (udpLengthField s.pkt.buf + 25) + 2) ++ [0x7e] →
      (∀ j, j < udpOffset s.pkt.buf + (udpLengthField s.pkt.buf + 25) → j ≠ ipStart + 10 →
          j ≠ ipStart + 11 → j ≠ udpOffset s.pkt.buf + 6 → j ≠ udpOffset s.pkt.buf + 6 + 1 →
          peek P j = peek (udpEchoFilled s.pkt.buf (udpOffset s.pkt.buf)
            (4 * ipHeaderLength s.pkt.buf + (udpLengthField s.pkt.buf + 25))
            (udpLengthField s.pkt.buf + 25) (udpLengthField s.pkt.buf - 8)) j)
      ∧ ipHeaderLength P = ipHeaderLength s.pkt.buf
      ∧ udpOffset P = udpOffset s.pkt.buf := by
  have hI : ipStart = 4 := rfl
  obtain ⟨X, hX, htx, hU, hl, hb⟩ := UDPpacket_echo s hecho hlen
  obtain ⟨hex, hall⟩ := udpChecksumsAndSend_bytes X (udpLengthField s.pkt.buf + 25)
  rw [← hX, htx, hl] at hex hall
  refine ⟨hex, ?_, ?_⟩
  · rw [hX, udpChecksumsAndSend_len, hl]
  · intro P hP
    obtain ⟨_, hne⟩ := hall P hP
    rw [hU, hb] at hne
    have hbytes : ∀ j, j < udpOffset s.pkt.buf + (udpLengthField s.pkt.buf + 25) →
        j ≠ ipStart + 10 → j ≠ ipStart + 11 → j ≠ udpOffset s.pkt.buf + 6 →
        j ≠ udpOffset s.pkt.buf + 6 + 1 →
        peek P j = peek (udpEchoFilled s.pkt.buf (udpOffset s.pkt.buf)
          (4 * ipHeaderLength s.pkt.buf + (udpLengthField s.pkt.buf + 25))
          (udpLengthField s.pkt.buf + 25) (udpLengthField s.pkt.buf - 8)) j :=
      fun j h1 h2 h3 h4 h5 => hne j (by omega) h2 h3 h4 h5
    have hh : ipHeaderLength P = ipHeaderLength s.pkt.buf := by
      have hu : udpOffset s.pkt.buf = ipStart + 4 * ipHeaderLength s.pkt.buf := rfl
      unfold ipHeaderLength
      rw [hbytes ipStart (by rw [hu]; omega) (by omega) (by omega) (by rw [hu]; omega)
        (by rw [hu]; omega), peek_udpEchoFilled _ _ _ _ _ _ (by rw [hu]; omega) (by rw [hI]; omega)]
    refine ⟨hbytes, hh, ?_⟩
    unfold udpOffset
    rw [hh]

/-- C23 (UDP echo content): for a UDP datagram behind an IP header of at least
five words whose payload, of the five or more bytes the UDP length field
counts, starts with "echo ", in a packet buffer with room for the reply,
`UDPpacket` sends exactly one frame; in its packet the IP source and
destination addresses and the UDP source and destination ports are those of
the request exchanged, and the UDP payload is "Got\x7b", then the request
payload from its fifth byte on, then the 25 bytes "\x7d UDP Server: PPP-Blinky\n". -/
theorem udp_echo_content (s : PppState)
    (h5 : 5 ≤ ipHeaderLength s.pkt.buf)
    (hecho : peekList s.pkt.buf (udpOffset s.pkt.buf + 8) 5 = strBytes "echo ")
    (hlen : 13 ≤ udpLengthField s.pkt.buf)
    (hcap : udpOffset s.pkt.buf + (udpLengthField s.pkt.buf + 25) + 2 ≤ s.pkt.buf.length) :
    (∃ P, (UDPpacket s).tx = s.tx ++ [0x7e]
        ++ stuffed P (udpOffset s.pkt.buf + (udpLengthField s.pkt.buf + 25) + 2) ++ [0x7e])
    ∧ ∀ P, (UDPpacket s).tx = s.tx ++ [0x7e]
        ++ stuffed P (udpOffset s.pkt.buf + (udpLengthField s.pkt.buf + 25) + 2) ++ [0x7e] →
      udpOffset P = udpOffset s.pkt.buf
      ∧ peekList P (ipStart + 12) 4 = peekList s.pkt.buf (ipStart + 16) 4
      ∧ peekList P (ipStart + 16) 4 = peekList s.pkt.buf (ipStart + 12) 4
      ∧ peekList P (udpOffset P) 2 = peekList s.pkt.buf (udpOffset s.pkt.buf + 2) 2
      ∧ peekList P (udpOffset P + 2) 2 = peekList s.pkt.buf (udpOffset s.pkt.buf) 2
      ∧ peekList P (udpOffset P + 8) (udpLengthField s.pkt.buf - 8 + 25)
          = strBytes "Got\x7b"
            ++ peekList s.pkt.buf (udpOffset s.pkt.buf + 8 + 4) (udpLengthField s.pkt.buf - 8 - 4)
            ++ strBytes "\x7d UDP Server: PPP-Blinky\n" := by
  have hI : ipStart = 4 := rfl
  have hu : udpOffset s.pkt.buf = ipStart + 4 * ipHeaderLength s.pkt.buf := rfl
  have hU : 24 ≤ udpOffset s.pkt.buf := by rw [hu, hI]; omega
  obtain ⟨hex, _, hall⟩ := UDPpacket_echo_bytes s h5 hecho (by omega)
  refine ⟨hex, ?_⟩
  intro P hP
  obtain ⟨hb, _, hoff⟩ := hall P hP
  obtain ⟨f1, f2, f3, f4, _, _, f7, f8⟩ := udpEchoFilled_fields s.pkt.buf (udpOffset s.pkt.buf)
    (4 * ipHeaderLength s.pkt.buf + (udpLengthField s.pkt.buf + 25))
    (udpLengthField s.pkt.buf + 25) (udpLengthField s.pkt.buf - 8) hU (by omega) (by omega)
  rw [hoff]
  refine ⟨rfl, ?_, ?_, ?_, ?_, ?_⟩
  · refine Eq.trans ?_ f1
    exact peekList_congr _ _ _ _ (fun i hi => hb _ (by rw [hI]; omega) (by rw [hI]; omega)
      (by rw [hI]; omega) (by rw [hI]; omega) (by rw [hI]; omega))
  · refine Eq.trans ?_ f2
    exact peekList_congr _ _ _ _ (fun i hi => hb _ (by rw [hI]; omega) (by rw [hI]; omega)
      (by rw [hI]; omega) (by rw [hI]; omega) (by rw [hI]; omega))
  · refine Eq.trans ?_ f3
    exact peekList_congr _ _ _ _ (fun i hi => hb _ (by omega) (by rw [hI]; omega)
      (by rw [hI]; omega) (by omega) (by omega))
  · refine Eq.trans ?_ f4
    exact peekList_congr _ _ _ _ (fun i hi => hb _ (by omega) (by rw [hI]; omega)
      (by rw [hI]; omega) (by omega) (by omega))
  · have e0 : udpLengthField s.pkt.buf - 8 + 25 = 4 + (udpLengthField s.pkt.buf - 8 - 4) + 25 := by
      omega
    rw [e0]
    have hF : peekList P (udpOffset s.pkt.buf + 8) (4 + (udpLengthField s.pkt.buf - 8 - 4) + 25)
        = peekList (udpEchoFilled s.pkt.buf (udpOffset s.pkt.buf)
            (4 * ipHeaderLength s.pkt.buf + (udpLengthField s.pkt.buf + 25))
            (udpLengthField s.pkt.buf + 25) (udpLengthField s.pkt.buf - 8))
            (udpOffset s.pkt.buf + 8) (4 + (udpLengthField s.pkt.buf - 8 - 4) + 25) :=
      peekList_congr _ _ _ _ (fun i hi => hb _ (by omega) (by rw [hI]; omega)
        (by rw [hI]; omega) (by omega) (by omega))
    have e3 : udpOffset s.pkt.buf + 8 + (4 + (udpLengthField s.pkt.buf - 8 - 4))
        = udpOffset s.pkt.buf + 8 + (udpLengthField s.pkt.buf - 8) := by omega
    rw [hF, peekList_add, peekList_add, f7, e3, f8]
    refine congrArg₂ (fun x y => x ++ y) (congrArg (fun x => strBytes "Got\x7b" ++ x) ?_) rfl
    exact peekList_congr _ _ _ _ (fun i hi => peek_udpEchoFilled _ _ _ _ _ _ hU (by omega))

set_option maxRecDepth 100000 in
theorem udp_echo_content_witness :
    (∃ P, (UDPpacket exampleUdpEcho).tx = exampleUdpEcho.tx ++ [0x7e]
        ++ stuffed P (udpOffset exampleUdpEcho.pkt.buf
            + (udpLengthField exampleUdpEcho.pkt.buf + 25) + 2) ++ [0x7e])
    ∧ ∀ P, (UDPpacket exampleUdpEcho).tx = exampleUdpEcho.tx ++ [0x7e]
        ++ stuffed P (udpOffset exampleUdpEcho.pkt.buf
            + (udpLengthField exampleUdpEcho.pkt.buf + 25) + 2) ++ [0x7e] →
      udpOffset P = udpOffset exampleUdpEcho.pkt.buf
      ∧ peekList P (ipStart + 12) 4 = peekList exampleUdpEcho.pkt.buf (ipStart + 16) 4
      ∧ peekList P (ipStart + 16) 4 = peekList exampleUdpEcho.pkt.buf (ipStart + 12) 4
      ∧ peekList P (udpOffset P) 2
          = peekList exampleUdpEcho.pkt.buf (udpOffset exampleUdpEcho.pkt.buf + 2) 2
      ∧ peekList P (udpOffset P + 2) 2
          = peekList exampleUdpEcho.pkt.buf (udpOffset exampleUdpEcho.pkt.buf) 2
      ∧ peekList P (udpOffset P + 8) (udpLengthField exampleUdpEcho.pkt.buf - 8 + 25)
          = strBytes "Got\x7b"
            ++ peekList exampleUdpEcho.pkt.buf (udpOffset exampleUdpEcho.pkt.buf + 8 + 4)
                (udpLengthField exampleUdpEcho.pkt.buf - 8 - 4)
            ++ strBytes "\x7d UDP Server: PPP-Blinky\n" :=
  udp_echo_content exampleUdpEcho (by decide) (by decide) (by decide) (by decide)

/-- Length fields and protocol byte of the packet sent for an "echo " datagram. -/
theorem UDPpacket_echo_fields (s : PppState)
    (h5 : 5 ≤ ipHeaderLength s.pkt.buf)
    (hecho : peekList s.pkt.buf (udpOffset s.pkt.buf + 8) 5 = strBytes "echo ")
    (hlen : 13 ≤ udpLengthField s.pkt.buf)
    (hcap : udpOffset s.pkt.buf + (udpLengthField s.pkt.buf + 25) + 2 ≤ s.pkt.buf.length)
    (P : List Nat)
    (hP : (UDPpacket s).tx = s.tx ++ [0x7e]
        ++ stuffed P (udpOffset s.pkt.buf + (udpLengthField s.pkt.buf + 25) + 2) ++ [0x7e]) :
    udpLengthField P = (udpLengthField s.pkt.buf + 25) % 65536
    ∧ ipTotalLength P
        = (4 * ipHeaderLength s.pkt.buf + (udpLengthField s.pkt.buf + 25)) % 65536
    ∧ peek P (ipStart + 9) = peek s.pkt.buf (ipStart + 9) := by
  have hI : ipStart = 4 := rfl
  have hu : udpOffset s.pkt.buf = 4 + 4 * ipHeaderLength s.pkt.buf := rfl
  have hU : 24 ≤ udpOffset s.pkt.buf := by omega
  obtain ⟨hb, _, hoff⟩ := (UDPpacket_echo_bytes s h5 hecho (by omega)).2.2 P hP
  obtain ⟨_, _, _, _, f5, f6, _, _⟩ := udpEchoFilled_fields s.pkt.buf (udpOffset s.pkt.buf)
    (4 * ipHeaderLength s.pkt.buf + (udpLengthField s.pkt.buf + 25))
    (udpLengthField s.pkt.buf + 25) (udpLengthField s.pkt.buf - 8) hU (by omega) (by omega)
  clear hP hecho hcap
  rw [hI] at hb f5
  generalize udpLengthField s.pkt.buf = A at *
  generalize udpOffset s.pkt.buf = U at *
  refine ⟨?_, ?_, ?_⟩
  · unfold udpLengthField
    rw [hoff, hb (U + 4) (by omega) (by omega) (by omega) (by omega) (by omega),
      hb (U + 4 + 1) (by omega) (by omega) (by omega) (by omega) (by omega)]
    exact f6
  · unfold ipTotalLength
    rw [hI, hb (4 + 2) (by omega) (by omega) (by omega) (by omega) (by omega),
      hb (4 + 3) (by omega) (by omega) (by omega) (by omega) (by omega)]
    exact f5
  · rw [hI, hb (4 + 9) (by omega) (by omega) (by omega) (by omega) (by omega),
      peek_udpEchoFilled _ _ _ _ _ _ hU (by omega)]

/-- Both checksums of the packet sent for an "echo " datagram. -/
theorem UDPpacket_echo_checksums (s : PppState) (sum' : Nat)
    (h5 : 5 ≤ ipHeaderLength s.pkt.buf)
    (hecho : peekList s.pkt.buf (udpOffset s.pkt.buf + 8) 5 = strBytes "echo ")
    (hlen : 8 ≤ udpLengthField s.pkt.buf)
    (hcap : udpOffset s.pkt.buf + (udpLengthField s.pkt.buf + 25) + 2 ≤ s.pkt.buf.length)
    (h16 : udpLengthField s.pkt.buf + 25 < 65536)
    (P : List Nat)
    (hP : (UDPpacket s).tx = s.tx ++ [0x7e]
        ++ stuffed P (udpOffset s.pkt.buf + (udpLengthField s.pkt.buf + 25) + 2) ++ [0x7e]) :
    dataCheckSumAcc sum' P ipStart (4 * ipHeaderLength P) 1 = 0xffff
    ∧ peek P (ipStart + 10) * 256 + peek P (ipStart + 11)
        = 65535 - onesSum (peekList (poke16 P (ipStart + 10) 0) ipStart (4 * ipHeaderLength P))
    ∧ peek P (udpOffset s.pkt.buf + 6) * 256 + peek P (udpOffset s.pkt.buf + 6 + 1)
        = 65535 - onesSum (peekList (pseudoHeaderBytes P (udpLengthField s.pkt.buf + 25)) 0 12
            ++ peekList (poke16 P (udpOffset s.pkt.buf + 6) 0) (udpOffset s.pkt.buf)
                (udpLengthField s.pkt.buf + 25))
    ∧ dataCheckSumAcc
        (dataCheckSumAcc sum' (pseudoHeaderBytes P (udpLengthField s.pkt.buf + 25)) 0 12 1)
        P (udpOffset s.pkt.buf) (udpLengthField s.pkt.buf + 25) 0 = 0xffff := by
  have hI : ipStart = 4 := rfl
  have hu : udpOffset s.pkt.buf = 4 + 4 * ipHeaderLength s.pkt.buf := rfl
  have hU : 24 ≤ udpOffset s.pkt.buf := by omega
  obtain ⟨X, hX, htx, hXU, hl, hbuf⟩ := UDPpacket_echo s hecho hlen
  have hXh : ipHeaderLength X.pkt.buf = ipHeaderLength s.pkt.buf := by
    rw [hbuf]
    unfold ipHeaderLength
    rw [peek_udpEchoFilled _ _ _ _ _ _ hU (by rw [hI]; omega)]
  have hP2 : (udpChecksumsAndSend X (udpLengthField s.pkt.buf + 25)).tx
      = X.tx ++ [0x7e] ++ stuffed P X.pkt.len ++ [0x7e] := by
    rw [← hX, htx, hl]
    exact hP
  have hXcap : X.pkt.len ≤ X.pkt.buf.length := by
    rw [hl, hbuf, udpEchoFilled_length]
    exact hcap
  have hXlen : X.pkt.len = X.udpStart + (udpLengthField s.pkt.buf + 25) + 2 := by rw [hl, hXU]
  have hXoff : X.udpStart = ipStart + 4 * ipHeaderLength X.pkt.buf := by rw [hXU, hXh]; rfl
  have hX5 : 5 ≤ ipHeaderLength X.pkt.buf := by rw [hXh]; exact h5
  have hL8 : 8 ≤ udpLengthField s.pkt.buf + 25 := Nat.le_trans (by decide) (Nat.le_add_left 25 _)
  obtain ⟨_, c2, c3, c4, c5⟩ := udpChecksumsAndSend_checksums X (udpLengthField s.pkt.buf + 25) sum'
    hX5 hXoff hL8 h16 hXlen hXcap P hP2
  rw [hXU] at c4 c5
  exact ⟨c2, c3, c4, c5⟩

/-- C24 (UDP echo lengths and checksums): for an "echo " datagram of protocol
17 behind an IP header of at least five words, with a reply that fits the
packet buffer and the 16-bit IP length field, the reply UDP length field is
the request UDP length plus 25, the IP total length is the IP header length
plus that UDP length, `pkt.len` is the IP total length plus 6, the IP checksum
field is the complement of the ones-complement sum of the header with the
field zeroed and the header validates, and the UDP checksum field is the
complement of the ones-complement sum of the pseudo-header (source,
destination, zero, 17, UDP length) followed by the datagram with the field
zeroed, so that the continued `dataCheckSum` over pseudo-header and datagram
has low 16 bits 0. -/
theorem udp_echo_lengths_checksums (s : PppState) (sum' : Nat)
    (hproto : peek s.pkt.buf (ipStart + 9) = 17)
    (h5 : 5 ≤ ipHeaderLength s.pkt.buf)
    (hecho : peekList s.pkt.buf (udpOffset s.pkt.buf + 8) 5 = strBytes "echo ")
    (hlen : 13 ≤ udpLengthField s.pkt.buf)
    (hcap : udpOffset s.pkt.buf + (udpLengthField s.pkt.buf + 25) + 2 ≤ s.pkt.buf.length)
    (h16 : 4 * ipHeaderLength s.pkt.buf + (udpLengthField s.pkt.buf + 25) < 65536) :
    (∃ P, (UDPpacket s).tx = s.tx ++ [0x7e]
        ++ stuffed P (udpOffset s.pkt.buf + (udpLengthField s.pkt.buf + 25) + 2) ++ [0x7e])
    ∧ ∀ P, (UDPpacket s).tx = s.tx ++ [0x7e]
        ++ stuffed P (udpOffset s.pkt.buf + (udpLengthField s.pkt.buf + 25) + 2) ++ [0x7e] →
      udpLengthField P = udpLengthField s.pkt.buf + 25
      ∧ ipTotalLength P = 4 * ipHeaderLength P + udpLengthField P
      ∧ (UDPpacket s).pkt.len = ipTotalLength P + 6
      ∧ peek P (ipStart + 10) * 256 + peek P (ipStart + 11)
          = 65535 - onesSum (peekList (poke16 P (ipStart + 10) 0) ipStart (4 * ipHeaderLength P))
      ∧ dataCheckSum sum' P ipStart (4 * ipHeaderLength P) 1 % 65536 = 0
      ∧ peek P (udpOffset P + 6) * 256 + peek P (udpOffset P + 7)
          = 65535 - onesSum (peekList P (ipStart + 12) 4 ++ peekList P (ipStart + 16) 4
              ++ [0, 17, udpLengthField P / 256, udpLengthField P % 256]
              ++ peekList (poke16 P (udpOffset P + 6) 0) (udpOffset P) (udpLengthField P))
      ∧ dataCheckSum
          (dataCheckSumAcc sum' (peekList P (ipStart + 12) 4 ++ peekList P (ipStart + 16) 4
              ++ [0, 17, udpLengthField P / 256, udpLengthField P % 256]) 0 12 1)
          P (udpOffset P) (udpLengthField P) 0 % 65536 = 0 := by
  have hu : udpOffset s.pkt.buf = 4 + 4 * ipHeaderLength s.pkt.buf := rfl
  obtain ⟨hex, hpl, hall⟩ := UDPpacket_echo_bytes s h5 hecho (Nat.le_trans (by decide) hlen)
  refine ⟨hex, ?_⟩
  intro P hP
  obtain ⟨_, hh, hoff⟩ := hall P hP
  obtain ⟨g1, g2, hpr⟩ := UDPpacket_echo_fields s h5 hecho hlen hcap P hP
  obtain ⟨c2, c3, c4, c5⟩ := UDPpacket_echo_checksums s sum' h5 hecho
    (Nat.le_trans (by decide) hlen) hcap (by omega) P hP
  have hul : udpLengthField P = udpLengthField s.pkt.buf + 25 := by
    rw [g1]
    exact Nat.mod_eq_of_lt (by omega)
  have hip : ipTotalLength P = 4 * ipHeaderLength s.pkt.buf + (udpLengthField s.pkt.buf + 25) := by
    rw [g2]
    exact Nat.mod_eq_of_lt h16
  have hdiv : (udpLengthField s.pkt.buf + 25) / 256 % 256 = (udpLengthField s.pkt.buf + 25) / 256 := by
    omega
  have hrd := pseudoHeaderBytes_read P (udpLengthField s.pkt.buf + 25)
  rw [hpr, hproto, hdiv] at hrd
  have hps := pseudoHeaderBytes_eq P (udpLengthField s.pkt.buf + 25)
  rw [hpr, hproto, hdiv] at hps
  rw [hrd] at c4
  rw [hps] at c5
  rw [hul, hoff, hip, hpl, hh]
  refine ⟨rfl, rfl, ?_, ?_, dataCheckSum_valid _ _ _ _ _ ?_, c4, dataCheckSum_valid _ _ _ _ _ c5⟩
  · rw [hu]
    show _ = _ + 6
    omega
  · rw [← hh]
    exact c3
  · rw [← hh]
    exact c2

set_option maxRecDepth 100000 in
theorem udp_echo_lengths_checksums_witness :
    (∃ P, (UDPpacket exampleUdpEcho).tx = exampleUdpEcho.tx ++ [0x7e]
        ++ stuffed P (udpOffset exampleUdpEcho.pkt.buf
            + (udpLengthField exampleUdpEcho.pkt.buf + 25) + 2) ++ [0x7e])
    ∧ ∀ P, (UDPpacket exampleUdpEcho).tx = exampleUdpEcho.tx ++ [0x7e]
        ++ stuffed P (udpOffset exampleUdpEcho.pkt.buf
            + (udpLengthField exampleUdpEcho.pkt.buf + 25) + 2) ++ [0x7e] →
      udpLengthField P = udpLengthField exampleUdpEcho.pkt.buf + 25
      ∧ ipTotalLength P = 4 * ipHeaderLength P + udpLengthField P
      ∧ (UDPpacket exampleUdpEcho).pkt.len = ipTotalLength P + 6
      ∧ peek P (ipStart + 10) * 256 + peek P (ipStart + 11)
          = 65535 - onesSum (peekList (poke16 P (ipStart + 10) 0) ipStart (4 * ipHeaderLength P))
      ∧ dataCheckSum 0 P ipStart (4 * ipHeaderLength P) 1 % 65536 = 0
      ∧ peek P (udpOffset P + 6) * 256 + peek P (udpOffset P + 7)
          = 65535 - onesSum (peekList P (ipStart + 12) 4 ++ peekList P (ipStart + 16) 4
              ++ [0, 17, udpLengthField P / 256, udpLengthField P % 256]
              ++ peekList (poke16 P (udpOffset P + 6) 0) (udpOffset P) (udpLengthField P))
      ∧ dataCheckSum
          (dataCheckSumAcc 0 (peekList P (ipStart + 12) 4 ++ peekList P (ipStart + 16) 4
              ++ [0, 17, udpLengthField P / 256, udpLengthField P % 256]) 0 12 1)
          P (udpOffset P) (udpLengthField P) 0 % 65536 = 0 :=
  udp_echo_lengths_checksums exampleUdpEcho 0 (by decide) (by decide) (by decide) (by decide)
    (by decide) (by decide)

/-! ## The UDP test response -/

theorem digitChar_toNat_lt : ∀ m, m < 10 → (Nat.digitChar m).toNat < 256 := by
  decide

theorem toDigitsCore_bytes (fuel : Nat) : ∀ (n : Nat) (ds : List Char),
    (∀ c ∈ ds, c.toNat < 256) → ∀ c ∈ Nat.toDigitsCore 10 fuel n ds, c.toNat < 256 := by
  induction fuel with
  | zero =>
    intro n ds h c hc
    exact h c hc
  | succ fuel ih =>
    intro n ds h c hc
    have hds : ∀ c ∈ Nat.digitChar (n % 10) :: ds, c.toNat < 256 := by
      intro c hc
      rcases List.mem_cons.mp hc with rfl | hc
      · exact digitChar_toNat_lt _ (Nat.mod_lt _ (by decide))
      · exact h c hc
    unfold Nat.toDigitsCore at hc
    simp only at hc
    split_ifs at hc
    · exact hds c hc
    · exact ih _ _ hds c hc

/-- The decimal digits of a counter are bytes. -/
theorem decBytes_lt (n : Nat) : ∀ x ∈ decBytes n, x < 256 := by
  intro x hx
  unfold decBytes at hx
  obtain ⟨c, hc, rfl⟩ := List.mem_map.mp hx
  exact toDigitsCore_bytes _ _ _ (fun c hc => absurd hc (List.not_mem_nil c)) c hc

/-- A non-negative `int` prints with at most ten digits. -/
theorem decBytes_length (n : Nat) (h : n < 2147483648) : (decBytes n).length ≤ 10 := by
  unfold decBytes
  rw [List.length_map]
  exact Nat.toDigitsCore_length 10 (by decide) (n + 1) n 10 (by omega) (by decide)

theorem map_mod_of_lt (l : List Nat) (h : ∀ x ∈ l, x < 256) : l.map (· % 256) = l := by
  refine (List.map_congr_left ?_).trans (List.map_id _)
  intro x hx
  exact Nat.mod_eq_of_lt (h x hx)

theorem initIP_eq (s : PppState) (a b p q pr : Nat) :
    initIP s a b p q pr
      = { s with ident := s.ident + 1, udpStart := ipStart + 20,
                 pkt := { s.pkt with buf := initIPBuf s.pkt.buf s.ident a b p q pr } } := rfl

theorem initIPHead_length (buf : List Nat) (ident pr : Nat) :
    (initIPHead buf ident pr).length = buf.length := by
  unfold initIPHead setIpHeaderLength
  simp only [poke16_length, poke_length]

theorem initIPBuf_length (buf : List Nat) (ident a b p q pr : Nat) :
    (initIPBuf buf ident a b p q pr).length = buf.length := by
  unfold initIPBuf
  simp only [poke16_length, poke32_length, initIPHead_length]

theorem peek_initIPHead (buf : List Nat) (ident pr j : Nat) (h : 14 ≤ j) :
    peek (initIPHead buf ident pr) j = peek buf j := by
  have hI : ipStart = 4 := rfl
  unfold initIPHead setIpHeaderLength
  simp only [hI]
  rw [peek_poke_ne _ _ _ _ (by omega), peek_poke_ne _ _ _ _ (by omega),
    peek_poke_ne _ _ _ _ (by omega), peek_poke16_ne _ _ _ _ (by omega) (by omega),
    peek_poke_ne _ _ _ _ (by omega), peek_poke_ne _ _ _ _ (by omega),
    peek_poke16_ne _ _ _ _ (by omega) (by omega), peek_poke_ne _ _ _ _ (by omega),
    peek_poke_ne _ _ _ _ (by omega)]

theorem initIPHead_fields (buf : List Nat) (ident pr : Nat) (hcap : 14 ≤ buf.length) :
    peek (initIPHead buf ident pr) ipStart = 0x45
    ∧ peek (initIPHead buf ident pr) (ipStart + 8) = 128
    ∧ peek (initIPHead buf ident pr) (ipStart + 9) = pr % 256 := by
  have hI : ipStart = 4 := rfl
  unfold initIPHead setIpHeaderLength
  simp only [hI]
  refine ⟨?_, ?_, ?_⟩
  · rw [peek_poke_ne _ _ _ _ (by omega), peek_poke_ne _ _ _ _ (by omega),
      peek_poke_ne _ _ _ _ (by omega), peek_poke16_ne _ _ _ _ (by omega) (by omega),
      peek_poke_same _ _ _ (by simp only [poke16_length, poke_length]; omega),
      peek_poke_same _ _ _ (by simp only [poke16_length, poke_length]; omega)]
    omega
  · rw [peek_poke_ne _ _ _ _ (by omega),
      peek_poke_same _ _ _ (by simp only [poke16_length, poke_length]; omega)]
  · rw [peek_poke_same _ _ _ (by simp only [poke16_length, poke_length]; omega)]

/-- `initIP` writes nothing behind the port fields. -/
theorem peek_initIPBuf (buf : List Nat) (ident a b p q pr j : Nat) (h : 28 ≤ j) :
    peek (initIPBuf buf ident a b p q pr) j = peek buf j := by
  have hI : ipStart = 4 := rfl
  unfold initIPBuf
  rw [peek_poke16_ne _ _ _ _ (by omega) (by omega), peek_poke16_ne _ _ _ _ (by omega) (by omega),
    peek_poke32_ne _ _ _ _ (by omega), peek_poke32_ne _ _ _ _ (by omega),
    peek_initIPHead _ _ _ _ (by omega)]

/-- The header fields `initIP` writes, read back. -/
theorem initIPBuf_fields (buf : List Nat) (ident a b p q pr : Nat) (hcap : 28 ≤ buf.length) :
    peek (initIPBuf buf ident a b p q pr) ipStart = 0x45
    ∧ peek (initIPBuf buf ident a b p q pr) (ipStart + 8) = 128
    ∧ peek (initIPBuf buf ident a b p q pr) (ipStart + 9) = pr % 256
    ∧ be32 (initIPBuf buf ident a b p q pr) (ipStart + 12) = a % 4294967296
    ∧ be32 (initIPBuf buf ident a b p q pr) (ipStart + 16) = b % 4294967296
    ∧ peek (initIPBuf buf ident a b p q pr) (ipStart + 20) * 256
        + peek (initIPBuf buf ident a b p q pr) (ipStart + 20 + 1) = p % 65536
    ∧ peek (initIPBuf buf ident a b p q pr) (ipStart + 20 + 2) * 256
        + peek (initIPBuf buf ident a b p q pr) (ipStart + 20 + 2 + 1) = q % 65536 := by
  have hI : ipStart = 4 := rfl
  obtain ⟨g1, g2, g3⟩ := initIPHead_fields buf ident pr (by omega)
  have hl := initIPHead_length buf ident pr
  unfold initIPBuf
  generalize initIPHead buf ident pr = H at *
  refine ⟨?_, ?_, ?_, ?_, ?_, ?_, ?_⟩
  · rw [peek_poke16_ne _ _ _ _ (by omega) (by omega), peek_poke16_ne _ _ _ _ (by omega) (by omega),
      peek_poke32_ne _ _ _ _ (by omega), peek_poke32_ne _ _ _ _ (by omega), g1]
  · rw [peek_poke16_ne _ _ _ _ (by omega) (by omega), peek_poke16_ne _ _ _ _ (by omega) (by omega),
      peek_poke32_ne _ _ _ _ (by omega), peek_poke32_ne _ _ _ _ (by omega), g2]
  · rw [peek_poke16_ne _ _ _ _ (by omega) (by omega), peek_poke16_ne _ _ _ _ (by omega) (by omega),
      peek_poke32_ne _ _ _ _ (by omega), peek_poke32_ne _ _ _ _ (by omega), g3]
  · refine Eq.trans ?_ (be32_poke32_REV H (ipStart + 12) a (by omega))
    apply be32_congr
    intro k hk
    rw [peek_poke16_ne _ _ _ _ (by omega) (by omega), peek_poke16_ne _ _ _ _ (by omega) (by omega),
      peek_poke32_ne _ _ _ _ (by omega)]
  · refine Eq.trans ?_ (be32_poke32_REV (poke32 H (ipStart + 12) (REV a)) (ipStart + 16) b
      (by rw [poke32_length]; omega))
    apply be32_congr
    intro k hk
    rw [peek_poke16_ne _ _ _ _ (by omega) (by omega), peek_poke16_ne _ _ _ _ (by omega) (by omega)]
  · rw [peek_poke16_ne _ (ipStart + 20 + 2) (ipStart + 20) _ (by omega) (by omega),
      peek_poke16_ne _ (ipStart + 20 + 2) (ipStart + 20 + 1) _ (by omega) (by omega)]
    exact poke16_REV16_read _ _ _ (by simp only [poke32_length]; omega)
  · exact poke16_REV16_read _ _ _ (by simp only [poke32_length, poke16_length]; omega)

theorem sendUdpFilled_length (B : List Nat) (message n : Nat) :
    (sendUdpFilled B message n).length = B.length := by
  unfold sendUdpFilled
  simp only [poke16_length, pokeList_length]

theorem peek_sendUdpFilled (B : List Nat) (message n j : Nat)
    (h : j < 6 ∨ (8 ≤ j ∧ j < 28)) : peek (sendUdpFilled B message n) j = peek B j := by
  have hI : ipStart = 4 := rfl
  unfold sendUdpFilled
  rw [peek_poke16_ne _ _ _ _ (by omega) (by omega), peek_pokeList_ne _ _ _ _ (by omega),
    peek_poke16_ne _ _ _ _ (by omega) (by omega)]

theorem sendUdpFilled_fields (B : List Nat) (message n : Nat) (hm : 8 ≤ message)
    (hcap : 32 + n ≤ B.length) (hn : n + 28 < 65536) :
    peek (sendUdpFilled B message n) (ipStart + 2) * 256
        + peek (sendUdpFilled B message n) (ipStart + 2 + 1) = 28 + n
    ∧ peek (sendUdpFilled B message n) (ipStart + 20 + 4) * 256
        + peek (sendUdpFilled B message n) (ipStart + 20 + 4 + 1) = 8 + n
    ∧ peekList (sendUdpFilled B message n) (ipStart + 20 + 8) n = peekList B message n := by
  have hI : ipStart = 4 := rfl
  have e1 : (n + 8) % 4294967296 = n + 8 := Nat.mod_eq_of_lt (by omega)
  have e2 : (20 + (n + 8)) % 4294967296 = 20 + (n + 8) := Nat.mod_eq_of_lt (by omega)
  unfold sendUdpFilled
  rw [e1, e2]
  refine ⟨?_, ?_, ?_⟩
  · rw [peek_poke16_ne _ (ipStart + 20 + 4) (ipStart + 2) _ (by omega) (by omega),
      peek_poke16_ne _ (ipStart + 20 + 4) (ipStart + 2 + 1) _ (by omega) (by omega),
      peek_pokeList_ne _ _ _ _ (by omega), peek_pokeList_ne _ _ _ _ (by omega),
      poke16_REV16_read _ _ _ (by omega)]
    omega
  · rw [poke16_REV16_read _ _ _ (by rw [pokeList_length, poke16_length]; omega)]
    omega
  · rw [peekList_poke16_ne _ _ _ _ _ (by omega)]
    have h := peekList_pokeList (poke16 B (ipStart + 2) (REV16 (20 + (n + 8)))) (ipStart + 20 + 8)
      (peekList (poke16 B (ipStart + 2) (REV16 (20 + (n + 8)))) message n)
      (by rw [peekList_length, poke16_length]; omega)
    rw [peekList_length] at h
    rw [h, map_mod_of_lt _ (peekList_lt _ _ _), peekList_poke16_ne _ _ _ _ _ (by omega)]

/-- `sendUdp` as the checksum and send tail run on the filled buffer. -/
theorem sendUdp_eq (s : PppState) (a b p q message n : Nat) (hn : n + 28 < 65536) :
    ∃ X, sendUdp s a b p q message n = udpChecksumsAndSend X (n + 8)
      ∧ X.tx = s.tx ∧ X.udpStart = ipStart + 20 ∧ X.pkt.len = 34 + n
      ∧ X.pkt.buf = sendUdpFilled (initIPBuf s.pkt.buf s.ident a b p q 17) message n := by
  have e1 : (n + 8) % 4294967296 = n + 8 := Nat.mod_eq_of_lt (by omega)
  have e2 : (20 + (n + 8)) % 4294967296 = 20 + (n + 8) := Nat.mod_eq_of_lt (by omega)
  have e3 : (20 + (n + 8) + 2 + 4) % 4294967296 = 34 + n := by omega
  refine ⟨{ s with ident := s.ident + 1, udpStart := ipStart + 20,
                   pkt := { s.pkt with
                     buf := sendUdpFilled (initIPBuf s.pkt.buf s.ident a b p q 17) message n,
                     len := 34 + n } }, ?_, rfl, rfl, rfl, rfl⟩
  unfold sendUdp
  simp only [initIP_eq, sendUdpFilled, e1, e2, e3]

theorem be32_eq_peekList (a b : List Nat) (i j : Nat) (h : be32 a i = be32 b j) :
    peekList a i 4 = peekList b j 4 := by
  have a0 := peek_lt a i
  have a1 := peek_lt a (i + 1)
  have a2 := peek_lt a (i + 2)
  have a3 := peek_lt a (i + 3)
  have b0 := peek_lt b j
  have b1 := peek_lt b (j + 1)
  have b2 := peek_lt b (j + 2)
  have b3 := peek_lt b (j + 3)
  unfold be32 at h
  rw [peekList_four, peekList_four]
  have e0 : peek a i = peek b j := by omega
  have e1 : peek a (i + 1) = peek b (j + 1) := by omega
  have e2 : peek a (i + 2) = peek b (j + 2) := by omega
  have e3 : peek a (i + 3) = peek b (j + 3) := by omega
  rw [e0, e1, e2, e3]

theorem be16_eq_peekList (a b : List Nat) (i j : Nat)
    (h : peek a i * 256 + peek a (i + 1) = peek b j * 256 + peek b (j + 1)) :
    peekList a i 2 = peekList b j 2 := by
  have a0 := peek_lt a i
  have a1 := peek_lt a (i + 1)
  have b0 := peek_lt b j
  have b1 := peek_lt b (j + 1)
  rw [peekList_two, peekList_two]
  have e0 : peek a i = peek b j := by omega
  have e1 : peek a (i + 1) = peek b (j + 1) := by omega
  rw [e0, e1]

theorem udpTestText_length (rc : Nat) :
    (udpTestText rc).length = 16 + (decBytes rc).length := by
  have h1 : (strBytes "Response Count ").length = 15 := by decide
  have h2 : (strBytes "\n").length = 1 := by decide
  unfold udpTestText
  rw [List.length_append, List.length_append, h1, h2]
  omega

theorem udpTestText_length_le (rc : Nat) (h : rc < 2147483648) :
    (udpTestText rc).length ≤ 26 := by
  have h1 := decBytes_length rc h
  rw [udpTestText_length]
  omega

theorem udpTestText_lt (rc : Nat) : ∀ x ∈ udpTestText rc, x < 256 := by
  have h1 : ∀ x ∈ strBytes "Response Count ", x < 256 := by decide
  have h2 : ∀ x ∈ strBytes "\n", x < 256 := by decide
  intro x hx
  unfold udpTestText at hx
  rcases List.mem_append.mp hx with hx | hx
  · rcases List.mem_append.mp hx with hx | hx
    · exact h1 x hx
    · exact decBytes_lt rc x hx
  · exact h2 x hx

theorem udpTest_eq (s0 : PppState) :
    udpTest s0
      = sendUdp { s0 with pkt := { s0.pkt with
            buf := sprintfAt s0.pkt.buf 200 (udpTestText s0.responseCounter) } }
          (REV (peek32 s0.pkt.buf (ipStart + 16))) (REV (peek32 s0.pkt.buf (ipStart + 12)))
          (REV16 (peek16 s0.pkt.buf (s0.udpStart + 2))) (REV16 (peek16 s0.pkt.buf (s0.udpStart + 0)))
          200 (udpTestText s0.responseCounter).length := rfl

/-- The test branch of `UDPpacket`: the prepared state handed to the checksum
and send tail. -/
theorem UDPpacket_test (s : PppState)
    (htest : peekList s.pkt.buf (udpOffset s.pkt.buf + 8) 4 = strBytes "test")
    (hrc : s.responseCounter < 2147483648) :
    ∃ X, UDPpacket s = udpChecksumsAndSend X ((udpTestText s.responseCounter).length + 8)
      ∧ X.tx = s.tx ∧ X.udpStart = ipStart + 20
      ∧ X.pkt.len = 34 + (udpTestText s.responseCounter).length
      ∧ X.pkt.buf = sendUdpFilled
          (initIPBuf (sprintfAt s.pkt.buf 200 (udpTestText s.responseCounter)) s.ident
            (REV (peek32 s.pkt.buf (ipStart + 16))) (REV (peek32 s.pkt.buf (ipStart + 12)))
            (REV16 (peek16 s.pkt.buf (udpOffset s.pkt.buf + 2)))
            (REV16 (peek16 s.pkt.buf (udpOffset s.pkt.buf + 0))) 17)
          200 (udpTestText s.responseCounter).length := by
  have hn := udpTestText_length_le s.responseCounter hrc
  have hne : ¬ peekList s.pkt.buf (ipStart + 4 * ipHeaderLength s.pkt.buf + 8) 5 = strBytes "echo " := by
    intro h
    have h' : peekList s.pkt.buf (udpOffset s.pkt.buf + 8) 5 = strBytes "echo " := h
    have e1 : strBytes "test" = [116, 101, 115, 116] := by decide
    have e2 : strBytes "echo " = [101, 99, 104, 111, 32] := by decide
    rw [peekList_succ, htest, e1, e2] at h'
    exact absurd (List.cons.inj h').1 (by decide)
  have hs : UDPpacket s = udpTest { s with udpStart := ipStart + 4 * ipHeaderLength s.pkt.buf } := by
    rw [UDPpacket_branches]
    unfold udpBranches
    unfold udpOffset at htest
    simp only [hne, htest, if_false, if_true]
  have hn28 : (udpTestText s.responseCounter).length + 28 < 65536 := by omega
  have key := sendUdp_eq
    { s with udpStart := ipStart + 4 * ipHeaderLength s.pkt.buf,
             pkt := { s.pkt with buf := sprintfAt s.pkt.buf 200 (udpTestText s.responseCounter) } }
    (REV (peek32 s.pkt.buf (ipStart + 16))) (REV (peek32 s.pkt.buf (ipStart + 12)))
    (REV16 (peek16 s.pkt.buf (ipStart + 4 * ipHeaderLength s.pkt.buf + 2)))
    (REV16 (peek16 s.pkt.buf (ipStart + 4 * ipHeaderLength s.pkt.buf + 0)))
    200 (udpTestText s.responseCounter).length hn28
  obtain ⟨X, hX, h1, h2, h3, h4⟩ := key
  refine ⟨X, ?_, ?_, ?_, ?_, ?_⟩
  · rw [hs, udpTest_eq]
    exact hX
  · exact h1
  · exact h2
  · exact h3
  · unfold udpOffset
    dsimp only at h4
    exact h4

/-- C25 (UDP test response): for a UDP datagram whose payload starts with
"test", with a response counter in the range of a non-negative `int` and a
packet buffer that holds the text printed at offset 200, `UDPpacket` sends
exactly one frame; its packet has version 4, header length 5 words, TTL 128
and protocol 17, source address and port are the destination address and port
of the request and destination address and port are its source address and
port, the payload is "Response Count ", the decimal digits of the response
counter and a line feed, the UDP length is 8 plus the payload length, the IP
total length 28 plus it and `pkt.len` 34 plus it. -/
theorem udp_test_response (s : PppState)
    (htest : peekList s.pkt.buf (udpOffset s.pkt.buf + 8) 4 = strBytes "test")
    (hrc : s.responseCounter < 2147483648)
    (hcap : 200 + (udpTestText s.responseCounter).length < s.pkt.buf.length) :
    (∃ P, (UDPpacket s).tx = s.tx ++ [0x7e]
        ++ stuffed P (34 + (udpTestText s.responseCounter).length) ++ [0x7e])
    ∧ (UDPpacket s).pkt.len = 34 + (udpTestText s.responseCounter).length
    ∧ ∀ P, (UDPpacket s).tx = s.tx ++ [0x7e]
        ++ stuffed P (34 + (udpTestText s.responseCounter).length) ++ [0x7e] →
      peek P ipStart / 16 = 4 ∧ ipHeaderLength P = 5
      ∧ peek P (ipStart + 8) = 128 ∧ peek P (ipStart + 9) = 17
      ∧ peekList P (ipStart + 12) 4 = peekList s.pkt.buf (ipStart + 16) 4
      ∧ peekList P (ipStart + 16) 4 = peekList s.pkt.buf (ipStart + 12) 4
      ∧ peekList P (ipStart + 20) 2 = peekList s.pkt.buf (udpOffset s.pkt.buf + 2) 2
      ∧ peekList P (ipStart + 20 + 2) 2 = peekList s.pkt.buf (udpOffset s.pkt.buf) 2
      ∧ peekList P (ipStart + 20 + 8) (udpTestText s.responseCounter).length
          = strBytes "Response Count " ++ decBytes s.responseCounter ++ strBytes "\n"
      ∧ udpLengthField P = 8 + (udpTestText s.responseCounter).length
      ∧ ipTotalLength P = 28 + (udpTestText s.responseCounter).length := by
  have hI : ipStart = 4 := rfl
  have hn := udpTestText_length_le s.responseCounter hrc
  obtain ⟨X, hX, htx, hU, hl, hbuf⟩ := UDPpacket_test s htest hrc
  obtain ⟨hex, hall⟩ := udpChecksumsAndSend_bytes X ((udpTestText s.responseCounter).length + 8)
  rw [← hX, htx, hl] at hex hall
  refine ⟨hex, by rw [hX, udpChecksumsAndSend_len, hl], ?_⟩
  intro P hP
  obtain ⟨_, hne⟩ := hall P hP
  rw [hU, hI, hbuf] at hne
  obtain ⟨i1, i2, i3, i4, i5, i6, i7⟩ := initIPBuf_fields
    (sprintfAt s.pkt.buf 200 (udpTestText s.responseCounter)) s.ident
    (REV (peek32 s.pkt.buf (ipStart + 16))) (REV (peek32 s.pkt.buf (ipStart + 12)))
    (REV16 (peek16 s.pkt.buf (udpOffset s.pkt.buf + 2)))
    (REV16 (peek16 s.pkt.buf (udpOffset s.pkt.buf + 0))) 17
    (by rw [sprintfAt_length]; omega)
  obtain ⟨u1, u2, u3⟩ := sendUdpFilled_fields
    (initIPBuf (sprintfAt s.pkt.buf 200 (udpTestText s.responseCounter)) s.ident
      (REV (peek32 s.pkt.buf (ipStart + 16))) (REV (peek32 s.pkt.buf (ipStart + 12)))
      (REV16 (peek16 s.pkt.buf (udpOffset s.pkt.buf + 2)))
      (REV16 (peek16 s.pkt.buf (udpOffset s.pkt.buf + 0))) 17)
    200 (udpTestText s.responseCounter).length (by omega)
    (by rw [initIPBuf_length, sprintfAt_length]; omega) (by omega)
  have hB200 : peekList (initIPBuf (sprintfAt s.pkt.buf 200 (udpTestText s.responseCounter)) s.ident
      (REV (peek32 s.pkt.buf (ipStart + 16))) (REV (peek32 s.pkt.buf (ipStart + 12)))
      (REV16 (peek16 s.pkt.buf (udpOffset s.pkt.buf + 2)))
      (REV16 (peek16 s.pkt.buf (udpOffset s.pkt.buf + 0))) 17) 200
        (udpTestText s.responseCounter).length = udpTestText s.responseCounter := by
    rw [peekList_congr _ (sprintfAt s.pkt.buf 200 (udpTestText s.responseCounter)) _ _
      (fun i hi => peek_initIPBuf _ _ _ _ _ _ _ _ (by omega)),
      peekList_sprintfAt _ _ _ (by omega), map_mod_of_lt _ (udpTestText_lt _)]
  have hF := peek_sendUdpFilled
    (initIPBuf (sprintfAt s.pkt.buf 200 (udpTestText s.responseCounter)) s.ident
      (REV (peek32 s.pkt.buf (ipStart + 16))) (REV (peek32 s.pkt.buf (ipStart + 12)))
      (REV16 (peek16 s.pkt.buf (udpOffset s.pkt.buf + 2)))
      (REV16 (peek16 s.pkt.buf (udpOffset s.pkt.buf + 0))) 17)
    200 (udpTestText s.responseCounter).length
  have hsrc : REV (peek32 s.pkt.buf (ipStart + 16)) % 4294967296 = be32 s.pkt.buf (ipStart + 16) := by
    rw [REV_peek32]
    exact Nat.mod_eq_of_lt (be32_lt _ _)
  have hdst : REV (peek32 s.pkt.buf (ipStart + 12)) % 4294967296 = be32 s.pkt.buf (ipStart + 12) := by
    rw [REV_peek32]
    exact Nat.mod_eq_of_lt (be32_lt _ _)
  have hsp : REV16 (peek16 s.pkt.buf (udpOffset s.pkt.buf + 2)) % 65536
      = peek s.pkt.buf (udpOffset s.pkt.buf + 2) * 256 + peek s.pkt.buf (udpOffset s.pkt.buf + 2 + 1) := by
    have h0 := peek_lt s.pkt.buf (udpOffset s.pkt.buf + 2)
    have h1 := peek_lt s.pkt.buf (udpOffset s.pkt.buf + 2 + 1)
    rw [REV16_peek16]
    omega
  have hdp : REV16 (peek16 s.pkt.buf (udpOffset s.pkt.buf + 0)) % 65536
      = peek s.pkt.buf (udpOffset s.pkt.buf) * 256 + peek s.pkt.buf (udpOffset s.pkt.buf + 1) := by
    have h0 := peek_lt s.pkt.buf (udpOffset s.pkt.buf)
    have h1 := peek_lt s.pkt.buf (udpOffset s.pkt.buf + 1)
    rw [Nat.add_zero, REV16_peek16]
    omega
  rw [hsrc] at i4
  rw [hdst] at i5
  rw [hsp] at i6
  rw [hdp] at i7
  rw [hB200] at u3
  clear hsrc hdst hsp hdp hB200 hbuf hX hall hex hP htest
  generalize initIPBuf (sprintfAt s.pkt.buf 200 (udpTestText s.responseCounter)) s.ident
      (REV (peek32 s.pkt.buf (ipStart + 16))) (REV (peek32 s.pkt.buf (ipStart + 12)))
      (REV16 (peek16 s.pkt.buf (udpOffset s.pkt.buf + 2)))
      (REV16 (peek16 s.pkt.buf (udpOffset s.pkt.buf + 0))) 17 = B at *
  generalize sendUdpFilled B 200 (udpTestText s.responseCounter).length = F at *
  rw [hI] at i1 i2 i3 i4 i5 i6 i7 u1 u2 u3
  have hPF : ∀ j, j < 32 + (udpTestText s.responseCounter).length → j ≠ 14 → j ≠ 15 → j ≠ 30 →
      j ≠ 31 → peek P j = peek F j :=
    fun j h1 h2 h3 h4 h5 => hne j (by omega) (by omega) (by omega) (by omega) (by omega)
  have hPB : ∀ j, j < 6 ∨ (8 ≤ j ∧ j < 28) → j ≠ 14 → j ≠ 15 → peek P j = peek B j := by
    intro j h1 h2 h3
    rw [hPF j (by omega) h2 h3 (by omega) (by omega), hF j h1]
  have h4 : peek P 4 = 0x45 := by rw [hPB 4 (by omega) (by omega) (by omega), i1]
  have hihl : ipHeaderLength P = 5 := by
    unfold ipHeaderLength
    rw [hI, h4]
  rw [hI]
  refine ⟨by rw [h4], hihl, ?_, ?_, ?_, ?_, ?_, ?_, ?_, ?_, ?_⟩
  · rw [hPB _ (by omega) (by omega) (by omega), i2]
  · rw [hPB _ (by omega) (by omega) (by omega), i3]
  · apply be32_eq_peekList
    rw [← i4]
    exact be32_congr _ _ _ (fun k hk => hPB _ (by omega) (by omega) (by omega))
  · apply be32_eq_peekList
    rw [← i5]
    exact be32_congr _ _ _ (fun k hk => hPB _ (by omega) (by omega) (by omega))
  · apply be16_eq_peekList
    rw [← i6, hPB (4 + 20) (by omega) (by omega) (by omega),
      hPB (4 + 20 + 1) (by omega) (by omega) (by omega)]
  · apply be16_eq_peekList
    rw [Nat.add_zero] at i7
    rw [← i7, hPB (4 + 20 + 2) (by omega) (by omega) (by omega),
      hPB (4 + 20 + 2 + 1) (by omega) (by omega) (by omega)]
  · refine Eq.trans ?_ u3
    exact peekList_congr _ _ _ _ (fun i hi => hPF _ (by omega) (by omega) (by omega) (by omega)
      (by omega))
  · unfold udpLengthField udpOffset
    rw [hihl, hI]
    show peek P (4 + 20 + 4) * 256 + peek P (4 + 20 + 4 + 1) = _
    rw [hPF (4 + 20 + 4) (by omega) (by omega) (by omega) (by omega) (by omega),
      hPF (4 + 20 + 4 + 1) (by omega) (by omega) (by omega) (by omega) (by omega), u2]
  · unfold ipTotalLength
    rw [hI]
    show peek P (4 + 2) * 256 + peek P (4 + 2 + 1) = _
    rw [hPF (4 + 2) (by omega) (by omega) (by omega) (by omega) (by omega),
      hPF (4 + 2 + 1) (by omega) (by omega) (by omega) (by omega) (by omega), u1]

set_option maxRecDepth 100000 in
theorem udp_test_response_witness :
    (∃ P, (UDPpacket exampleUdpTest).tx = exampleUdpTest.tx ++ [0x7e]
        ++ stuffed P (34 + (udpTestText exampleUdpTest.responseCounter).length) ++ [0x7e])
    ∧ (UDPpacket exampleUdpTest).pkt.len = 34 + (udpTestText exampleUdpTest.responseCounter).length
    ∧ ∀ P, (UDPpacket exampleUdpTest).tx = exampleUdpTest.tx ++ [0x7e]
        ++ stuffed P (34 + (udpTestText exampleUdpTest.responseCounter).length) ++ [0x7e] →
      peek P ipStart / 16 = 4 ∧ ipHeaderLength P = 5
      ∧ peek P (ipStart + 8) = 128 ∧ peek P (ipStart + 9) = 17
      ∧ peekList P (ipStart + 12) 4 = peekList exampleUdpTest.pkt.buf (ipStart + 16) 4
      ∧ peekList P (ipStart + 16) 4 = peekList exampleUdpTest.pkt.buf (ipStart + 12) 4
      ∧ peekList P (ipStart + 20) 2
          = peekList exampleUdpTest.pkt.buf (udpOffset exampleUdpTest.pkt.buf + 2) 2
      ∧ peekList P (ipStart + 20 + 2) 2
          = peekList exampleUdpTest.pkt.buf (udpOffset exampleUdpTest.pkt.buf) 2
      ∧ peekList P (ipStart + 20 + 8) (udpTestText exampleUdpTest.responseCounter).length
          = strBytes "Response Count " ++ decBytes exampleUdpTest.responseCounter ++ strBytes "\n"
      ∧ udpLengthField P = 8 + (udpTestText exampleUdpTest.responseCounter).length
      ∧ ipTotalLength P = 28 + (udpTestText exampleUdpTest.responseCounter).length :=
  udp_test_response exampleUdpTest (by decide) (by decide) (by decide)

/-! ## The CRC step against the table-driven update -/

theorem xor_div_two_pow (k a b : Nat) : (a ^^^ b) / 2 ^ k = a / 2 ^ k ^^^ b / 2 ^ k := by
  induction k generalizing a b with
  | zero => simp
  | succ k ih =>
    rw [pow_succ, Nat.mul_comm, ← Nat.div_div_eq_div_mul, ← Nat.div_div_eq_div_mul,
      ← Nat.div_div_eq_div_mul, Nat.xor_div_two, ih]

theorem xor_mod_two_pow (k a b : Nat) : (a ^^^ b) % 2 ^ k = a % 2 ^ k ^^^ b % 2 ^ k := by
  apply Nat.eq_of_testBit_eq
  intro i
  simp only [Nat.testBit_xor, Nat.testBit_mod_two_pow]
  by_cases h : i < k <;> simp [h]

set_option maxRecDepth 100000 in
/-- C33 (the CRC step is the standard one): for every 16-bit accumulator `c`
and every argument `b`, `fcsDo` leaves the accumulator `(c >> 8) XOR
T[(c XOR b) AND 0xFF]` with `T[i]` the value of `i` after 8 steps of "shift
right, XOR 0x8408 if the bit shifted out was 1"; the result is below 65536 and
is the one for the low 8 bits of `b`; and `fcsBuf` over the nine bytes
"123456789", XORed with 0xFFFF, is 0x906E. -/
theorem fcsDo_table (c b : Nat) (hc : c < 65536) :
    fcsDo c b = crcTableUpdate c b
    ∧ fcsDo c b < 65536
    ∧ fcsDo c b = fcsDo c (b % 256)
    ∧ fcsBuf (strBytes "123456789") 9 ^^^ 0xffff = 0x906e := by
  refine ⟨?_, fcsDo_lt c b hc, (fcsDo_mod c b).symm, by decide⟩
  have h8 : (2 : Nat) ^ 8 = 256 := by norm_num
  have e1 : (c ^^^ b % 256) / 256 = c / 256 := by
    have h := xor_div_two_pow 8 c (b % 256)
    rw [h8] at h
    rw [h, Nat.div_eq_of_lt (Nat.mod_lt _ (by norm_num)), Nat.xor_zero]
  have e2 : (c ^^^ b % 256) % 256 = (c ^^^ b) % 256 := by
    have h1 := xor_mod_two_pow 8 c (b % 256)
    have h2 := xor_mod_two_pow 8 c b
    rw [h8] at h1 h2
    rw [h1, h2, Nat.mod_mod]
  have e3 : (c ^^^ b) &&& 0xff = (c ^^^ b) % 256 := by
    have h := Nat.and_pow_two_sub_one_eq_mod (c ^^^ b) 8
    norm_num at h
    exact h
  have h := crcShift_iter_table 8 (c ^^^ b % 256)
  rw [h8] at h
  unfold crcTableUpdate crcTable
  rw [fcsDo_eq, h, e1, e2, e3, Nat.shiftRight_eq_div_pow]

set_option maxRecDepth 100000 in
theorem fcsDo_table_witness :
    fcsDo 0xffff 0x131 = crcTableUpdate 0xffff 0x131
    ∧ fcsDo 0xffff 0x131 < 65536
    ∧ fcsDo 0xffff 0x131 = fcsDo 0xffff (0x131 % 256)
    ∧ fcsBuf (strBytes "123456789") 9 ^^^ 0xffff = 0x906e :=
  fcsDo_table 0xffff 0x131 (by decide)

/-! ## Frame delimiting -/

set_option maxRecDepth 100000 in
theorem stuffByte_bytes : ∀ b, b < 256 → ∀ x ∈ stuffByte b, 0x20 ≤ x ∧ x ≠ 0x7e ∧ x < 256 := by
  decide

/-- C38 (frame delimiting is unambiguous): for every state, whatever the
packet buffer and `pkt.len`, the bytes `sendPppFrame` appends to the serial
output are 0x7E, a middle part, and 0x7E, and every byte of the middle part
is at least 0x20, different from 0x7E and a byte. -/
theorem frame_delimiting (s : PppState) :
    ∃ mid, (sendPppFrame s).tx = s.tx ++ ([0x7e] ++ mid ++ [0x7e])
      ∧ ∀ x ∈ mid, 0x20 ≤ x ∧ x ≠ 0x7e ∧ x < 256 := by
  refine ⟨stuffed (fcsStored s.pkt.buf s.pkt.len) s.pkt.len, ?_, ?_⟩
  · rw [sendPppFrame_tx]
    rfl
  · intro x hx
    unfold stuffed at hx
    obtain ⟨b, hb, hxb⟩ := List.mem_flatMap.mp hx
    exact stuffByte_bytes b (peekList_lt _ _ _ b hb) x hxb

/-! ## Exchange of addresses and ports -/

theorem peek_of_peekList (a b : List Nat) (i j n k : Nat) (h : peekList a i n = peekList b j n)
    (hk : k < n) : peek a (i + k) = peek b (j + k) := by
  unfold peekList at h
  exact List.map_inj_left.mp h k (List.mem_range.mpr hk)

theorem swapIpAddresses_eq (s : PppState) :
    swapIpAddresses s
      = { s with pkt := { s.pkt with
            buf := poke32 (poke32 s.pkt.buf (ipStart + 12) (peek32 s.pkt.buf (ipStart + 16)))
              (ipStart + 16) (peek32 s.pkt.buf (ipStart + 12)) } } := rfl

theorem swapIpPorts_eq (s : PppState) :
    swapIpPorts s
      = { s with pkt := { s.pkt with
            buf := poke16 (poke16 s.pkt.buf (ipStart + 4 * ipHeaderLength s.pkt.buf + 0)
                (peek16 s.pkt.buf (ipStart + 4 * ipHeaderLength s.pkt.buf + 2)))
              (ipStart + 4 * ipHeaderLength s.pkt.buf + 2)
              (peek16 s.pkt.buf (ipStart + 4 * ipHeaderLength s.pkt.buf + 0)) } } := rfl

/-- Effect of `swapIpAddresses` on the packet bytes. -/
theorem swapIpAddresses_bytes (s : PppState) (hcap : ipStart + 20 ≤ s.pkt.buf.length) :
    (swapIpAddresses s).pkt.buf.length = s.pkt.buf.length
    ∧ peekList (swapIpAddresses s).pkt.buf (ipStart + 12) 4 = peekList s.pkt.buf (ipStart + 16) 4
    ∧ peekList (swapIpAddresses s).pkt.buf (ipStart + 16) 4 = peekList s.pkt.buf (ipStart + 12) 4
    ∧ ∀ j, j < ipStart + 12 ∨ ipStart + 20 ≤ j →
        peek (swapIpAddresses s).pkt.buf j = peek s.pkt.buf j := by
  have hI : ipStart = 4 := rfl
  rw [swapIpAddresses_eq]
  simp only [hI] at hcap ⊢
  refine ⟨by simp only [poke32_length], ?_, ?_, ?_⟩
  · rw [peekList_poke32_ne _ _ _ _ _ (by omega), peekList_poke32_peek32 _ _ _ _ (by omega)]
  · rw [peekList_poke32_peek32 _ _ _ _ (by rw [poke32_length]; omega)]
  · intro j hj
    rw [peek_poke32_ne _ _ _ _ (by omega), peek_poke32_ne _ _ _ _ (by omega)]

/-- Effect of `swapIpPorts` on the packet bytes. -/
theorem swapIpPorts_bytes (s : PppState) (hh : 0 < ipHeaderLength s.pkt.buf)
    (hcap : ipStart + 4 * ipHeaderLength s.pkt.buf + 4 ≤ s.pkt.buf.length) :
    (swapIpPorts s).pkt.buf.length = s.pkt.buf.length
    ∧ ipHeaderLength (swapIpPorts s).pkt.buf = ipHeaderLength s.pkt.buf
    ∧ peekList (swapIpPorts s).pkt.buf (ipStart + 4 * ipHeaderLength s.pkt.buf) 2
        = peekList s.pkt.buf (ipStart + 4 * ipHeaderLength s.pkt.buf + 2) 2
    ∧ peekList (swapIpPorts s).pkt.buf (ipStart + 4 * ipHeaderLength s.pkt.buf + 2) 2
        = peekList s.pkt.buf (ipStart + 4 * ipHeaderLength s.pkt.buf) 2
    ∧ ∀ j, j < ipStart + 4 * ipHeaderLength s.pkt.buf
          ∨ ipStart + 4 * ipHeaderLength s.pkt.buf + 4 ≤ j →
        peek (swapIpPorts s).pkt.buf j = peek s.pkt.buf j := by
  have hI : ipStart = 4 := rfl
  rw [swapIpPorts_eq]
  simp only [hI, Nat.add_zero] at hcap ⊢
  have hne : ∀ j, j < 4 + 4 * ipHeaderLength s.pkt.buf ∨ 4 + 4 * ipHeaderLength s.pkt.buf + 4 ≤ j →
      peek (poke16 (poke16 s.pkt.buf (4 + 4 * ipHeaderLength s.pkt.buf)
          (peek16 s.pkt.buf (4 + 4 * ipHeaderLength s.pkt.buf + 2)))
        (4 + 4 * ipHeaderLength s.pkt.buf + 2) (peek16 s.pkt.buf (4 + 4 * ipHeaderLength s.pkt.buf))) j
        = peek s.pkt.buf j := by
    intro j hj
    rw [peek_poke16_ne _ _ _ _ (by omega) (by omega), peek_poke16_ne _ _ _ _ (by omega) (by omega)]
  refine ⟨by simp only [poke16_length], ?_, ?_, ?_, hne⟩
  · unfold ipHeaderLength
    rw [hI]
    have h := hne 4 (Or.inl (by omega))
    unfold ipHeaderLength at h
    rw [hI] at h
    rw [h]
  · rw [peekList_poke16_ne _ _ _ _ _ (by omega), peekList_poke16_peek16 _ _ _ _ (by omega)]
  · rw [peekList_poke16_peek16 _ _ _ _ (by rw [poke16_length]; omega)]

theorem swapIpAddresses_twice (s : PppState) (hcap : ipStart + 20 ≤ s.pkt.buf.length) (j : Nat) :
    peek (swapIpAddresses (swapIpAddresses s)).pkt.buf j = peek s.pkt.buf j := by
  have hI : ipStart = 4 := rfl
  obtain ⟨l1, a1, b1, n1⟩ := swapIpAddresses_bytes s hcap
  obtain ⟨_, a2, b2, n2⟩ := swapIpAddresses_bytes (swapIpAddresses s) (by rw [l1]; exact hcap)
  by_cases h : j < ipStart + 12 ∨ ipStart + 20 ≤ j
  · rw [n2 j h, n1 j h]
  · by_cases h16 : j < ipStart + 16
    · obtain ⟨k, rfl⟩ : ∃ k, j = ipStart + 12 + k := ⟨j - (ipStart + 12), by omega⟩
      rw [peek_of_peekList _ _ _ _ _ k a2 (by omega), peek_of_peekList _ _ _ _ _ k b1 (by omega)]
    · obtain ⟨k, rfl⟩ : ∃ k, j = ipStart + 16 + k := ⟨j - (ipStart + 16), by omega⟩
      rw [peek_of_peekList _ _ _ _ _ k b2 (by omega), peek_of_peekList _ _ _ _ _ k a1 (by omega)]

theorem swapIpPorts_twice (s : PppState) (hh : 0 < ipHeaderLength s.pkt.buf)
    (hcap : ipStart + 4 * ipHeaderLength s.pkt.buf + 4 ≤ s.pkt.buf.length) (j : Nat) :
    peek (swapIpPorts (swapIpPorts s)).pkt.buf j = peek s.pkt.buf j := by
  obtain ⟨l1, e1, a1, b1, n1⟩ := swapIpPorts_bytes s hh hcap
  obtain ⟨_, _, a2, b2, n2⟩ := swapIpPorts_bytes (swapIpPorts s) (by rw [e1]; exact hh)
    (by rw [e1, l1]; exact hcap)
  rw [e1] at a2 b2 n2
  by_cases h : j < ipStart + 4 * ipHeaderLength s.pkt.buf
      ∨ ipStart + 4 * ipHeaderLength s.pkt.buf + 4 ≤ j
  · rw [n2 j h, n1 j h]
  · by_cases h2 : j < ipStart + 4 * ipHeaderLength s.pkt.buf + 2
    · obtain ⟨k, rfl⟩ : ∃ k, j = ipStart + 4 * ipHeaderLength s.pkt.buf + k :=
        ⟨j - (ipStart + 4 * ipHeaderLength s.pkt.buf), by omega⟩
      rw [peek_of_peekList _ _ _ _ _ k a2 (by omega), peek_of_peekList _ _ _ _ _ k b1 (by omega)]
    · obtain ⟨k, rfl⟩ : ∃ k, j = ipStart + 4 * ipHeaderLength s.pkt.buf + 2 + k :=
        ⟨j - (ipStart + 4 * ipHeaderLength s.pkt.buf + 2), by omega⟩
      rw [peek_of_peekList _ _ _ _ _ k b2 (by omega), peek_of_peekList _ _ _ _ _ k a1 (by omega)]

/-- C32 (address and port swap): for a packet buffer that holds the IP header
and the four port bytes behind it, with a header-length field other than 0,
`swapIpAddresses` puts the four bytes of the destination address (header
offset 16) into the source address field (offset 12) and the four bytes of
the source address into the destination field, `swapIpPorts` does the same
with the two 2-byte port fields at 4 times the header-length field behind the
start of the IP header; each changes only the packet buffer, keeps its length
and every other byte, and applied twice gives back every byte of the packet. -/
theorem address_port_swap (s : PppState) (hh : 0 < ipHeaderLength s.pkt.buf)
    (hcapA : ipStart + 20 ≤ s.pkt.buf.length)
    (hcapP : ipStart + 4 * ipHeaderLength s.pkt.buf + 4 ≤ s.pkt.buf.length) :
    (swapIpAddresses s = { s with pkt := { s.pkt with buf := (swapIpAddresses s).pkt.buf } }
      ∧ (swapIpAddresses s).pkt.buf.length = s.pkt.buf.length
      ∧ peekList (swapIpAddresses s).pkt.buf (ipStart + 12) 4 = peekList s.pkt.buf (ipStart + 16) 4
      ∧ peekList (swapIpAddresses s).pkt.buf (ipStart + 16) 4 = peekList s.pkt.buf (ipStart + 12) 4
      ∧ (∀ j, j < ipStart + 12 ∨ ipStart + 20 ≤ j →
          peek (swapIpAddresses s).pkt.buf j = peek s.pkt.buf j)
      ∧ ∀ j, peek (swapIpAddresses (swapIpAddresses s)).pkt.buf j = peek s.pkt.buf j)
    ∧ (swapIpPorts s = { s with pkt := { s.pkt with buf := (swapIpPorts s).pkt.buf } }
      ∧ (swapIpPorts s).pkt.buf.length = s.pkt.buf.length
      ∧ peekList (swapIpPorts s).pkt.buf (ipStart + 4 * ipHeaderLength s.pkt.buf) 2
          = peekList s.pkt.buf (ipStart + 4 * ipHeaderLength s.pkt.buf + 2) 2
      ∧ peekList (swapIpPorts s).pkt.buf (ipStart + 4 * ipHeaderLength s.pkt.buf + 2) 2
          = peekList s.pkt.buf (ipStart + 4 * ipHeaderLength s.pkt.buf) 2
      ∧ (∀ j, j < ipStart + 4 * ipHeaderLength s.pkt.buf
            ∨ ipStart + 4 * ipHeaderLength s.pkt.buf + 4 ≤ j →
          peek (swapIpPorts s).pkt.buf j = peek s.pkt.buf j)
      ∧ ∀ j, peek (swapIpPorts (swapIpPorts s)).pkt.buf j = peek s.pkt.buf j) := by
  obtain ⟨l1, a1, b1, n1⟩ := swapIpAddresses_bytes s hcapA
  obtain ⟨l2, _, a2, b2, n2⟩ := swapIpPorts_bytes s hh hcapP
  exact ⟨⟨rfl, l1, a1, b1, n1, swapIpAddresses_twice s hcapA⟩,
    ⟨rfl, l2, a2, b2, n2, swapIpPorts_twice s hh hcapP⟩⟩

set_option maxRecDepth 100000 in
theorem address_port_swap_witness :
    (peekList (swapIpAddresses exampleSwap).pkt.buf (ipStart + 12) 4 = [10, 0, 0, 2]
      ∧ peekList (swapIpAddresses exampleSwap).pkt.buf (ipStart + 16) 4 = [10, 0, 0, 1]
      ∧ ∀ j, peek (swapIpAddresses (swapIpAddresses exampleSwap)).pkt.buf j
          = peek exampleSwap.pkt.buf j)
    ∧ (peekList (swapIpPorts exampleSwap).pkt.buf 28 2 = [0, 80]
      ∧ peekList (swapIpPorts exampleSwap).pkt.buf 30 2 = [0xc0, 0x01]
      ∧ ∀ j, peek (swapIpPorts (swapIpPorts exampleSwap)).pkt.buf j
          = peek exampleSwap.pkt.buf j) :=
  ⟨⟨(address_port_swap exampleSwap (by decide) (by decide) (by decide)).1.2.2.1,
    (address_port_swap exampleSwap (by decide) (by decide) (by decide)).1.2.2.2.1,
    (address_port_swap exampleSwap (by decide) (by decide) (by decide)).1.2.2.2.2.2⟩,
   ⟨(address_port_swap exampleSwap (by decide) (by decide) (by decide)).2.2.2.1,
    (address_port_swap exampleSwap (by decide) (by decide) (by decide)).2.2.2.2.1,
    (address_port_swap exampleSwap (by decide) (by decide) (by decide)).2.2.2.2.2.2⟩⟩

/-! ## The deframer in closed form -/

theorem deframe_span (k fuel : Nat) (s : PppState) (start end_ : Nat)
    (hs : start < 2 ^ k) (he : end_ < 2 ^ k) (hne : start ≠ end_) (hfuel : 2 ^ k ≤ fuel) :
    deframe (2 ^ k) fuel s start end_ = some (deframed (2 ^ k) s start end_) := by
  obtain ⟨cnt, h1, h2, h3⟩ := span_count (2 ^ k) start end_ hs he hne
  have hd := deframe_eq k fuel s start cnt (by omega) hs h2
  rw [h3] at hd
  rw [hd]
  unfold deframed spanData
  rw [h1]

/-- With enough passes allowed `processPPPFrame` returns, and its result is
the closed form. -/
theorem processPPPFrame_eq (k fuel : Nat) (s : PppState) (start end_ : Nat)
    (hs : start < 2 ^ k) (he : end_ < 2 ^ k) (hfuel : 2 ^ k ≤ fuel) :
    processPPPFrame (2 ^ k) fuel s start end_ = some (frameResult (2 ^ k) s start end_) := by
  unfold processPPPFrame frameResult
  by_cases hne : start = end_
  · rw [if_pos hne, if_pos hne]
  · rw [if_neg hne, if_neg hne, deframe_span k fuel s start end_ hs he hne hfuel]
    simp only
    split <;> rfl

theorem destuff_lt (cs : List Nat) (h : ∀ c ∈ cs, c < 256) :
    ∀ (esc : Bool), ∀ x ∈ destuff esc cs, x < 256 := by
  induction cs with
  | nil =>
    intro esc x hx
    cases esc <;> simp [destuff] at hx
  | cons c cs ih =>
    have hc : c < 256 := h c (List.mem_cons_self _ _)
    have hcs : ∀ c ∈ cs, c < 256 := fun c hc => h c (List.mem_cons_of_mem _ hc)
    intro esc x hx
    cases esc with
    | true =>
      simp only [destuff, List.mem_cons] at hx
      rcases hx with rfl | hx
      · exact Nat.xor_lt_two_pow (n := 8) hc (by norm_num)
      · exact ih hcs false x hx
    | false =>
      simp only [destuff] at hx
      split at hx
      · exact ih hcs true x hx
      · rcases List.mem_cons.mp hx with rfl | hx
        · exact hc
        · exact ih hcs false x hx

theorem spanBytes_lt (N : Nat) (ring : List Nat) (start cnt : Nat) :
    ∀ c ∈ spanBytes N ring start cnt, c < 256 := by
  intro c hc
  unfold spanBytes at hc
  obtain ⟨i, _, rfl⟩ := List.mem_map.mp hc
  exact peek_lt _ _

theorem spanData_lt (N : Nat) (s : PppState) (start end_ : Nat) :
    ∀ x ∈ spanData N s start end_, x < 256 :=
  destuff_lt _ (spanBytes_lt _ _ _ _) false

/-- C34 (deframer unstuffing): for every non-empty span of a ring of `2^k`
bytes (taken modulo the ring size, so it may wrap) and a packet buffer that
holds the result, `processPPPFrame` with at least `2^k` passes allowed
reaches its CRC test in the state `d` where the first `pkt.len` bytes of the
packet buffer are the span bytes de-stuffed in order, `pkt.len` is their
number, the bytes behind them are untouched, and `fcs` and `pkt.crc` are the
FCS run from the seed over exactly these bytes; the result of the call is `d`
or the dispatcher applied to `d`.  De-stuffing drops each marker 0x7D and
stores the byte behind it XORed with 0x20 without looking at it again, so
`7d 7d` gives `5d`. -/
theorem deframer_unstuffing (k fuel : Nat) (s : PppState) (start end_ : Nat)
    (hs : start < 2 ^ k) (he : end_ < 2 ^ k) (hne : start ≠ end_) (hfuel : 2 ^ k ≤ fuel)
    (hcap : (destuff false (spanBytes (2 ^ k) s.rx.buf start
      ((end_ + 2 ^ k - start) % 2 ^ k))).length ≤ s.pkt.buf.length) :
    (∃ d, deframe (2 ^ k) fuel s start end_ = some d
      ∧ peekList d.pkt.buf 0 d.pkt.len
          = destuff false (spanBytes (2 ^ k) s.rx.buf start ((end_ + 2 ^ k - start) % 2 ^ k))
      ∧ d.pkt.len = (destuff false (spanBytes (2 ^ k) s.rx.buf start
          ((end_ + 2 ^ k - start) % 2 ^ k))).length
      ∧ (∀ j, d.pkt.len ≤ j → peek d.pkt.buf j = peek s.pkt.buf j)
      ∧ d.fcs = (peekList d.pkt.buf 0 d.pkt.len).foldl fcsDo fcsReset
      ∧ d.pkt.crc = (peekList d.pkt.buf 0 d.pkt.len).foldl fcsDo fcsReset
      ∧ (processPPPFrame (2 ^ k) fuel s start end_ = some d
          ∨ processPPPFrame (2 ^ k) fuel s start end_ = some (determinePacketType (2 ^ k) d)))
    ∧ (∀ c cs, destuff false (0x7d :: c :: cs) = (c ^^^ 0x20) :: destuff false cs)
    ∧ (∀ c cs, c ≠ 0x7d → destuff false (c :: cs) = c :: destuff false cs)
    ∧ destuff false [0x7d] = []
    ∧ destuff false [0x7d, 0x7d] = [0x5d] := by
  have hD : peekList (deframed (2 ^ k) s start end_).pkt.buf 0 (deframed (2 ^ k) s start end_).pkt.len
      = spanData (2 ^ k) s start end_ := by
    show peekList (pokeList s.pkt.buf 0 (spanData (2 ^ k) s start end_)) 0
      (spanData (2 ^ k) s start end_).length = _
    rw [peekList_pokeList _ _ _ (by rw [Nat.zero_add]; exact hcap),
      map_mod_of_lt _ (spanData_lt _ _ _ _)]
  refine ⟨⟨deframed (2 ^ k) s start end_, deframe_span k fuel s start end_ hs he hne hfuel,
    hD, rfl, ?_, ?_, ?_, ?_⟩, ?_, ?_, ?_, ?_⟩
  · intro j hj
    exact peek_pokeList_ne _ _ _ _ (Or.inr (by rw [Nat.zero_add]; exact hj))
  · rw [hD]
    rfl
  · rw [hD]
    rfl
  · rw [processPPPFrame_eq k fuel s start end_ hs he hfuel]
    unfold frameResult
    rw [if_neg hne]
    split
    · exact Or.inr rfl
    · exact Or.inl rfl
  · intro c cs
    simp [destuff]
  · intro c cs hc
    simp [destuff, hc]
  · simp [destuff]
  · decide

set_option maxRecDepth 100000 in
theorem deframer_unstuffing_witness :
    ∃ d, deframe (2 ^ 3) 8 exampleEscapes 6 3 = some d
      ∧ peekList d.pkt.buf 0 d.pkt.len = [0x5d, 0x41, 0x7e]
      ∧ d.pkt.len = 3 :=
  match (deframer_unstuffing 3 8 exampleEscapes 6 3 (by decide) (by decide) (by decide)
      (by decide) (by decide)).1 with
  | ⟨d, h1, h2, h3, _⟩ => ⟨d, h1, h2.trans (by decide), h3.trans (by decide)⟩

/-! ## Data segments that are not HTTP requests, and the scrub -/

theorem peek_pokeList_zero (buf : List Nat) (off n j : Nat) (h1 : off ≤ j) (h2 : j < off + n) :
    peek (pokeList buf off (List.replicate n 0)) j = 0 := by
  by_cases hl : j < buf.length
  · obtain ⟨i, rfl⟩ : ∃ i, j = off + i := ⟨j - off, by omega⟩
    rw [peek_pokeList_mid _ _ _ _ (by rw [List.length_replicate]; omega) hl]
    simp [List.getD_eq_getElem?_getD]
  · exact peek_of_le _ _ (by rw [pokeList_length]; omega)

theorem tcpReply_buf (s : PppState) (a q f d : Nat) :
    (tcpReply s a q f d).pkt.buf
      = pokeList (fcsStored (tcpPrepared s a q f d).pkt.buf (46 + d)) 44 (List.replicate 500 0) := by
  have e : 20 + (20 + d) + 4 + 2 = 46 + d := by omega
  rw [tcpReply_eq]
  simp only [sendPppFrame_buf, tcpPrepared_len, e]

/-- The buffer `tcpReply` leaves: zero from byte 44 to byte 543, and in front
of byte 44 the bytes of the packet whose frame was sent. -/
theorem tcpReply_scrub (s : PppState) (a q f d : Nat) :
    (∀ j, 44 ≤ j → j < 44 + 500 → peek (tcpReply s a q f d).pkt.buf j = 0)
    ∧ ∀ P, (tcpReply s a q f d).tx = s.tx ++ [0x7e] ++ stuffed P (46 + d) ++ [0x7e] →
        ∀ j, j < 44 → peek (tcpReply s a q f d).pkt.buf j = peek P j := by
  rw [tcpReply_buf]
  generalize hB : fcsStored (tcpPrepared s a q f d).pkt.buf (46 + d) = B
  refine ⟨?_, ?_⟩
  · intro j h1 h2
    exact peek_pokeList_zero B 44 500 j h1 h2
  · intro P hP j hj
    rw [tcpReply_sent s a q f d P hP j (by omega), peek_pokeList_ne _ _ _ _ (Or.inl hj), ← hB,
      peek_fcsStored_lt _ _ _ (by omega)]

/-- C36 (TCP scrub): in a packet buffer of at least 590 bytes, after a call
of `tcpHandler` that sends a reply the bytes 44 to 543 of the packet buffer
are zero and the bytes 0 to 43 are those of the packet whose frame was sent
(its PPP, IP and TCP headers); after a call that sends nothing every byte
from 44 on is as it was before the call. -/
theorem tcp_scrub (s : PppState) (hcap : 590 ≤ s.pkt.buf.length) :
    ((tcpHandler s).tx ≠ s.tx →
      (∀ j, 44 ≤ j → j < 544 → peek (tcpHandler s).pkt.buf j = 0)
      ∧ (∃ P, (tcpHandler s).tx = s.tx ++ [0x7e] ++ stuffed P (46 + tcpReplyLen s) ++ [0x7e])
      ∧ ∀ P, (tcpHandler s).tx = s.tx ++ [0x7e] ++ stuffed P (46 + tcpReplyLen s) ++ [0x7e] →
          ∀ j, j < 44 → peek (tcpHandler s).pkt.buf j = peek P j)
    ∧ ((tcpHandler s).tx = s.tx →
        ∀ j, 44 ≤ j → peek (tcpHandler s).pkt.buf j = peek s.pkt.buf j) := by
  have hlen := tcpReplyLen_le s
  refine ⟨?_, ?_⟩
  · intro hsent
    have hns := tcpHandler_sent_not_ignored s hsent
    obtain ⟨hex, _, _⟩ := tcpHandler_reply_shape s 0 hns (by omega)
    obtain ⟨X, a, q, f, hX, htx, _, _, _⟩ := tcpHandler_reply s hns
    obtain ⟨z, hp⟩ := tcpReply_scrub X a q f (tcpReplyLen s)
    rw [hX] at hex ⊢
    rw [htx] at hp
    exact ⟨fun j h1 h2 => z j h1 (by omega), hex, hp⟩
  · intro hquiet
    by_cases hc : (peek s.pkt.buf (ipStart + 20 + 13) = TCP_FLAG_ACK ∧ tcpDataSize s = 0)
        ∨ (peek s.pkt.buf (ipStart + 20 + 13) ≠ TCP_FLAG_SYN
          ∧ peek s.pkt.buf (ipStart + 20 + 13) ≠ TCP_FLAG_ACK
          ∧ peek s.pkt.buf (ipStart + 20 + 13) ≠ (TCP_FLAG_ACK ||| TCP_FLAG_PSH)
          ∧ peek s.pkt.buf (ipStart + 20 + 13) ≠ TCP_FLAG_FIN
          ∧ peek s.pkt.buf (ipStart + 20 + 13) ≠ (TCP_FLAG_FIN ||| TCP_FLAG_ACK)
          ∧ peek s.pkt.buf (ipStart + 20 + 13) ≠ (TCP_FLAG_FIN ||| TCP_FLAG_PSH ||| TCP_FLAG_ACK))
    · intro j hj
      rw [tcpHandler_silent s hc]
      exact peek_tcpNormalized s j (by omega)
    · exact absurd hquiet (tcpHandler_sends s hc (by omega))

set_option maxRecDepth 100000 in
theorem tcp_scrub_witness :
    ((∀ j, 44 ≤ j → j < 544 → peek (tcpHandler exampleGet).pkt.buf j = 0)
      ∧ (∃ P, (tcpHandler exampleGet).tx
          = exampleGet.tx ++ [0x7e] ++ stuffed P (46 + tcpReplyLen exampleGet) ++ [0x7e])
      ∧ ∀ P, (tcpHandler exampleGet).tx
          = exampleGet.tx ++ [0x7e] ++ stuffed P (46 + tcpReplyLen exampleGet) ++ [0x7e] →
          ∀ j, j < 44 → peek (tcpHandler exampleGet).pkt.buf j = peek P j)
    ∧ ∀ j, 44 ≤ j → peek (tcpHandler exampleRstStale).pkt.buf j = peek exampleRstStale.pkt.buf j :=
  ⟨(tcp_scrub exampleGet (by decide)).1 (tcpHandler_sends exampleGet (by decide) (by decide)),
   (tcp_scrub exampleRstStale (by decide)).2
     ((tcpHandler_silent exampleRstStale (by decide)).symm ▸ tcpNormalized_tx exampleRstStale)⟩

/-! ## What the packet handlers leave of the receive side -/

theorem sameLink_refl (a : PppState) : sameLink a a := ⟨rfl, rfl, rfl⟩

theorem sameLink_trans {a b c : PppState} (h1 : sameLink a b) (h2 : sameLink b c) : sameLink a c :=
  ⟨h1.1.trans h2.1, h1.2.1.trans h2.2.1, h1.2.2.trans h2.2.2⟩

theorem sendPppFrame_link (s : PppState) : sameLink (sendPppFrame s) s := by
  rw [sendPppFrame_eq]
  exact ⟨rfl, rfl, rfl⟩

theorem LCPconfReq_link (s : PppState) : sameLink (LCPconfReq s) s := by
  unfold LCPconfReq
  split
  · exact sameLink_trans (sendPppFrame_link _) ⟨rfl, rfl, rfl⟩
  · exact sameLink_trans (sendPppFrame_link _)
      (sameLink_trans ⟨rfl, rfl, rfl⟩ (sameLink_trans (sendPppFrame_link _) ⟨rfl, rfl, rfl⟩))

theorem IPCPframe_link (s : PppState) : sameLink (IPCPframe s) s := by
  unfold IPCPframe
  simp only
  split
  · unfold ipcpConfigRequestHandler
    simp only
    refine sameLink_trans (sendPppFrame_link _) ?_
    refine sameLink_trans (b := sendPppFrame _) ⟨rfl, rfl, rfl⟩ ?_
    refine sameLink_trans (sendPppFrame_link _) ?_
    split <;> exact ⟨rfl, rfl, rfl⟩
  · split
    · unfold ipcpNackHandler
      split
      · exact sameLink_trans (sendPppFrame_link _) ⟨rfl, rfl, rfl⟩
      · exact sameLink_refl s
    · exact sameLink_refl s

theorem IpHeaderCheckSum_link (s : PppState) : sameLink (IpHeaderCheckSum s) s := by
  rw [IpHeaderCheckSum_eq]
  exact ⟨rfl, rfl, rfl⟩

theorem ICMPpacket_link (s : PppState) : sameLink (ICMPpacket s) s := by
  rw [ICMPpacket_eq]
  split
  · refine sameLink_trans (sendPppFrame_link _) ?_
    simp [sameLink, icmpPrepared, IpHeaderCheckSum, swapIpAddresses]
  · exact ⟨rfl, rfl, rfl⟩

theorem udpChecksumsAndSend_link (s : PppState) (L : Nat) :
    sameLink (udpChecksumsAndSend s L) s := by
  unfold udpChecksumsAndSend
  simp only
  refine sameLink_trans (sendPppFrame_link _) ?_
  simp [sameLink, IpHeaderCheckSum, checkSumPseudoHeader]

theorem UDPpacket_link (s : PppState) : sameLink (UDPpacket s) s := by
  rw [UDPpacket_branches]
  unfold udpBranches
  simp only
  split
  · rw [udpEcho_eq]
    refine sameLink_trans (udpChecksumsAndSend_link _ _) ?_
    simp [sameLink, udpEchoPrepared, swapIpPorts, swapIpAddresses]
  · split
    · rw [udpTest_eq]
      unfold sendUdp
      simp only
      refine sameLink_trans (udpChecksumsAndSend_link _ _) ?_
      simp [sameLink, initIP]
    · exact ⟨rfl, rfl, rfl⟩

theorem tcpNormalized_link (s : PppState) : sameLink (tcpNormalized s) s := by
  simp [sameLink, tcpNormalized]

theorem tcpReply_link (s : PppState) (a q f d : Nat) : sameLink (tcpReply s a q f d) s := by
  rw [tcpReply_eq]
  refine sameLink_trans (b := sendPppFrame (tcpPrepared s a q f d)) ⟨rfl, rfl, rfl⟩ ?_
  refine sameLink_trans (sendPppFrame_link _) ?_
  simp [sameLink, tcpPrepared, IpHeaderCheckSum, checkSumPseudoHeader, swapIpPorts, swapIpAddresses]

theorem httpResponse_link (s : PppState) (d : Nat) : sameLink (httpResponse s d).1 s := by
  unfold httpResponse sameLink
  simp only []
  split_ifs <;> exact ⟨rfl, rfl, rfl⟩

theorem tcpHandler_link (s : PppState) : sameLink (tcpHandler s) s := by
  by_cases hc : (peek s.pkt.buf (ipStart + 20 + 13) = TCP_FLAG_ACK ∧ tcpDataSize s = 0)
      ∨ (peek s.pkt.buf (ipStart + 20 + 13) ≠ TCP_FLAG_SYN
        ∧ peek s.pkt.buf (ipStart + 20 + 13) ≠ TCP_FLAG_ACK
        ∧ peek s.pkt.buf (ipStart + 20 + 13) ≠ (TCP_FLAG_ACK ||| TCP_FLAG_PSH)
        ∧ peek s.pkt.buf (ipStart + 20 + 13) ≠ TCP_FLAG_FIN
        ∧ peek s.pkt.buf (ipStart + 20 + 13) ≠ (TCP_FLAG_FIN ||| TCP_FLAG_ACK)
        ∧ peek s.pkt.buf (ipStart + 20 + 13) ≠ (TCP_FLAG_FIN ||| TCP_FLAG_PSH ||| TCP_FLAG_ACK))
  · rw [tcpHandler_silent s hc]
    exact tcpNormalized_link s
  · by_cases hsyn : peek s.pkt.buf (ipStart + 20 + 13) = TCP_FLAG_SYN
    · rw [tcpHandler_syn s hsyn]
      exact sameLink_trans (tcpReply_link _ _ _ _ _) (tcpNormalized_link s)
    by_cases hack : peek s.pkt.buf (ipStart + 20 + 13) = TCP_FLAG_ACK
        ∨ peek s.pkt.buf (ipStart + 20 + 13) = (TCP_FLAG_ACK ||| TCP_FLAG_PSH)
    · have hdata : ¬ (peek s.pkt.buf (ipStart + 20 + 13) = TCP_FLAG_ACK ∧ tcpDataSize s = 0) :=
        fun h => hc (Or.inl h)
      by_cases hget : peekList (tcpNormalized s).pkt.buf (tcpDataIn s) 5 = strBytes "GET /"
      · rw [tcpHandler_get s hack hdata hget]
        exact sameLink_trans (tcpReply_link _ _ _ _ _)
          (sameLink_trans (httpResponse_link _ _) (tcpNormalized_link s))
      · rw [tcpHandler_ack s hack hdata hget]
        exact sameLink_trans (tcpReply_link _ _ _ _ _) (tcpNormalized_link s)
    · have hfin : peek s.pkt.buf (ipStart + 20 + 13) = TCP_FLAG_FIN
          ∨ peek s.pkt.buf (ipStart + 20 + 13) = (TCP_FLAG_FIN ||| TCP_FLAG_ACK)
          ∨ peek s.pkt.buf (ipStart + 20 + 13) = (TCP_FLAG_FIN ||| TCP_FLAG_PSH ||| TCP_FLAG_ACK) := by
        by_contra hn
        exact hc (Or.inr ⟨hsyn, fun h => hack (Or.inl h), fun h => hack (Or.inr h),
          fun h => hn (Or.inl h), fun h => hn (Or.inr (Or.inl h)),
          fun h => hn (Or.inr (Or.inr h))⟩)
      rw [tcpHandler_fin s hfin]
      exact sameLink_trans (tcpReply_link _ _ _ _ _) (tcpNormalized_link s)

theorem IPframe_link (s : PppState) : sameLink (IPframe s) s := by
  unfold IPframe
  simp only
  split
  · exact ICMPpacket_link s
  · split
    · exact UDPpacket_link s
    · split
      · exact tcpHandler_link s
      · exact sameLink_refl s

/-! ## Ring arithmetic -/

theorem ring_dist (N a b : Nat) (ha : a < N) (hb : b < N) :
    (a ≤ b ∧ (b + N - a) % N = b - a) ∨ (b < a ∧ (b + N - a) % N = b + N - a) := by
  by_cases h : a ≤ b
  · left
    refine ⟨h, ?_⟩
    have e : b + N - a = (b - a) + N := by omega
    rw [e, Nat.add_mod_right, Nat.mod_eq_of_lt (by omega)]
  · right
    exact ⟨by omega, Nat.mod_eq_of_lt (by omega)⟩

theorem ring_succ (N a : Nat) (ha : a < N) :
    (a + 1 = N ∧ (a + 1) % N = 0) ∨ (a + 1 < N ∧ (a + 1) % N = a + 1) := by
  by_cases h : a + 1 = N
  · left
    exact ⟨h, by rw [h, Nat.mod_self]⟩
  · right
    exact ⟨by omega, Nat.mod_eq_of_lt (by omega)⟩

theorem ring_consume (N t h : Nat) (ht : t < N) (hh : h < N) (hne : h ≠ t) :
    (h + N - (t + 1) % N) % N + 1 = (h + N - t) % N := by
  have hs : (t + 1) % N < N := Nat.mod_lt _ (by omega)
  rcases ring_succ N t ht with ⟨a1, a2⟩ | ⟨a1, a2⟩ <;>
  rcases ring_dist N _ h hs hh with ⟨b1, b2⟩ | ⟨b1, b2⟩ <;>
  rcases ring_dist N t h ht hh with ⟨c1, c2⟩ | ⟨c1, c2⟩ <;>
  rw [b2, c2] <;> rw [a2] at b1 ⊢ <;> omega

/-! ## The frame scan in closed form -/

theorem rxScanLoop_eq (k ff : Nat) (hff : 2 ^ k ≤ ff) :
    ∀ (fuel : Nat) (s : PppState), s.rx.tail < 2 ^ k → s.rx.head < 2 ^ k →
      s.hdlc.frameStartIndex < 2 ^ k → (s.rx.head + 2 ^ k - s.rx.tail) % 2 ^ k < fuel →
      rxScanLoop (2 ^ k) ff fuel s
        = some (if (rxSkip (2 ^ k) fuel s).2 then
            rxFinish (frameResult (2 ^ k) (rxSkip (2 ^ k) fuel s).1
              (rxSkip (2 ^ k) fuel s).1.hdlc.frameStartIndex
              (rxSkip (2 ^ k) fuel s).1.hdlc.frameEndIndex)
          else (rxSkip (2 ^ k) fuel s).1) := by
  intro fuel
  induction fuel with
  | zero => intro s _ _ _ h; omega
  | succ n ih =>
    intro s ht hh hs hd
    have hN : 0 < 2 ^ k := Nat.pow_pos (by decide)
    have hnext : (s.rx.tail + 1) &&& (2 ^ k - 1) < 2 ^ k := by
      rw [Nat.and_pow_two_sub_one_eq_mod]
      exact Nat.mod_lt _ hN
    by_cases hne : s.rx.head ≠ s.rx.tail
    · have hdist := ring_consume (2 ^ k) s.rx.tail s.rx.head ht hh hne
      have hdist2 : (s.rx.head + 2 ^ k - ((s.rx.tail + 1) &&& (2 ^ k - 1))) % 2 ^ k < n := by
        rw [Nat.and_pow_two_sub_one_eq_mod]
        omega
      rw [rxScanLoop, rxSkip, if_pos hne, if_pos hne]
      simp only [pc_getBuf]
      by_cases hflag : peek s.rx.buf s.rx.tail = 0x7e
      · rw [if_pos hflag, if_pos hflag]
        by_cases hfirst : s.firstFrame ≠ 0
        · rw [if_pos hfirst, if_pos hfirst]
          exact ih _ hnext hh hnext hdist2
        · rw [if_neg hfirst, if_neg hfirst]
          simp only [if_true]
          rw [processPPPFrame_eq k ff _ _ _ hs ht hff]
          rfl
      · rw [if_neg hflag, if_neg hflag]
        exact ih _ hnext hh hs hdist2
    · rw [rxScanLoop, rxSkip, if_neg hne, if_neg hne]
      rfl

theorem rxSkip_frame (N : Nat) :
    ∀ (fuel : Nat) (s : PppState),
      (rxSkip N fuel s).1
        = { s with rx := { s.rx with tail := (rxSkip N fuel s).1.rx.tail,
                                     rtail := (rxSkip N fuel s).1.rx.rtail,
                                     buflevel := (rxSkip N fuel s).1.rx.buflevel },
                   hdlc := (rxSkip N fuel s).1.hdlc,
                   firstFrame := (rxSkip N fuel s).1.firstFrame } := by
  intro fuel
  induction fuel with
  | zero => intro s; rfl
  | succ n ih =>
    intro s
    by_cases hne : s.rx.head ≠ s.rx.tail
    · by_cases hflag : peek s.rx.buf s.rx.tail = 0x7e
      · by_cases hfirst : s.firstFrame ≠ 0
        · rw [rxSkip, if_pos hne, if_pos hflag, if_pos hfirst]
          exact ih _
        · rw [rxSkip, if_pos hne, if_pos hflag, if_neg hfirst]
      · rw [rxSkip, if_pos hne, if_neg hflag]
        exact ih _
    · rw [rxSkip, if_neg hne]

/-! ## The dispatcher and the receive side -/

theorem determinePacketType_link (N : Nat) (s : PppState) (h : ¬ isLcpTerminate s.pkt.buf) :
    sameLink (determinePacketType N s) s := by
  unfold determinePacketType
  simp only
  split
  · exact sameLink_refl s
  · split
    · exact sameLink_refl s
    · split
      · unfold LCPframe
        simp only
        split
        · exact LCPconfReq_link s
        · split
          · exfalso
            apply h
            unfold isLcpTerminate
            refine ⟨?_, ?_, ?_, ?_⟩ <;> first | assumption | (by_contra hc; simp_all)
          · exact sameLink_refl s
      · split
        · exact IPCPframe_link s
        · split
          · exact IPframe_link s
          · exact sameLink_refl s

theorem determinePacketType_terminate (N : Nat) (s : PppState) (h : isLcpTerminate s.pkt.buf) :
    determinePacketType N s = LCPend N s := by
  obtain ⟨h0, h1, h2, h4⟩ := h
  unfold determinePacketType LCPframe
  simp [h0, h1, h2, h4]

theorem LCPend_ring (N : Nat) (s : PppState) :
    (LCPend N s).rx
        = { buf := List.replicate N 0, head := 0, tail := 0, rtail := 0, buflevel := 0 }
      ∧ (LCPend N s).firstFrame = 1
      ∧ (LCPend N s).hdlc = { s.hdlc with frameStartIndex := 0 } := by
  simp [LCPend, pppInitStruct, sendPppFrame_eq]

theorem frameResult_link (N : Nat) (s : PppState) (start end_ : Nat)
    (h : ¬ isTerminateFrame N s start end_) :
    sameLink (frameResult N s start end_) s := by
  unfold frameResult
  split
  · exact sameLink_refl s
  · split
    · refine sameLink_trans (determinePacketType_link N _ ?_) ⟨rfl, rfl, rfl⟩
      intro ht
      exact h ⟨by assumption, by assumption, ht⟩
    · exact ⟨rfl, rfl, rfl⟩

theorem frameResult_terminate (N : Nat) (s : PppState) (start end_ : Nat)
    (h : isTerminateFrame N s start end_) :
    (frameResult N s start end_).rx
        = { buf := List.replicate N 0, head := 0, tail := 0, rtail := 0, buflevel := 0 }
      ∧ (frameResult N s start end_).firstFrame = 1
      ∧ (frameResult N s start end_).hdlc = { s.hdlc with frameStartIndex := 0 } := by
  obtain ⟨h1, h2, h3⟩ := h
  unfold frameResult
  rw [if_neg h1, if_pos h2, determinePacketType_terminate N _ h3]
  exact LCPend_ring N _

/-! ## The ring invariant -/

theorem ring_store (N r t h : Nat) (hr : r < N) (ht : t < N) (hh : h < N)
    (hord : (t + N - r) % N + (h + N - t) % N = (h + N - r) % N)
    (hfree : (h + 1) % N ≠ r) :
    (t + N - r) % N + ((h + 1) % N + N - t) % N = ((h + 1) % N + N - r) % N
      ∧ ((h + 1) % N + N - t) % N = (h + N - t) % N + 1 := by
  have hs : (h + 1) % N < N := Nat.mod_lt _ (by omega)
  rcases ring_succ N h hh with ⟨a1, a2⟩ | ⟨a1, a2⟩ <;>
  rcases ring_dist N r t hr ht with ⟨b1, b2⟩ | ⟨b1, b2⟩ <;>
  rcases ring_dist N t h ht hh with ⟨c1, c2⟩ | ⟨c1, c2⟩ <;>
  rcases ring_dist N r h hr hh with ⟨d1, d2⟩ | ⟨d1, d2⟩ <;>
  rcases ring_dist N t _ ht hs with ⟨e1, e2⟩ | ⟨e1, e2⟩ <;>
  rcases ring_dist N r _ hr hs with ⟨f1, f2⟩ | ⟨f1, f2⟩ <;>
  rw [e2, f2] <;> rw [b2, c2, d2] at hord <;> rw [c2] <;>
  rw [a2] at hfree e1 f1 ⊢ <;> omega

theorem ring_advance (N r t h : Nat) (hr : r < N) (ht : t < N) (hh : h < N)
    (hord : (t + N - r) % N + (h + N - t) % N = (h + N - r) % N)
    (hne : h ≠ t) :
    ((t + 1) % N + N - r) % N + (h + N - (t + 1) % N) % N = (h + N - r) % N := by
  have hs : (t + 1) % N < N := Nat.mod_lt _ (by omega)
  rcases ring_succ N t ht with ⟨a1, a2⟩ | ⟨a1, a2⟩ <;>
  rcases ring_dist N r t hr ht with ⟨b1, b2⟩ | ⟨b1, b2⟩ <;>
  rcases ring_dist N t h ht hh with ⟨c1, c2⟩ | ⟨c1, c2⟩ <;>
  rcases ring_dist N r h hr hh with ⟨d1, d2⟩ | ⟨d1, d2⟩ <;>
  rcases ring_dist N _ h hs hh with ⟨e1, e2⟩ | ⟨e1, e2⟩ <;>
  rcases ring_dist N r _ hr hs with ⟨f1, f2⟩ | ⟨f1, f2⟩ <;>
  rw [e2, f2] <;> rw [b2, c2, d2] at hord <;> rw [d2] <;>
  rw [a2] at e1 f1 ⊢ <;> omega

theorem ring_self (N a : Nat) (ha : a < N) : (a + N - a) % N = 0 := by
  have e : a + N - a = N := by omega
  rw [e, Nat.mod_self]

theorem rxStore_eq (N : Nat) (s : PppState) (ch : Nat) :
    rxStore N s ch
      = { s with rx := { s.rx with buf := poke s.rx.buf s.rx.head ch,
                                   head := (s.rx.head + 1) &&& (N - 1),
                                   buflevel := s.rx.buflevel + 1 },
                 online := if s.online = 0 then (if ch % 256 = 0x7e then 1 else s.online)
                           else s.online } := by
  unfold rxStore
  simp only []
  split_ifs <;> rfl

theorem rxStore_inv (k : Nat) (s : PppState) (ch : Nat) (h : ScanInv (2 ^ k) s)
    (hfree : ¬ (s.rx.head + 1) &&& (2 ^ k - 1) = s.rx.rtail) :
    ScanInv (2 ^ k) (rxStore (2 ^ k) s ch) := by
  obtain ⟨⟨hh, ht, hr, hord, hlev⟩, hs⟩ := h
  rw [Nat.and_pow_two_sub_one_eq_mod] at hfree
  obtain ⟨g1, g2⟩ := ring_store (2 ^ k) _ _ _ hr ht hh hord hfree
  have hN : 0 < 2 ^ k := Nat.pow_pos (by decide)
  rw [rxStore_eq, Nat.and_pow_two_sub_one_eq_mod]
  refine ⟨⟨Nat.mod_lt _ hN, ht, hr, g1, ?_⟩, hs⟩
  show s.rx.buflevel + 1 = ((((s.rx.head + 1) % 2 ^ k + 2 ^ k - s.rx.tail) % 2 ^ k : Nat) : Int)
  rw [g2, hlev]
  push_cast
  rfl

theorem rxReadLoop_inv (k : Nat) (input : List Nat) :
    ∀ s : PppState, ScanInv (2 ^ k) s → ScanInv (2 ^ k) (rxReadLoop (2 ^ k) s input).1 := by
  induction input with
  | nil => intro s h; exact h
  | cons c cs ih =>
    intro s h
    rw [rxReadLoop_cons]
    split
    · exact h
    · exact ih _ (rxStore_inv k s c h (by assumption))

theorem rxSkip_inv (k : Nat) :
    ∀ (fuel : Nat) (s : PppState), ScanInv (2 ^ k) s →
      ScanInv (2 ^ k) (rxSkip (2 ^ k) fuel s).1
      ∧ ((rxSkip (2 ^ k) fuel s).2 = true →
          (rxSkip (2 ^ k) fuel s).1.hdlc.frameEndIndex < 2 ^ k
          ∧ (rxSkip (2 ^ k) fuel s).1.rx.tail
              = ((rxSkip (2 ^ k) fuel s).1.hdlc.frameEndIndex + 1) % 2 ^ k
          ∧ peek s.rx.buf (rxSkip (2 ^ k) fuel s).1.hdlc.frameEndIndex = 0x7e) := by
  intro fuel
  induction fuel with
  | zero =>
    intro s h
    exact ⟨h, fun h2 => by simp [rxSkip] at h2⟩
  | succ n ih =>
    intro s h
    obtain ⟨⟨hh, ht, hr, hord, hlev⟩, hs⟩ := h
    have hN : 0 < 2 ^ k := Nat.pow_pos (by decide)
    have hnext : (s.rx.tail + 1) % 2 ^ k < 2 ^ k := Nat.mod_lt _ hN
    by_cases hne : s.rx.head ≠ s.rx.tail
    · have hc := ring_consume (2 ^ k) s.rx.tail s.rx.head ht hh hne
      have ha := ring_advance (2 ^ k) _ _ _ hr ht hh hord hne
      have hlev2 : s.rx.buflevel - 1
          = (((s.rx.head + 2 ^ k - (s.rx.tail + 1) % 2 ^ k) % 2 ^ k : Nat) : Int) := by
        rw [hlev, ← hc]
        push_cast
        omega
      by_cases hflag : peek s.rx.buf s.rx.tail = 0x7e
      · by_cases hfirst : s.firstFrame ≠ 0
        · rw [rxSkip, if_pos hne, if_pos hflag, if_pos hfirst, Nat.and_pow_two_sub_one_eq_mod]
          refine ih _ ⟨⟨hh, hnext, hnext, ?_, hlev2⟩, hnext⟩
          show ((s.rx.tail + 1) % 2 ^ k + 2 ^ k - (s.rx.tail + 1) % 2 ^ k) % 2 ^ k
            + (s.rx.head + 2 ^ k - (s.rx.tail + 1) % 2 ^ k) % 2 ^ k
            = (s.rx.head + 2 ^ k - (s.rx.tail + 1) % 2 ^ k) % 2 ^ k
          rw [ring_self _ _ hnext, Nat.zero_add]
        · rw [rxSkip, if_pos hne, if_pos hflag, if_neg hfirst, Nat.and_pow_two_sub_one_eq_mod]
          exact ⟨⟨⟨hh, hnext, hr, ha, hlev2⟩, hs⟩, fun _ => ⟨ht, rfl, hflag⟩⟩
      · rw [rxSkip, if_pos hne, if_neg hflag, Nat.and_pow_two_sub_one_eq_mod]
        exact ih _ ⟨⟨hh, hnext, hr, ha, hlev2⟩, hs⟩
    · rw [rxSkip, if_neg hne]
      exact ⟨⟨⟨hh, ht, hr, hord, hlev⟩, hs⟩, fun h2 => by simp at h2⟩

theorem rxFinish_inv (k : Nat) (d : PppState) (hh : d.rx.head < 2 ^ k) (ht : d.rx.tail < 2 ^ k)
    (hlev : d.rx.buflevel = (((d.rx.head + 2 ^ k - d.rx.tail) % 2 ^ k : Nat) : Int)) :
    ScanInv (2 ^ k) (rxFinish d) := by
  refine ⟨⟨hh, ht, ht, ?_, hlev⟩, ht⟩
  show (d.rx.tail + 2 ^ k - d.rx.tail) % 2 ^ k + (d.rx.head + 2 ^ k - d.rx.tail) % 2 ^ k
    = (d.rx.head + 2 ^ k - d.rx.tail) % 2 ^ k
  rw [ring_self _ _ ht, Nat.zero_add]

theorem rxFinish_frameResult_inv (k : Nat) (c : PppState) (start end_ : Nat)
    (h : ScanInv (2 ^ k) c) :
    ScanInv (2 ^ k) (rxFinish (frameResult (2 ^ k) c start end_)) := by
  obtain ⟨⟨hh, ht, hr, hord, hlev⟩, hs⟩ := h
  have hN : 0 < 2 ^ k := Nat.pow_pos (by decide)
  by_cases hterm : isTerminateFrame (2 ^ k) c start end_
  · obtain ⟨e, _, _⟩ := frameResult_terminate _ c start end_ hterm
    apply rxFinish_inv
    · rw [e]; exact hN
    · rw [e]; exact hN
    · rw [e]
      show (0 : Int) = (((0 + 2 ^ k - 0) % 2 ^ k : Nat) : Int)
      rw [Nat.zero_add, Nat.sub_zero, Nat.mod_self]
      rfl
  · obtain ⟨e, _, _⟩ := frameResult_link _ c start end_ hterm
    apply rxFinish_inv
    · rw [e]; exact hh
    · rw [e]; exact ht
    · rw [e]; exact hlev

theorem pppReceiveHandler_eq (k fuel : Nat) (s : PppState) (input : List Nat)
    (h : ScanInv (2 ^ k) s) (hfuel : 2 ^ k ≤ fuel) :
    pppReceiveHandler (2 ^ k) fuel s input
      = some (if (rxReadLoop (2 ^ k) s input).2.2 then (rxReadLoop (2 ^ k) s input).1
          else if (rxSkip (2 ^ k) fuel (rxReadLoop (2 ^ k) s input).1).2 then
            rxFinish (frameResult (2 ^ k) (rxSkip (2 ^ k) fuel (rxReadLoop (2 ^ k) s input).1).1
              (rxSkip (2 ^ k) fuel (rxReadLoop (2 ^ k) s input).1).1.hdlc.frameStartIndex
              (rxSkip (2 ^ k) fuel (rxReadLoop (2 ^ k) s input).1).1.hdlc.frameEndIndex)
          else (rxSkip (2 ^ k) fuel (rxReadLoop (2 ^ k) s input).1).1,
        (rxReadLoop (2 ^ k) s input).2.1) := by
  obtain ⟨⟨hh, ht, hr, hord, hlev⟩, hs⟩ := rxReadLoop_inv k input s h
  have hN : 0 < 2 ^ k := Nat.pow_pos (by decide)
  unfold pppReceiveHandler
  simp only
  by_cases hc : (rxReadLoop (2 ^ k) s input).2.2 = true
  · rw [if_pos hc, if_pos hc]
  · rw [if_neg hc, if_neg hc,
      rxScanLoop_eq k fuel hfuel fuel _ ht hh hs (Nat.lt_of_lt_of_le (Nat.mod_lt _ hN) hfuel)]

theorem pppReceiveHandler_inv (k fuel : Nat) (s : PppState) (input : List Nat)
    (h : ScanInv (2 ^ k) s) (hfuel : 2 ^ k ≤ fuel) :
    ∃ r, pppReceiveHandler (2 ^ k) fuel s input = some r ∧ ScanInv (2 ^ k) r.1 := by
  refine ⟨_, pppReceiveHandler_eq k fuel s input h hfuel, ?_⟩
  have hq := rxReadLoop_inv k input s h
  show ScanInv (2 ^ k) (if (rxReadLoop (2 ^ k) s input).2.2 then (rxReadLoop (2 ^ k) s input).1
          else if (rxSkip (2 ^ k) fuel (rxReadLoop (2 ^ k) s input).1).2 then
            rxFinish (frameResult (2 ^ k) (rxSkip (2 ^ k) fuel (rxReadLoop (2 ^ k) s input).1).1
              (rxSkip (2 ^ k) fuel (rxReadLoop (2 ^ k) s input).1).1.hdlc.frameStartIndex
              (rxSkip (2 ^ k) fuel (rxReadLoop (2 ^ k) s input).1).1.hdlc.frameEndIndex)
          else (rxSkip (2 ^ k) fuel (rxReadLoop (2 ^ k) s input).1).1)
  split
  · exact hq
  · split
    · exact rxFinish_frameResult_inv k _ _ _ (rxSkip_inv k fuel _ hq).1
    · exact (rxSkip_inv k fuel _ hq).1

theorem receiveCalls_inv (k fuel : Nat) (hfuel : 2 ^ k ≤ fuel) (arrivals : List (List Nat)) :
    ∀ (s : PppState) (pending : List Nat), ScanInv (2 ^ k) s →
      ∃ r, receiveCalls (2 ^ k) fuel s pending arrivals = some r ∧ ScanInv (2 ^ k) r.1 := by
  induction arrivals with
  | nil => intro s pending h; exact ⟨_, rfl, h⟩
  | cons a rest ih =>
    intro s pending h
    obtain ⟨r, e, hr⟩ := pppReceiveHandler_inv k fuel s (pending ++ a) h hfuel
    rw [receiveCalls, e]
    exact ih r.1 r.2 hr

theorem pppInitStruct_inv (k : Nat) (s : PppState) : ScanInv (2 ^ k) (pppInitStruct (2 ^ k) s) := by
  have hN : 0 < 2 ^ k := Nat.pow_pos (by decide)
  refine ⟨⟨hN, hN, hN, ?_, ?_⟩, hN⟩
  · show (0 + 2 ^ k - 0) % 2 ^ k + (0 + 2 ^ k - 0) % 2 ^ k = (0 + 2 ^ k - 0) % 2 ^ k
    rw [Nat.zero_add, Nat.sub_zero, Nat.mod_self]
  · show (0 : Int) = (((0 + 2 ^ k - 0) % 2 ^ k : Nat) : Int)
    rw [Nat.zero_add, Nat.sub_zero, Nat.mod_self]
    rfl

/-- C31 (ring buffer invariant): with a ring of 2^k bytes, every run of calls
of `pppReceiveHandler` that starts in the state `pppInitStruct` leaves and is
fed arbitrary bytes returns (the loops end within 2^k passes), and in the
state it reaches head, tail and rtail are ring indices, going forward from
rtail one meets tail and then head without passing rtail again (the distance
from rtail to tail plus the distance from tail to head is the distance from
rtail to head), and buflevel is (head - tail) mod 2^k, which is at most
2^k - 1. -/
theorem ring_invariant (k fuel : Nat) (s0 : PppState) (arrivals : List (List Nat))
    (hfuel : 2 ^ k ≤ fuel) :
    ∃ s left, receiveCalls (2 ^ k) fuel (pppInitStruct (2 ^ k) s0) [] arrivals = some (s, left)
      ∧ s.rx.head < 2 ^ k ∧ s.rx.tail < 2 ^ k ∧ s.rx.rtail < 2 ^ k
      ∧ (s.rx.tail + 2 ^ k - s.rx.rtail) % 2 ^ k + (s.rx.head + 2 ^ k - s.rx.tail) % 2 ^ k
          = (s.rx.head + 2 ^ k - s.rx.rtail) % 2 ^ k
      ∧ s.rx.buflevel = (((s.rx.head + 2 ^ k - s.rx.tail) % 2 ^ k : Nat) : Int)
      ∧ s.rx.buflevel ≤ ((2 ^ k - 1 : Nat) : Int) := by
  obtain ⟨r, e, ⟨hh, ht, hr, hord, hlev⟩, _⟩ :=
    receiveCalls_inv k fuel hfuel arrivals _ [] (pppInitStruct_inv k s0)
  have hN : 0 < 2 ^ k := Nat.pow_pos (by decide)
  refine ⟨r.1, r.2, e, hh, ht, hr, hord, hlev, ?_⟩
  rw [hlev]
  have := Nat.mod_lt (r.1.rx.head + 2 ^ k - r.1.rx.tail) hN
  omega

theorem ring_invariant_witness :
    2 ^ 3 ≤ 8
    ∧ ∃ s left, receiveCalls (2 ^ 3) 8 (pppInitStruct (2 ^ 3) (zeroState 8 16)) []
          [[0x7e, 0x41], [0x42, 0x7e, 0x7e]] = some (s, left)
        ∧ s.rx.head < 2 ^ 3 ∧ s.rx.tail < 2 ^ 3 ∧ s.rx.rtail < 2 ^ 3
        ∧ (s.rx.tail + 2 ^ 3 - s.rx.rtail) % 2 ^ 3 + (s.rx.head + 2 ^ 3 - s.rx.tail) % 2 ^ 3
            = (s.rx.head + 2 ^ 3 - s.rx.rtail) % 2 ^ 3
        ∧ s.rx.buflevel = (((s.rx.head + 2 ^ 3 - s.rx.tail) % 2 ^ 3 : Nat) : Int)
        ∧ s.rx.buflevel ≤ ((2 ^ 3 - 1 : Nat) : Int) :=
  ⟨by decide, ring_invariant 3 8 (zeroState 8 16) [[0x7e, 0x41], [0x42, 0x7e, 0x7e]] (by decide)⟩

/-! ## Frame boundaries -/

theorem isTerminateFrame_congr (N : Nat) (a b : PppState) (start end_ : Nat)
    (hr : a.rx.buf = b.rx.buf) (hp : a.pkt.buf = b.pkt.buf) :
    isTerminateFrame N a start end_ ↔ isTerminateFrame N b start end_ := by
  unfold isTerminateFrame deframed spanData
  simp only [hr, hp]

/-- C35 (frame boundary scan), with the exception for the LCP terminate
request: one pass of the scan loop of `pppReceiveHandler` on a ring of 2^k
bytes with an unread byte consumes that byte (tail moves to the next index).
A byte other than 0x7E is consumed and nothing else happens.  While
firstFrame is set a 0x7E sets rtail and frameStartIndex to the index just
after it and clears firstFrame, without touching the packet buffer or
sending anything, and the scan goes on.  With firstFrame clear a 0x7E calls
`processPPPFrame` on the span from frameStartIndex up to, not including, the
index of that flag, which returns; then rtail and frameStartIndex are set to
tail, and the scan ends.  That tail is the index just after the flag unless
the frame was a valid LCP terminate request, whose handling re-initialises the
ring: then tail, and with it rtail and frameStartIndex, is 0 and firstFrame is
set again.  An empty span (frameStartIndex is the index of the flag) leaves the
state as it was when the call was made. -/
theorem frame_boundary_scan (k ff fuel : Nat) (s : PppState)
    (ht : s.rx.tail < 2 ^ k) (hs : s.hdlc.frameStartIndex < 2 ^ k)
    (hne : s.rx.head ≠ s.rx.tail) (hff : 2 ^ k ≤ ff) :
    (pc_getBuf (2 ^ k) s).2.rx.tail = (s.rx.tail + 1) % 2 ^ k
    ∧ (peek s.rx.buf s.rx.tail ≠ 0x7e →
        rxScanLoop (2 ^ k) ff (fuel + 1) s = rxScanLoop (2 ^ k) ff fuel (pc_getBuf (2 ^ k) s).2)
    ∧ (peek s.rx.buf s.rx.tail = 0x7e → s.firstFrame ≠ 0 →
        rxScanLoop (2 ^ k) ff (fuel + 1) s = rxScanLoop (2 ^ k) ff fuel
          { (pc_getBuf (2 ^ k) s).2 with
            rx := { (pc_getBuf (2 ^ k) s).2.rx with rtail := (s.rx.tail + 1) % 2 ^ k },
            hdlc := { s.hdlc with frameStartIndex := (s.rx.tail + 1) % 2 ^ k },
            firstFrame := 0 })
    ∧ (peek s.rx.buf s.rx.tail = 0x7e → s.firstFrame = 0 →
        ∃ d, processPPPFrame (2 ^ k) ff (rxCallState (2 ^ k) s) s.hdlc.frameStartIndex s.rx.tail
              = some d
          ∧ rxScanLoop (2 ^ k) ff (fuel + 1) s
              = some { d with rx := { d.rx with rtail := d.rx.tail },
                              hdlc := { d.hdlc with frameStartIndex := d.rx.tail } }
          ∧ (¬ isTerminateFrame (2 ^ k) (rxCallState (2 ^ k) s) s.hdlc.frameStartIndex s.rx.tail →
              d.rx.tail = (s.rx.tail + 1) % 2 ^ k ∧ d.firstFrame = 0)
          ∧ (isTerminateFrame (2 ^ k) (rxCallState (2 ^ k) s) s.hdlc.frameStartIndex s.rx.tail →
              d.rx.tail = 0 ∧ d.firstFrame = 1)
          ∧ (s.hdlc.frameStartIndex = s.rx.tail → d = rxCallState (2 ^ k) s)) := by
  have e : (pc_getBuf (2 ^ k) s).2.rx.tail = (s.rx.tail + 1) % 2 ^ k := by
    show (s.rx.tail + 1) &&& (2 ^ k - 1) = _
    rw [Nat.and_pow_two_sub_one_eq_mod]
  refine ⟨e, ?_, ?_, ?_⟩
  · intro hflag
    rw [rxScanLoop, if_pos hne]
    simp only [pc_getBuf]
    rw [if_neg hflag]
  · intro hflag hfirst
    rw [rxScanLoop, if_pos hne]
    simp only [pc_getBuf]
    rw [if_pos hflag, if_pos hfirst, Nat.and_pow_two_sub_one_eq_mod]
  · intro hflag hfirst
    have hp := processPPPFrame_eq k ff (rxCallState (2 ^ k) s) s.hdlc.frameStartIndex s.rx.tail
      hs ht hff
    refine ⟨_, hp, ?_, ?_, ?_, ?_⟩
    · rw [rxScanLoop, if_pos hne]
      simp only [pc_getBuf]
      rw [if_pos hflag, if_neg (not_not.mpr hfirst)]
      have hp2 := hp
      unfold rxCallState at hp2
      simp only [pc_getBuf] at hp2
      rw [hp2]
      rfl
    · intro hterm
      obtain ⟨h1, h2, _⟩ := frameResult_link _ _ _ _ hterm
      rw [h1, h2]
      exact ⟨e, hfirst⟩
    · intro hterm
      obtain ⟨h1, h2, _⟩ := frameResult_terminate _ _ _ _ hterm
      rw [h1, h2]
      exact ⟨rfl, rfl⟩
    · intro hempty
      unfold frameResult
      rw [if_pos hempty]

set_option maxRecDepth 100000 in
theorem frame_boundary_scan_witness :
    rxScanLoop (2 ^ 3) 8 (7 + 1) exampleScan = rxScanLoop (2 ^ 3) 8 7
        { (pc_getBuf (2 ^ 3) exampleScan).2 with
          rx := { (pc_getBuf (2 ^ 3) exampleScan).2.rx with
                  rtail := (exampleScan.rx.tail + 1) % 2 ^ 3 },
          hdlc := { exampleScan.hdlc with frameStartIndex := (exampleScan.rx.tail + 1) % 2 ^ 3 },
          firstFrame := 0 }
    ∧ ∃ d, processPPPFrame (2 ^ 3) 8 (rxCallState (2 ^ 3) exampleFullRing)
              exampleFullRing.hdlc.frameStartIndex exampleFullRing.rx.tail = some d
        ∧ rxScanLoop (2 ^ 3) 8 (7 + 1) exampleFullRing
            = some { d with rx := { d.rx with rtail := d.rx.tail },
                            hdlc := { d.hdlc with frameStartIndex := d.rx.tail } }
        ∧ d.rx.tail = 5 :=
  ⟨(frame_boundary_scan 3 8 7 exampleScan (by decide) (by decide) (by decide)
      (by decide)).2.2.1 (by decide) (by decide),
   match (frame_boundary_scan 3 8 7 exampleFullRing (by decide) (by decide) (by decide)
      (by decide)).2.2.2 (by decide) (by decide) with
   | ⟨d, h1, h2, h3, _⟩ => ⟨d, h1, h2, (h3 (by decide)).1⟩⟩

set_option maxRecDepth 100000 in
/-- The exception of C35 at work: the closing flag of a valid LCP terminate
request is consumed at index 11 of a 16-byte ring, and the call returns with
rtail and frameStartIndex 0, not 12, the index just after the flag. -/
theorem frame_boundary_terminate_counterexample :
    ∃ r, pppReceiveHandler (2 ^ 4) 16 exampleTerminateRing [] = some (r, [])
      ∧ peek exampleTerminateRing.rx.buf 11 = 0x7e
      ∧ r.hdlc.frameEndIndex = 11
      ∧ r.rx.rtail = 0 ∧ r.hdlc.frameStartIndex = 0
      ∧ r.rx.rtail ≠ (11 + 1) % 2 ^ 4 ∧ r.hdlc.frameStartIndex ≠ (11 + 1) % 2 ^ 4 := by
  have hinv : ScanInv (2 ^ 4) exampleTerminateRing :=
    ⟨⟨by decide, by decide, by decide, by decide, by decide⟩, by decide⟩
  have h := pppReceiveHandler_eq 4 16 exampleTerminateRing [] hinv (by decide)
  have hk : rxSkip (2 ^ 4) 16 (rxReadLoop (2 ^ 4) exampleTerminateRing []).1
      = (exampleTerminateCall, true) := by
    rfl
  rw [hk] at h
  have h2 : pppReceiveHandler (2 ^ 4) 16 exampleTerminateRing []
      = some (rxFinish (frameResult (2 ^ 4) exampleTerminateCall 1 11), []) := h
  have hterm : isTerminateFrame (2 ^ 4) exampleTerminateCall 1 11 := by
    decide
  obtain ⟨e1, _, e3⟩ := frameResult_terminate _ _ _ _ hterm
  have r0 : (rxFinish (frameResult (2 ^ 4) exampleTerminateCall 1 11)).rx.rtail = 0 := by
    show (frameResult _ _ _ _).rx.tail = 0
    rw [e1]
  have r1 : (rxFinish (frameResult (2 ^ 4) exampleTerminateCall 1 11)).hdlc.frameStartIndex
      = 0 := by
    show (frameResult _ _ _ _).rx.tail = 0
    rw [e1]
  have r2 : (rxFinish (frameResult (2 ^ 4) exampleTerminateCall 1 11)).hdlc.frameEndIndex
      = 11 := by
    show (frameResult _ _ _ _).hdlc.frameEndIndex = 11
    rw [e3]
    rfl
  refine ⟨_, h2, by decide, r2, r0, r1, ?_, ?_⟩
  · rw [r0]; decide
  · rw [r1]; decide

/-! ## One frame per call -/

/-- C39 (at most one frame per call), with the exception for the LCP
terminate request: on a ring of 2^k bytes that satisfies the ring invariant,
`pppReceiveHandler` returns.  Let `c` be the state the read loop leaves, or,
when the read loop ends without a collision, the state in which the frame
scan stops; `c` differs from the state after the read loop in tail, rtail,
buflevel, the frame markers and firstFrame only.  The result is either `c`
itself (no call of `processPPPFrame`), or the result of one call of
`processPPPFrame`, made in `c` on the span that ends at a 0x7E, followed by
the assignment of tail to rtail and frameStartIndex.  In the second case
tail and rtail are the index just after that closing flag and head and the
ring content are those of `c`, so what lies behind the flag stays unread,
unless the frame was a valid LCP terminate request, whose handling
re-initialises the ring: then the ring is cleared with all cursors 0. -/
theorem one_frame_per_call (k fuel : Nat) (s : PppState) (input : List Nat)
    (hinv : RingInv (2 ^ k) s) (hstart : s.hdlc.frameStartIndex < 2 ^ k)
    (hfuel : 2 ^ k ≤ fuel) :
    ∃ r c, pppReceiveHandler (2 ^ k) fuel s input = some (r, (rxReadLoop (2 ^ k) s input).2.1)
      ∧ c = (if (rxReadLoop (2 ^ k) s input).2.2 then (rxReadLoop (2 ^ k) s input).1
             else (rxSkip (2 ^ k) fuel (rxReadLoop (2 ^ k) s input).1).1)
      ∧ c = { (rxReadLoop (2 ^ k) s input).1 with
              rx := { (rxReadLoop (2 ^ k) s input).1.rx with
                      tail := c.rx.tail, rtail := c.rx.rtail, buflevel := c.rx.buflevel },
              hdlc := c.hdlc, firstFrame := c.firstFrame }
      ∧ (r = c
        ∨ ∃ d, processPPPFrame (2 ^ k) fuel c c.hdlc.frameStartIndex c.hdlc.frameEndIndex = some d
            ∧ r = rxFinish d
            ∧ peek c.rx.buf c.hdlc.frameEndIndex = 0x7e
            ∧ (¬ isTerminateFrame (2 ^ k) c c.hdlc.frameStartIndex c.hdlc.frameEndIndex →
                r.rx.tail = (c.hdlc.frameEndIndex + 1) % 2 ^ k
                ∧ r.rx.rtail = (c.hdlc.frameEndIndex + 1) % 2 ^ k
                ∧ r.rx.head = c.rx.head ∧ r.rx.buf = c.rx.buf)
            ∧ (isTerminateFrame (2 ^ k) c c.hdlc.frameStartIndex c.hdlc.frameEndIndex →
                r.rx = { buf := List.replicate (2 ^ k) 0, head := 0, tail := 0, rtail := 0,
                         buflevel := 0 })) := by
  have h : ScanInv (2 ^ k) s := ⟨hinv, hstart⟩
  have hq := rxReadLoop_inv k input s h
  have he := pppReceiveHandler_eq k fuel s input h hfuel
  by_cases hc : (rxReadLoop (2 ^ k) s input).2.2 = true
  · rw [if_pos hc] at he
    exact ⟨_, _, he, (if_pos hc).symm, rfl, Or.inl rfl⟩
  · rw [if_neg hc] at he
    obtain ⟨hci, hcd⟩ := rxSkip_inv k fuel _ hq
    by_cases hd : (rxSkip (2 ^ k) fuel (rxReadLoop (2 ^ k) s input).1).2 = true
    · rw [if_pos hd] at he
      obtain ⟨hen, htail, hflag⟩ := hcd hd
      refine ⟨_, _, he, (if_neg hc).symm, rxSkip_frame _ _ _, Or.inr ⟨_, ?_, rfl, ?_, ?_, ?_⟩⟩
      · exact processPPPFrame_eq k fuel _ _ _ hci.2 hen hfuel
      · rw [rxSkip_frame]
        exact hflag
      · intro hterm
        obtain ⟨e, _, _⟩ := frameResult_link _ _ _ _ hterm
        refine ⟨?_, ?_, ?_, ?_⟩
        · show (frameResult _ _ _ _).rx.tail = _
          rw [e]
          exact htail
        · show (frameResult _ _ _ _).rx.tail = _
          rw [e]
          exact htail
        · show (frameResult _ _ _ _).rx.head = _
          rw [e]
        · show (frameResult _ _ _ _).rx.buf = _
          rw [e]
      · intro hterm
        obtain ⟨e, _, _⟩ := frameResult_terminate _ _ _ _ hterm
        show ({ (frameResult _ _ _ _).rx with rtail := (frameResult _ _ _ _).rx.tail } : RxRing) = _
        rw [e]
    · rw [if_neg hd] at he
      exact ⟨_, _, he, (if_neg hc).symm, rxSkip_frame _ _ _, Or.inl rfl⟩

set_option maxRecDepth 100000 in
theorem one_frame_per_call_witness :
    RingInv (2 ^ 3) (pppInitStruct (2 ^ 3) (zeroState 8 16))
    ∧ ∃ r, pppReceiveHandler (2 ^ 3) 8 (pppInitStruct (2 ^ 3) (zeroState 8 16)) exampleTwoPlain
          = some (r, [])
        ∧ r.rx.tail = 3 ∧ r.rx.rtail = 3 ∧ r.rx.head = 5
        ∧ r.rx.buf = [0x7e, 0x41, 0x7e, 0x42, 0x7e, 0, 0, 0] := by
  have hinv : RingInv (2 ^ 3) (pppInitStruct (2 ^ 3) (zeroState 8 16)) :=
    ⟨by decide, by decide, by decide, by decide, by decide⟩
  refine ⟨hinv, ?_⟩
  obtain ⟨r, c, h, hc, _, hr⟩ := one_frame_per_call 3 8 (pppInitStruct (2 ^ 3) (zeroState 8 16))
    exampleTwoPlain hinv (by decide) (by decide)
  have hc2 : c = { pppInitStruct (2 ^ 3) (zeroState 8 16) with
      online := 1, firstFrame := 0,
      hdlc := { frameStartIndex := 1, frameEndIndex := 2 },
      rx := { buf := [0x7e, 0x41, 0x7e, 0x42, 0x7e, 0, 0, 0], head := 5, tail := 3, rtail := 1,
              buflevel := 2 } } := hc
  subst hc2
  refine ⟨r, h, ?_⟩
  rcases hr with hr | ⟨d, _, _, _, hr, _⟩
  · subst hr
    have e : (pppReceiveHandler (2 ^ 3) 8 (pppInitStruct (2 ^ 3) (zeroState 8 16))
        exampleTwoPlain).map (fun x => x.1.rx.rtail) = some 3 := by
      rfl
    rw [h] at e
    exact absurd e (by decide)
  · exact hr (by decide)

set_option maxRecDepth 100000 in
/-- The exception of C39 at work: the ring of 32 bytes holds a valid LCP
terminate request, with its closing flag at index 11, and a second complete
frame behind it; the call returns with tail and rtail 0, not 12, and with the
ring cleared, so the second frame is not left for a later call. -/
theorem one_frame_terminate_counterexample :
    ∃ r, pppReceiveHandler (2 ^ 5) 32 (pppInitStruct (2 ^ 5) (zeroState 32 16)) exampleTwoFrames
        = some (r, [])
      ∧ (rxReadLoop (2 ^ 5) (pppInitStruct (2 ^ 5) (zeroState 32 16)) exampleTwoFrames).1.rx.buf
          = exampleTwoFrames ++ List.replicate 17 0
      ∧ r.hdlc.frameEndIndex = 11
      ∧ r.rx.tail = 0 ∧ r.rx.rtail = 0 ∧ r.rx.head = 0
      ∧ r.rx.tail ≠ (11 + 1) % 2 ^ 5 ∧ r.rx.rtail ≠ (11 + 1) % 2 ^ 5
      ∧ r.rx.buf = List.replicate 32 0 := by
  have h := pppReceiveHandler_eq 5 32 (pppInitStruct (2 ^ 5) (zeroState 32 16)) exampleTwoFrames
    (pppInitStruct_inv 5 _) (by decide)
  have hk : rxSkip (2 ^ 5) 32
      (rxReadLoop (2 ^ 5) (pppInitStruct (2 ^ 5) (zeroState 32 16)) exampleTwoFrames).1
      = (exampleTwoFramesCall, true) := by
    rfl
  rw [hk] at h
  have h2 : pppReceiveHandler (2 ^ 5) 32 (pppInitStruct (2 ^ 5) (zeroState 32 16))
      exampleTwoFrames = some (rxFinish (frameResult (2 ^ 5) exampleTwoFramesCall 1 11), []) := h
  have hterm : isTerminateFrame (2 ^ 5) exampleTwoFramesCall 1 11 := by
    decide
  obtain ⟨e1, _, e3⟩ := frameResult_terminate _ _ _ _ hterm
  have r0 : (rxFinish (frameResult (2 ^ 5) exampleTwoFramesCall 1 11)).rx
      = { buf := List.replicate 32 0, head := 0, tail := 0, rtail := 0, buflevel := 0 } := by
    show ({ (frameResult _ _ _ _).rx with rtail := (frameResult _ _ _ _).rx.tail } : RxRing) = _
    rw [e1]
    rfl
  have r2 : (rxFinish (frameResult (2 ^ 5) exampleTwoFramesCall 1 11)).hdlc.frameEndIndex
      = 11 := by
    show (frameResult _ _ _ _).hdlc.frameEndIndex = 11
    rw [e3]
    rfl
  refine ⟨_, h2, rfl, r2, ?_⟩
  rw [r0]
  decide

/-! ## Base-64 encoder -/

theorem peek_append_add (pre rest : List Nat) (k : Nat) :
    peek (pre ++ rest) (pre.length + k) = peek rest k := by
  unfold peek
  rw [List.getD_eq_getElem?_getD, List.getD_eq_getElem?_getD,
    List.getElem?_append_right (Nat.le_add_right _ _), Nat.add_sub_cancel_left]

theorem enc64Second_pos (inp : List Nat) (len : Int) (st : Enc64) (h : (st.i : Int) < len) :
    enc64Second inp len st
      = { st with b := peek inp st.i, i := st.i + 1,
                  out := poke (poke st.out st.j
                      (peek lut (((st.a <<< 4) &&& 0x30) ||| ((peek inp st.i >>> 4) &&& 0x0f))))
                    (st.j + 1) (peek lut ((peek inp st.i <<< 2) &&& 0x3c)),
                  j := st.j + 2 } := by
  unfold enc64Second
  rw [if_pos h]

theorem enc64Second_neg (inp : List Nat) (len : Int) (st : Enc64) (h : ¬ (st.i : Int) < len) :
    enc64Second inp len st = { st with out := poke st.out st.j 0x3d, j := st.j + 1 } := by
  unfold enc64Second
  rw [if_neg h]

theorem enc64Third_pos (inp : List Nat) (len : Int) (st : Enc64) (h : (st.i : Int) < len) :
    enc64Third inp len st
      = { st with c := peek inp st.i, i := st.i + 1,
                  out := poke (poke st.out (st.j - 1)
                      (peek lut (((st.b <<< 2) &&& 0x3c) ||| ((peek inp st.i >>> 6) &&& 0x03))))
                    (st.j - 1 + 1) (peek lut ((peek inp st.i >>> 0) &&& 0x3f)),
                  j := st.j - 1 + 2 } := by
  unfold enc64Third
  rw [if_pos h]

theorem enc64Third_neg (inp : List Nat) (len : Int) (st : Enc64) (h : ¬ (st.i : Int) < len) :
    enc64Third inp len st = { st with out := poke st.out st.j 0x3d, j := st.j + 1 } := by
  unfold enc64Third
  rw [if_neg h]

theorem enc64Loop_eq (inp : List Nat) :
    ∀ (rest pre : List Nat) (st : Enc64) (fuel : Nat), inp = pre ++ rest → st.i = pre.length →
      (∀ x ∈ rest, x < 256) → rest.length < fuel →
      ∃ st1, enc64Loop inp (inp.length : Int) fuel st = some st1
        ∧ st1.out = pokeList st.out st.j (enc64Text rest)
        ∧ st1.j = st.j + (enc64Text rest).length := by
  intro rest
  induction rest using enc64Text.induct with
  | case1 =>
    intro pre st fuel hinp hi _ hfuel
    obtain ⟨n, rfl⟩ : ∃ n, fuel = n + 1 := ⟨fuel - 1, by omega⟩
    have hlen : ¬ ((st.i : Int) < (inp.length : Int)) := by
      rw [hinp, hi]
      simp
    rw [enc64Loop, if_neg hlen]
    exact ⟨st, rfl, rfl, rfl⟩
  | case2 a =>
    intro pre st fuel hinp hi hb hfuel
    obtain ⟨n, rfl⟩ : ∃ n, fuel = n + 2 := ⟨fuel - 2, by simp at hfuel; omega⟩
    have hl : inp.length = pre.length + 1 := by rw [hinp]; simp
    have h1 : (st.i : Int) < (inp.length : Int) := by rw [hi, hl]; push_cast; omega
    have h2 : ¬ (((enc64First inp st).i : Int) < (inp.length : Int)) := by
      show ¬ (((st.i + 1 : Nat) : Int) < _)
      rw [hi, hl]; push_cast; omega
    have pa : peek inp st.i = a := by
      have := peek_append_add pre [a] 0
      rw [Nat.add_zero, ← hinp, ← hi] at this
      rw [this]
      exact Nat.mod_eq_of_lt (hb a (by simp))
    rw [enc64Loop, if_pos h1, enc64Second_neg _ _ _ h2, enc64Third_neg _ _ _ (by exact h2),
      enc64Loop, if_neg (by exact h2)]
    refine ⟨_, rfl, ?_, ?_⟩
    · show poke (poke (poke st.out st.j (peek lut ((peek inp st.i >>> 2) &&& 0x3f)))
        (st.j + 1) 0x3d) (st.j + 1 + 1) 0x3d = _
      rw [pa]
      rfl
    · show st.j + 1 + 1 + 1 = st.j + 3
      rfl
  | case3 a b =>
    intro pre st fuel hinp hi hb hfuel
    obtain ⟨n, rfl⟩ : ∃ n, fuel = n + 2 := ⟨fuel - 2, by simp at hfuel; omega⟩
    have hl : inp.length = pre.length + 2 := by rw [hinp]; simp
    have h1 : (st.i : Int) < (inp.length : Int) := by rw [hi, hl]; push_cast; omega
    have h2 : (((enc64First inp st).i : Int) < (inp.length : Int)) := by
      show (((st.i + 1 : Nat) : Int) < _)
      rw [hi, hl]; push_cast; omega
    have h3 : ¬ (((enc64Second inp (inp.length : Int) (enc64First inp st)).i : Int)
        < (inp.length : Int)) := by
      rw [enc64Second_pos _ _ _ h2]
      show ¬ (((st.i + 1 + 1 : Nat) : Int) < _)
      rw [hi, hl]; push_cast; omega
    have pa : peek inp st.i = a := by
      have := peek_append_add pre [a, b] 0
      rw [Nat.add_zero, ← hinp, ← hi] at this
      rw [this]
      exact Nat.mod_eq_of_lt (hb a (by simp))
    have pb : peek inp (st.i + 1) = b := by
      have := peek_append_add pre [a, b] 1
      rw [← hinp, ← hi] at this
      rw [this]
      exact Nat.mod_eq_of_lt (hb b (by simp))
    rw [enc64Loop, if_pos h1, enc64Third_neg _ _ _ h3, enc64Loop, if_neg h3,
      enc64Second_pos _ _ _ h2]
    refine ⟨_, rfl, ?_, ?_⟩
    · show poke (poke (poke (poke st.out st.j (peek lut ((peek inp st.i >>> 2) &&& 0x3f)))
          (st.j + 1) (peek lut (((peek inp st.i <<< 4) &&& 0x30)
            ||| ((peek inp (st.i + 1) >>> 4) &&& 0x0f))))
          (st.j + 1 + 1) (peek lut ((peek inp (st.i + 1) <<< 2) &&& 0x3c)))
          (st.j + 1 + 2) 0x3d = _
      rw [pa, pb]
      rfl
    · show st.j + 1 + 2 + 1 = st.j + 4
      rfl
  | case4 a b c rest ih =>
    intro pre st fuel hinp hi hb hfuel
    obtain ⟨n, rfl⟩ : ∃ n, fuel = n + 1 := ⟨fuel - 1, by omega⟩
    have hl : inp.length = pre.length + 3 + rest.length := by rw [hinp]; simp; omega
    have h1 : (st.i : Int) < (inp.length : Int) := by rw [hi, hl]; push_cast; omega
    have h2 : (((enc64First inp st).i : Int) < (inp.length : Int)) := by
      show (((st.i + 1 : Nat) : Int) < _)
      rw [hi, hl]; push_cast; omega
    have h3 : (((enc64Second inp (inp.length : Int) (enc64First inp st)).i : Int)
        < (inp.length : Int)) := by
      rw [enc64Second_pos _ _ _ h2]
      show (((st.i + 1 + 1 : Nat) : Int) < _)
      rw [hi, hl]; push_cast; omega
    have pa : peek inp st.i = a := by
      have := peek_append_add pre (a :: b :: c :: rest) 0
      rw [Nat.add_zero, ← hinp, ← hi] at this
      rw [this]
      exact Nat.mod_eq_of_lt (hb a (by simp))
    have pb : peek inp (st.i + 1) = b := by
      have := peek_append_add pre (a :: b :: c :: rest) 1
      rw [← hinp, ← hi] at this
      rw [this]
      exact Nat.mod_eq_of_lt (hb b (by simp))
    have pc : peek inp (st.i + 1 + 1) = c := by
      have := peek_append_add pre (a :: b :: c :: rest) 2
      rw [← hinp, ← hi] at this
      rw [this]
      exact Nat.mod_eq_of_lt (hb c (by simp))
    obtain ⟨st1, g1, g2, g3⟩ := ih (pre ++ [a, b, c])
      (enc64Third inp (inp.length : Int) (enc64Second inp (inp.length : Int) (enc64First inp st)))
      n (by rw [hinp]; simp)
      (by
        rw [enc64Third_pos _ _ _ h3, enc64Second_pos _ _ _ h2]
        show st.i + 1 + 1 + 1 = _
        rw [hi]; simp)
      (fun x hx => hb x (by simp [hx]))
      (by simp at hfuel; omega)
    rw [enc64Loop, if_pos h1, g1]
    refine ⟨st1, rfl, ?_, ?_⟩
    · rw [g2, enc64Third_pos _ _ _ h3, enc64Second_pos _ _ _ h2]
      show pokeList (poke (poke (poke (poke (poke st.out st.j
          (peek lut ((peek inp st.i >>> 2) &&& 0x3f)))
          (st.j + 1) (peek lut (((peek inp st.i <<< 4) &&& 0x30)
            ||| ((peek inp (st.i + 1) >>> 4) &&& 0x0f))))
          (st.j + 1 + 1) (peek lut ((peek inp (st.i + 1) <<< 2) &&& 0x3c)))
          (st.j + 1 + 2 - 1) (peek lut (((peek inp (st.i + 1) <<< 2) &&& 0x3c)
            ||| ((peek inp (st.i + 1 + 1) >>> 6) &&& 0x03))))
          (st.j + 1 + 2 - 1 + 1) (peek lut ((peek inp (st.i + 1 + 1) >>> 0) &&& 0x3f)))
          (st.j + 1 + 2 - 1 + 2) (enc64Text rest) = _
      rw [pa, pb, pc]
      have e1 : st.j + 1 + 2 - 1 = st.j + 1 + 1 := by omega
      rw [e1, poke_poke_same, enc64Text, pokeList_append]
      rfl
    · rw [g3, enc64Third_pos _ _ _ h3, enc64Second_pos _ _ _ h2, enc64Text, List.length_append]
      show st.j + 1 + 2 - 1 + 2 + (enc64Text rest).length = st.j + (4 + (enc64Text rest).length)
      omega

theorem enc64_eq (fuel : Nat) (inp out : List Nat) (hb : ∀ x ∈ inp, x < 256)
    (hfuel : inp.length < fuel) :
    enc64 fuel inp out (inp.length : Int) = some (pokeList out 0 (enc64Text inp ++ [0])) := by
  obtain ⟨st1, g1, g2, g3⟩ := enc64Loop_eq inp inp []
    { i := 0, j := 0, a := 0, b := 0, c := 0, out := out } fuel rfl rfl hb hfuel
  unfold enc64
  rw [g1]
  show some (poke st1.out st1.j 0) = _
  rw [g2, g3, pokeList_append]
  rfl

set_option maxRecDepth 100000 in
theorem lut_base64Char : ∀ n, n < 64 → peek lut n = base64Char n := by
  decide

set_option maxRecDepth 100000 in
theorem enc64_index_first : ∀ a, a < 256 → (a >>> 2) &&& 0x3f = a / 4 := by
  decide

set_option maxRecDepth 100000 in
theorem enc64_index_second_high : ∀ a, a < 256 → (a <<< 4) &&& 0x30 = a % 4 * 16 := by
  decide

set_option maxRecDepth 100000 in
theorem enc64_index_second_low : ∀ b, b < 256 → (b >>> 4) &&& 0x0f = b / 16 := by
  decide

set_option maxRecDepth 100000 in
theorem enc64_index_third_high : ∀ b, b < 256 → (b <<< 2) &&& 0x3c = b % 16 * 4 := by
  decide

set_option maxRecDepth 100000 in
theorem enc64_index_third_low : ∀ c, c < 256 → (c >>> 6) &&& 0x03 = c / 64 := by
  decide

set_option maxRecDepth 100000 in
theorem enc64_index_fourth : ∀ c, c < 256 → (c >>> 0) &&& 0x3f = c % 64 := by
  decide

set_option maxRecDepth 100000 in
theorem enc64_or_second : ∀ x, x < 4 → ∀ y, y < 16 → (x * 16) ||| y = x * 16 + y := by
  decide

set_option maxRecDepth 100000 in
theorem enc64_or_third : ∀ x, x < 16 → ∀ y, y < 4 → (x * 4) ||| y = x * 4 + y := by
  decide

theorem enc64_char_first (a : Nat) (ha : a < 256) :
    peek lut ((a >>> 2) &&& 0x3f) = base64Char (a / 4) := by
  rw [enc64_index_first a ha, lut_base64Char _ (by omega)]

theorem enc64_char_second (a b : Nat) (ha : a < 256) (hb : b < 256) :
    peek lut (((a <<< 4) &&& 0x30) ||| ((b >>> 4) &&& 0x0f)) = base64Char (a % 4 * 16 + b / 16) := by
  rw [enc64_index_second_high a ha, enc64_index_second_low b hb,
    enc64_or_second _ (Nat.mod_lt _ (by decide)) _ (by omega), lut_base64Char _ (by omega)]

theorem enc64_char_third_last (b : Nat) (hb : b < 256) :
    peek lut ((b <<< 2) &&& 0x3c) = base64Char (b % 16 * 4) := by
  rw [enc64_index_third_high b hb, lut_base64Char _ (by omega)]

theorem enc64_char_third (b c : Nat) (hb : b < 256) (hc : c < 256) :
    peek lut (((b <<< 2) &&& 0x3c) ||| ((c >>> 6) &&& 0x03)) = base64Char (b % 16 * 4 + c / 64) := by
  rw [enc64_index_third_high b hb, enc64_index_third_low c hc,
    enc64_or_third _ (Nat.mod_lt _ (by decide)) _ (by omega), lut_base64Char _ (by omega)]

theorem enc64_char_fourth (c : Nat) (hc : c < 256) :
    peek lut ((c >>> 0) &&& 0x3f) = base64Char (c % 64) := by
  rw [enc64_index_fourth c hc, lut_base64Char _ (Nat.mod_lt _ (by decide))]

/-- Away from a last group of one byte the characters `enc64` writes are the
standard encoding. -/
theorem enc64Text_base64 :
    ∀ inp : List Nat, (∀ x ∈ inp, x < 256) → inp.length % 3 ≠ 1 → enc64Text inp = base64 inp := by
  intro inp
  induction inp using enc64Text.induct with
  | case1 => intro _ _; rfl
  | case2 a => intro _ h; exact absurd rfl h
  | case3 a b =>
    intro hb _
    have ha := hb a (by simp)
    have hb2 := hb b (by simp)
    rw [enc64Text, base64, enc64_char_first a ha, enc64_char_second a b ha hb2,
      enc64_char_third_last b hb2]
  | case4 a b c rest ih =>
    intro hb hl
    have ha := hb a (by simp)
    have hb2 := hb b (by simp)
    have hc := hb c (by simp)
    rw [enc64Text, base64, enc64_char_first a ha, enc64_char_second a b ha hb2,
      enc64_char_third b c hb2 hc, enc64_char_fourth c hc,
      ih (fun x hx => hb x (by simp [hx])) (by simp at hl; omega)]

theorem base64_length : ∀ inp : List Nat, (base64 inp).length = 4 * ((inp.length + 2) / 3) := by
  intro inp
  induction inp using base64.induct with
  | case1 => rfl
  | case2 a => simp [base64]
  | case3 a b => simp [base64]
  | case4 a b c rest ih =>
    rw [base64, List.length_append, ih]
    simp only [List.length_cons, List.length_nil]
    omega

/-- The length of what `enc64` writes: the standard 4 * ceil(len / 3)
characters, less one when the last group has one byte. -/
theorem enc64Text_length : ∀ inp : List Nat,
    (enc64Text inp).length
      = if inp.length % 3 = 1 then 4 * ((inp.length + 2) / 3) - 1
        else 4 * ((inp.length + 2) / 3) := by
  intro inp
  induction inp using enc64Text.induct with
  | case1 => rfl
  | case2 a => simp [enc64Text]
  | case3 a b => simp [enc64Text]
  | case4 a b c rest ih =>
    rw [enc64Text, List.length_append, ih]
    simp only [List.length_cons, List.length_nil]
    split_ifs <;> omega

/-- For an input whose length is not 1 modulo 3, `enc64` with enough passes
returns and has written the standard encoding and a terminating zero. -/
theorem enc64_standard (fuel : Nat) (inp out : List Nat) (hb : ∀ x ∈ inp, x < 256)
    (hfuel : inp.length < fuel) (hl : inp.length % 3 ≠ 1) :
    enc64 fuel inp out (inp.length : Int) = some (pokeList out 0 (base64 inp ++ [0])) := by
  rw [enc64_eq fuel inp out hb hfuel, enc64Text_base64 inp hb hl]

/-- For an input whose length is 1 modulo 3, `enc64` with enough passes
returns and has written one character less than the standard encoding has. -/
theorem enc64_short (fuel : Nat) (inp out : List Nat) (hb : ∀ x ∈ inp, x < 256)
    (hfuel : inp.length < fuel) (hl : inp.length % 3 = 1) :
    enc64 fuel inp out (inp.length : Int) = some (pokeList out 0 (enc64Text inp ++ [0]))
    ∧ (enc64Text inp).length + 1 = (base64 inp).length := by
  refine ⟨enc64_eq fuel inp out hb hfuel, ?_⟩
  rw [enc64Text_length, if_pos hl, base64_length]
  omega

/-- C37 (base-64 encoder) at the input "M" with len 1: `enc64` returns and
has written the three characters "T==" and the terminating zero, leaving the
rest of the memory at `out` as it was; the standard base-64 encoding of "M" is
the four characters "TQ==", so the output is not the standard encoding, and it
has 3 characters, not 4 * ceil(1 / 3) = 4. -/
theorem enc64_single_byte :
    enc64 2 (strBytes "M") (List.replicate 8 0xaa) 1
        = some (strBytes "T==" ++ [0] ++ List.replicate 4 0xaa)
    ∧ base64 (strBytes "M") = strBytes "TQ=="
    ∧ enc64 2 (strBytes "M") (List.replicate 8 0xaa) 1
        ≠ some (pokeList (List.replicate 8 0xaa) 0 (base64 (strBytes "M") ++ [0]))
    ∧ (strBytes "T==").length ≠ 4 * ((1 + 2) / 3) := by
  decide

end Ppp
